import Mathlib

/-!
# VMC-PEPS: Monte-Carlo sampler and Heisenberg energy estimator

A shallow embedding of

* `include/gqpeps/basic.h`
* `include/gqpeps/algorithm/vmc_update/tps_sample.h`
  (`TPSSample`, `ExchangeUpdate`, `MCSequentiallyNNFlipSweep`)
* `include/gqpeps/algorithm/vmc_update/model_energy_solvers/spin_onehalf_heisenberg_square.h`
  (`CalEnergyAndHoles`, `SampleMeasure`)

Conventions of the embedding.

* `double` values (amplitudes, energies, random draws) are rationals `ℚ`; rounding, infinities
  and NaN are outside the model (`1.0 / 0` is `0` in `ℚ`).
* `size_t` values are `Nat`; the subtractions in the loop bounds wrap modulo `2 ^ 64` (`subSize`).
* The tensor algebra and the boundary-MPS contraction engine (`tensor_network_2d.h`) are external:
  tensors are an arbitrary type `Ten`, the boundary caches an arbitrary type `Cache`, and the
  engine's queries are the fields of `ContractionEngine`.
* `std::uniform_real_distribution` applied to the global `random_engine` is a fixed stream
  `u_double : Nat → ℚ`; the engine state is the number of values already drawn.
* Three ghost counters record effects that the claims talk about: the number of
  `ReplaceNNSiteTrace` evaluations, the number of values drawn and the number of diagnostics
  printed.
-/

namespace gqpeps

/-! ## basic.h -/

inductive BondOrientation where
  | HORIZONTAL
  | VERTICAL
deriving DecidableEq, Repr

inductive BMPSPOSITION where
  | LEFT
  | DOWN
  | RIGHT
  | UP
deriving DecidableEq, Repr

structure TruncatePara where
  D_min : Nat
  D_max : Nat
  trunc_err : ℚ
deriving DecidableEq, Repr

/-- A lattice site `{row, col}` (`std::array<size_t, 2>`). -/
abbrev SiteIdx := Nat × Nat

/-- Subtraction of two `size_t` values (64-bit, wrapping). -/
def subSize (a b : Nat) : Nat := (2 ^ 64 + a - b) % 2 ^ 64

/-! ## Data model -/

/-- The Monte-Carlo configuration: a `rows × cols` grid of local basis indices, read and written
through `config(site)`. -/
structure Configuration where
  rows : Nat
  cols : Nat
  val : SiteIdx → Nat

/-- The statement `std::swap(config(site1), config(site2))`. -/
def Configuration.swap (c : Configuration) (site1 site2 : SiteIdx) : Configuration :=
  { c with val := Function.update (Function.update c.val site1 (c.val site2)) site2 (c.val site1) }

/-- The wavefunction `SplitIndexTPS`: `sitps(site)[basis]` is the tensor of `site` for the local
basis value `basis`. -/
abbrev SplitIndexTPS (Ten : Type) := SiteIdx → Nat → Ten

/-- The single-layer network of one configuration: a grid of site tensors `tn(site)` together with
the boundary-MPS / boundary-tensor caches. -/
structure TensorNetwork2D (Ten Cache : Type) where
  rows : Nat
  cols : Nat
  ten : SiteIdx → Ten
  cache : Cache

/-- The cache-maintenance methods of `TensorNetwork2D` called by the sampler and the estimator. -/
inductive BoundaryOp where
  | GenerateBMPSApproach (post : BMPSPOSITION) (trunc : TruncatePara)
  | GrowBMPSForRow (row : Nat) (trunc : TruncatePara)
  | InitBTen (post : BMPSPOSITION) (slice_num : Nat)
  | GrowFullBTen (post : BMPSPOSITION) (slice_num : Nat) (remain_sites : Nat) (init : Bool)
  | GrowBTenStep (post : BMPSPOSITION)
  | TruncateBTen (post : BMPSPOSITION) (length : Nat)
  | BTenMoveStep (post : BMPSPOSITION)
  | BMPSMoveStep (post : BMPSPOSITION) (trunc : TruncatePara)
  | DeleteInnerBMPS (post : BMPSPOSITION)
deriving DecidableEq, Repr

/-- The external boundary-contraction engine and tensor primitives (`tensor_network_2d.h` and the
tensor library are not part of the sources at hand, so they are parameters).  `boundary op tn` is
the content of the caches after the cache-maintenance call `op`; the other fields are the values
returned by the `const` queries. -/
structure ContractionEngine (Ten Cache : Type) where
  boundary : BoundaryOp → TensorNetwork2D Ten Cache → Cache
  Trace : TensorNetwork2D Ten Cache → SiteIdx → BondOrientation → ℚ
  ReplaceNNSiteTrace :
    TensorNetwork2D Ten Cache → SiteIdx → SiteIdx → BondOrientation → Ten → Ten → ℚ
  ReplaceOneSiteTrace : TensorNetwork2D Ten Cache → SiteIdx → Ten → BondOrientation → ℚ
  PunchHole : TensorNetwork2D Ten Cache → SiteIdx → BondOrientation → Ten
  Dag : Ten → Ten
  trun_para : TruncatePara

variable {Ten Cache : Type}

/-- Modelled from the spec: the cache-maintenance methods of `TensorNetwork2D`
(`GenerateBMPSApproach`, `InitBTen`, `GrowFullBTen`, `BTenMoveStep`, `BMPSMoveStep`,
`DeleteInnerBMPS`, ...) are missing from the sources; by the spec they build, slide and release
the cached boundary layers, so a call rewrites the caches and keeps the site tensors. -/
def TensorNetwork2D.run (E : ContractionEngine Ten Cache) (op : BoundaryOp)
    (tn : TensorNetwork2D Ten Cache) : TensorNetwork2D Ten Cache :=
  { tn with cache := E.boundary op tn }

/-- Modelled from the spec: `TensorNetwork2D::UpdateSiteConfig(site, newBasis, wavefunction)` is
missing from the sources; by the spec it commits an accepted move by swapping in the new local
tensor, `tn(site) = sitps(site)[newBasis]`. -/
def TensorNetwork2D.UpdateSiteConfig (tn : TensorNetwork2D Ten Cache) (site : SiteIdx)
    (update_config : Nat) (sitps : SplitIndexTPS Ten) : TensorNetwork2D Ten Cache :=
  { tn with ten := Function.update tn.ten site (sitps site update_config) }

/-- Modelled from the spec: the constructor `TensorNetwork2D(sitps, config)` is missing from the
sources; by the spec the network snapshot is built from the (wavefunction, configuration) pair:
the tensor of each site is the wavefunction tensor of its configuration value.  The caches start
from `empty`. -/
def TensorNetwork2D.ofConfig (sitps : SplitIndexTPS Ten) (config : Configuration)
    (empty : Cache) : TensorNetwork2D Ten Cache :=
  { rows := config.rows, cols := config.cols, ten := fun s => sitps s (config.val s),
    cache := empty }

/-- The members of `struct TPSSample`. -/
structure TPSSample (Ten Cache : Type) where
  config : Configuration
  tn : TensorNetwork2D Ten Cache
  amplitude : ℚ

/-- A sample together with the state of the global `random_engine` (the number of values drawn so
far) and the ghost counters. -/
structure Proc (Ten Cache : Type) where
  tps_sample : TPSSample Ten Cache
  random_engine : Nat
  nn_trace_calls : Nat
  warnings : Nat

/-! ## tps_sample.h -/

/-- The constructor `TPSSample(sitps, config)` (tps_sample.h, lines 29-36). -/
def TPSSample.init (E : ContractionEngine Ten Cache) (sitps : SplitIndexTPS Ten)
    (config : Configuration) (empty : Cache) : TPSSample Ten Cache :=
  let tn := TensorNetwork2D.ofConfig sitps config empty
  let tn := tn.run E (.GrowBMPSForRow 0 E.trun_para)
  let tn := tn.run E (.GrowFullBTen .RIGHT 0 2 true)
  let tn := tn.run E (.InitBTen .LEFT 0)
  { config := config, tn := tn, amplitude := E.Trace tn (0, 0) .HORIZONTAL }

/-- The proposed amplitude `psi_b` of `ExchangeUpdate` (lines 156-157). -/
def ExchangeUpdate.psi_b (E : ContractionEngine Ten Cache) (site1 site2 : SiteIdx)
    (bond_dir : BondOrientation) (sitps : SplitIndexTPS Ten) (s : TPSSample Ten Cache) : ℚ :=
  E.ReplaceNNSiteTrace s.tn site1 site2 bond_dir
    (sitps site1 (s.config.val site2)) (sitps site2 (s.config.val site1))

/-- The probability `P` of `ExchangeUpdate` (lines 163-164) in exact arithmetic.  The source
computes the quotient `div` and the product `div * div` in doubles: its `P` is this value up to
rounding, and `0` where the product underflows. -/
def ExchangeUpdate.P (psi_a psi_b : ℚ) : ℚ :=
  let div := |psi_b| / |psi_a|
  div * div

/-- The accepting tail of `ExchangeUpdate` (lines 173-179). -/
def ExchangeUpdate.commit (site1 site2 : SiteIdx) (sitps : SplitIndexTPS Ten) (psi_b : ℚ)
    (s : TPSSample Ten Cache) : TPSSample Ten Cache :=
  let config := s.config.swap site1 site2
  let tn := s.tn.UpdateSiteConfig site1 (config.val site1) sitps
  let tn := tn.UpdateSiteConfig site2 (config.val site2) sitps
  { config := config, tn := tn, amplitude := psi_b }

/-- The method `TPSSample::ExchangeUpdate` (tps_sample.h, lines 149-181).  The `assert` on the
tensor indexes (line 155) has no effect on the state and is left out. -/
def ExchangeUpdate (E : ContractionEngine Ten Cache) (site1 site2 : SiteIdx)
    (bond_dir : BondOrientation) (sitps : SplitIndexTPS Ten) (u_double : Nat → ℚ)
    (p : Proc Ten Cache) : Bool × Proc Ten Cache :=
  if p.tps_sample.config.val site1 = p.tps_sample.config.val site2 then
    (true, p)
  else
    let psi_b := ExchangeUpdate.psi_b E site1 site2 bond_dir sitps p.tps_sample
    let p := { p with nn_trace_calls := p.nn_trace_calls + 1 }
    let psi_a := p.tps_sample.amplitude
    if |psi_b| ≥ |psi_a| then
      (true, { p with tps_sample := ExchangeUpdate.commit site1 site2 sitps psi_b p.tps_sample })
    else
      let u := u_double p.random_engine
      let p := { p with random_engine := p.random_engine + 1 }
      if u < ExchangeUpdate.P psi_a psi_b then
        (true, { p with tps_sample := ExchangeUpdate.commit site1 site2 sitps psi_b p.tps_sample })
      else
        (false, p)

/-- A cache-maintenance call on the network of the sample, `tn.Op(...)`. -/
def Proc.tnRun (E : ContractionEngine Ten Cache) (op : BoundaryOp) (p : Proc Ten Cache) :
    Proc Ten Cache :=
  { p with tps_sample := { p.tps_sample with tn := p.tps_sample.tn.run E op } }

/-- Body of the inner loop of the horizontal pass of `MCSequentiallyNNFlipSweep`
(lines 117-120); the state is `(accept_num, process)`. -/
def MCSequentiallyNNFlipSweep.hStep (E : ContractionEngine Ten Cache)
    (sitps : SplitIndexTPS Ten) (u_double : Nat → ℚ) (cols row : Nat)
    (st : Nat × Proc Ten Cache) (col : Nat) : Nat × Proc Ten Cache :=
  let r := ExchangeUpdate E (row, col) (row, col + 1) .HORIZONTAL sitps u_double st.2
  let p := if col < subSize cols 2 then r.2.tnRun E (.BTenMoveStep .RIGHT) else r.2
  (st.1 + r.1.toNat, p)

/-- Body of the outer loop of the horizontal pass (lines 114-124). -/
def MCSequentiallyNNFlipSweep.hRow (E : ContractionEngine Ten Cache)
    (sitps : SplitIndexTPS Ten) (u_double : Nat → ℚ) (rows cols : Nat)
    (st : Nat × Proc Ten Cache) (row : Nat) : Nat × Proc Ten Cache :=
  let p := st.2.tnRun E (.InitBTen .LEFT row)
  let p := p.tnRun E (.GrowFullBTen .RIGHT row 2 true)
  let st := (List.range (subSize cols 1)).foldl
    (MCSequentiallyNNFlipSweep.hStep E sitps u_double cols row) (st.1, p)
  if row < subSize rows 1 then (st.1, st.2.tnRun E (.BMPSMoveStep .DOWN E.trun_para)) else st

/-- Body of the inner loop of the vertical pass (lines 135-138). -/
def MCSequentiallyNNFlipSweep.vStep (E : ContractionEngine Ten Cache)
    (sitps : SplitIndexTPS Ten) (u_double : Nat → ℚ) (rows col : Nat)
    (st : Nat × Proc Ten Cache) (row : Nat) : Nat × Proc Ten Cache :=
  let r := ExchangeUpdate E (row, col) (row + 1, col) .VERTICAL sitps u_double st.2
  let p := if row < subSize rows 2 then r.2.tnRun E (.BTenMoveStep .DOWN) else r.2
  (st.1 + r.1.toNat, p)

/-- Body of the outer loop of the vertical pass (lines 132-142). -/
def MCSequentiallyNNFlipSweep.vCol (E : ContractionEngine Ten Cache)
    (sitps : SplitIndexTPS Ten) (u_double : Nat → ℚ) (rows cols : Nat)
    (st : Nat × Proc Ten Cache) (col : Nat) : Nat × Proc Ten Cache :=
  let p := st.2.tnRun E (.InitBTen .UP col)
  let p := p.tnRun E (.GrowFullBTen .DOWN col 2 true)
  let st := (List.range (subSize rows 1)).foldl
    (MCSequentiallyNNFlipSweep.vStep E sitps u_double rows col) (st.1, p)
  if col < subSize cols 1 then (st.1, st.2.tnRun E (.BMPSMoveStep .RIGHT E.trun_para)) else st

/-- The horizontal pass of `MCSequentiallyNNFlipSweep` (lines 112-128). -/
def MCSequentiallyNNFlipSweep.hPass (E : ContractionEngine Ten Cache)
    (sitps : SplitIndexTPS Ten) (u_double : Nat → ℚ) (st : Nat × Proc Ten Cache) :
    Nat × Proc Ten Cache :=
  let rows := st.2.tps_sample.tn.rows
  let cols := st.2.tps_sample.tn.cols
  let p := st.2.tnRun E (.GenerateBMPSApproach .UP E.trun_para)
  let st := (List.range rows).foldl
    (MCSequentiallyNNFlipSweep.hRow E sitps u_double rows cols) (st.1, p)
  let p := st.2.tnRun E (.DeleteInnerBMPS .LEFT)
  (st.1, p.tnRun E (.DeleteInnerBMPS .RIGHT))

/-- The vertical pass of `MCSequentiallyNNFlipSweep` (lines 130-145). -/
def MCSequentiallyNNFlipSweep.vPass (E : ContractionEngine Ten Cache)
    (sitps : SplitIndexTPS Ten) (u_double : Nat → ℚ) (st : Nat × Proc Ten Cache) :
    Nat × Proc Ten Cache :=
  let rows := st.2.tps_sample.tn.rows
  let cols := st.2.tps_sample.tn.cols
  let p := st.2.tnRun E (.GenerateBMPSApproach .LEFT E.trun_para)
  let st := (List.range cols).foldl
    (MCSequentiallyNNFlipSweep.vCol E sitps u_double rows cols) (st.1, p)
  (st.1, st.2.tnRun E (.DeleteInnerBMPS .UP))

/-- The method `TPSSample::MCSequentiallyNNFlipSweep` (tps_sample.h, lines 109-147): the returned pair is
`accept_num` and the process after the sweep.  `tn.rows()` and `tn.cols()` are read once: no
statement of the sweep changes them. -/
def MCSequentiallyNNFlipSweep (E : ContractionEngine Ten Cache) (sitps : SplitIndexTPS Ten)
    (u_double : Nat → ℚ) (p : Proc Ten Cache) : Nat × Proc Ten Cache :=
  MCSequentiallyNNFlipSweep.vPass E sitps u_double
    (MCSequentiallyNNFlipSweep.hPass E sitps u_double (0, p))

/-! ## spin_onehalf_heisenberg_square.h -/

/-- The local variables of `CalEnergyAndHoles` together with the objects it writes to: the
accumulator `energy`, `inv_psi`, the output network `hole_res` and the process (sample, engine,
counters). -/
structure EnergyState (Ten Cache : Type) where
  energy : ℚ
  inv_psi : ℚ
  hole_res : TensorNetwork2D Ten Cache
  proc : Proc Ten Cache

/-- The bond block of `CalEnergyAndHoles` (lines 63-75 for a horizontal bond, lines 94-106 for a
vertical one; the two differ in the orientation only). -/
def CalEnergyAndHoles.bond (E : ContractionEngine Ten Cache) (sitps : SplitIndexTPS Ten)
    (site1 site2 : SiteIdx) (dir : BondOrientation) (st : EnergyState Ten Cache) :
    EnergyState Ten Cache :=
  let config := st.proc.tps_sample.config
  if config.val site1 = config.val site2 then
    { st with energy := st.energy + 0.25 }
  else
    let psi_ex := E.ReplaceNNSiteTrace st.proc.tps_sample.tn site1 site2 dir
      (sitps site1 (config.val site2)) (sitps site2 (config.val site1))
    let proc := { st.proc with nn_trace_calls := st.proc.nn_trace_calls + 1 }
    let proc := if |psi_ex * st.inv_psi| > 1.0e8 then
        { proc with warnings := proc.warnings + 1 }
      else proc
    { st with energy := st.energy + (-0.25 + psi_ex * st.inv_psi * 0.5), proc := proc }

/-- Body of the loop over the columns of one row (lines 55-77). -/
def CalEnergyAndHoles.hStep (E : ContractionEngine Ten Cache) (sitps : SplitIndexTPS Ten)
    (calchols : Bool) (cols row : Nat) (st : EnergyState Ten Cache) (col : Nat) :
    EnergyState Ten Cache :=
  let site1 : SiteIdx := (row, col)
  let st := if calchols then
      { st with hole_res := { st.hole_res with ten := (Function.update st.hole_res.ten site1
          (E.Dag (E.PunchHole st.proc.tps_sample.tn site1 .HORIZONTAL))) } }
    else st
  if col < subSize cols 1 then
    let st := CalEnergyAndHoles.bond E sitps site1 (row, col + 1) .HORIZONTAL st
    { st with proc := st.proc.tnRun E (.BTenMoveStep .RIGHT) }
  else st

/-- Lines 49-53 and 132-140: the boundary tensors of a row (column) are set up and the amplitude
is re-traced. -/
def retrace (E : ContractionEngine Ten Cache) (op1 op2 : BoundaryOp) (site : SiteIdx)
    (dir : BondOrientation) (p : Proc Ten Cache) : Proc Ten Cache :=
  let p := (p.tnRun E op1).tnRun E op2
  { p with tps_sample :=
      { p.tps_sample with amplitude := E.Trace p.tps_sample.tn site dir } }

/-- Body of the loop over the rows (lines 49-81). -/
def CalEnergyAndHoles.hRow (E : ContractionEngine Ten Cache) (sitps : SplitIndexTPS Ten)
    (calchols : Bool) (rows cols : Nat) (st : EnergyState Ten Cache) (row : Nat) :
    EnergyState Ten Cache :=
  let proc := retrace E (.InitBTen .LEFT row) (.GrowFullBTen .RIGHT row 1 true) (row, 0)
    .HORIZONTAL st.proc
  let st := { st with proc := proc, inv_psi := 1.0 / proc.tps_sample.amplitude }
  let st := (List.range cols).foldl (CalEnergyAndHoles.hStep E sitps calchols cols row) st
  if row < subSize rows 1 then
    { st with proc := st.proc.tnRun E (.BMPSMoveStep .DOWN E.trun_para) }
  else st

/-- Body of the loop over the rows of one column (lines 92-109). -/
def CalEnergyAndHoles.vStep (E : ContractionEngine Ten Cache) (sitps : SplitIndexTPS Ten)
    (rows col : Nat) (st : EnergyState Ten Cache) (row : Nat) : EnergyState Ten Cache :=
  let st := CalEnergyAndHoles.bond E sitps (row, col) (row + 1, col) .VERTICAL st
  if row < subSize rows 2 then
    { st with proc := st.proc.tnRun E (.BTenMoveStep .DOWN) }
  else st

/-- Body of the loop over the columns (lines 87-113). -/
def CalEnergyAndHoles.vCol (E : ContractionEngine Ten Cache) (sitps : SplitIndexTPS Ten)
    (rows cols : Nat) (st : EnergyState Ten Cache) (col : Nat) : EnergyState Ten Cache :=
  let proc := retrace E (.InitBTen .UP col) (.GrowFullBTen .DOWN col 2 true) (0, col)
    .VERTICAL st.proc
  let st := { st with proc := proc, inv_psi := 1.0 / proc.tps_sample.amplitude }
  let st := (List.range (subSize rows 1)).foldl (CalEnergyAndHoles.vStep E sitps rows col) st
  if col < subSize cols 1 then
    { st with proc := st.proc.tnRun E (.BMPSMoveStep .RIGHT E.trun_para) }
  else st

/-- The method `SpinOneHalfHeisenbergSquare::CalEnergyAndHoles` (lines 39-116).  The result holds the
returned `energy`, the written `hole_res` and the process afterwards.  The truncation parameter
(a static member of a class outside the sources) is the engine's `trun_para`; `tn.rows()` and
`tn.cols()` are read once, no statement of the function changes them. -/
def CalEnergyAndHoles (E : ContractionEngine Ten Cache) (sitps : SplitIndexTPS Ten)
    (calchols : Bool) (p : Proc Ten Cache) (hole_res : TensorNetwork2D Ten Cache) :
    EnergyState Ten Cache :=
  let rows := p.tps_sample.tn.rows
  let cols := p.tps_sample.tn.cols
  let st : EnergyState Ten Cache :=
    { energy := 0, inv_psi := 1.0 / p.tps_sample.amplitude, hole_res := hole_res,
      proc := p.tnRun E (.GenerateBMPSApproach .UP E.trun_para) }
  let st := (List.range rows).foldl (CalEnergyAndHoles.hRow E sitps calchols rows cols) st
  let st := { st with proc := st.proc.tnRun E (.GenerateBMPSApproach .LEFT E.trun_para) }
  (List.range cols).foldl (CalEnergyAndHoles.vCol E sitps rows cols) st

/-- The fields of `ObservablesLocal` written by `SampleMeasure`. -/
structure ObservablesLocal where
  energy_loc : ℚ
  bond_energys_loc : List ℚ
  two_point_functions_loc : List ℚ
  one_point_functions_loc : List ℚ

/-- The local variables of `SampleMeasure` and the process. -/
structure MeasureState (Ten Cache : Type) where
  res : ObservablesLocal
  energy : ℚ
  inv_psi : ℚ
  proc : Proc Ten Cache

/-- The constant `bond_energy_extremly_large` (line 126). -/
def bond_energy_extremly_large : ℚ := 1.0e5

/-- The bond block of `SampleMeasure` (lines 146-172 for a horizontal bond, 231-256 for a
vertical one).  The local `horizontal_bond_energy` (`vertical_bond_energy`) is declared without an
initialiser and the branch of a too large ratio assigns nothing to it (the branch holds the
comment `set the bond energy = 0.0` only), so the value read afterwards is whatever the variable
holds: `uninit site1 dir`. -/
def SampleMeasure.bond (E : ContractionEngine Ten Cache) (sitps : SplitIndexTPS Ten)
    (uninit : SiteIdx → BondOrientation → ℚ) (site1 site2 : SiteIdx) (dir : BondOrientation)
    (st : MeasureState Ten Cache) : MeasureState Ten Cache :=
  let config := st.proc.tps_sample.config
  let r : ℚ × Proc Ten Cache :=
    if config.val site1 = config.val site2 then
      (0.25, st.proc)
    else
      let psi_ex := E.ReplaceNNSiteTrace st.proc.tps_sample.tn site1 site2 dir
        (sitps site1 (config.val site2)) (sitps site2 (config.val site1))
      let ratio := psi_ex * st.inv_psi
      let proc := { st.proc with nn_trace_calls := st.proc.nn_trace_calls + 1 }
      if |ratio| > bond_energy_extremly_large then
        (uninit site1 dir, { proc with warnings := proc.warnings + 1 })
      else
        (-0.25 + ratio * 0.5, proc)
  { st with
    energy := st.energy + r.1
    res := { st.res with bond_energys_loc := st.res.bond_energys_loc ++ [r.1] }
    proc := r.2 }

/-- Body of the loop over the columns of one row of `SampleMeasure` (lines 142-173). -/
def SampleMeasure.hStep (E : ContractionEngine Ten Cache) (sitps : SplitIndexTPS Ten)
    (uninit : SiteIdx → BondOrientation → ℚ) (cols row : Nat)
    (st : MeasureState Ten Cache) (col : Nat) : MeasureState Ten Cache :=
  if col < subSize cols 1 then
    let st := SampleMeasure.bond E sitps uninit (row, col) (row, col + 1) .HORIZONTAL st
    { st with proc := st.proc.tnRun E (.BTenMoveStep .RIGHT) }
  else st

/-- The statement `tn(site) = ten` of `SampleMeasure` (lines 187 and 202). -/
def Proc.setTen (p : Proc Ten Cache) (site : SiteIdx) (ten : Ten) : Proc Ten Cache :=
  { p with tps_sample := { p.tps_sample with
      tn := { p.tps_sample.tn with ten := Function.update p.tps_sample.tn.ten site ten } } }

/-- One pass of the loop of lines 192-201: the process and `diag_corr`. -/
def SampleMeasure.corrStep (E : ContractionEngine Ten Cache) (sitps : SplitIndexTPS Ten)
    (lx row : Nat) (inv_psi : ℚ) (st : List ℚ × Proc Ten Cache) (i : Nat) :
    List ℚ × Proc Ten Cache :=
  let config := st.2.tps_sample.config
  let site1 : SiteIdx := (row, lx / 4)
  let site2 : SiteIdx := (row, lx / 4 + i)
  if config.val site2 = config.val site1 then
    (st.1 ++ [0.0], st.2)
  else
    let psi_ex := E.ReplaceOneSiteTrace st.2.tps_sample.tn site2 (sitps site2 1) .HORIZONTAL
    (st.1 ++ [psi_ex * inv_psi], st.2)

/-- The correlation block of `SampleMeasure` (lines 176-214). -/
def SampleMeasure.corr (E : ContractionEngine Ten Cache) (sitps : SplitIndexTPS Ten)
    (lx row : Nat) (st : MeasureState Ten Cache) : MeasureState Ten Cache :=
  let config := st.proc.tps_sample.config
  let site1 : SiteIdx := (row, lx / 4)
  let sz1 : ℚ := (config.val site1 : ℚ) - 0.5
  let szsz := ((List.range (lx / 2)).map (fun k => k + 1)).map
    (fun i => sz1 * ((config.val (row, lx / 4 + i) : ℚ) - 0.5))
  let two := st.res.two_point_functions_loc ++ szsz
  let diag_corr : List ℚ := List.replicate (lx / 4) 0
  let proc := st.proc.setTen site1 (sitps site1 (subSize 1 (config.val site1)))
  let proc := proc.tnRun E (.TruncateBTen .LEFT (lx / 4))
  let proc := proc.tnRun E (.GrowBTenStep .LEFT)
  let proc := proc.tnRun E (.GrowFullBTen .RIGHT row (lx / 4 + 1) false)
  let proc := proc.tnRun E (.GrowFullBTen .LEFT row (lx / 4 + 1) false)
  let r := ((List.range (lx / 2)).map (fun k => k + 1)).foldl
    (SampleMeasure.corrStep E sitps lx row st.inv_psi) (diag_corr, proc)
  let diag_corr := r.1
  let proc := r.2.setTen site1 (sitps site1 (config.val site1))
  let two :=
    if config.val site1 = 1 then
      two ++ List.replicate (lx / 2) 0.0 ++ diag_corr
    else
      two ++ diag_corr ++ List.replicate (lx / 2) 0.0
  { st with res := { st.res with two_point_functions_loc := two }, proc := proc }

/-- Body of the loop over the rows of `SampleMeasure` (lines 136-218). -/
def SampleMeasure.hRow (E : ContractionEngine Ten Cache) (sitps : SplitIndexTPS Ten)
    (uninit : SiteIdx → BondOrientation → ℚ) (lx ly : Nat)
    (st : MeasureState Ten Cache) (row : Nat) : MeasureState Ten Cache :=
  let proc := retrace E (.InitBTen .LEFT row) (.GrowFullBTen .RIGHT row 1 true) (row, 0)
    .HORIZONTAL st.proc
  let st := { st with proc := proc, inv_psi := 1.0 / proc.tps_sample.amplitude }
  let st := (List.range lx).foldl (SampleMeasure.hStep E sitps uninit lx row) st
  let st := if row = ly / 2 then SampleMeasure.corr E sitps lx row st else st
  if row < subSize ly 1 then
    { st with proc := st.proc.tnRun E (.BMPSMoveStep .DOWN E.trun_para) }
  else st

/-- Body of the loop over the rows of one column of `SampleMeasure` (lines 229-259). -/
def SampleMeasure.vStep (E : ContractionEngine Ten Cache) (sitps : SplitIndexTPS Ten)
    (uninit : SiteIdx → BondOrientation → ℚ) (rows col : Nat)
    (st : MeasureState Ten Cache) (row : Nat) : MeasureState Ten Cache :=
  let st := SampleMeasure.bond E sitps uninit (row, col) (row + 1, col) .VERTICAL st
  if row < subSize rows 2 then
    { st with proc := st.proc.tnRun E (.BTenMoveStep .DOWN) }
  else st

/-- Body of the loop over the columns of `SampleMeasure` (lines 224-263). -/
def SampleMeasure.vCol (E : ContractionEngine Ten Cache) (sitps : SplitIndexTPS Ten)
    (uninit : SiteIdx → BondOrientation → ℚ) (rows cols : Nat)
    (st : MeasureState Ten Cache) (col : Nat) : MeasureState Ten Cache :=
  let proc := retrace E (.InitBTen .UP col) (.GrowFullBTen .DOWN col 2 true) (0, col)
    .VERTICAL st.proc
  let st := { st with proc := proc, inv_psi := 1.0 / proc.tps_sample.amplitude }
  let st := (List.range (subSize rows 1)).foldl (SampleMeasure.vStep E sitps uninit rows col) st
  if col < subSize cols 1 then
    { st with proc := st.proc.tnRun E (.BMPSMoveStep .RIGHT E.trun_para) }
  else st

/-- Modelled from the spec: the iteration `for (auto &spin_config : config)` over the class
`Configuration` (configuration.h, missing from the sources); the configuration is a 2D grid of
local basis indices, visited here row by row. -/
def Configuration.toList (c : Configuration) : List Nat :=
  (List.range c.rows).flatMap (fun row => (List.range c.cols).map (fun col => c.val (row, col)))

/-- The method `SpinOneHalfHeisenbergSquare::SampleMeasure` (lines 120-271): the returned observables and
the process afterwards. -/
def SampleMeasure (E : ContractionEngine Ten Cache) (sitps : SplitIndexTPS Ten)
    (uninit : SiteIdx → BondOrientation → ℚ) (p : Proc Ten Cache) :
    ObservablesLocal × Proc Ten Cache :=
  let lx := p.tps_sample.tn.cols
  let ly := p.tps_sample.tn.rows
  let st : MeasureState Ten Cache :=
    { res := { energy_loc := 0, bond_energys_loc := [], two_point_functions_loc := [],
               one_point_functions_loc := [] },
      energy := 0, inv_psi := 1.0 / p.tps_sample.amplitude,
      proc := p.tnRun E (.GenerateBMPSApproach .UP E.trun_para) }
  let st := (List.range ly).foldl (SampleMeasure.hRow E sitps uninit lx ly) st
  let st := { st with proc := st.proc.tnRun E (.GenerateBMPSApproach .LEFT E.trun_para) }
  let st := (List.range lx).foldl (SampleMeasure.vCol E sitps uninit ly lx) st
  let one := st.proc.tps_sample.config.toList.map (fun spin_config => (spin_config : ℚ) - 0.5)
  ({ st.res with energy_loc := st.energy, one_point_functions_loc := one }, st.proc)

/-! ## Lattice regions and value multisets -/

/-- The sites of a `rows × cols` lattice. -/
def lattice (rows cols : Nat) : Finset SiteIdx := Finset.range rows ×ˢ Finset.range cols

/-- The multiset of the local basis values held by the sites of a region. -/
def Configuration.valuesOn (c : Configuration) (S : Finset SiteIdx) : Multiset Nat :=
  S.val.map c.val

/-- The multiset of local basis values over the whole lattice. -/
def Configuration.values (c : Configuration) : Multiset Nat :=
  c.valuesOn (lattice c.rows c.cols)

/-- The sum of the local basis values over the whole lattice (the occupation sector). -/
def Configuration.Sum (c : Configuration) : Nat := c.values.sum

/-- The multiset of local basis values of one row. -/
def Configuration.rowValues (c : Configuration) (row : Nat) : Multiset Nat :=
  c.valuesOn ({row} ×ˢ Finset.range c.cols)

/-- The multiset of local basis values of one column. -/
def Configuration.colValues (c : Configuration) (col : Nat) : Multiset Nat :=
  c.valuesOn (Finset.range c.rows ×ˢ {col})

/-! ## A concrete engine: exact contraction of a product state -/

namespace Demo

/-- The exact contraction of a network of bond dimension one, whose site tensors are numbers: the
product of all site tensors. -/
def contract (rows cols : Nat) (ten : SiteIdx → ℚ) : ℚ :=
  ∏ r ∈ Finset.range rows, ∏ c ∈ Finset.range cols, ten (r, c)

/-- The engine that contracts a product state exactly; it needs no cache. -/
def engine : ContractionEngine ℚ Unit where
  boundary _ _ := ()
  Trace tn _ _ := contract tn.rows tn.cols tn.ten
  ReplaceNNSiteTrace tn site1 site2 _ t1 t2 :=
    contract tn.rows tn.cols (Function.update (Function.update tn.ten site1 t1) site2 t2)
  ReplaceOneSiteTrace tn site t _ := contract tn.rows tn.cols (Function.update tn.ten site t)
  PunchHole tn site _ := contract tn.rows tn.cols (Function.update tn.ten site 1)
  Dag t := t
  trun_para := { D_min := 1, D_max := 1, trunc_err := 0 }

/-- A product wavefunction: the tensor of column `c` is `1` for the basis value `0` and `2 + c`
for any other basis value. -/
def sitps : SplitIndexTPS ℚ := fun site basis => if basis = 0 then 1 else 2 + site.2

/-- The configuration `0 1` of a `1 × 2` lattice. -/
def config01 : Configuration := { rows := 1, cols := 2, val := fun site => site.2 }

/-- The process right after the construction of the sample of `config01`. -/
def proc01 : Proc ℚ Unit :=
  { tps_sample := TPSSample.init engine sitps config01 (), random_engine := 0,
    nn_trace_calls := 0, warnings := 0 }

/-- The configuration of a `1 × 2` lattice whose two sites hold the value `1`. -/
def config11 : Configuration := { rows := 1, cols := 2, val := fun _ => 1 }

/-- The process right after the construction of the sample of `config11`. -/
def proc11 : Proc ℚ Unit :=
  { tps_sample := TPSSample.init engine sitps config11 (), random_engine := 0,
    nn_trace_calls := 0, warnings := 0 }

/-- A product wavefunction with one huge tensor: `10 ^ 9` at site `(0, 0)` for the basis value
`1`, and `1` everywhere else. -/
def sitpsBig : SplitIndexTPS ℚ := fun site basis => if site = (0, 0) ∧ basis = 1 then 10 ^ 9 else 1

/-- The process right after the construction of the sample of `config01` for `sitpsBig`: the
amplitude is `1`, the amplitude of the exchanged pair is `10 ^ 9`. -/
def procBig : Proc ℚ Unit :=
  { tps_sample := TPSSample.init engine sitpsBig config01 (), random_engine := 0,
    nn_trace_calls := 0, warnings := 0 }

/-- The configuration `0 / 1` of a `2 × 1` lattice. -/
def config01v : Configuration := { rows := 2, cols := 1, val := fun site => site.1 }

/-- The process right after the construction of the sample of `config01v` for `sitpsBig`: the
amplitude is `1`, the amplitude of the vertically exchanged pair is `10 ^ 9`. -/
def procBigV : Proc ℚ Unit :=
  { tps_sample := TPSSample.init engine sitpsBig config01v (), random_engine := 0,
    nn_trace_calls := 0, warnings := 0 }

/-- An output network for the hole tensors of a `1 × 2` lattice. -/
def holes : TensorNetwork2D ℚ Unit := { rows := 1, cols := 2, ten := fun _ => 0, cache := () }

end Demo

/-! ## Sequences of moves -/

/-- A finite sequence of `ExchangeUpdate` calls, each on its own site pair and orientation, run
one after the other on the same process. -/
def ExchangeUpdate.seq (E : ContractionEngine Ten Cache) (sitps : SplitIndexTPS Ten)
    (u_double : Nat → ℚ) (calls : List (SiteIdx × SiteIdx × BondOrientation))
    (p : Proc Ten Cache) : Proc Ten Cache :=
  calls.foldl (fun p c => (ExchangeUpdate E c.1 c.2.1 c.2.2 sitps u_double p).2) p

/-- The dimensions of the configuration and of the network of a process. -/
def Proc.dims (p : Proc Ten Cache) : (Nat × Nat) × (Nat × Nat) :=
  ((p.tps_sample.config.rows, p.tps_sample.config.cols),
    (p.tps_sample.tn.rows, p.tps_sample.tn.cols))

/-! ## The networks met by `CalEnergyAndHoles`

No statement of `CalEnergyAndHoles` writes a site tensor, so the network at each point of the
function is the entry network after the cache-maintenance calls made so far.  The values read
from the engine at that point are named below. -/

/-- The network after `n` successive calls `tn.BTenMoveStep(post)`. -/
def moveSteps (E : ContractionEngine Ten Cache) (post : BMPSPOSITION) (n : Nat)
    (tn : TensorNetwork2D Ten Cache) : TensorNetwork2D Ten Cache :=
  (fun t => t.run E (.BTenMoveStep post))^[n] tn

/-- The network at the start of the column loop of row `row` (after lines 49-50), for the entry
network `tn`: the previous row has made `cols - 1` steps to the right and the boundary MPS has
moved one row down. -/
def CalEnergyAndHoles.tnRow (E : ContractionEngine Ten Cache) (tn : TensorNetwork2D Ten Cache) :
    Nat → TensorNetwork2D Ten Cache
  | 0 =>
    (((tn.run E (.GenerateBMPSApproach .UP E.trun_para)).run E (.InitBTen .LEFT 0)).run E
      (.GrowFullBTen .RIGHT 0 1 true))
  | row + 1 =>
    ((((moveSteps E .RIGHT (tn.cols - 1) (CalEnergyAndHoles.tnRow E tn row)).run E
      (.BMPSMoveStep .DOWN E.trun_para)).run E (.InitBTen .LEFT (row + 1))).run E
      (.GrowFullBTen .RIGHT (row + 1) 1 true))

/-- The network when the horizontal pass is over (after line 82). -/
def CalEnergyAndHoles.tnMid (E : ContractionEngine Ten Cache) (tn : TensorNetwork2D Ten Cache) :
    TensorNetwork2D Ten Cache :=
  moveSteps E .RIGHT (tn.cols - 1) (CalEnergyAndHoles.tnRow E tn (tn.rows - 1))

/-- The network at the start of the row loop of column `col` (after lines 87-88). -/
def CalEnergyAndHoles.tnCol (E : ContractionEngine Ten Cache) (tn : TensorNetwork2D Ten Cache) :
    Nat → TensorNetwork2D Ten Cache
  | 0 =>
    ((((CalEnergyAndHoles.tnMid E tn).run E (.GenerateBMPSApproach .LEFT E.trun_para)).run E
      (.InitBTen .UP 0)).run E (.GrowFullBTen .DOWN 0 2 true))
  | col + 1 =>
    ((((moveSteps E .DOWN (tn.rows - 2) (CalEnergyAndHoles.tnCol E tn col)).run E
      (.BMPSMoveStep .RIGHT E.trun_para)).run E (.InitBTen .UP (col + 1))).run E
      (.GrowFullBTen .DOWN (col + 1) 2 true))

/-- The amplitude re-traced at the start of row `row` (line 52). -/
def CalEnergyAndHoles.psiRow (E : ContractionEngine Ten Cache) (tn : TensorNetwork2D Ten Cache)
    (row : Nat) : ℚ :=
  E.Trace (CalEnergyAndHoles.tnRow E tn row) (row, 0) .HORIZONTAL

/-- The amplitude re-traced at the start of column `col` (line 89). -/
def CalEnergyAndHoles.psiCol (E : ContractionEngine Ten Cache) (tn : TensorNetwork2D Ten Cache)
    (col : Nat) : ℚ :=
  E.Trace (CalEnergyAndHoles.tnCol E tn col) (0, col) .VERTICAL

/-- The amplitude `psi_ex` of the exchanged pair of the horizontal bond starting at
`(row, col)` (lines 66-68), evaluated after `col` steps to the right. -/
def CalEnergyAndHoles.psiExH (E : ContractionEngine Ten Cache) (sitps : SplitIndexTPS Ten)
    (config : Configuration) (tn : TensorNetwork2D Ten Cache) (row col : Nat) : ℚ :=
  E.ReplaceNNSiteTrace (moveSteps E .RIGHT col (CalEnergyAndHoles.tnRow E tn row))
    (row, col) (row, col + 1) .HORIZONTAL
    (sitps (row, col) (config.val (row, col + 1))) (sitps (row, col + 1) (config.val (row, col)))

/-- The amplitude `psi_ex` of the exchanged pair of the vertical bond starting at `(row, col)`
(lines 97-99), evaluated after `row` steps down. -/
def CalEnergyAndHoles.psiExV (E : ContractionEngine Ten Cache) (sitps : SplitIndexTPS Ten)
    (config : Configuration) (tn : TensorNetwork2D Ten Cache) (row col : Nat) : ℚ :=
  E.ReplaceNNSiteTrace (moveSteps E .DOWN row (CalEnergyAndHoles.tnCol E tn col))
    (row, col) (row + 1, col) .VERTICAL
    (sitps (row, col) (config.val (row + 1, col))) (sitps (row + 1, col) (config.val (row, col)))

/-- The value added to `energy` by the bond block of `CalEnergyAndHoles` run on the network `tn`
with the current `inv_psi` (lines 63-75). -/
def CalEnergyAndHoles.bondValue (E : ContractionEngine Ten Cache) (sitps : SplitIndexTPS Ten)
    (config : Configuration) (tn : TensorNetwork2D Ten Cache) (inv_psi : ℚ)
    (site1 site2 : SiteIdx) (dir : BondOrientation) : ℚ :=
  if config.val site1 = config.val site2 then 0.25
  else -0.25 + E.ReplaceNNSiteTrace tn site1 site2 dir
    (sitps site1 (config.val site2)) (sitps site2 (config.val site1)) * inv_psi * 0.5

/-- The number of `ReplaceNNSiteTrace` calls made by the bond block: none when the two sites
hold the same value, one otherwise. -/
def CalEnergyAndHoles.bondCalls (config : Configuration) (site1 site2 : SiteIdx) : Nat :=
  if config.val site1 = config.val site2 then 0 else 1

/-- The state `st'` comes from `st` by an energy increase `de`, by `dc` calls of
`ReplaceNNSiteTrace` and by cache maintenance leading to the network `tn'`; the configuration is
the one of `st`. -/
def EnergyState.Step (st st' : EnergyState Ten Cache) (tn' : TensorNetwork2D Ten Cache)
    (de : ℚ) (dc : Nat) : Prop :=
  st'.proc.tps_sample.config = st.proc.tps_sample.config ∧
  st'.proc.tps_sample.tn = tn' ∧
  st'.energy = st.energy + de ∧
  st'.proc.nn_trace_calls = st.proc.nn_trace_calls + dc

/-! ## Exact contraction -/

/-- The engine contracts exactly: `Trace` returns the contraction `Contract rows cols ten` of the
site tensors of the network, and `ReplaceNNSiteTrace` the contraction of the site tensors with the
two given tensors substituted, whatever the caches hold. -/
def ContractionEngine.Exact (E : ContractionEngine Ten Cache)
    (Contract : Nat → Nat → (SiteIdx → Ten) → ℚ) : Prop :=
  (∀ tn site dir, E.Trace tn site dir = Contract tn.rows tn.cols tn.ten) ∧
  (∀ tn site1 site2 dir t1 t2, E.ReplaceNNSiteTrace tn site1 site2 dir t1 t2 =
    Contract tn.rows tn.cols (Function.update (Function.update tn.ten site1 t1) site2 t2))

/-- The amplitude `Psi(config)` of a configuration: the contraction of the wavefunction tensors
selected by the configuration. -/
def Psi (Contract : Nat → Nat → (SiteIdx → Ten) → ℚ) (sitps : SplitIndexTPS Ten)
    (config : Configuration) : ℚ :=
  Contract config.rows config.cols (fun site => sitps site (config.val site))

/-- The consistency invariant of a sample: the network has the dimensions of the configuration,
its site tensors are the wavefunction tensors of the configuration values, and the stored
amplitude is `Psi` of the current configuration. -/
def TPSSample.Consistent (Contract : Nat → Nat → (SiteIdx → Ten) → ℚ)
    (sitps : SplitIndexTPS Ten) (s : TPSSample Ten Cache) : Prop :=
  s.tn.rows = s.config.rows ∧ s.tn.cols = s.config.cols ∧
  (∀ site, s.tn.ten site = sitps site (s.config.val site)) ∧
  s.amplitude = Psi Contract sitps s.config

/-! ## tps_sample.h: the bond move of the compressed Kagome lattice -/

/-- The accepting tail of `CompressedKagomeLatticeExchangeUpdate_` (lines 235-239). -/
def CompressedKagomeLatticeExchangeUpdate_.commit (site1 site2 : SiteIdx)
    (ex_config1 ex_config2 : Nat) (sitps : SplitIndexTPS Ten) (psi_b : ℚ)
    (s : TPSSample Ten Cache) : TPSSample Ten Cache :=
  let config : Configuration :=
    { s.config with
      val := Function.update (Function.update s.config.val site1 ex_config1) site2 ex_config2 }
  let tn := s.tn.UpdateSiteConfig site1 ex_config1 sitps
  let tn := tn.UpdateSiteConfig site2 ex_config2 sitps
  { config := config, tn := tn, amplitude := psi_b }

/-- The method `TPSSample::CompressedKagomeLatticeExchangeUpdate_` (tps_sample.h, lines 185-241).
`GetQNBlkNum` is the block count of a tensor (tensor library, external); each of the two
`lost tensor block` messages counts as one diagnostic. -/
def CompressedKagomeLatticeExchangeUpdate_ (E : ContractionEngine Ten Cache)
    (GetQNBlkNum : Ten → Nat) (site1 site2 : SiteIdx) (bond_dir : BondOrientation)
    (sitps : SplitIndexTPS Ten) (u_double : Nat → ℚ) (p : Proc Ten Cache) :
    Bool × Proc Ten Cache :=
  let config1 := p.tps_sample.config.val site1
  let config2 := p.tps_sample.config.val site2
  let eff_config1 :=
    if bond_dir = .HORIZONTAL then (config1 >>> 2) &&& 1 else (config1 >>> 1) &&& 1
  let eff_config2 := config2 &&& 1
  let ex_config1 :=
    if bond_dir = .HORIZONTAL then config1 ^^^ (1 <<< 2) else config1 ^^^ (1 <<< 1)
  let ex_config2 := config2 ^^^ 1
  if eff_config1 = eff_config2 then
    (false, p)
  else if GetQNBlkNum (sitps site1 ex_config1) = 0 then
    (false, { p with warnings := p.warnings + 1 })
  else if GetQNBlkNum (sitps site2 ex_config2) = 0 then
    (false, { p with warnings := p.warnings + 1 })
  else
    let psi_b := E.ReplaceNNSiteTrace p.tps_sample.tn site1 site2 bond_dir
      (sitps site1 ex_config1) (sitps site2 ex_config2)
    let p := { p with nn_trace_calls := p.nn_trace_calls + 1 }
    let psi_a := p.tps_sample.amplitude
    if |psi_b| ≥ |psi_a| then
      (true, { p with tps_sample := (CompressedKagomeLatticeExchangeUpdate_.commit site1 site2
        ex_config1 ex_config2 sitps psi_b p.tps_sample) })
    else
      let u := u_double p.random_engine
      let p := { p with random_engine := p.random_engine + 1 }
      if u < ExchangeUpdate.P psi_a psi_b then
        (true, { p with tps_sample := (CompressedKagomeLatticeExchangeUpdate_.commit site1 site2
          ex_config1 ex_config2 sitps psi_b p.tps_sample) })
      else
        (false, p)

/-! ## The sweep as a script of calls -/

/-- One call made by a sweep: a cache-maintenance call on the network or a call of
`ExchangeUpdate`. -/
inductive SweepCall where
  | cache (op : BoundaryOp)
  | exchange (site1 site2 : SiteIdx) (bond_dir : BondOrientation)
deriving DecidableEq, Repr

/-- Runs one call on `(accept_num, process)`; an `ExchangeUpdate` that returns `true` adds one to
`accept_num`. -/
def SweepCall.run (E : ContractionEngine Ten Cache) (sitps : SplitIndexTPS Ten)
    (u_double : Nat → ℚ) (st : Nat × Proc Ten Cache) : SweepCall → Nat × Proc Ten Cache
  | .cache op => (st.1, st.2.tnRun E op)
  | .exchange site1 site2 bond_dir =>
    ((st.1 + (ExchangeUpdate E site1 site2 bond_dir sitps u_double st.2).1.toNat),
      (ExchangeUpdate E site1 site2 bond_dir sitps u_double st.2).2)

/-- Runs a list of calls in order. -/
def runCalls (E : ContractionEngine Ten Cache) (sitps : SplitIndexTPS Ten)
    (u_double : Nat → ℚ) (calls : List SweepCall) (st : Nat × Proc Ten Cache) :
    Nat × Proc Ten Cache :=
  calls.foldl (SweepCall.run E sitps u_double) st

/-- The bonds proposed by the calls of a list, in order. -/
def exchangesOf (calls : List SweepCall) : List (SiteIdx × SiteIdx × BondOrientation) :=
  calls.filterMap (fun c =>
    match c with
    | .cache _ => none
    | .exchange site1 site2 bond_dir => some (site1, site2, bond_dir))

/-- The horizontal nearest-neighbour bonds of a `rows × cols` lattice, row by row. -/
def hBonds (rows cols : Nat) : List (SiteIdx × SiteIdx × BondOrientation) :=
  (List.range rows).flatMap (fun row =>
    (List.range (cols - 1)).map (fun col => ((row, col), (row, col + 1), .HORIZONTAL)))

/-- The vertical nearest-neighbour bonds of a `rows × cols` lattice, column by column. -/
def vBonds (rows cols : Nat) : List (SiteIdx × SiteIdx × BondOrientation) :=
  (List.range cols).flatMap (fun col =>
    (List.range (rows - 1)).map (fun row => ((row, col), (row + 1, col), .VERTICAL)))

/-- The calls of one row of the horizontal pass (lines 114-124). -/
def sweepRowCalls (trunc : TruncatePara) (rows cols row : Nat) : List SweepCall :=
  [.cache (.InitBTen .LEFT row), .cache (.GrowFullBTen .RIGHT row 2 true)] ++
  (List.range (cols - 1)).flatMap (fun col =>
    SweepCall.exchange (row, col) (row, col + 1) .HORIZONTAL ::
      (if col < cols - 2 then [SweepCall.cache (.BTenMoveStep .RIGHT)] else [])) ++
  (if row < rows - 1 then [SweepCall.cache (.BMPSMoveStep .DOWN trunc)] else [])

/-- The calls of one column of the vertical pass (lines 132-142). -/
def sweepColCalls (trunc : TruncatePara) (rows cols col : Nat) : List SweepCall :=
  [.cache (.InitBTen .UP col), .cache (.GrowFullBTen .DOWN col 2 true)] ++
  (List.range (rows - 1)).flatMap (fun row =>
    SweepCall.exchange (row, col) (row + 1, col) .VERTICAL ::
      (if row < rows - 2 then [SweepCall.cache (.BTenMoveStep .DOWN)] else [])) ++
  (if col < cols - 1 then [SweepCall.cache (.BMPSMoveStep .RIGHT trunc)] else [])

/-- The calls of one `MCSequentiallyNNFlipSweep` on a `rows × cols` lattice, in the order of the
source text (lines 112-145). -/
def sweepCalls (trunc : TruncatePara) (rows cols : Nat) : List SweepCall :=
  [.cache (.GenerateBMPSApproach .UP trunc)] ++
  (List.range rows).flatMap (sweepRowCalls trunc rows cols) ++
  [.cache (.DeleteInnerBMPS .LEFT), .cache (.DeleteInnerBMPS .RIGHT),
    .cache (.GenerateBMPSApproach .LEFT trunc)] ++
  (List.range cols).flatMap (sweepColCalls trunc rows cols) ++
  [.cache (.DeleteInnerBMPS .UP)]

namespace Demo

/-- The configuration `4 1` of a `1 × 2` compressed Kagome lattice (three bits per site). -/
def configK : Configuration :=
  { rows := 1, cols := 2, val := fun site => if site.2 = 0 then 4 else 1 }

/-- The process right after the construction of the sample of `configK`. -/
def procK : Proc ℚ Unit :=
  { tps_sample := TPSSample.init engine sitps configK (), random_engine := 0,
    nn_trace_calls := 0, warnings := 0 }

end Demo

/-- The configuration and the site tensors of the network of a process: the part of the sample
that cache maintenance and amplitude queries do not touch. -/
def Proc.sites (p : Proc Ten Cache) : Configuration × (SiteIdx → Ten) :=
  (p.tps_sample.config, p.tps_sample.tn.ten)

/-! ## vmc_peps_impl.h: statistics helpers -/

/-- The function `Mean` on a vector of numbers (vmc_peps_impl.h, lines 35-43);
`std::accumulate` from `T(0)` is the sum of the list. -/
def Mean (data : List ℚ) : ℚ :=
  if data.isEmpty then 0
  else data.sum / (data.length : ℚ)

/-- The function `Variance(data, mean)` (lines 80-89): `std::inner_product` of `diff` with
itself, divided by the number of data. -/
def Variance (data : List ℚ) (mean : ℚ) : ℚ :=
  let diff := data.map (fun x => x - mean)
  let sq_sum := (List.zipWith (fun a b => a * b) diff diff).sum
  sq_sum / (data.length : ℚ)

/-- The function `StandardError(data, mean)` (lines 91-95); `sqrt` stands for `std::sqrt`, a
function of the C++ library. -/
def StandardError (sqrt : ℚ → ℚ) (data : List ℚ) (mean : ℚ) : ℚ :=
  sqrt (Variance data mean)

/-- The rank of the coordinating process.  Modelled from the spec: the constant `kMasterProc`
is declared outside the sources; the code compares `world_.rank()` with `kMasterProc` and with
`0` for the same purpose (lines 371-377). -/
def kMasterProc : Nat := 0

/-- The pieces of the external tensor library used by the optimizer besides addition and
multiplication by a number (which are the module operations of `Ten`): the default-constructed
`Tensor()`, `Get2Norm`, `ElementWiseBoundTo` and the norm of a whole `SplitIndexTPS`. -/
structure TensorLib (Ten : Type) where
  Tensor : Ten
  Get2Norm : Ten → ℚ
  ElementWiseBoundTo : Ten → ℚ → Ten
  Norm : SplitIndexTPS Ten → ℚ

/-- Modelled from the spec: `LinearCombine(coefs, tensor_list, beta, res)` of the tensor
library is missing from the sources; it linearly combines the tensors with the given weights,
`res = sum_i coefs[i] * tensor_list[i] + beta * res`. -/
def LinearCombine [AddCommGroup Ten] [Module ℚ Ten] (coefs : List ℚ) (tensor_list : List Ten)
    (beta : ℚ) (res : Ten) : Ten :=
  (List.zipWith (fun c t => c • t) coefs tensor_list).sum + beta • res

/-- The function `Mean(tensor_list, length)` on a list of tensors (lines 45-52). -/
def MeanTensors [AddCommGroup Ten] [Module ℚ Ten] (L : TensorLib Ten) (tensor_list : List Ten)
    (length : Nat) : Ten :=
  let coefs := List.replicate tensor_list.length (1.0 : ℚ)
  let sum := LinearCombine coefs tensor_list 0.0 L.Tensor
  (1.0 / (length : ℚ)) • sum

/-- The function `MPIMeanTensor` (lines 54-77) for the whole communicator: `tensors` lists the
argument `tensor` of every rank in rank order, and the result lists what every rank returns.
The coordinator receives the tensor of every other rank into `ten_list` (its own by copy) and
returns their mean; every other rank sends its tensor and returns `Tensor()`. -/
def MPIMeanTensor [AddCommGroup Ten] [Module ℚ Ten] (L : TensorLib Ten) (tensors : List Ten) :
    List Ten :=
  (List.range tensors.length).map (fun rank =>
    if rank = kMasterProc then MeanTensors L tensors tensors.length else L.Tensor)

namespace Demo

/-- The tensor library of one-element tensors (numbers): the 2-norm is the absolute value. -/
def lib : TensorLib ℚ where
  Tensor := 0
  Get2Norm := fun t => |t|
  ElementWiseBoundTo := fun t bound => if |t| > bound then (if t > 0 then bound else -bound) else t
  Norm := fun _ => 0

end Demo

/-! ## vmc_peps_impl.h: the executor -/

/-- Modelled from the spec: the sweep-scheme selector (its enumeration is declared outside the
sources): sequential nearest-neighbour flip, compressed-lattice cluster update, or a value
outside the enumeration. -/
inductive MCSweepScheme where
  | SequentiallyNNSiteFlip
  | CompressedLatticeKagomeLocalUpdate
  | unsupported (value : Nat)
deriving DecidableEq, Repr

/-- Modelled from the spec: the update-rule selector (its enumeration is declared outside the
sources): plain, randomized-step, stochastic-reconfiguration, bounded-element, or a value outside
the enumeration. -/
inductive UpdateScheme where
  | StochasticGradient
  | RandomStepStochasticGradient
  | StochasticReconfiguration
  | BoundGradientElement
  | unsupported (value : Nat)
deriving DecidableEq, Repr

/-- Modelled from the spec: the members of `VMCOptimizePara` read by the executor (the struct is
declared outside the sources). -/
structure VMCOptimizePara where
  mc_samples : Nat
  mc_warm_up_sweeps : Nat
  mc_sweeps_between_sample : Nat
  step_lens : List ℚ
  update_scheme : UpdateScheme
  mc_sweep_scheme : MCSweepScheme
  init_config : Configuration

/-- The steps of an executor that the ghost log records: a call of `MCSweep_`, one lattice sweep,
one call of `SampleEnergyAndHols_`, of `GatherStatisticEnergyAndGrad_`, one wavefunction update,
the construction of a sample and the dump of the data. -/
inductive Event where
  | MCSweep_
  | sweep
  | sample
  | gather
  | update
  | build
  | dump
deriving DecidableEq, Repr

/-- The members of one `VMCPEPSExecutor` process.  `tps_sample_` holds the member `tps_sample_`
together with the process-wide `random_engine` and the ghost counters; `phy_dim site` is the
size of the vectors `grad_(site)`, `split_index_tps_(site)`, ... fixed by
`ReserveSamplesDataSpace_`; `log` is the ghost log of the steps made so far. -/
structure VMCPEPSExecutor (Ten Cache : Type) where
  optimize_para : VMCOptimizePara
  lx_ : Nat
  ly_ : Nat
  phy_dim : SiteIdx → Nat
  split_index_tps_ : SplitIndexTPS Ten
  tps_sample_ : Proc Ten Cache
  grad_ : SplitIndexTPS Ten
  gten_sum_ : SplitIndexTPS Ten
  g_times_energy_sum_ : SplitIndexTPS Ten
  gten_ave_ : SplitIndexTPS Ten
  gten_samples_ : List (SplitIndexTPS Ten)
  energy_samples_ : List ℚ
  energy_trajectory_ : List ℚ
  energy_error_traj_ : List ℚ
  grad_norm_ : List ℚ
  warm_up_ : Bool
  log : List Event

/-- The result of a function that may call `exit`: it returns, or the process terminates with an
exit code, in the state `at_exit`. -/
inductive Outcome (σ α : Type) where
  | ret (a : α)
  | exit (code : Int) (at_exit : σ)

/-- What the executor takes from outside the sources: the contraction engine, the tensor
library, `std::sqrt`, the energy solver (the template parameter `EnergySolver`), the sweep of the
compressed Kagome lattice called by `MCSweep_` (it yields `cluster_flip_times`,
`bond_flip_times` and the sample), the conjugate-gradient solver of the stochastic
reconfiguration (it yields the natural gradient of the coordinator), the content of a fresh
cache, and the indeterminate value of the uninitialised `bond_flip_times`. -/
structure Environment (Ten Cache : Type) where
  engine : ContractionEngine Ten Cache
  lib : TensorLib Ten
  sqrt : ℚ → ℚ
  CalEnergyAndHoles : SplitIndexTPS Ten → Proc Ten Cache → TensorNetwork2D Ten Cache →
    EnergyState Ten Cache
  KagomeSweep : SplitIndexTPS Ten → (Nat → ℚ) → Proc Ten Cache → (Nat × Nat) × Proc Ten Cache
  ConjugateGradientSolver : List (VMCPEPSExecutor Ten Cache) → SplitIndexTPS Ten
  empty : Cache
  uninit_size_t : Nat

/-- Appends a step to the ghost log. -/
def VMCPEPSExecutor.record (e : VMCPEPSExecutor Ten Cache) (ev : Event) :
    VMCPEPSExecutor Ten Cache :=
  { e with log := e.log ++ [ev] }

/-- One pass of the loop of lines 517-519: one `MCSequentiallyNNFlipSweep`, whose result
overwrites `bond_flip_times`. -/
def MCSweep_.nnStep (V : Environment Ten Cache) (u_double : Nat → ℚ)
    (st : Nat × VMCPEPSExecutor Ten Cache) (_i : Nat) : Nat × VMCPEPSExecutor Ten Cache :=
  let r := MCSequentiallyNNFlipSweep V.engine st.2.split_index_tps_ u_double st.2.tps_sample_
  (r.1, { st.2 with tps_sample_ := r.2, log := st.2.log ++ [Event.sweep] })

/-- One pass of the loop of lines 522-528: one sweep of the compressed Kagome lattice, whose
results overwrite `cluster_flip_times` and `bond_flip_times`. -/
def MCSweep_.kagomeStep (V : Environment Ten Cache) (u_double : Nat → ℚ)
    (st : (Nat × Nat) × VMCPEPSExecutor Ten Cache) (_i : Nat) :
    (Nat × Nat) × VMCPEPSExecutor Ten Cache :=
  let r := V.KagomeSweep st.2.split_index_tps_ u_double st.2.tps_sample_
  (r.1, { st.2 with tps_sample_ := r.2, log := st.2.log ++ [Event.sweep] })

/-- The method `VMCPEPSExecutor::MCSweep_` (lines 513-535) of one process; `u_double` is the
stream of draws of the process. -/
def MCSweep_ (V : Environment Ten Cache) (u_double : Nat → ℚ) (e : VMCPEPSExecutor Ten Cache) :
    Outcome (VMCPEPSExecutor Ten Cache) (List Nat × VMCPEPSExecutor Ten Cache) :=
  let e := e.record .MCSweep_
  match e.optimize_para.mc_sweep_scheme with
  | .SequentiallyNNSiteFlip =>
    let r := (List.range e.optimize_para.mc_sweeps_between_sample).foldl
      (MCSweep_.nnStep V u_double) (V.uninit_size_t, e)
    .ret ([r.1], r.2)
  | .CompressedLatticeKagomeLocalUpdate =>
    let r := (List.range e.optimize_para.mc_sweeps_between_sample).foldl
      (MCSweep_.kagomeStep V u_double) ((V.uninit_size_t, V.uninit_size_t), e)
    .ret ([r.1.2, r.1.1], r.2)
  | .unsupported _ => .exit 1 e

/-- The loop of `WarmUp_` (lines 228-230): `n` calls of `MCSweep_`, unless one of them exits. -/
def WarmUp_.loop (V : Environment Ten Cache) (u_double : Nat → ℚ) :
    Nat → VMCPEPSExecutor Ten Cache →
      Outcome (VMCPEPSExecutor Ten Cache) (VMCPEPSExecutor Ten Cache)
  | 0, e => .ret e
  | n + 1, e =>
    match MCSweep_ V u_double e with
    | .ret r => WarmUp_.loop V u_double n r.2
    | .exit code s => .exit code s

/-- The method `VMCPEPSExecutor::WarmUp_` (lines 224-236). -/
def WarmUp_ (V : Environment Ten Cache) (u_double : Nat → ℚ) (e : VMCPEPSExecutor Ten Cache) :
    Outcome (VMCPEPSExecutor Ten Cache) (VMCPEPSExecutor Ten Cache) :=
  if !e.warm_up_ then
    match WarmUp_.loop V u_double e.optimize_para.mc_warm_up_sweeps e with
    | .ret e => .ret { e with warm_up_ := true }
    | .exit code s => .exit code s
  else .ret e

/-- The assignment `tps_sample_ = TPSSample(split_index_tps_, config)` (lines 575 and 580). -/
def VMCPEPSExecutor.build (V : Environment Ten Cache) (config : Configuration)
    (e : VMCPEPSExecutor Ten Cache) : VMCPEPSExecutor Ten Cache :=
  { e with
    tps_sample_ := { e.tps_sample_ with
      tps_sample := TPSSample.init V.engine e.split_index_tps_ config V.empty }
    log := e.log ++ [Event.build] }

/-- The method `VMCPEPSExecutor::LoadTenData(tps_path)` (lines 566-584).  The files are outside
the model: `wavefunction_file` is what `split_index_tps_.Load(tps_path)` finds (`none` when the
load fails) and `config_file` what `config.Load(tps_path, rank)` finds. -/
def LoadTenData (V : Environment Ten Cache) (u_double : Nat → ℚ)
    (wavefunction_file : Option (SplitIndexTPS Ten)) (config_file : Option Configuration)
    (e : VMCPEPSExecutor Ten Cache) :
    Outcome (VMCPEPSExecutor Ten Cache) (VMCPEPSExecutor Ten Cache) :=
  match wavefunction_file with
  | none => .exit (-1) e
  | some tps =>
    let e := { e with split_index_tps_ := tps }
    match config_file with
    | some config =>
      let e := e.build V config
      .ret { e with warm_up_ := true }
    | none =>
      let e := e.build V e.optimize_para.init_config
      match WarmUp_ V u_double e with
      | .ret e => .ret { e with warm_up_ := true }
      | .exit code s => .exit code s

/-! ## vmc_peps_impl.h: sampling, statistics and updates of the communicator -/

/-- The processes of the communicator `world_` in rank order: the coordinator `kMasterProc` is
the first of the list.  All processes run the same program; where a collective step needs one
value of a parameter, the model reads the coordinator's. -/
abbrev World (Ten Cache : Type) := List (VMCPEPSExecutor Ten Cache)

/-- The range of the loops over `row < ly_`, `col < lx_` and `compt < phy_dim`. -/
def VMCPEPSExecutor.inRange (e : VMCPEPSExecutor Ten Cache) (site : SiteIdx) (compt : Nat) :
    Bool :=
  decide (site ∈ lattice e.ly_ e.lx_) && decide (compt < e.phy_dim site)

/-- A step made by every process, by rank; the world exits with the first process that exits. -/
def World.each (f : Nat → VMCPEPSExecutor Ten Cache →
      Outcome (VMCPEPSExecutor Ten Cache) (VMCPEPSExecutor Ten Cache)) :
    Nat → World Ten Cache → Outcome (World Ten Cache) (World Ten Cache)
  | _, [] => .ret []
  | rank, e :: rest =>
    match f rank e with
    | .exit code s => .exit code (s :: rest)
    | .ret e =>
      match World.each f (rank + 1) rest with
      | .ret w => .ret (e :: w)
      | .exit code w => .exit code (e :: w)

/-- A step that cannot exit, made by every process, by rank. -/
def World.mapRank (f : Nat → VMCPEPSExecutor Ten Cache → VMCPEPSExecutor Ten Cache) :
    Nat → World Ten Cache → World Ten Cache
  | _, [] => []
  | rank, e :: rest => f rank e :: World.mapRank f (rank + 1) rest

/-- The method `VMCPEPSExecutor::ClearEnergyAndHoleSamples_` (lines 306-335): the sums are reset
to zero tensors. -/
def ClearEnergyAndHoleSamples_ [AddCommGroup Ten] (e : VMCPEPSExecutor Ten Cache) :
    VMCPEPSExecutor Ten Cache :=
  let gten_sum_ : SplitIndexTPS Ten := fun site compt =>
    if e.inRange site compt then 0 else e.gten_sum_ site compt
  let g_times_energy_sum_ : SplitIndexTPS Ten := fun site compt =>
    if e.inRange site compt then gten_sum_ site compt else e.g_times_energy_sum_ site compt
  { e with
    energy_samples_ := []
    gten_sum_ := gten_sum_
    g_times_energy_sum_ := g_times_energy_sum_
    gten_samples_ :=
      if e.optimize_para.update_scheme = .StochasticReconfiguration then [] else e.gten_samples_ }

/-- The method `VMCPEPSExecutor::SampleEnergyAndHols_` (lines 337-364). -/
def SampleEnergyAndHols_ [AddCommGroup Ten] [Module ℚ Ten] (V : Environment Ten Cache)
    (e : VMCPEPSExecutor Ten Cache) : VMCPEPSExecutor Ten Cache :=
  let holes : TensorNetwork2D Ten Cache :=
    { rows := e.ly_, cols := e.lx_, ten := fun _ => V.lib.Tensor, cache := V.empty }
  let st := V.CalEnergyAndHoles e.split_index_tps_ e.tps_sample_ holes
  let energy_loc := st.energy
  let inv_psi : ℚ := 1.0 / st.proc.tps_sample.amplitude
  let gten : SiteIdx → Ten := fun site => inv_psi • st.hole_res.ten site
  let hit : SiteIdx → Nat → Bool := fun site compt =>
    decide (site ∈ lattice e.ly_ e.lx_) && decide (compt = st.proc.tps_sample.config.val site)
  let gten_sample : SplitIndexTPS Ten := fun site compt =>
    if hit site compt then gten site else V.lib.Tensor
  { e with
    tps_sample_ := st.proc
    energy_samples_ := e.energy_samples_ ++ [energy_loc]
    gten_sum_ := fun site compt =>
      if hit site compt then e.gten_sum_ site compt + gten site else e.gten_sum_ site compt
    g_times_energy_sum_ := fun site compt =>
      if hit site compt then e.g_times_energy_sum_ site compt + energy_loc • gten site
      else e.g_times_energy_sum_ site compt
    gten_samples_ :=
      if e.optimize_para.update_scheme = .StochasticReconfiguration then
        e.gten_samples_ ++ [gten_sample]
      else e.gten_samples_
    log := e.log ++ [Event.sample] }

/-- Lines 379-401 of `GatherStatisticEnergyAndGrad_`, made by every process with the broadcast
`energy` and `en_err`: the trajectories are extended and the gradient of the process is formed.
The product of a `SplitIndexTPS` with a number multiplies every tensor. -/
def GatherStatisticEnergyAndGrad_.own [AddCommGroup Ten] [Module ℚ Ten] (energy en_err : ℚ)
    (e : VMCPEPSExecutor Ten Cache) : VMCPEPSExecutor Ten Cache :=
  let sample_num := e.optimize_para.mc_samples
  let gten_ave_ : SplitIndexTPS Ten := fun site compt =>
    (1.0 / (sample_num : ℚ)) • e.gten_sum_ site compt
  let grad_ : SplitIndexTPS Ten := fun site compt =>
    if e.inRange site compt then
      (1.0 / (sample_num : ℚ)) • e.g_times_energy_sum_ site compt
        + (-energy) • gten_ave_ site compt
    else e.grad_ site compt
  { e with
    energy_trajectory_ := e.energy_trajectory_ ++ [energy]
    energy_error_traj_ := e.energy_error_traj_ ++ [en_err]
    gten_ave_ := gten_ave_
    grad_ := grad_ }

/-- Lines 402-417 of `GatherStatisticEnergyAndGrad_` for the process `rank`: every tensor of the
gradient (and of `gten_ave_` under stochastic reconfiguration) is replaced by what
`MPIMeanTensor` returns on this rank, and the coordinator records the norm of the gradient. -/
def GatherStatisticEnergyAndGrad_.reduce [AddCommGroup Ten] [Module ℚ Ten]
    (V : Environment Ten Cache) (world : World Ten Cache) (rank : Nat)
    (e : VMCPEPSExecutor Ten Cache) : VMCPEPSExecutor Ten Cache :=
  let grad_ : SplitIndexTPS Ten := fun site compt =>
    if e.inRange site compt then
      (MPIMeanTensor V.lib (world.map (fun w => w.grad_ site compt))).getD rank V.lib.Tensor
    else e.grad_ site compt
  let gten_ave_ : SplitIndexTPS Ten := fun site compt =>
    if e.inRange site compt ∧ e.optimize_para.update_scheme = .StochasticReconfiguration then
      (MPIMeanTensor V.lib (world.map (fun w => w.gten_ave_ site compt))).getD rank V.lib.Tensor
    else e.gten_ave_ site compt
  { e with
    grad_ := grad_
    gten_ave_ := gten_ave_
    grad_norm_ := if rank = kMasterProc then e.grad_norm_ ++ [V.lib.Norm grad_] else e.grad_norm_
    log := e.log ++ [Event.gather] }

/-- The method `VMCPEPSExecutor::GatherStatisticEnergyAndGrad_` (lines 366-420) for the whole
communicator.  `en_list` is what `gather` collects on the coordinator, in rank order; `energy`
and `en_err` are computed there and broadcast. -/
def GatherStatisticEnergyAndGrad_ [AddCommGroup Ten] [Module ℚ Ten] (V : Environment Ten Cache)
    (world : World Ten Cache) : World Ten Cache :=
  let en_list := world.map (fun e => Mean e.energy_samples_)
  let energy := Mean en_list
  let en_err := StandardError V.sqrt en_list energy
  let world := world.map (GatherStatisticEnergyAndGrad_.own energy en_err)
  World.mapRank (GatherStatisticEnergyAndGrad_.reduce V world) 0 world

/-- The tensor of the coordinator after line 441 of `StochGradUpdateTPS_`. -/
def StochGradUpdateTPS_.step [AddCommGroup Ten] [Module ℚ Ten] (tps grad : SplitIndexTPS Ten)
    (step_len : ℚ) (site : SiteIdx) (compt : Nat) : Ten :=
  tps site compt + (-step_len) • grad site compt

/-- The local `norm` of `StochGradUpdateTPS_` after the loop of lines 440-443. -/
def StochGradUpdateTPS_.norm [AddCommGroup Ten] [Module ℚ Ten] (L : TensorLib Ten)
    (e : VMCPEPSExecutor Ten Cache) (grad : SplitIndexTPS Ten) (step_len : ℚ) (site : SiteIdx) :
    ℚ :=
  (List.range (e.phy_dim site)).foldl
    (fun norm compt =>
      norm + L.Get2Norm (StochGradUpdateTPS_.step e.split_index_tps_ grad step_len site compt))
    0

/-- The wavefunction of the coordinator after `StochGradUpdateTPS_` (lines 435-449). -/
def StochGradUpdateTPS_.master [AddCommGroup Ten] [Module ℚ Ten] (L : TensorLib Ten)
    (e : VMCPEPSExecutor Ten Cache) (grad : SplitIndexTPS Ten) (step_len : ℚ) :
    SplitIndexTPS Ten := fun site compt =>
  if e.inRange site compt then
    let inv_norm : ℚ := 1.0 / StochGradUpdateTPS_.norm L e grad step_len site
    inv_norm • StochGradUpdateTPS_.step e.split_index_tps_ grad step_len site compt
  else e.split_index_tps_ site compt

/-- The wavefunction of another process after `StochGradUpdateTPS_` (lines 450-459): the tensors
in its range are those broadcast by the coordinator. -/
def StochGradUpdateTPS_.receive (e : VMCPEPSExecutor Ten Cache) (sent : SplitIndexTPS Ten) :
    SplitIndexTPS Ten := fun site compt =>
  if e.inRange site compt then sent site compt else e.split_index_tps_ site compt

/-- The method `VMCPEPSExecutor::StochGradUpdateTPS_` (lines 432-460) for the whole
communicator; `grad` and `step_len` are the arguments of the coordinator (no other process reads
its own). -/
def StochGradUpdateTPS_ [AddCommGroup Ten] [Module ℚ Ten] (L : TensorLib Ten)
    (grad : SplitIndexTPS Ten) (step_len : ℚ) : World Ten Cache → World Ten Cache
  | [] => []
  | m :: others =>
    let sent := StochGradUpdateTPS_.master L m grad step_len
    { m with split_index_tps_ := sent, log := m.log ++ [Event.update] } ::
      others.map (fun e =>
        { e with
          split_index_tps_ := StochGradUpdateTPS_.receive e sent
          log := e.log ++ [Event.update] })

/-- The gradient argument of the coordinator after `BoundGradElementUpdateTPS_`: line 472 bounds
every tensor in the range in place. -/
def BoundGradElementUpdateTPS_.grad (L : TensorLib Ten) (e : VMCPEPSExecutor Ten Cache)
    (grad : SplitIndexTPS Ten) (step_len : ℚ) : SplitIndexTPS Ten := fun site compt =>
  if e.inRange site compt then L.ElementWiseBoundTo (grad site compt) step_len
  else grad site compt

/-- The tensor of the coordinator after line 473 of `BoundGradElementUpdateTPS_`. -/
def BoundGradElementUpdateTPS_.step [AddCommGroup Ten] [Module ℚ Ten] (L : TensorLib Ten)
    (tps grad : SplitIndexTPS Ten) (step_len : ℚ) (site : SiteIdx) (compt : Nat) : Ten :=
  tps site compt + (-step_len) • L.ElementWiseBoundTo (grad site compt) step_len

/-- The local `norm` of `BoundGradElementUpdateTPS_` after the loop of lines 470-475. -/
def BoundGradElementUpdateTPS_.norm [AddCommGroup Ten] [Module ℚ Ten] (L : TensorLib Ten)
    (e : VMCPEPSExecutor Ten Cache) (grad : SplitIndexTPS Ten) (step_len : ℚ) (site : SiteIdx) :
    ℚ :=
  (List.range (e.phy_dim site)).foldl
    (fun norm compt =>
      norm +
        L.Get2Norm (BoundGradElementUpdateTPS_.step L e.split_index_tps_ grad step_len site compt))
    0

/-- The wavefunction of the coordinator after `BoundGradElementUpdateTPS_` (lines 465-481). -/
def BoundGradElementUpdateTPS_.master [AddCommGroup Ten] [Module ℚ Ten] (L : TensorLib Ten)
    (e : VMCPEPSExecutor Ten Cache) (grad : SplitIndexTPS Ten) (step_len : ℚ) :
    SplitIndexTPS Ten := fun site compt =>
  if e.inRange site compt then
    let inv_norm : ℚ := 1.0 / BoundGradElementUpdateTPS_.norm L e grad step_len site
    inv_norm • BoundGradElementUpdateTPS_.step L e.split_index_tps_ grad step_len site compt
  else e.split_index_tps_ site compt

/-- The method `VMCPEPSExecutor::BoundGradElementUpdateTPS_` (lines 462-492) for the whole
communicator; `grad` and `step_len` are the arguments of the coordinator.  The result is the
gradient argument afterwards (it is passed by reference and bounded in place) and the world. -/
def BoundGradElementUpdateTPS_ [AddCommGroup Ten] [Module ℚ Ten] (L : TensorLib Ten)
    (grad : SplitIndexTPS Ten) (step_len : ℚ) :
    World Ten Cache → SplitIndexTPS Ten × World Ten Cache
  | [] => (grad, [])
  | m :: others =>
    let sent := BoundGradElementUpdateTPS_.master L m grad step_len
    (BoundGradElementUpdateTPS_.grad L m grad step_len,
      { m with split_index_tps_ := sent, log := m.log ++ [Event.update] } ::
        others.map (fun e =>
          { e with
            split_index_tps_ := StochGradUpdateTPS_.receive e sent
            log := e.log ++ [Event.update] }))

/-- The method `VMCPEPSExecutor::StochReconfigUpdateTPS_` (lines 494-511) for the whole
communicator: the natural gradient of the coordinator comes from the conjugate-gradient solver,
the update is `StochGradUpdateTPS_`. -/
def StochReconfigUpdateTPS_ [AddCommGroup Ten] [Module ℚ Ten] (V : Environment Ten Cache)
    (step_len : ℚ) (world : World Ten Cache) : World Ten Cache :=
  let natural_grad := V.ConjugateGradientSolver world
  StochGradUpdateTPS_ V.lib natural_grad step_len world

/-- The loop of lines 248-256 of `OptimizeTPS_` on one process: `n` times `MCSweep_` and
`SampleEnergyAndHols_`.  The acceptance counters are only printed and are left out. -/
def OptimizeTPS_.sampling [AddCommGroup Ten] [Module ℚ Ten] (V : Environment Ten Cache)
    (u_double : Nat → ℚ) : Nat → VMCPEPSExecutor Ten Cache →
      Outcome (VMCPEPSExecutor Ten Cache) (VMCPEPSExecutor Ten Cache)
  | 0, e => .ret e
  | n + 1, e =>
    match MCSweep_ V u_double e with
    | .ret r => OptimizeTPS_.sampling V u_double n (SampleEnergyAndHols_ V r.2)
    | .exit code s => .exit code s

/-- The draw `u_double_(random_engine)` of line 267 on one process. -/
def OptimizeTPS_.draw (e : VMCPEPSExecutor Ten Cache) : VMCPEPSExecutor Ten Cache :=
  { e with
    tps_sample_ := { e.tps_sample_ with random_engine := e.tps_sample_.random_engine + 1 } }

/-- The gradient argument `grad_` of the coordinator after `BoundGradElementUpdateTPS_`. -/
def OptimizeTPS_.setGrad (r : SplitIndexTPS Ten × World Ten Cache) : World Ten Cache :=
  match r.2 with
  | [] => []
  | m :: others => { m with grad_ := r.1 } :: others

/-- The selection of the update rule, lines 264-278 of `OptimizeTPS_`; `u_double rank` is the
stream of draws of the process `rank`. -/
def OptimizeTPS_.update [AddCommGroup Ten] [Module ℚ Ten] (V : Environment Ten Cache)
    (u_double : Nat → Nat → ℚ) (step_len : ℚ) (world : World Ten Cache) :
    Outcome (World Ten Cache) (World Ten Cache) :=
  match world with
  | [] => .ret []
  | m :: _ =>
    match m.optimize_para.update_scheme with
    | .StochasticGradient => .ret (StochGradUpdateTPS_ V.lib m.grad_ step_len world)
    | .RandomStepStochasticGradient =>
      let step_len := step_len * u_double kMasterProc m.tps_sample_.random_engine
      .ret (StochGradUpdateTPS_ V.lib m.grad_ step_len (world.map OptimizeTPS_.draw))
    | .StochasticReconfiguration => .ret (StochReconfigUpdateTPS_ V step_len world)
    | .BoundGradientElement =>
      .ret (OptimizeTPS_.setGrad (BoundGradElementUpdateTPS_ V.lib m.grad_ step_len world))
    | .unsupported _ => .exit 2 world

/-- One pass of the loop of `OptimizeTPS_` (lines 242-303) with the step length `step_len`. -/
def OptimizeTPS_.iter [AddCommGroup Ten] [Module ℚ Ten] (V : Environment Ten Cache)
    (u_double : Nat → Nat → ℚ) (step_len : ℚ) (world : World Ten Cache) :
    Outcome (World Ten Cache) (World Ten Cache) :=
  match World.each (fun rank e => OptimizeTPS_.sampling V (u_double rank)
      e.optimize_para.mc_samples (ClearEnergyAndHoleSamples_ e)) 0 world with
  | .exit code w => .exit code w
  | .ret world => OptimizeTPS_.update V u_double step_len (GatherStatisticEnergyAndGrad_ V world)

/-- The loop of `OptimizeTPS_` over the step lengths. -/
def OptimizeTPS_.loop [AddCommGroup Ten] [Module ℚ Ten] (V : Environment Ten Cache)
    (u_double : Nat → Nat → ℚ) : List ℚ → World Ten Cache →
      Outcome (World Ten Cache) (World Ten Cache)
  | [], world => .ret world
  | step_len :: rest, world =>
    match OptimizeTPS_.iter V u_double step_len world with
    | .ret world => OptimizeTPS_.loop V u_double rest world
    | .exit code w => .exit code w

/-- The method `VMCPEPSExecutor::OptimizeTPS_` (lines 238-304) for the whole communicator. -/
def OptimizeTPS_ [AddCommGroup Ten] [Module ℚ Ten] (V : Environment Ten Cache)
    (u_double : Nat → Nat → ℚ) (world : World Ten Cache) :
    Outcome (World Ten Cache) (World Ten Cache) :=
  match world with
  | [] => .ret []
  | m :: _ => OptimizeTPS_.loop V u_double m.optimize_para.step_lens world

/-- Modelled from the spec: `ElementWiseBoundTo(bound)` of the tensor library, on a tensor given
by its elements: an element whose magnitude exceeds the bound is replaced by the bound with the
sign of the element. -/
def ElementWiseBoundTo {Idx : Type} (t : Idx → ℚ) (bound : ℚ) : Idx → ℚ := fun i =>
  if |t i| > bound then (if t i > 0 then bound else -bound) else t i

namespace Demo

/-- A rational square root, exact on the squares of rationals. -/
def sqrt (x : ℚ) : ℚ := (Nat.sqrt x.num.toNat : ℚ) / (Nat.sqrt x.den : ℚ)

/-- The environment of the product-state engine: the Heisenberg solver, a Kagome sweep that
proposes nothing and a solver that returns the gradient of the coordinator. -/
def env : Environment ℚ Unit where
  engine := engine
  lib := lib
  sqrt := sqrt
  CalEnergyAndHoles := fun sitps p holes => CalEnergyAndHoles engine sitps true p holes
  KagomeSweep := fun _ _ p => ((0, 0), p)
  ConjugateGradientSolver := fun world =>
    match world with
    | [] => fun _ _ => 0
    | m :: _ => m.grad_
  empty := ()
  uninit_size_t := 0

/-- The parameters of the demonstration runs: one sample per step, one sweep per sample, two
warm-up sweeps, one step of length `1`. -/
def para (update_scheme : UpdateScheme) (mc_sweep_scheme : MCSweepScheme) : VMCOptimizePara :=
  { mc_samples := 1, mc_warm_up_sweeps := 2, mc_sweeps_between_sample := 1, step_lens := [1],
    update_scheme := update_scheme, mc_sweep_scheme := mc_sweep_scheme, init_config := config11 }

/-- An executor of the `1 × 2` lattice with two basis values per site, holding the sample of
`config11`, the given energy samples and zero gradients. -/
def exec (optimize_para : VMCOptimizePara) (energy_samples_ : List ℚ) (warm_up_ : Bool) :
    VMCPEPSExecutor ℚ Unit :=
  { optimize_para := optimize_para, lx_ := 2, ly_ := 1, phy_dim := fun _ => 2,
    split_index_tps_ := sitps, tps_sample_ := proc11,
    grad_ := fun _ _ => 0, gten_sum_ := fun _ _ => 0, g_times_energy_sum_ := fun _ _ => 0,
    gten_ave_ := fun _ _ => 0, gten_samples_ := [], energy_samples_ := energy_samples_,
    energy_trajectory_ := [], energy_error_traj_ := [], grad_norm_ := [],
    warm_up_ := warm_up_, log := [] }

/-- Two workers whose energy samples have the means `1` and `3`. -/
def world2 : World ℚ Unit :=
  [exec (para .StochasticGradient .SequentiallyNNSiteFlip) [0, 2] true,
   exec (para .StochasticGradient .SequentiallyNNSiteFlip) [3] true]

/-- Four workers whose energies are `0`, `0`, `2` and `2`. -/
def world4 : World ℚ Unit :=
  [exec (para .StochasticGradient .SequentiallyNNSiteFlip) [0] true,
   exec (para .StochasticGradient .SequentiallyNNSiteFlip) [0] true,
   exec (para .StochasticGradient .SequentiallyNNSiteFlip) [2] true,
   exec (para .StochasticGradient .SequentiallyNNSiteFlip) [2] true]

/-- The tensor library of tensors with one element, given by their elements. -/
def libFun : TensorLib (Unit → ℚ) where
  Tensor := fun _ => 0
  Get2Norm := fun t => |t ()|
  ElementWiseBoundTo := fun t bound => ElementWiseBoundTo t bound
  Norm := fun _ => 0

end Demo

/-! ## The ghost log of a run -/

/-- The steps that one call of `MCSweep_` logs for a scheme it supports. -/
def MCSweep_.events (para : VMCOptimizePara) : List Event :=
  Event.MCSweep_ :: List.replicate para.mc_sweeps_between_sample Event.sweep

/-- The steps that `n` passes of the sampling loop of `OptimizeTPS_` log. -/
def OptimizeTPS_.samplingEvents (para : VMCOptimizePara) : Nat → List Event
  | 0 => []
  | n + 1 => MCSweep_.events para ++ Event.sample :: OptimizeTPS_.samplingEvents para n

/-- The steps that `n` passes of the loop of `WarmUp_` log. -/
def WarmUp_.events (para : VMCOptimizePara) : Nat → List Event
  | 0 => []
  | n + 1 => MCSweep_.events para ++ WarmUp_.events para n

/-- The relation between an executor `e0` and a later state `e` of it that logged exactly the
steps `evs` and kept the wavefunction, the parameters and the flag `warm_up_`. -/
def VMCPEPSExecutor.Logged (e0 e : VMCPEPSExecutor Ten Cache) (evs : List Event) : Prop :=
  e.log = e0.log ++ evs ∧ e.split_index_tps_ = e0.split_index_tps_ ∧
    e.optimize_para = e0.optimize_para ∧ e.warm_up_ = e0.warm_up_

/-- The sweep schemes that `MCSweep_` supports. -/
def MCSweepScheme.supported : MCSweepScheme → Bool
  | .SequentiallyNNSiteFlip => true
  | .CompressedLatticeKagomeLocalUpdate => true
  | .unsupported _ => false

namespace Demo

/-- An executor like `exec` for tensors given by their elements: the wavefunction element is `1`
for the basis value `0` and `2` otherwise. -/
def execFun : VMCPEPSExecutor (Unit → ℚ) Unit :=
  { optimize_para := para .BoundGradientElement .SequentiallyNNSiteFlip, lx_ := 2, ly_ := 1,
    phy_dim := fun _ => 2,
    split_index_tps_ := fun _ basis _ => if basis = 0 then 1 else 2,
    tps_sample_ :=
      { tps_sample :=
          { config := config11
            tn := { rows := 1, cols := 2, ten := fun _ _ => 2, cache := () }
            amplitude := 4 }
        random_engine := 0, nn_trace_calls := 0, warnings := 0 },
    grad_ := fun _ _ _ => 5, gten_sum_ := fun _ _ _ => 0, g_times_energy_sum_ := fun _ _ _ => 0,
    gten_ave_ := fun _ _ _ => 0, gten_samples_ := [], energy_samples_ := [],
    energy_trajectory_ := [], energy_error_traj_ := [], grad_norm_ := [],
    warm_up_ := true, log := [] }

end Demo

/-! ## tps_sample.h: the single-site move of the compressed Kagome lattice -/

/-- The three ends of `CompressedKagomeLatticeSingleSiteUpdate_` after the ordering step: no jump
(`return false`), the jump to `rotate_config1`, the jump to `rotate_config2`. -/
inductive Jump where
  | none
  | rotate1
  | rotate2
deriving DecidableEq, Repr

/-- The branches of `CompressedKagomeLatticeSingleSiteUpdate_` after the ordering step (lines
262-341) as a function of the three amplitudes and of `rand_num`, the value that
`u_double(random_engine)` yields where a branch draws it.  The result is the end taken and
whether the branch drew the number.  The numbers are the elements of an ordered field: the
rationals in the runs of the sampler, the reals where the draws are measured.  The arithmetic
is exact; the doubles of the source round the squares, the sums and the quotients, and the
squares underflow to `0` for small amplitudes. -/
def CompressedKagomeLatticeSingleSiteUpdate_.select {K : Type} [LinearOrderedField K]
    (psi0 psi_rotate1 psi_rotate2 rand_num : K) : Jump × Bool :=
  let p0 := psi0 * psi0
  let p1 := psi_rotate1 * psi_rotate1
  let p2 := psi_rotate2 * psi_rotate2
  if p0 + p1 + p2 ≤ 2 * max p0 p2 then
    if |psi_rotate2| ≥ |psi0| then
      (.rotate2, false)
    else if rand_num < p2 / p0 then
      (.rotate2, true)
    else if rand_num < (p1 + p2) / p0 then
      (.rotate1, true)
    else
      (.none, true)
  else
    if p0 ≥ p2 then
      if rand_num < p2 / (p2 + p1) then (.rotate2, true) else (.rotate1, true)
    else if p0 ≤ p1 then
      if rand_num < p2 / (p0 + p1) then (.rotate2, true) else (.rotate1, true)
    else
      if rand_num ≤ p2 / (p0 + p1) then
        (.rotate2, true)
      else if rand_num ≤ p2 / (p0 + p1) + p1 / p0 * (1 - p2 / (p0 + p1)) then
        (.rotate1, true)
      else
        (.none, true)

/-- The ordering step of `CompressedKagomeLatticeSingleSiteUpdate_` (lines 256-260): the two
rotated values are swapped together with their amplitudes when the first amplitude is the larger
in magnitude.  The result is `(rotate_config1, psi_rotate1)` and `(rotate_config2, psi_rotate2)`
afterwards. -/
def CompressedKagomeLatticeSingleSiteUpdate_.order {α K : Type} [LinearOrderedField K]
    (rotate_config1 rotate_config2 : α) (psi_rotate1 psi_rotate2 : K) : (α × K) × (α × K) :=
  if |psi_rotate1| > |psi_rotate2| then
    ((rotate_config2, psi_rotate2), (rotate_config1, psi_rotate1))
  else
    ((rotate_config1, psi_rotate1), (rotate_config2, psi_rotate2))

/-- The rotation of a site value, `config / 4 + 2 * (config % 4)` (lines 251-252); no step of
it can overflow a `size_t`. -/
def CompressedKagomeLatticeSingleSiteUpdate_.rotate (config_site : Nat) : Nat :=
  config_site / 4 + 2 * (config_site % 4)

/-- The accepting tail of `CompressedKagomeLatticeSingleSiteUpdate_` (for instance lines
266-269): the site gets the rotated value and its tensor, the amplitude is the rotated one. -/
def CompressedKagomeLatticeSingleSiteUpdate_.commit (site : SiteIdx) (rotate_config : Nat)
    (sitps : SplitIndexTPS Ten) (psi_rotate : ℚ) (s : TPSSample Ten Cache) :
    TPSSample Ten Cache :=
  { config := { s.config with val := Function.update s.config.val site rotate_config }
    tn := s.tn.UpdateSiteConfig site rotate_config sitps
    amplitude := psi_rotate }

/-- The method `TPSSample::CompressedKagomeLatticeSingleSiteUpdate_` (tps_sample.h, lines
243-342).  The ordering step is `order`, the branches that follow are `select`. -/
def CompressedKagomeLatticeSingleSiteUpdate_ (E : ContractionEngine Ten Cache) (site : SiteIdx)
    (sitps : SplitIndexTPS Ten) (u_double : Nat → ℚ) (mps_orient : BondOrientation)
    (p : Proc Ten Cache) : Bool × Proc Ten Cache :=
  let config_site := p.tps_sample.config.val site
  if config_site = 0 ∨ config_site = 7 then
    (false, p)
  else
    let rotate_config1 := CompressedKagomeLatticeSingleSiteUpdate_.rotate config_site
    let rotate_config2 := CompressedKagomeLatticeSingleSiteUpdate_.rotate rotate_config1
    let psi_rotate1 :=
      E.ReplaceOneSiteTrace p.tps_sample.tn site (sitps site rotate_config1) mps_orient
    let psi_rotate2 :=
      E.ReplaceOneSiteTrace p.tps_sample.tn site (sitps site rotate_config2) mps_orient
    let ordered := CompressedKagomeLatticeSingleSiteUpdate_.order rotate_config1 rotate_config2
      psi_rotate1 psi_rotate2
    let psi0 := p.tps_sample.amplitude
    let r := CompressedKagomeLatticeSingleSiteUpdate_.select psi0 ordered.1.2 ordered.2.2
      (u_double p.random_engine)
    let p := if r.2 then { p with random_engine := p.random_engine + 1 } else p
    match r.1 with
    | .none => (false, p)
    | .rotate1 =>
      (true, { p with tps_sample := (CompressedKagomeLatticeSingleSiteUpdate_.commit site
        ordered.1.1 sitps ordered.1.2 p.tps_sample) })
    | .rotate2 =>
      (true, { p with tps_sample := (CompressedKagomeLatticeSingleSiteUpdate_.commit site
        ordered.2.1 sitps ordered.2.2 p.tps_sample) })

/-- The state reached from the rotation state `x` of a site with the draw `rand_num`, when the
three rotation states `0, 1, 2` (a value, its rotation, the rotation of its rotation) have the
amplitudes `psi 0, psi 1, psi 2`: the ordering step `order` and the branches `select` of
`CompressedKagomeLatticeSingleSiteUpdate_`. -/
def CompressedKagomeLatticeSingleSiteUpdate_.next {K : Type} [LinearOrderedField K]
    (psi : Fin 3 → K) (x : Fin 3) (rand_num : K) : Fin 3 :=
  let psi_rotate1 := psi (x + 1)
  let psi_rotate2 := psi (x + 2)
  let ordered := CompressedKagomeLatticeSingleSiteUpdate_.order (x + 1) (x + 2)
    psi_rotate1 psi_rotate2
  match (CompressedKagomeLatticeSingleSiteUpdate_.select (psi x) ordered.1.2 ordered.2.2
      rand_num).1 with
  | .none => x
  | .rotate1 => ordered.1.1
  | .rotate2 => ordered.2.1

/-! ## vmc_peps_impl.h: the dump of a vector -/

/-- The function `DumpVecData` (vmc_peps_impl.h, lines 22-33): the content of the file that it
writes.  `text datum` is what `ofs << datum` writes for one value (the formatting of the stream
library); `std::endl` writes one newline character (and flushes). -/
def DumpVecData {DataType : Type} (text : DataType → String) (data : List DataType) : String :=
  let ofs := data.foldl (fun ofs datum => ofs ++ text datum ++ "\n") ""
  ofs ++ "\n"

namespace Demo

/-- The configuration `0 1 0 1` of a `1 × 4` lattice. -/
def config0101 : Configuration := { rows := 1, cols := 4, val := fun site => site.2 % 2 }

/-- The process right after the construction of the sample of `config0101`. -/
def proc0101 : Proc ℚ Unit :=
  { tps_sample := TPSSample.init engine sitps config0101 (), random_engine := 0,
    nn_trace_calls := 0, warnings := 0 }

end Demo

/-! ## `SampleMeasure` with an exact engine -/

/-- One sample recorded by `SampleEnergyAndHols_`: the local energy `energy_loc` and, for every
site and component, the tensor added to `gten_sum_`: `gten` in the component of the current basis
value of the site, nothing in the other components. -/
structure GradSample (Ten : Type) where
  energy_loc : ℚ
  gten : SplitIndexTPS Ten

/-- The sample that `SampleEnergyAndHols_` records in the state `e` (lines 338-353):
`gten = inv_psi * holes(site)` in the component `basis = config(site)` of every site of the
lattice. -/
def SampleEnergyAndHols_.sample [AddCommGroup Ten] [Module ℚ Ten] (V : Environment Ten Cache)
    (e : VMCPEPSExecutor Ten Cache) : GradSample Ten :=
  let holes : TensorNetwork2D Ten Cache :=
    { rows := e.ly_, cols := e.lx_, ten := fun _ => V.lib.Tensor, cache := V.empty }
  let st := V.CalEnergyAndHoles e.split_index_tps_ e.tps_sample_ holes
  let inv_psi : ℚ := 1.0 / st.proc.tps_sample.amplitude
  { energy_loc := st.energy
    gten := fun site compt =>
      if decide (site ∈ lattice e.ly_ e.lx_) &&
          decide (compt = st.proc.tps_sample.config.val site) then
        inv_psi • st.hole_res.ten site
      else 0 }

/-- The method `VMCPEPSExecutor::DumpData` (lines 586-608) on one process.  The files are outside
the model (the `Dump` methods belong to classes declared outside the sources), so the call is
recorded in the ghost log only. -/
def DumpData (e : VMCPEPSExecutor Ten Cache) : VMCPEPSExecutor Ten Cache :=
  e.record .dump

/-- The method `VMCPEPSExecutor::Execute` (lines 213-221) for the whole communicator: `WarmUp_`
on every process, `OptimizeTPS_`, the empty `Measure_` (lines 554-557) and `DumpData`.
`SetStatus` writes a member that no function of the sources reads. -/
def Execute [AddCommGroup Ten] [Module ℚ Ten] (V : Environment Ten Cache)
    (u_double : Nat → Nat → ℚ) (world : World Ten Cache) :
    Outcome (World Ten Cache) (World Ten Cache) :=
  match World.each (fun rank e => WarmUp_ V (u_double rank) e) 0 world with
  | .exit code w => .exit code w
  | .ret world =>
    match OptimizeTPS_ V u_double world with
    | .exit code w => .exit code w
    | .ret world => .ret (world.map DumpData)

/-- The calls that a program makes on the executors after their construction (the constructors
set `warm_up_` to `false`, lines 125 and 143; the constructor of line 136 then calls
`LoadTenData`).  A call of `LoadTenData` carries what the files hold: the wavefunction, and the
configuration of every rank. -/
inductive Call (Ten : Type) where
  | WarmUp_
  | LoadTenData (wavefunction_file : Option (SplitIndexTPS Ten))
      (config_file : Nat → Option Configuration)
  | Execute

/-- One call made by every process of the communicator. -/
def World.call [AddCommGroup Ten] [Module ℚ Ten] (V : Environment Ten Cache)
    (u_double : Nat → Nat → ℚ) (c : Call Ten) (world : World Ten Cache) :
    Outcome (World Ten Cache) (World Ten Cache) :=
  match c with
  | .WarmUp_ => World.each (fun rank e => WarmUp_ V (u_double rank) e) 0 world
  | .LoadTenData wavefunction_file config_file =>
    World.each (fun rank e =>
      LoadTenData V (u_double rank) wavefunction_file (config_file rank) e) 0 world
  | .Execute => Execute V u_double world

/-- A run: the calls are made one after the other, until a process exits. -/
def World.run [AddCommGroup Ten] [Module ℚ Ten] (V : Environment Ten Cache)
    (u_double : Nat → Nat → ℚ) : List (Call Ten) → World Ten Cache →
      Outcome (World Ten Cache) (World Ten Cache)
  | [], world => .ret world
  | c :: calls, world =>
    match World.call V u_double c world with
    | .ret world => World.run V u_double calls world
    | .exit code w => .exit code w

/-- Ghost count: the passes through the guarded body of `WarmUp_` (lines 226-234) that a call of
`WarmUp_` makes on the process `e`: one if `warm_up_` is not set, none otherwise. -/
def WarmUp_.passes (e : VMCPEPSExecutor Ten Cache) : Nat :=
  if !e.warm_up_ then 1 else 0

/-- Ghost count: the passes through the body of `WarmUp_` that a call makes on the process `e`
of rank `rank`.  `WarmUp_` and `Execute` call `WarmUp_` on entry; `LoadTenData` calls it only
when the wavefunction loads and the configuration does not (line 581), after building the
sample, which does not write the flag. -/
def Call.passes (c : Call Ten) (rank : Nat) (e : VMCPEPSExecutor Ten Cache) : Nat :=
  match c with
  | .WarmUp_ => WarmUp_.passes e
  | .LoadTenData wavefunction_file config_file =>
    match wavefunction_file, config_file rank with
    | some _, none => WarmUp_.passes e
    | _, _ => 0
  | .Execute => WarmUp_.passes e

/-- Ghost count: the passes through the body of `WarmUp_` that the process of rank `rank` makes
in a run. -/
def World.passes [AddCommGroup Ten] [Module ℚ Ten] (V : Environment Ten Cache)
    (u_double : Nat → Nat → ℚ) : List (Call Ten) → World Ten Cache → Nat → Nat
  | [], _, _ => 0
  | c :: calls, world, rank =>
    (match world[rank]? with
      | some e => c.passes rank e
      | none => 0) +
    (match World.call V u_double c world with
      | .ret world => World.passes V u_double calls world rank
      | .exit _ _ => 0)

/-! ## Helper lemmas on `ExchangeUpdate` -/

theorem ExchangeUpdate_fst_of_ne (E : ContractionEngine Ten Cache) (site1 site2 : SiteIdx)
    (bond_dir : BondOrientation) (sitps : SplitIndexTPS Ten) (u_double : Nat → ℚ)
    (p : Proc Ten Cache)
    (hne : p.tps_sample.config.val site1 ≠ p.tps_sample.config.val site2) :
    (ExchangeUpdate E site1 site2 bond_dir sitps u_double p).1 = true ↔
      (|p.tps_sample.amplitude| ≤ |ExchangeUpdate.psi_b E site1 site2 bond_dir sitps p.tps_sample|
        ∨ u_double p.random_engine <
          ExchangeUpdate.P p.tps_sample.amplitude
            (ExchangeUpdate.psi_b E site1 site2 bond_dir sitps p.tps_sample)) := by
  unfold ExchangeUpdate
  rw [if_neg hne]
  by_cases h1 : |p.tps_sample.amplitude| ≤
      |ExchangeUpdate.psi_b E site1 site2 bond_dir sitps p.tps_sample|
  · simp [h1]
  · by_cases h2 : u_double p.random_engine <
        ExchangeUpdate.P p.tps_sample.amplitude
          (ExchangeUpdate.psi_b E site1 site2 bond_dir sitps p.tps_sample)
    · simp [h1, h2]
    · simp [h1, h2]

theorem ExchangeUpdate_P_eq (psi_a psi_b : ℚ) :
    ExchangeUpdate.P psi_a psi_b = (|psi_b| / |psi_a|) ^ 2 := by
  simp [ExchangeUpdate.P, pow_two]

theorem ExchangeUpdate_P_bounds (psi_a psi_b : ℚ) (h : |psi_b| < |psi_a|) :
    0 ≤ ExchangeUpdate.P psi_a psi_b ∧ ExchangeUpdate.P psi_a psi_b < 1 := by
  rw [ExchangeUpdate_P_eq]
  have ha : 0 < |psi_a| := lt_of_le_of_lt (abs_nonneg psi_b) h
  have h0 : 0 ≤ |psi_b| / |psi_a| := div_nonneg (abs_nonneg _) ha.le
  have h1 : |psi_b| / |psi_a| < 1 := (div_lt_one ha).mpr h
  constructor
  · positivity
  · exact pow_lt_one₀ h0 h1 (by norm_num)

/-! ## The Metropolis rule of `ExchangeUpdate` -/

/-- The Metropolis rule in exact arithmetic: for two sites holding different values, a current
amplitude `psi_a ≠ 0`, the proposed amplitude `psi_b` and a draw `u` in `[0,1)`, `ExchangeUpdate`
with the exact `P` accepts exactly when `u < min(1, (|psi_b|/|psi_a|)^2)`; the exact `P` of the
branch `|psi_b| < |psi_a|` lies in `[0,1]`; and when `|psi_b| ≥ |psi_a|` the move is accepted
whatever the stream of draws, also for `psi_a = 0`.  The doubles of the source round the
quotient and the product, and the product underflows to `0` for small ratios, so the
equivalence is one of the exact rule only. -/
theorem ExchangeUpdate_metropolis (E : ContractionEngine Ten Cache) (site1 site2 : SiteIdx)
    (bond_dir : BondOrientation) (sitps : SplitIndexTPS Ten) (u_double : Nat → ℚ)
    (p : Proc Ten Cache)
    (hne : p.tps_sample.config.val site1 ≠ p.tps_sample.config.val site2) :
    (p.tps_sample.amplitude ≠ 0 → 0 ≤ u_double p.random_engine →
      u_double p.random_engine < 1 →
      ((ExchangeUpdate E site1 site2 bond_dir sitps u_double p).1 = true ↔
        u_double p.random_engine <
          min 1 ((|ExchangeUpdate.psi_b E site1 site2 bond_dir sitps p.tps_sample| /
            |p.tps_sample.amplitude|) ^ 2))) ∧
    (|ExchangeUpdate.psi_b E site1 site2 bond_dir sitps p.tps_sample| <
        |p.tps_sample.amplitude| →
      0 ≤ ExchangeUpdate.P p.tps_sample.amplitude
          (ExchangeUpdate.psi_b E site1 site2 bond_dir sitps p.tps_sample) ∧
      ExchangeUpdate.P p.tps_sample.amplitude
          (ExchangeUpdate.psi_b E site1 site2 bond_dir sitps p.tps_sample) ≤ 1) ∧
    (|p.tps_sample.amplitude| ≤
        |ExchangeUpdate.psi_b E site1 site2 bond_dir sitps p.tps_sample| →
      ∀ u_any : Nat → ℚ, (ExchangeUpdate E site1 site2 bond_dir sitps u_any p).1 = true) := by
  refine ⟨?_, ?_, ?_⟩
  · intro ha _ hu1
    rw [ExchangeUpdate_fst_of_ne E site1 site2 bond_dir sitps u_double p hne,
      ExchangeUpdate_P_eq]
    have hpos : 0 < |p.tps_sample.amplitude| := abs_pos.mpr ha
    by_cases h : |p.tps_sample.amplitude| ≤
        |ExchangeUpdate.psi_b E site1 site2 bond_dir sitps p.tps_sample|
    · have h1 : 1 ≤ (|ExchangeUpdate.psi_b E site1 site2 bond_dir sitps p.tps_sample| /
          |p.tps_sample.amplitude|) ^ 2 :=
        one_le_pow₀ ((one_le_div hpos).mpr h)
      rw [min_eq_left h1]
      exact ⟨fun _ => hu1, fun _ => Or.inl h⟩
    · have hlt := (ExchangeUpdate_P_bounds _ _ (not_le.mp h)).2
      rw [ExchangeUpdate_P_eq] at hlt
      rw [min_eq_right hlt.le]
      exact ⟨fun hor => hor.resolve_left h, fun hu => Or.inr hu⟩
  · intro h
    exact ⟨(ExchangeUpdate_P_bounds _ _ h).1, (ExchangeUpdate_P_bounds _ _ h).2.le⟩
  · intro h u_any
    exact (ExchangeUpdate_fst_of_ne E site1 site2 bond_dir sitps u_any p hne).mpr (Or.inl h)

theorem Demo.proc01_amplitude : Demo.proc01.tps_sample.amplitude = 3 := by
  norm_num [Demo.proc01, TPSSample.init, Demo.engine, Demo.contract, TensorNetwork2D.run,
    TensorNetwork2D.ofConfig, Demo.config01, Demo.sitps, Finset.prod_range_succ]

theorem Demo.proc01_config (site : SiteIdx) :
    Demo.proc01.tps_sample.config.val site = site.2 := rfl

theorem Demo.proc01_psi_b (dir : BondOrientation) :
    ExchangeUpdate.psi_b Demo.engine (0, 0) (0, 1) dir Demo.sitps Demo.proc01.tps_sample = 2 := by
  norm_num [ExchangeUpdate.psi_b, Demo.proc01, TPSSample.init, Demo.engine, Demo.contract,
    TensorNetwork2D.run, TensorNetwork2D.ofConfig, Demo.config01, Demo.sitps,
    Finset.prod_range_succ, Function.update]

/-- Witness of `ExchangeUpdate_metropolis`: the `1 × 2` product state with configuration `0 1`,
amplitude `3`, proposed amplitude `2` and the draw `1/4`. -/
theorem ExchangeUpdate_metropolis_witness :
    Demo.proc01.tps_sample.config.val (0, 0) ≠ Demo.proc01.tps_sample.config.val (0, 1) ∧
    Demo.proc01.tps_sample.amplitude ≠ 0 ∧
    ((ExchangeUpdate Demo.engine (0, 0) (0, 1) .HORIZONTAL Demo.sitps (fun _ => 1 / 4)
        Demo.proc01).1 = true ↔
      (1 / 4 : ℚ) < min 1
        ((|ExchangeUpdate.psi_b Demo.engine (0, 0) (0, 1) .HORIZONTAL Demo.sitps
            Demo.proc01.tps_sample| / |Demo.proc01.tps_sample.amplitude|) ^ 2)) :=
  ⟨by simp [Demo.proc01_config], by simp [Demo.proc01_amplitude],
    (ExchangeUpdate_metropolis Demo.engine (0, 0) (0, 1) .HORIZONTAL Demo.sitps (fun _ => 1 / 4)
      Demo.proc01 (by simp [Demo.proc01_config])).1
      (by simp [Demo.proc01_amplitude]) (by norm_num) (by norm_num)⟩

theorem ExchangeUpdate_sample_of_ne (E : ContractionEngine Ten Cache) (site1 site2 : SiteIdx)
    (bond_dir : BondOrientation) (sitps : SplitIndexTPS Ten) (u_double : Nat → ℚ)
    (p : Proc Ten Cache)
    (hne : p.tps_sample.config.val site1 ≠ p.tps_sample.config.val site2) :
    (ExchangeUpdate E site1 site2 bond_dir sitps u_double p).2.tps_sample =
      if (ExchangeUpdate E site1 site2 bond_dir sitps u_double p).1 = true then
        ExchangeUpdate.commit site1 site2 sitps
          (ExchangeUpdate.psi_b E site1 site2 bond_dir sitps p.tps_sample) p.tps_sample
      else p.tps_sample := by
  unfold ExchangeUpdate
  rw [if_neg hne]
  by_cases h1 : |p.tps_sample.amplitude| ≤
      |ExchangeUpdate.psi_b E site1 site2 bond_dir sitps p.tps_sample|
  · simp [h1]
  · by_cases h2 : u_double p.random_engine <
        ExchangeUpdate.P p.tps_sample.amplitude
          (ExchangeUpdate.psi_b E site1 site2 bond_dir sitps p.tps_sample)
    · simp [h1, h2]
    · simp [h1, h2]

theorem ExchangeUpdate_of_eq (E : ContractionEngine Ten Cache) (site1 site2 : SiteIdx)
    (bond_dir : BondOrientation) (sitps : SplitIndexTPS Ten) (u_double : Nat → ℚ)
    (p : Proc Ten Cache)
    (heq : p.tps_sample.config.val site1 = p.tps_sample.config.val site2) :
    ExchangeUpdate E site1 site2 bond_dir sitps u_double p = (true, p) := by
  unfold ExchangeUpdate
  rw [if_pos heq]

theorem ExchangeUpdate_sample_cases (E : ContractionEngine Ten Cache) (site1 site2 : SiteIdx)
    (bond_dir : BondOrientation) (sitps : SplitIndexTPS Ten) (u_double : Nat → ℚ)
    (p : Proc Ten Cache) :
    (ExchangeUpdate E site1 site2 bond_dir sitps u_double p).2.tps_sample = p.tps_sample ∨
    (p.tps_sample.config.val site1 ≠ p.tps_sample.config.val site2 ∧
      (ExchangeUpdate E site1 site2 bond_dir sitps u_double p).2.tps_sample =
        ExchangeUpdate.commit site1 site2 sitps
          (ExchangeUpdate.psi_b E site1 site2 bond_dir sitps p.tps_sample) p.tps_sample) := by
  by_cases heq : p.tps_sample.config.val site1 = p.tps_sample.config.val site2
  · left
    rw [ExchangeUpdate_of_eq E site1 site2 bond_dir sitps u_double p heq]
  · rw [ExchangeUpdate_sample_of_ne E site1 site2 bond_dir sitps u_double p heq]
    by_cases hacc : (ExchangeUpdate E site1 site2 bond_dir sitps u_double p).1 = true
    · right
      exact ⟨heq, by rw [if_pos hacc]⟩
    · left
      rw [if_neg hacc]

/-- C2: for two sites holding different values, an accepted `ExchangeUpdate` returns `true`
(the first component), exchanges the two configuration entries and keeps every other entry, puts
at each of the two sites of the network the wavefunction tensor of that site for its new value,
and stores the proposed amplitude `psi_b`; a rejected one returns `false` and leaves
configuration, network and amplitude unchanged. -/
theorem ExchangeUpdate_effect (E : ContractionEngine Ten Cache) (site1 site2 : SiteIdx)
    (bond_dir : BondOrientation) (sitps : SplitIndexTPS Ten) (u_double : Nat → ℚ)
    (p : Proc Ten Cache)
    (hne : p.tps_sample.config.val site1 ≠ p.tps_sample.config.val site2) :
    ((ExchangeUpdate E site1 site2 bond_dir sitps u_double p).1 = true →
      (ExchangeUpdate E site1 site2 bond_dir sitps u_double p).2.tps_sample.config.val site1 =
        p.tps_sample.config.val site2 ∧
      (ExchangeUpdate E site1 site2 bond_dir sitps u_double p).2.tps_sample.config.val site2 =
        p.tps_sample.config.val site1 ∧
      (∀ site, site ≠ site1 → site ≠ site2 →
        (ExchangeUpdate E site1 site2 bond_dir sitps u_double p).2.tps_sample.config.val site =
          p.tps_sample.config.val site) ∧
      (ExchangeUpdate E site1 site2 bond_dir sitps u_double p).2.tps_sample.tn.ten site1 =
        sitps site1
          ((ExchangeUpdate E site1 site2 bond_dir sitps u_double p).2.tps_sample.config.val
            site1) ∧
      (ExchangeUpdate E site1 site2 bond_dir sitps u_double p).2.tps_sample.tn.ten site2 =
        sitps site2
          ((ExchangeUpdate E site1 site2 bond_dir sitps u_double p).2.tps_sample.config.val
            site2) ∧
      (ExchangeUpdate E site1 site2 bond_dir sitps u_double p).2.tps_sample.amplitude =
        ExchangeUpdate.psi_b E site1 site2 bond_dir sitps p.tps_sample) ∧
    ((ExchangeUpdate E site1 site2 bond_dir sitps u_double p).1 = false →
      (ExchangeUpdate E site1 site2 bond_dir sitps u_double p).2.tps_sample = p.tps_sample) := by
  have hsite : site1 ≠ site2 := fun h => hne (by rw [h])
  rw [ExchangeUpdate_sample_of_ne E site1 site2 bond_dir sitps u_double p hne]
  constructor
  · intro hacc
    rw [if_pos hacc]
    refine ⟨?_, ?_, ?_, ?_, ?_, rfl⟩
    · simp [ExchangeUpdate.commit, Configuration.swap, Function.update_noteq hsite]
    · simp [ExchangeUpdate.commit, Configuration.swap]
    · intro site h1 h2
      simp [ExchangeUpdate.commit, Configuration.swap, Function.update_noteq h1,
        Function.update_noteq h2]
    · simp [ExchangeUpdate.commit, Configuration.swap, TensorNetwork2D.UpdateSiteConfig,
        Function.update_noteq hsite]
    · simp [ExchangeUpdate.commit, Configuration.swap, TensorNetwork2D.UpdateSiteConfig]
  · intro hrej
    rw [if_neg (by simp [hrej])]

/-- Witness of `ExchangeUpdate_effect`: the `1 × 2` product state with configuration `0 1`
(amplitude `3`, proposed amplitude `2`), with the draw `1 / 2` for the rejected branch and the
draw `1 / 4` for the accepted one. -/
theorem ExchangeUpdate_effect_witness :
    Demo.proc01.tps_sample.config.val (0, 0) ≠ Demo.proc01.tps_sample.config.val (0, 1) ∧
    ((ExchangeUpdate Demo.engine (0, 0) (0, 1) .HORIZONTAL Demo.sitps (fun _ => 1 / 2)
        Demo.proc01).1 = false →
      (ExchangeUpdate Demo.engine (0, 0) (0, 1) .HORIZONTAL Demo.sitps (fun _ => 1 / 2)
        Demo.proc01).2.tps_sample = Demo.proc01.tps_sample) ∧
    ((ExchangeUpdate Demo.engine (0, 0) (0, 1) .HORIZONTAL Demo.sitps (fun _ => 1 / 4)
        Demo.proc01).1 = true →
      (ExchangeUpdate Demo.engine (0, 0) (0, 1) .HORIZONTAL Demo.sitps (fun _ => 1 / 4)
        Demo.proc01).2.tps_sample.config.val (0, 0) = Demo.proc01.tps_sample.config.val (0, 1)) :=
  ⟨by simp [Demo.proc01_config],
    (ExchangeUpdate_effect Demo.engine (0, 0) (0, 1) .HORIZONTAL Demo.sitps (fun _ => 1 / 2)
      Demo.proc01 (by simp [Demo.proc01_config])).2,
    fun h => ((ExchangeUpdate_effect Demo.engine (0, 0) (0, 1) .HORIZONTAL Demo.sitps
      (fun _ => 1 / 4) Demo.proc01 (by simp [Demo.proc01_config])).1 h).1⟩

/-- C3: when the two sites hold the same local basis value, `ExchangeUpdate` returns `true` and
leaves the configuration, the network and the amplitude unchanged; it evaluates no proposed
amplitude (the count of `ReplaceNNSiteTrace` calls is unchanged) and consumes no random draw
(the engine state is unchanged). -/
theorem ExchangeUpdate_same_value (E : ContractionEngine Ten Cache) (site1 site2 : SiteIdx)
    (bond_dir : BondOrientation) (sitps : SplitIndexTPS Ten) (u_double : Nat → ℚ)
    (p : Proc Ten Cache)
    (heq : p.tps_sample.config.val site1 = p.tps_sample.config.val site2) :
    (ExchangeUpdate E site1 site2 bond_dir sitps u_double p).1 = true ∧
    (ExchangeUpdate E site1 site2 bond_dir sitps u_double p).2.tps_sample.config =
      p.tps_sample.config ∧
    (ExchangeUpdate E site1 site2 bond_dir sitps u_double p).2.tps_sample.tn = p.tps_sample.tn ∧
    (ExchangeUpdate E site1 site2 bond_dir sitps u_double p).2.tps_sample.amplitude =
      p.tps_sample.amplitude ∧
    (ExchangeUpdate E site1 site2 bond_dir sitps u_double p).2.nn_trace_calls =
      p.nn_trace_calls ∧
    (ExchangeUpdate E site1 site2 bond_dir sitps u_double p).2.random_engine =
      p.random_engine := by
  rw [ExchangeUpdate_of_eq E site1 site2 bond_dir sitps u_double p heq]
  exact ⟨rfl, rfl, rfl, rfl, rfl, rfl⟩

/-- Witness of `ExchangeUpdate_same_value`: the `1 × 2` product state with configuration
`1 1`. -/
theorem ExchangeUpdate_same_value_witness :
    Demo.proc11.tps_sample.config.val (0, 0) = Demo.proc11.tps_sample.config.val (0, 1) ∧
    (ExchangeUpdate Demo.engine (0, 0) (0, 1) .HORIZONTAL Demo.sitps (fun _ => 0)
      Demo.proc11).1 = true ∧
    (ExchangeUpdate Demo.engine (0, 0) (0, 1) .HORIZONTAL Demo.sitps (fun _ => 0)
      Demo.proc11).2.nn_trace_calls = Demo.proc11.nn_trace_calls :=
  ⟨rfl,
    (ExchangeUpdate_same_value Demo.engine (0, 0) (0, 1) .HORIZONTAL Demo.sitps (fun _ => 0)
      Demo.proc11 rfl).1,
    (ExchangeUpdate_same_value Demo.engine (0, 0) (0, 1) .HORIZONTAL Demo.sitps (fun _ => 0)
      Demo.proc11 rfl).2.2.2.2.1⟩

/-! ## Exchange moves permute the configuration -/

theorem foldl_invariant {α β : Type} (P : α → Prop) (f : α → β → α) (l : List β) (a : α)
    (h0 : P a) (hstep : ∀ a b, b ∈ l → P a → P (f a b)) : P (l.foldl f a) := by
  induction l generalizing a with
  | nil => exact h0
  | cons x xs ih =>
    rw [List.foldl_cons]
    exact ih (f a x) (hstep a x (List.mem_cons_self x xs) h0)
      (fun a b hb hP => hstep a b (List.mem_cons_of_mem x hb) hP)

theorem Configuration.swap_val (c : Configuration) (a b : SiteIdx) :
    (c.swap a b).val = c.val ∘ Equiv.swap a b := by
  funext s
  simp only [Configuration.swap, Function.comp_apply]
  by_cases hb : s = b
  · subst hb
    simp
  · by_cases ha : s = a
    · subst ha
      simp [Function.update_noteq hb]
    · simp [Function.update_noteq hb, Function.update_noteq ha,
        Equiv.swap_apply_of_ne_of_ne ha hb]

theorem map_swap_val (S : Finset SiteIdx) (a b : SiteIdx) (h : a ∈ S ↔ b ∈ S) :
    S.val.map (Equiv.swap a b) = S.val := by
  by_cases ha : a ∈ S
  · have hb : b ∈ S := h.mp ha
    have hperm : S.map (Equiv.swap a b).toEmbedding = S := by
      apply Finset.map_perm
      intro x hx
      simp only [Set.mem_setOf_eq] at hx
      by_cases hxa : x = a
      · subst hxa; exact ha
      · by_cases hxb : x = b
        · subst hxb; exact hb
        · exact absurd (Equiv.swap_apply_of_ne_of_ne hxa hxb) hx
    have := congrArg Finset.val hperm
    simpa [Finset.map_val] using this
  · have hb : b ∉ S := fun hb => ha (h.mpr hb)
    have : S.val.map (Equiv.swap a b) = S.val.map id := by
      apply Multiset.map_congr rfl
      intro x hx
      have hxa : x ≠ a := fun e => ha (e ▸ hx)
      have hxb : x ≠ b := fun e => hb (e ▸ hx)
      simp [Equiv.swap_apply_of_ne_of_ne hxa hxb]
    simpa using this

theorem Configuration.swap_valuesOn (c : Configuration) (S : Finset SiteIdx) (a b : SiteIdx)
    (h : a ∈ S ↔ b ∈ S) : (c.swap a b).valuesOn S = c.valuesOn S := by
  unfold Configuration.valuesOn
  rw [Configuration.swap_val, ← Multiset.map_map, map_swap_val S a b h]

theorem ExchangeUpdate_valuesOn (E : ContractionEngine Ten Cache) (site1 site2 : SiteIdx)
    (bond_dir : BondOrientation) (sitps : SplitIndexTPS Ten) (u_double : Nat → ℚ)
    (p : Proc Ten Cache) (S : Finset SiteIdx) (h : site1 ∈ S ↔ site2 ∈ S) :
    (ExchangeUpdate E site1 site2 bond_dir sitps u_double p).2.tps_sample.config.valuesOn S =
      p.tps_sample.config.valuesOn S := by
  rcases ExchangeUpdate_sample_cases E site1 site2 bond_dir sitps u_double p with h1 | ⟨_, h1⟩
  · rw [h1]
  · rw [h1]
    exact Configuration.swap_valuesOn _ S site1 site2 h

theorem ExchangeUpdate_dims (E : ContractionEngine Ten Cache) (site1 site2 : SiteIdx)
    (bond_dir : BondOrientation) (sitps : SplitIndexTPS Ten) (u_double : Nat → ℚ)
    (p : Proc Ten Cache) :
    (ExchangeUpdate E site1 site2 bond_dir sitps u_double p).2.dims = p.dims := by
  unfold Proc.dims
  rcases ExchangeUpdate_sample_cases E site1 site2 bond_dir sitps u_double p with h1 | ⟨_, h1⟩
  · rw [h1]
  · rw [h1]
    rfl

theorem Proc.tnRun_dims (E : ContractionEngine Ten Cache) (op : BoundaryOp)
    (p : Proc Ten Cache) : (p.tnRun E op).dims = p.dims := rfl

theorem Proc.tnRun_config (E : ContractionEngine Ten Cache) (op : BoundaryOp)
    (p : Proc Ten Cache) : (p.tnRun E op).tps_sample.config = p.tps_sample.config := rfl

theorem subSize_one_lt (n k : Nat) (h : k < subSize n 1) : n = 0 ∨ k + 1 < n := by
  unfold subSize at h
  omega

theorem subSize_eq_sub (n k : Nat) (hk : k ≤ n) (hn : n < 2 ^ 64) : subSize n k = n - k := by
  unfold subSize
  omega

/-- The invariant carried through the loops of a sweep: the dimensions and the multiset of the
values on a fixed region. -/
theorem hStep_invariant (E : ContractionEngine Ten Cache) (sitps : SplitIndexTPS Ten)
    (u_double : Nat → ℚ) (cols row col : Nat) (st : Nat × Proc Ten Cache) (S : Finset SiteIdx)
    (hS : ((row, col) : SiteIdx) ∈ S ↔ ((row, col + 1) : SiteIdx) ∈ S) :
    (MCSequentiallyNNFlipSweep.hStep E sitps u_double cols row st col).2.dims = st.2.dims ∧
    (MCSequentiallyNNFlipSweep.hStep E sitps u_double cols row st col).2.tps_sample.config.valuesOn
      S = st.2.tps_sample.config.valuesOn S := by
  unfold MCSequentiallyNNFlipSweep.hStep
  by_cases h : col < subSize cols 2
  · simp only [h, if_true, Proc.tnRun_dims, Proc.tnRun_config]
    exact ⟨ExchangeUpdate_dims _ _ _ _ _ _ _, ExchangeUpdate_valuesOn _ _ _ _ _ _ _ S hS⟩
  · simp only [h, if_false]
    exact ⟨ExchangeUpdate_dims _ _ _ _ _ _ _, ExchangeUpdate_valuesOn _ _ _ _ _ _ _ S hS⟩

theorem vStep_invariant (E : ContractionEngine Ten Cache) (sitps : SplitIndexTPS Ten)
    (u_double : Nat → ℚ) (rows row col : Nat) (st : Nat × Proc Ten Cache) (S : Finset SiteIdx)
    (hS : ((row, col) : SiteIdx) ∈ S ↔ ((row + 1, col) : SiteIdx) ∈ S) :
    (MCSequentiallyNNFlipSweep.vStep E sitps u_double rows col st row).2.dims = st.2.dims ∧
    (MCSequentiallyNNFlipSweep.vStep E sitps u_double rows col st row).2.tps_sample.config.valuesOn
      S = st.2.tps_sample.config.valuesOn S := by
  unfold MCSequentiallyNNFlipSweep.vStep
  by_cases h : row < subSize rows 2
  · simp only [h, if_true, Proc.tnRun_dims, Proc.tnRun_config]
    exact ⟨ExchangeUpdate_dims _ _ _ _ _ _ _, ExchangeUpdate_valuesOn _ _ _ _ _ _ _ S hS⟩
  · simp only [h, if_false]
    exact ⟨ExchangeUpdate_dims _ _ _ _ _ _ _, ExchangeUpdate_valuesOn _ _ _ _ _ _ _ S hS⟩

theorem hRow_invariant (E : ContractionEngine Ten Cache) (sitps : SplitIndexTPS Ten)
    (u_double : Nat → ℚ) (rows cols row : Nat) (st : Nat × Proc Ten Cache) (S : Finset SiteIdx)
    (hS : ∀ r c, c < subSize cols 1 → (((r, c) : SiteIdx) ∈ S ↔ ((r, c + 1) : SiteIdx) ∈ S)) :
    (MCSequentiallyNNFlipSweep.hRow E sitps u_double rows cols st row).2.dims = st.2.dims ∧
    (MCSequentiallyNNFlipSweep.hRow E sitps u_double rows cols st row).2.tps_sample.config.valuesOn
      S = st.2.tps_sample.config.valuesOn S := by
  unfold MCSequentiallyNNFlipSweep.hRow
  have key := foldl_invariant
    (fun q : Nat × Proc Ten Cache => q.2.dims = st.2.dims ∧
      q.2.tps_sample.config.valuesOn S = st.2.tps_sample.config.valuesOn S)
    (MCSequentiallyNNFlipSweep.hStep E sitps u_double cols row)
    (List.range (subSize cols 1))
    (st.1, (st.2.tnRun E (.InitBTen .LEFT row)).tnRun E (.GrowFullBTen .RIGHT row 2 true))
    ⟨rfl, rfl⟩
    (fun a b hb hP => by
      have hb' := List.mem_range.mp hb
      have h3 := hStep_invariant E sitps u_double cols row b a S (hS row b hb')
      constructor
      · rw [h3.1]; exact hP.1
      · rw [h3.2]; exact hP.2)
  by_cases h : row < subSize rows 1
  · simp only [h, if_true, Proc.tnRun_dims, Proc.tnRun_config]
    exact key
  · simp only [h, if_false]
    exact key

theorem vCol_invariant (E : ContractionEngine Ten Cache) (sitps : SplitIndexTPS Ten)
    (u_double : Nat → ℚ) (rows cols col : Nat) (st : Nat × Proc Ten Cache) (S : Finset SiteIdx)
    (hS : ∀ r c, r < subSize rows 1 → (((r, c) : SiteIdx) ∈ S ↔ ((r + 1, c) : SiteIdx) ∈ S)) :
    (MCSequentiallyNNFlipSweep.vCol E sitps u_double rows cols st col).2.dims = st.2.dims ∧
    (MCSequentiallyNNFlipSweep.vCol E sitps u_double rows cols st col).2.tps_sample.config.valuesOn
      S = st.2.tps_sample.config.valuesOn S := by
  unfold MCSequentiallyNNFlipSweep.vCol
  have key := foldl_invariant
    (fun q : Nat × Proc Ten Cache => q.2.dims = st.2.dims ∧
      q.2.tps_sample.config.valuesOn S = st.2.tps_sample.config.valuesOn S)
    (MCSequentiallyNNFlipSweep.vStep E sitps u_double rows col)
    (List.range (subSize rows 1))
    (st.1, (st.2.tnRun E (.InitBTen .UP col)).tnRun E (.GrowFullBTen .DOWN col 2 true))
    ⟨rfl, rfl⟩
    (fun a b hb hP => by
      have hb' := List.mem_range.mp hb
      have h3 := vStep_invariant E sitps u_double rows b col a S (hS b col hb')
      constructor
      · rw [h3.1]; exact hP.1
      · rw [h3.2]; exact hP.2)
  by_cases h : col < subSize cols 1
  · simp only [h, if_true, Proc.tnRun_dims, Proc.tnRun_config]
    exact key
  · simp only [h, if_false]
    exact key

theorem hPass_invariant (E : ContractionEngine Ten Cache) (sitps : SplitIndexTPS Ten)
    (u_double : Nat → ℚ) (st : Nat × Proc Ten Cache) (S : Finset SiteIdx)
    (hS : ∀ r c, c < subSize st.2.tps_sample.tn.cols 1 →
      (((r, c) : SiteIdx) ∈ S ↔ ((r, c + 1) : SiteIdx) ∈ S)) :
    (MCSequentiallyNNFlipSweep.hPass E sitps u_double st).2.dims = st.2.dims ∧
    (MCSequentiallyNNFlipSweep.hPass E sitps u_double st).2.tps_sample.config.valuesOn S =
      st.2.tps_sample.config.valuesOn S := by
  unfold MCSequentiallyNNFlipSweep.hPass
  simp only [Proc.tnRun_dims, Proc.tnRun_config]
  exact foldl_invariant
    (fun q : Nat × Proc Ten Cache => q.2.dims = st.2.dims ∧
      q.2.tps_sample.config.valuesOn S = st.2.tps_sample.config.valuesOn S)
    _ _ _ ⟨rfl, rfl⟩
    (fun a b _ hP => by
      have h3 := hRow_invariant E sitps u_double st.2.tps_sample.tn.rows
        st.2.tps_sample.tn.cols b a S hS
      constructor
      · rw [h3.1]; exact hP.1
      · rw [h3.2]; exact hP.2)

theorem vPass_invariant (E : ContractionEngine Ten Cache) (sitps : SplitIndexTPS Ten)
    (u_double : Nat → ℚ) (st : Nat × Proc Ten Cache) (S : Finset SiteIdx)
    (hS : ∀ r c, r < subSize st.2.tps_sample.tn.rows 1 →
      (((r, c) : SiteIdx) ∈ S ↔ ((r + 1, c) : SiteIdx) ∈ S)) :
    (MCSequentiallyNNFlipSweep.vPass E sitps u_double st).2.dims = st.2.dims ∧
    (MCSequentiallyNNFlipSweep.vPass E sitps u_double st).2.tps_sample.config.valuesOn S =
      st.2.tps_sample.config.valuesOn S := by
  unfold MCSequentiallyNNFlipSweep.vPass
  simp only [Proc.tnRun_dims, Proc.tnRun_config]
  exact foldl_invariant
    (fun q : Nat × Proc Ten Cache => q.2.dims = st.2.dims ∧
      q.2.tps_sample.config.valuesOn S = st.2.tps_sample.config.valuesOn S)
    _ _ _ ⟨rfl, rfl⟩
    (fun a b _ hP => by
      have h3 := vCol_invariant E sitps u_double st.2.tps_sample.tn.rows
        st.2.tps_sample.tn.cols b a S hS
      constructor
      · rw [h3.1]; exact hP.1
      · rw [h3.2]; exact hP.2)

theorem lattice_hclosed (rows cols r c : Nat) (h : c < subSize cols 1) :
    ((r, c) : SiteIdx) ∈ lattice rows cols ↔ ((r, c + 1) : SiteIdx) ∈ lattice rows cols := by
  have := subSize_one_lt cols c h
  simp only [lattice, Finset.mem_product, Finset.mem_range]
  omega

theorem lattice_vclosed (rows cols r c : Nat) (h : r < subSize rows 1) :
    ((r, c) : SiteIdx) ∈ lattice rows cols ↔ ((r + 1, c) : SiteIdx) ∈ lattice rows cols := by
  have := subSize_one_lt rows r h
  simp only [lattice, Finset.mem_product, Finset.mem_range]
  omega

theorem row_hclosed (cols row r c : Nat) (h : c < subSize cols 1) :
    ((r, c) : SiteIdx) ∈ ({row} : Finset Nat) ×ˢ Finset.range cols ↔
      ((r, c + 1) : SiteIdx) ∈ ({row} : Finset Nat) ×ˢ Finset.range cols := by
  have := subSize_one_lt cols c h
  simp only [Finset.mem_product, Finset.mem_range, Finset.mem_singleton]
  omega

theorem col_vclosed (rows col r c : Nat) (h : r < subSize rows 1) :
    ((r, c) : SiteIdx) ∈ Finset.range rows ×ˢ ({col} : Finset Nat) ↔
      ((r + 1, c) : SiteIdx) ∈ Finset.range rows ×ˢ ({col} : Finset Nat) := by
  have := subSize_one_lt rows r h
  simp only [Finset.mem_product, Finset.mem_range, Finset.mem_singleton]
  omega

theorem dims_eq_iff (p q : Proc Ten Cache) (h : q.dims = p.dims) :
    q.tps_sample.config.rows = p.tps_sample.config.rows ∧
    q.tps_sample.config.cols = p.tps_sample.config.cols ∧
    q.tps_sample.tn.rows = p.tps_sample.tn.rows ∧
    q.tps_sample.tn.cols = p.tps_sample.tn.cols := by
  unfold Proc.dims at h
  simp only [Prod.mk.injEq] at h
  exact ⟨h.1.1, h.1.2, h.2.1, h.2.2⟩

/-- C4: a finite sequence of `ExchangeUpdate` calls on pairs of lattice sites, whatever the
engine's amplitudes and the random draws, leaves the multiset of the local basis values over the
whole lattice unchanged, and hence their sum. -/
theorem ExchangeUpdate_seq_values (E : ContractionEngine Ten Cache) (sitps : SplitIndexTPS Ten)
    (u_double : Nat → ℚ) (calls : List (SiteIdx × SiteIdx × BondOrientation))
    (p : Proc Ten Cache)
    (hcalls : ∀ c ∈ calls,
      c.1 ∈ lattice p.tps_sample.config.rows p.tps_sample.config.cols ∧
      c.2.1 ∈ lattice p.tps_sample.config.rows p.tps_sample.config.cols) :
    (ExchangeUpdate.seq E sitps u_double calls p).tps_sample.config.values =
      p.tps_sample.config.values ∧
    (ExchangeUpdate.seq E sitps u_double calls p).tps_sample.config.Sum =
      p.tps_sample.config.Sum := by
  have key := foldl_invariant
    (fun q : Proc Ten Cache => q.dims = p.dims ∧
      q.tps_sample.config.valuesOn
          (lattice p.tps_sample.config.rows p.tps_sample.config.cols) =
        p.tps_sample.config.valuesOn
          (lattice p.tps_sample.config.rows p.tps_sample.config.cols))
    (fun p c => (ExchangeUpdate E c.1 c.2.1 c.2.2 sitps u_double p).2) calls p ⟨rfl, rfl⟩
    (by
      intro a c hc hP
      have h1 := ExchangeUpdate_dims E c.1 c.2.1 c.2.2 sitps u_double a
      have h2 := ExchangeUpdate_valuesOn E c.1 c.2.1 c.2.2 sitps u_double a
        (lattice p.tps_sample.config.rows p.tps_sample.config.cols)
        ⟨fun _ => (hcalls c hc).2, fun _ => (hcalls c hc).1⟩
      constructor
      · rw [h1]; exact hP.1
      · rw [h2]; exact hP.2)
  have hd := dims_eq_iff p _ key.1
  have hv : (ExchangeUpdate.seq E sitps u_double calls p).tps_sample.config.values =
      p.tps_sample.config.values := by
    unfold Configuration.values ExchangeUpdate.seq
    rw [hd.1, hd.2.1]
    exact key.2
  exact ⟨hv, by unfold Configuration.Sum; rw [hv]⟩

/-- Witness of `ExchangeUpdate_seq_values`: two calls on the bond of the `1 × 2` lattice. -/
theorem ExchangeUpdate_seq_values_witness :
    (∀ c ∈ [(((0, 0) : SiteIdx), ((0, 1) : SiteIdx), BondOrientation.HORIZONTAL),
          ((0, 1), (0, 0), BondOrientation.HORIZONTAL)],
      c.1 ∈ lattice Demo.proc01.tps_sample.config.rows Demo.proc01.tps_sample.config.cols ∧
      c.2.1 ∈ lattice Demo.proc01.tps_sample.config.rows Demo.proc01.tps_sample.config.cols) ∧
    (ExchangeUpdate.seq Demo.engine Demo.sitps (fun _ => 0)
      [((0, 0), (0, 1), .HORIZONTAL), ((0, 1), (0, 0), .HORIZONTAL)]
      Demo.proc01).tps_sample.config.values = Demo.proc01.tps_sample.config.values :=
  ⟨by decide,
    (ExchangeUpdate_seq_values Demo.engine Demo.sitps (fun _ => 0)
      [((0, 0), (0, 1), .HORIZONTAL), ((0, 1), (0, 0), .HORIZONTAL)] Demo.proc01
      (by decide)).1⟩

/-! ## Evaluation on the `1 × 2` lattice -/

theorem subSize_2_1 : subSize 2 1 = 1 := by norm_num [subSize]

theorem subSize_1_1 : subSize 1 1 = 0 := by norm_num [subSize]

theorem subSize_2_2 : subSize 2 2 = 0 := by norm_num [subSize]

theorem Demo.sweep01_config :
    (MCSequentiallyNNFlipSweep Demo.engine Demo.sitps (fun _ => 0)
        Demo.proc01).2.tps_sample.config.rows = 1 ∧
    (MCSequentiallyNNFlipSweep Demo.engine Demo.sitps (fun _ => 0)
        Demo.proc01).2.tps_sample.config.val (0, 0) = 1 := by
  constructor
  · norm_num [MCSequentiallyNNFlipSweep, MCSequentiallyNNFlipSweep.hPass,
      MCSequentiallyNNFlipSweep.vPass, MCSequentiallyNNFlipSweep.hRow,
      MCSequentiallyNNFlipSweep.vCol, MCSequentiallyNNFlipSweep.hStep,
      MCSequentiallyNNFlipSweep.vStep, Proc.tnRun, TensorNetwork2D.run,
      Demo.proc01, TPSSample.init, TensorNetwork2D.ofConfig, Demo.config01,
      subSize_2_1, subSize_1_1, subSize_2_2, List.range_succ, ExchangeUpdate,
      ExchangeUpdate.psi_b, ExchangeUpdate.P, ExchangeUpdate.commit, Demo.engine, Demo.contract,
      Demo.sitps, Finset.prod_range_succ, Function.update, Configuration.swap,
      TensorNetwork2D.UpdateSiteConfig]
  · norm_num [MCSequentiallyNNFlipSweep, MCSequentiallyNNFlipSweep.hPass,
      MCSequentiallyNNFlipSweep.vPass, MCSequentiallyNNFlipSweep.hRow,
      MCSequentiallyNNFlipSweep.vCol, MCSequentiallyNNFlipSweep.hStep,
      MCSequentiallyNNFlipSweep.vStep, Proc.tnRun, TensorNetwork2D.run,
      Demo.proc01, TPSSample.init, TensorNetwork2D.ofConfig, Demo.config01,
      subSize_2_1, subSize_1_1, subSize_2_2, List.range_succ, ExchangeUpdate,
      ExchangeUpdate.psi_b, ExchangeUpdate.P, ExchangeUpdate.commit, Demo.engine, Demo.contract,
      Demo.sitps, Finset.prod_range_succ, Function.update, Configuration.swap,
      TensorNetwork2D.UpdateSiteConfig]
    decide

/-! ## Occupation invariance of the sweep -/

/-- C5, as stated, fails: on the `1 × 2` lattice with configuration `0 1` the sweep whose draw is
`0` accepts the horizontal exchange, and the multiset of column `0` changes from `{0}` to
`{1}`. -/
theorem MCSequentiallyNNFlipSweep_colValues_counterexample :
    (MCSequentiallyNNFlipSweep Demo.engine Demo.sitps (fun _ => 0)
        Demo.proc01).2.tps_sample.config.colValues 0 ≠
      Demo.proc01.tps_sample.config.colValues 0 := by
  have h := Demo.sweep01_config
  unfold Configuration.colValues Configuration.valuesOn
  rw [h.1]
  have h0 : Demo.proc01.tps_sample.config.rows = 1 := rfl
  rw [h0]
  simp only [Finset.range_one, Finset.singleton_product_singleton, Finset.singleton_val,
    Multiset.map_singleton, h.2, Demo.proc01_config]
  decide

/-- C5, amended: in a sweep of `MCSequentiallyNNFlipSweep` over a sample whose network has the
dimensions of its configuration, the horizontal pass leaves the multiset of the values of every
row unchanged, the vertical pass leaves the multiset of the values of every column unchanged, and
the whole sweep leaves the multiset of the values of the whole lattice unchanged. -/
theorem MCSequentiallyNNFlipSweep_values (E : ContractionEngine Ten Cache)
    (sitps : SplitIndexTPS Ten) (u_double : Nat → ℚ) (p : Proc Ten Cache)
    (hrows : p.tps_sample.tn.rows = p.tps_sample.config.rows)
    (hcols : p.tps_sample.tn.cols = p.tps_sample.config.cols) :
    (∀ row, (MCSequentiallyNNFlipSweep.hPass E sitps u_double
        (0, p)).2.tps_sample.config.rowValues row = p.tps_sample.config.rowValues row) ∧
    (∀ col, (MCSequentiallyNNFlipSweep E sitps u_double p).2.tps_sample.config.colValues col =
      (MCSequentiallyNNFlipSweep.hPass E sitps u_double
        (0, p)).2.tps_sample.config.colValues col) ∧
    (MCSequentiallyNNFlipSweep E sitps u_double p).2.tps_sample.config.values =
      p.tps_sample.config.values := by
  have hd1 := dims_eq_iff p _
    (hPass_invariant E sitps u_double (0, p) ∅ (fun _ _ _ => by simp)).1
  have hd2 := dims_eq_iff (MCSequentiallyNNFlipSweep.hPass E sitps u_double (0, p)).2 _
    (vPass_invariant E sitps u_double (MCSequentiallyNNFlipSweep.hPass E sitps u_double (0, p))
      ∅ (fun _ _ _ => by simp)).1
  refine ⟨?_, ?_, ?_⟩
  · intro row
    unfold Configuration.rowValues
    rw [hd1.2.1]
    refine (hPass_invariant E sitps u_double (0, p) _ ?_).2
    intro r c hc
    exact row_hclosed _ row r c (by rw [← hcols]; exact hc)
  · intro col
    unfold Configuration.colValues MCSequentiallyNNFlipSweep
    rw [hd2.1]
    refine (vPass_invariant E sitps u_double _ _ ?_).2
    intro r c hr
    rw [hd1.2.2.1, hrows, ← hd1.1] at hr
    exact col_vclosed _ col r c hr
  · unfold Configuration.values MCSequentiallyNNFlipSweep
    rw [hd2.1, hd2.2.1, hd1.1, hd1.2.1]
    have hv := (vPass_invariant E sitps u_double
      (MCSequentiallyNNFlipSweep.hPass E sitps u_double (0, p))
      (lattice p.tps_sample.config.rows p.tps_sample.config.cols) (by
        intro r c hr
        rw [hd1.2.2.1, hrows] at hr
        exact lattice_vclosed _ _ r c hr)).2
    have hh := (hPass_invariant E sitps u_double (0, p)
      (lattice p.tps_sample.config.rows p.tps_sample.config.cols) (by
        intro r c hc
        exact lattice_hclosed _ _ r c (by rw [← hcols]; exact hc))).2
    rw [hv, hh]

/-- Witness of `MCSequentiallyNNFlipSweep_values`: the `1 × 2` product state with configuration
`0 1`. -/
theorem MCSequentiallyNNFlipSweep_values_witness :
    Demo.proc01.tps_sample.tn.rows = Demo.proc01.tps_sample.config.rows ∧
    Demo.proc01.tps_sample.tn.cols = Demo.proc01.tps_sample.config.cols ∧
    (MCSequentiallyNNFlipSweep Demo.engine Demo.sitps (fun _ => 0)
        Demo.proc01).2.tps_sample.config.values = Demo.proc01.tps_sample.config.values :=
  ⟨rfl, rfl,
    (MCSequentiallyNNFlipSweep_values Demo.engine Demo.sitps (fun _ => 0) Demo.proc01
      rfl rfl).2.2⟩

/-! ## Amplitude consistency -/

theorem ExchangeUpdate.commit_consistent (E : ContractionEngine Ten Cache)
    (Contract : Nat → Nat → (SiteIdx → Ten) → ℚ) (hexact : E.Exact Contract)
    (site1 site2 : SiteIdx) (bond_dir : BondOrientation) (sitps : SplitIndexTPS Ten)
    (s : TPSSample Ten Cache) (hne : s.config.val site1 ≠ s.config.val site2)
    (hs : s.Consistent Contract sitps) :
    (ExchangeUpdate.commit site1 site2 sitps
      (ExchangeUpdate.psi_b E site1 site2 bond_dir sitps s) s).Consistent Contract sitps := by
  have hsite : site1 ≠ site2 := fun h => hne (by rw [h])
  obtain ⟨hr, hc, hten, _⟩ := hs
  have hfun : Function.update (Function.update s.tn.ten site1 (sitps site1 (s.config.val site2)))
      site2 (sitps site2 (s.config.val site1)) =
      fun site => sitps site ((s.config.swap site1 site2).val site) := by
    funext site
    by_cases h2 : site = site2
    · subst h2
      simp [Configuration.swap]
    · by_cases h1 : site = site1
      · subst h1
        simp [Configuration.swap, Function.update_noteq h2]
      · simp [Configuration.swap, Function.update_noteq h2, Function.update_noteq h1, hten]
  refine ⟨hr, hc, ?_, ?_⟩
  · intro site
    have := congrFun hfun site
    simp only [ExchangeUpdate.commit, TensorNetwork2D.UpdateSiteConfig]
    simpa [Configuration.swap, Function.update_noteq hsite] using this
  · show ExchangeUpdate.psi_b E site1 site2 bond_dir sitps s =
      Psi Contract sitps (s.config.swap site1 site2)
    unfold ExchangeUpdate.psi_b Psi
    rw [hexact.2, hfun, hr, hc]
    rfl

/-- C6: for an engine that contracts exactly, the invariant "the stored amplitude is `Psi` of the
current configuration" (with the network built from the configuration) holds after the
constructor, is preserved by every `ExchangeUpdate` call (no-op, accepted or rejected), and under
it the amplitude re-traced at a row or column start, whatever the caches then hold, equals the
stored amplitude. -/
theorem ExchangeUpdate_amplitude_consistent (E : ContractionEngine Ten Cache)
    (Contract : Nat → Nat → (SiteIdx → Ten) → ℚ) (sitps : SplitIndexTPS Ten)
    (hexact : E.Exact Contract) :
    (∀ (config : Configuration) (empty : Cache),
      (TPSSample.init E sitps config empty).Consistent Contract sitps) ∧
    (∀ (site1 site2 : SiteIdx) (bond_dir : BondOrientation) (u_double : Nat → ℚ)
        (p : Proc Ten Cache), p.tps_sample.Consistent Contract sitps →
      (ExchangeUpdate E site1 site2 bond_dir sitps u_double p).2.tps_sample.Consistent
        Contract sitps) ∧
    (∀ (p : Proc Ten Cache), p.tps_sample.Consistent Contract sitps →
      ∀ (cache : Cache) (site : SiteIdx) (dir : BondOrientation),
        E.Trace { p.tps_sample.tn with cache := cache } site dir = p.tps_sample.amplitude) := by
  refine ⟨?_, ?_, ?_⟩
  · intro config empty
    refine ⟨rfl, rfl, fun _ => rfl, ?_⟩
    show E.Trace _ _ _ = _
    rw [hexact.1]
    rfl
  · intro site1 site2 bond_dir u_double p hp
    rcases ExchangeUpdate_sample_cases E site1 site2 bond_dir sitps u_double p with
      h | ⟨hne, h⟩
    · rw [h]; exact hp
    · rw [h]
      exact ExchangeUpdate.commit_consistent E Contract hexact site1 site2 bond_dir sitps _ hne hp
  · intro p hp cache site dir
    obtain ⟨hr, hc, hten, hamp⟩ := hp
    rw [hexact.1, hamp]
    unfold Psi
    have : p.tps_sample.tn.ten = fun site => sitps site (p.tps_sample.config.val site) :=
      funext hten
    simp only [this, hr, hc]

/-- Witness of `ExchangeUpdate_amplitude_consistent`: the product-state engine contracts exactly,
and the sample of the configuration `0 1` stays consistent through an accepted exchange. -/
theorem ExchangeUpdate_amplitude_consistent_witness :
    Demo.engine.Exact Demo.contract ∧
    (ExchangeUpdate Demo.engine (0, 0) (0, 1) .HORIZONTAL Demo.sitps (fun _ => 0)
        { tps_sample := TPSSample.init Demo.engine Demo.sitps Demo.config01 (),
          random_engine := 0, nn_trace_calls := 0,
          warnings := 0 }).2.tps_sample.Consistent Demo.contract Demo.sitps :=
  ⟨⟨fun _ _ _ => rfl, fun _ _ _ _ _ _ => rfl⟩,
    (ExchangeUpdate_amplitude_consistent Demo.engine Demo.contract Demo.sitps
      ⟨fun _ _ _ => rfl, fun _ _ _ _ _ _ => rfl⟩).2.1 (0, 0) (0, 1) .HORIZONTAL (fun _ => 0) _
      ((ExchangeUpdate_amplitude_consistent Demo.engine Demo.contract Demo.sitps
        ⟨fun _ _ _ => rfl, fun _ _ _ _ _ _ => rfl⟩).1 Demo.config01 ())⟩

/-! ## The energy estimator `CalEnergyAndHoles` -/

theorem moveSteps_succ (E : ContractionEngine Ten Cache) (post : BMPSPOSITION) (n : Nat)
    (tn : TensorNetwork2D Ten Cache) :
    moveSteps E post (n + 1) tn = (moveSteps E post n tn).run E (.BTenMoveStep post) := by
  unfold moveSteps
  rw [Function.iterate_succ_apply']

theorem moveSteps_zero (E : ContractionEngine Ten Cache) (post : BMPSPOSITION)
    (tn : TensorNetwork2D Ten Cache) : moveSteps E post 0 tn = tn := rfl

theorem CalEnergyAndHoles.bond_spec (E : ContractionEngine Ten Cache)
    (sitps : SplitIndexTPS Ten) (site1 site2 : SiteIdx) (dir : BondOrientation)
    (st : EnergyState Ten Cache) :
    (CalEnergyAndHoles.bond E sitps site1 site2 dir st).proc.tps_sample = st.proc.tps_sample ∧
    (CalEnergyAndHoles.bond E sitps site1 site2 dir st).inv_psi = st.inv_psi ∧
    (CalEnergyAndHoles.bond E sitps site1 site2 dir st).energy = st.energy +
      CalEnergyAndHoles.bondValue E sitps st.proc.tps_sample.config st.proc.tps_sample.tn
        st.inv_psi site1 site2 dir ∧
    (CalEnergyAndHoles.bond E sitps site1 site2 dir st).proc.nn_trace_calls =
      st.proc.nn_trace_calls + CalEnergyAndHoles.bondCalls st.proc.tps_sample.config site1 site2
      := by
  unfold CalEnergyAndHoles.bond CalEnergyAndHoles.bondValue CalEnergyAndHoles.bondCalls
  by_cases h : st.proc.tps_sample.config.val site1 = st.proc.tps_sample.config.val site2
  · rw [if_pos h, if_pos h, if_pos h]
    exact ⟨rfl, rfl, rfl, rfl⟩
  · rw [if_neg h, if_neg h, if_neg h]
    refine ⟨?_, rfl, rfl, ?_⟩
    · dsimp only
      split_ifs <;> rfl
    · dsimp only
      split_ifs <;> rfl

theorem CalEnergyAndHoles.hStep_bond (E : ContractionEngine Ten Cache)
    (sitps : SplitIndexTPS Ten) (calchols : Bool) (cols row col : Nat)
    (st : EnergyState Ten Cache) (h : col < subSize cols 1) :
    (CalEnergyAndHoles.hStep E sitps calchols cols row st col).inv_psi = st.inv_psi ∧
    st.Step (CalEnergyAndHoles.hStep E sitps calchols cols row st col)
      (st.proc.tps_sample.tn.run E (.BTenMoveStep .RIGHT))
      (CalEnergyAndHoles.bondValue E sitps st.proc.tps_sample.config st.proc.tps_sample.tn
        st.inv_psi (row, col) (row, col + 1) .HORIZONTAL)
      (CalEnergyAndHoles.bondCalls st.proc.tps_sample.config (row, col) (row, col + 1)) := by
  unfold CalEnergyAndHoles.hStep EnergyState.Step
  rw [if_pos h]
  cases calchols
  · have hb := CalEnergyAndHoles.bond_spec E sitps (row, col) (row, col + 1) .HORIZONTAL st
    simp only [Bool.false_eq_true, if_false, Proc.tnRun]
    rw [hb.1, hb.2.1, hb.2.2.1, hb.2.2.2]
    exact ⟨rfl, rfl, rfl, rfl, rfl⟩
  · have hb := CalEnergyAndHoles.bond_spec E sitps (row, col) (row, col + 1) .HORIZONTAL
      { st with hole_res := { st.hole_res with ten := (Function.update st.hole_res.ten (row, col)
          (E.Dag (E.PunchHole st.proc.tps_sample.tn (row, col) .HORIZONTAL))) } }
    simp only [if_true, Proc.tnRun]
    rw [hb.1, hb.2.1, hb.2.2.1, hb.2.2.2]
    exact ⟨rfl, rfl, rfl, rfl, rfl⟩

theorem CalEnergyAndHoles.hStep_last (E : ContractionEngine Ten Cache)
    (sitps : SplitIndexTPS Ten) (calchols : Bool) (cols row col : Nat)
    (st : EnergyState Ten Cache) (h : ¬ col < subSize cols 1) :
    (CalEnergyAndHoles.hStep E sitps calchols cols row st col).inv_psi = st.inv_psi ∧
    st.Step (CalEnergyAndHoles.hStep E sitps calchols cols row st col)
      st.proc.tps_sample.tn 0 0 := by
  unfold CalEnergyAndHoles.hStep EnergyState.Step
  rw [if_neg h]
  cases calchols
  · simp
  · simp

theorem CalEnergyAndHoles.hInner (E : ContractionEngine Ten Cache)
    (sitps : SplitIndexTPS Ten) (calchols : Bool) (cols row : Nat)
    (st : EnergyState Ten Cache) (hc1 : 1 ≤ cols) (hc2 : cols < 2 ^ 64) (n : Nat)
    (hn : n ≤ cols) :
    ((List.range n).foldl (CalEnergyAndHoles.hStep E sitps calchols cols row) st).inv_psi =
      st.inv_psi ∧
    st.Step ((List.range n).foldl (CalEnergyAndHoles.hStep E sitps calchols cols row) st)
      (moveSteps E .RIGHT (min n (cols - 1)) st.proc.tps_sample.tn)
      (∑ col ∈ Finset.range (min n (cols - 1)),
        CalEnergyAndHoles.bondValue E sitps st.proc.tps_sample.config
          (moveSteps E .RIGHT col st.proc.tps_sample.tn) st.inv_psi
          (row, col) (row, col + 1) .HORIZONTAL)
      (∑ col ∈ Finset.range (min n (cols - 1)),
        CalEnergyAndHoles.bondCalls st.proc.tps_sample.config (row, col) (row, col + 1)) := by
  have hsub : subSize cols 1 = cols - 1 := subSize_eq_sub cols 1 hc1 hc2
  induction n with
  | zero =>
    simp [EnergyState.Step, moveSteps_zero]
  | succ n ih =>
    have ih := ih (by omega)
    rw [List.range_succ, List.foldl_append, List.foldl_cons, List.foldl_nil]
    obtain ⟨hinv, hcfg, htn, hen, hcl⟩ := ih
    by_cases h : n < subSize cols 1
    · have hs := CalEnergyAndHoles.hStep_bond E sitps calchols cols row n
        ((List.range n).foldl (CalEnergyAndHoles.hStep E sitps calchols cols row) st) h
      obtain ⟨sinv, scfg, stn, sen, scl⟩ := hs
      rw [hsub] at h
      have hm1 : min (n + 1) (cols - 1) = n + 1 := by omega
      have hm0 : min n (cols - 1) = n := by omega
      rw [hm0] at htn hen hcl
      rw [hm1]
      refine ⟨sinv.trans hinv, scfg.trans hcfg, ?_, ?_, ?_⟩
      · rw [stn, htn, moveSteps_succ]
      · rw [sen, hen, hcfg, htn, hinv, Finset.sum_range_succ, add_assoc]
      · rw [scl, hcl, hcfg, Finset.sum_range_succ, add_assoc]
    · have hs := CalEnergyAndHoles.hStep_last E sitps calchols cols row n
        ((List.range n).foldl (CalEnergyAndHoles.hStep E sitps calchols cols row) st) h
      obtain ⟨sinv, scfg, stn, sen, scl⟩ := hs
      rw [hsub] at h
      have hm1 : min (n + 1) (cols - 1) = min n (cols - 1) := by omega
      rw [hm1]
      refine ⟨sinv.trans hinv, scfg.trans hcfg, ?_, ?_, ?_⟩
      · rw [stn, htn]
      · rw [sen, hen, add_zero]
      · rw [scl, hcl, add_zero]

theorem CalEnergyAndHoles.vStep_spec (E : ContractionEngine Ten Cache)
    (sitps : SplitIndexTPS Ten) (rows row col : Nat) (st : EnergyState Ten Cache) :
    (CalEnergyAndHoles.vStep E sitps rows col st row).inv_psi = st.inv_psi ∧
    st.Step (CalEnergyAndHoles.vStep E sitps rows col st row)
      (if row < subSize rows 2 then st.proc.tps_sample.tn.run E (.BTenMoveStep .DOWN)
        else st.proc.tps_sample.tn)
      (CalEnergyAndHoles.bondValue E sitps st.proc.tps_sample.config st.proc.tps_sample.tn
        st.inv_psi (row, col) (row + 1, col) .VERTICAL)
      (CalEnergyAndHoles.bondCalls st.proc.tps_sample.config (row, col) (row + 1, col)) := by
  unfold CalEnergyAndHoles.vStep EnergyState.Step
  have hb := CalEnergyAndHoles.bond_spec E sitps (row, col) (row + 1, col) .VERTICAL st
  by_cases h : row < subSize rows 2
  · rw [if_pos h, if_pos h]
    simp only [Proc.tnRun]
    rw [hb.1, hb.2.1, hb.2.2.1, hb.2.2.2]
    exact ⟨rfl, rfl, rfl, rfl, rfl⟩
  · rw [if_neg h, if_neg h]
    rw [hb.1, hb.2.1, hb.2.2.1, hb.2.2.2]
    exact ⟨rfl, rfl, rfl, rfl, rfl⟩

theorem CalEnergyAndHoles.vInner (E : ContractionEngine Ten Cache)
    (sitps : SplitIndexTPS Ten) (rows col : Nat) (st : EnergyState Ten Cache)
    (hr2 : rows < 2 ^ 64) (n : Nat) (hn : n ≤ rows - 1) :
    ((List.range n).foldl (CalEnergyAndHoles.vStep E sitps rows col) st).inv_psi =
      st.inv_psi ∧
    st.Step ((List.range n).foldl (CalEnergyAndHoles.vStep E sitps rows col) st)
      (moveSteps E .DOWN (min n (rows - 2)) st.proc.tps_sample.tn)
      (∑ row ∈ Finset.range n,
        CalEnergyAndHoles.bondValue E sitps st.proc.tps_sample.config
          (moveSteps E .DOWN row st.proc.tps_sample.tn) st.inv_psi
          (row, col) (row + 1, col) .VERTICAL)
      (∑ row ∈ Finset.range n,
        CalEnergyAndHoles.bondCalls st.proc.tps_sample.config (row, col) (row + 1, col)) := by
  induction n with
  | zero =>
    simp [EnergyState.Step, moveSteps_zero]
  | succ n ih =>
    have ih := ih (by omega)
    have hsub : subSize rows 2 = rows - 2 := subSize_eq_sub rows 2 (by omega) hr2
    rw [List.range_succ, List.foldl_append, List.foldl_cons, List.foldl_nil]
    obtain ⟨hinv, hcfg, htn, hen, hcl⟩ := ih
    have hs := CalEnergyAndHoles.vStep_spec E sitps rows n col
      ((List.range n).foldl (CalEnergyAndHoles.vStep E sitps rows col) st)
    obtain ⟨sinv, scfg, stn, sen, scl⟩ := hs
    have hm0 : min n (rows - 2) = n := by omega
    rw [hm0] at htn
    rw [hsub] at stn
    refine ⟨sinv.trans hinv, scfg.trans hcfg, ?_, ?_, ?_⟩
    · rw [stn, htn]
      by_cases h : n < rows - 2
      · rw [if_pos h]
        have hm1 : min (n + 1) (rows - 2) = n + 1 := by omega
        rw [hm1, moveSteps_succ]
      · rw [if_neg h]
        have hm1 : min (n + 1) (rows - 2) = n := by omega
        rw [hm1]
    · rw [sen, hen, hcfg, htn, hinv, Finset.sum_range_succ, add_assoc]
    · rw [scl, hcl, hcfg, Finset.sum_range_succ, add_assoc]

theorem CalEnergyAndHoles.hRow_spec (E : ContractionEngine Ten Cache)
    (sitps : SplitIndexTPS Ten) (calchols : Bool) (rows cols row : Nat)
    (st : EnergyState Ten Cache) (hr1 : 1 ≤ rows) (hr2 : rows < 2 ^ 64) (hc1 : 1 ≤ cols)
    (hc2 : cols < 2 ^ 64) :
    st.Step (CalEnergyAndHoles.hRow E sitps calchols rows cols st row)
      (if row < rows - 1 then
        (moveSteps E .RIGHT (cols - 1) ((st.proc.tps_sample.tn.run E (.InitBTen .LEFT row)).run E
          (.GrowFullBTen .RIGHT row 1 true))).run E (.BMPSMoveStep .DOWN E.trun_para)
      else
        moveSteps E .RIGHT (cols - 1) ((st.proc.tps_sample.tn.run E (.InitBTen .LEFT row)).run E
          (.GrowFullBTen .RIGHT row 1 true)))
      (∑ col ∈ Finset.range (cols - 1),
        CalEnergyAndHoles.bondValue E sitps st.proc.tps_sample.config
          (moveSteps E .RIGHT col ((st.proc.tps_sample.tn.run E (.InitBTen .LEFT row)).run E
            (.GrowFullBTen .RIGHT row 1 true)))
          (1.0 / E.Trace ((st.proc.tps_sample.tn.run E (.InitBTen .LEFT row)).run E
            (.GrowFullBTen .RIGHT row 1 true)) (row, 0) .HORIZONTAL)
          (row, col) (row, col + 1) .HORIZONTAL)
      (∑ col ∈ Finset.range (cols - 1),
        CalEnergyAndHoles.bondCalls st.proc.tps_sample.config (row, col) (row, col + 1)) := by
  have hI := CalEnergyAndHoles.hInner E sitps calchols cols row
    { st with
      proc := retrace E (.InitBTen .LEFT row) (.GrowFullBTen .RIGHT row 1 true) (row, 0)
        .HORIZONTAL st.proc
      inv_psi := 1.0 / (retrace E (.InitBTen .LEFT row) (.GrowFullBTen .RIGHT row 1 true)
        (row, 0) .HORIZONTAL st.proc).tps_sample.amplitude }
    hc1 hc2 cols le_rfl
  have hm : min cols (cols - 1) = cols - 1 := by omega
  rw [hm] at hI
  obtain ⟨_, hcfg, htn, hen, hcl⟩ := hI
  unfold CalEnergyAndHoles.hRow
  rw [subSize_eq_sub rows 1 hr1 hr2]
  by_cases h : row < rows - 1
  · rw [if_pos h, if_pos h]
    refine ⟨hcfg, ?_, hen, hcl⟩
    exact congrArg (fun t => TensorNetwork2D.run E (.BMPSMoveStep .DOWN E.trun_para) t) htn
  · rw [if_neg h, if_neg h]
    exact ⟨hcfg, htn, hen, hcl⟩

theorem CalEnergyAndHoles.vCol_spec (E : ContractionEngine Ten Cache)
    (sitps : SplitIndexTPS Ten) (rows cols col : Nat)
    (st : EnergyState Ten Cache) (hr1 : 1 ≤ rows) (hr2 : rows < 2 ^ 64) (hc1 : 1 ≤ cols)
    (hc2 : cols < 2 ^ 64) :
    st.Step (CalEnergyAndHoles.vCol E sitps rows cols st col)
      (if col < cols - 1 then
        (moveSteps E .DOWN (rows - 2) ((st.proc.tps_sample.tn.run E (.InitBTen .UP col)).run E
          (.GrowFullBTen .DOWN col 2 true))).run E (.BMPSMoveStep .RIGHT E.trun_para)
      else
        moveSteps E .DOWN (rows - 2) ((st.proc.tps_sample.tn.run E (.InitBTen .UP col)).run E
          (.GrowFullBTen .DOWN col 2 true)))
      (∑ row ∈ Finset.range (rows - 1),
        CalEnergyAndHoles.bondValue E sitps st.proc.tps_sample.config
          (moveSteps E .DOWN row ((st.proc.tps_sample.tn.run E (.InitBTen .UP col)).run E
            (.GrowFullBTen .DOWN col 2 true)))
          (1.0 / E.Trace ((st.proc.tps_sample.tn.run E (.InitBTen .UP col)).run E
            (.GrowFullBTen .DOWN col 2 true)) (0, col) .VERTICAL)
          (row, col) (row + 1, col) .VERTICAL)
      (∑ row ∈ Finset.range (rows - 1),
        CalEnergyAndHoles.bondCalls st.proc.tps_sample.config (row, col) (row + 1, col)) := by
  have hI := CalEnergyAndHoles.vInner E sitps rows col
    { st with
      proc := retrace E (.InitBTen .UP col) (.GrowFullBTen .DOWN col 2 true) (0, col)
        .VERTICAL st.proc
      inv_psi := 1.0 / (retrace E (.InitBTen .UP col) (.GrowFullBTen .DOWN col 2 true)
        (0, col) .VERTICAL st.proc).tps_sample.amplitude }
    hr2 (rows - 1) le_rfl
  have hm : min (rows - 1) (rows - 2) = rows - 2 := by omega
  rw [hm] at hI
  obtain ⟨_, hcfg, htn, hen, hcl⟩ := hI
  unfold CalEnergyAndHoles.vCol
  rw [subSize_eq_sub rows 1 hr1 hr2, subSize_eq_sub cols 1 hc1 hc2]
  by_cases h : col < cols - 1
  · rw [if_pos h, if_pos h]
    refine ⟨hcfg, ?_, hen, hcl⟩
    exact congrArg (fun t => TensorNetwork2D.run E (.BMPSMoveStep .RIGHT E.trun_para) t) htn
  · rw [if_neg h, if_neg h]
    exact ⟨hcfg, htn, hen, hcl⟩

theorem CalEnergyAndHoles.hOuter (E : ContractionEngine Ten Cache)
    (sitps : SplitIndexTPS Ten) (calchols : Bool) (tn0 : TensorNetwork2D Ten Cache)
    (st : EnergyState Ten Cache) (hr1 : 1 ≤ tn0.rows) (hr2 : tn0.rows < 2 ^ 64)
    (hc1 : 1 ≤ tn0.cols) (hc2 : tn0.cols < 2 ^ 64)
    (hst : st.proc.tps_sample.tn = tn0.run E (.GenerateBMPSApproach .UP E.trun_para))
    (n : Nat) (hn : n ≤ tn0.rows) :
    (n < tn0.rows →
      ((((List.range n).foldl (CalEnergyAndHoles.hRow E sitps calchols tn0.rows tn0.cols)
        st).proc.tps_sample.tn.run E (.InitBTen .LEFT n)).run E
          (.GrowFullBTen .RIGHT n 1 true)) = CalEnergyAndHoles.tnRow E tn0 n) ∧
    (n = tn0.rows →
      ((List.range n).foldl (CalEnergyAndHoles.hRow E sitps calchols tn0.rows tn0.cols)
        st).proc.tps_sample.tn = CalEnergyAndHoles.tnMid E tn0) ∧
    ((List.range n).foldl (CalEnergyAndHoles.hRow E sitps calchols tn0.rows tn0.cols)
        st).proc.tps_sample.config = st.proc.tps_sample.config ∧
    ((List.range n).foldl (CalEnergyAndHoles.hRow E sitps calchols tn0.rows tn0.cols)
        st).energy = st.energy +
      ∑ row ∈ Finset.range n, ∑ col ∈ Finset.range (tn0.cols - 1),
        CalEnergyAndHoles.bondValue E sitps st.proc.tps_sample.config
          (moveSteps E .RIGHT col (CalEnergyAndHoles.tnRow E tn0 row))
          (1.0 / CalEnergyAndHoles.psiRow E tn0 row) (row, col) (row, col + 1) .HORIZONTAL ∧
    ((List.range n).foldl (CalEnergyAndHoles.hRow E sitps calchols tn0.rows tn0.cols)
        st).proc.nn_trace_calls = st.proc.nn_trace_calls +
      ∑ row ∈ Finset.range n, ∑ col ∈ Finset.range (tn0.cols - 1),
        CalEnergyAndHoles.bondCalls st.proc.tps_sample.config (row, col) (row, col + 1) := by
  induction n with
  | zero =>
    refine ⟨fun _ => ?_, fun h => ?_, rfl, by simp, by simp⟩
    · simp only [List.range_zero, List.foldl_nil]
      rw [hst]
      rfl
    · omega
  | succ n ih =>
    obtain ⟨htn, _, hcfg, hen, hcl⟩ := ih (by omega)
    have htn := htn (by omega)
    rw [List.range_succ, List.foldl_append, List.foldl_cons, List.foldl_nil]
    obtain ⟨scfg, stn, sen, scl⟩ := CalEnergyAndHoles.hRow_spec E sitps calchols tn0.rows
      tn0.cols n
      ((List.range n).foldl (CalEnergyAndHoles.hRow E sitps calchols tn0.rows tn0.cols) st)
      hr1 hr2 hc1 hc2
    rw [htn] at stn sen
    refine ⟨fun h => ?_, fun h => ?_, scfg.trans hcfg, ?_, ?_⟩
    · rw [stn, if_pos (by omega)]
      rfl
    · rw [stn, if_neg (by omega)]
      unfold CalEnergyAndHoles.tnMid
      have : tn0.rows - 1 = n := by omega
      rw [this]
    · rw [sen, hen, hcfg, Finset.sum_range_succ, add_assoc]
      rfl
    · rw [scl, hcl, hcfg, Finset.sum_range_succ, add_assoc]

theorem CalEnergyAndHoles.vOuter (E : ContractionEngine Ten Cache)
    (sitps : SplitIndexTPS Ten) (tn0 : TensorNetwork2D Ten Cache)
    (st : EnergyState Ten Cache) (hr1 : 1 ≤ tn0.rows) (hr2 : tn0.rows < 2 ^ 64)
    (hc1 : 1 ≤ tn0.cols) (hc2 : tn0.cols < 2 ^ 64)
    (hst : st.proc.tps_sample.tn =
      (CalEnergyAndHoles.tnMid E tn0).run E (.GenerateBMPSApproach .LEFT E.trun_para))
    (n : Nat) (hn : n ≤ tn0.cols) :
    (n < tn0.cols →
      ((((List.range n).foldl (CalEnergyAndHoles.vCol E sitps tn0.rows tn0.cols)
        st).proc.tps_sample.tn.run E (.InitBTen .UP n)).run E
          (.GrowFullBTen .DOWN n 2 true)) = CalEnergyAndHoles.tnCol E tn0 n) ∧
    ((List.range n).foldl (CalEnergyAndHoles.vCol E sitps tn0.rows tn0.cols)
        st).proc.tps_sample.config = st.proc.tps_sample.config ∧
    ((List.range n).foldl (CalEnergyAndHoles.vCol E sitps tn0.rows tn0.cols)
        st).energy = st.energy +
      ∑ col ∈ Finset.range n, ∑ row ∈ Finset.range (tn0.rows - 1),
        CalEnergyAndHoles.bondValue E sitps st.proc.tps_sample.config
          (moveSteps E .DOWN row (CalEnergyAndHoles.tnCol E tn0 col))
          (1.0 / CalEnergyAndHoles.psiCol E tn0 col) (row, col) (row + 1, col) .VERTICAL ∧
    ((List.range n).foldl (CalEnergyAndHoles.vCol E sitps tn0.rows tn0.cols)
        st).proc.nn_trace_calls = st.proc.nn_trace_calls +
      ∑ col ∈ Finset.range n, ∑ row ∈ Finset.range (tn0.rows - 1),
        CalEnergyAndHoles.bondCalls st.proc.tps_sample.config (row, col) (row + 1, col) := by
  induction n with
  | zero =>
    refine ⟨fun _ => ?_, rfl, by simp, by simp⟩
    simp only [List.range_zero, List.foldl_nil]
    rw [hst]
    rfl
  | succ n ih =>
    obtain ⟨htn, hcfg, hen, hcl⟩ := ih (by omega)
    have htn := htn (by omega)
    rw [List.range_succ, List.foldl_append, List.foldl_cons, List.foldl_nil]
    obtain ⟨scfg, stn, sen, scl⟩ := CalEnergyAndHoles.vCol_spec E sitps tn0.rows
      tn0.cols n
      ((List.range n).foldl (CalEnergyAndHoles.vCol E sitps tn0.rows tn0.cols) st)
      hr1 hr2 hc1 hc2
    rw [htn] at stn sen
    refine ⟨fun h => ?_, scfg.trans hcfg, ?_, ?_⟩
    · rw [stn, if_pos (by omega)]
      rfl
    · rw [sen, hen, hcfg, Finset.sum_range_succ, add_assoc]
      rfl
    · rw [scl, hcl, hcfg, Finset.sum_range_succ, add_assoc]

theorem CalEnergyAndHoles_spec (E : ContractionEngine Ten Cache) (sitps : SplitIndexTPS Ten)
    (calchols : Bool) (p : Proc Ten Cache) (hole_res : TensorNetwork2D Ten Cache)
    (hr1 : 1 ≤ p.tps_sample.tn.rows) (hr2 : p.tps_sample.tn.rows < 2 ^ 64)
    (hc1 : 1 ≤ p.tps_sample.tn.cols) (hc2 : p.tps_sample.tn.cols < 2 ^ 64) :
    (CalEnergyAndHoles E sitps calchols p hole_res).proc.tps_sample.config =
      p.tps_sample.config ∧
    (CalEnergyAndHoles E sitps calchols p hole_res).energy =
      (∑ row ∈ Finset.range p.tps_sample.tn.rows,
        ∑ col ∈ Finset.range (p.tps_sample.tn.cols - 1),
          CalEnergyAndHoles.bondValue E sitps p.tps_sample.config
            (moveSteps E .RIGHT col (CalEnergyAndHoles.tnRow E p.tps_sample.tn row))
            (1.0 / CalEnergyAndHoles.psiRow E p.tps_sample.tn row)
            (row, col) (row, col + 1) .HORIZONTAL) +
      ∑ col ∈ Finset.range p.tps_sample.tn.cols,
        ∑ row ∈ Finset.range (p.tps_sample.tn.rows - 1),
          CalEnergyAndHoles.bondValue E sitps p.tps_sample.config
            (moveSteps E .DOWN row (CalEnergyAndHoles.tnCol E p.tps_sample.tn col))
            (1.0 / CalEnergyAndHoles.psiCol E p.tps_sample.tn col)
            (row, col) (row + 1, col) .VERTICAL ∧
    (CalEnergyAndHoles E sitps calchols p hole_res).proc.nn_trace_calls =
      p.nn_trace_calls +
      (∑ row ∈ Finset.range p.tps_sample.tn.rows,
        ∑ col ∈ Finset.range (p.tps_sample.tn.cols - 1),
          CalEnergyAndHoles.bondCalls p.tps_sample.config (row, col) (row, col + 1)) +
      ∑ col ∈ Finset.range p.tps_sample.tn.cols,
        ∑ row ∈ Finset.range (p.tps_sample.tn.rows - 1),
          CalEnergyAndHoles.bondCalls p.tps_sample.config (row, col) (row + 1, col) := by
  have H := CalEnergyAndHoles.hOuter E sitps calchols p.tps_sample.tn
    { energy := 0, inv_psi := 1.0 / p.tps_sample.amplitude, hole_res := hole_res,
      proc := p.tnRun E (.GenerateBMPSApproach .UP E.trun_para) }
    hr1 hr2 hc1 hc2 rfl p.tps_sample.tn.rows le_rfl
  have hgoal : CalEnergyAndHoles E sitps calchols p hole_res =
      (List.range p.tps_sample.tn.cols).foldl
        (CalEnergyAndHoles.vCol E sitps p.tps_sample.tn.rows p.tps_sample.tn.cols)
        { ((List.range p.tps_sample.tn.rows).foldl
            (CalEnergyAndHoles.hRow E sitps calchols p.tps_sample.tn.rows p.tps_sample.tn.cols)
            { energy := 0, inv_psi := 1.0 / p.tps_sample.amplitude, hole_res := hole_res,
              proc := p.tnRun E (.GenerateBMPSApproach .UP E.trun_para) }) with
          proc := ((List.range p.tps_sample.tn.rows).foldl
            (CalEnergyAndHoles.hRow E sitps calchols p.tps_sample.tn.rows p.tps_sample.tn.cols)
            { energy := 0, inv_psi := 1.0 / p.tps_sample.amplitude, hole_res := hole_res,
              proc := p.tnRun E (.GenerateBMPSApproach .UP E.trun_para) }).proc.tnRun E
                (.GenerateBMPSApproach .LEFT E.trun_para) } := rfl
  rw [hgoal]
  generalize (List.range p.tps_sample.tn.rows).foldl
    (CalEnergyAndHoles.hRow E sitps calchols p.tps_sample.tn.rows p.tps_sample.tn.cols)
    { energy := 0, inv_psi := 1.0 / p.tps_sample.amplitude, hole_res := hole_res,
      proc := p.tnRun E (.GenerateBMPSApproach .UP E.trun_para) } = sth at H ⊢
  obtain ⟨_, hmid, hcfg, hen, hcl⟩ := H
  have hcfg : sth.proc.tps_sample.config = p.tps_sample.config := hcfg
  have hen : sth.energy = 0 + ∑ row ∈ Finset.range p.tps_sample.tn.rows,
        ∑ col ∈ Finset.range (p.tps_sample.tn.cols - 1),
          CalEnergyAndHoles.bondValue E sitps p.tps_sample.config
            (moveSteps E .RIGHT col (CalEnergyAndHoles.tnRow E p.tps_sample.tn row))
            (1.0 / CalEnergyAndHoles.psiRow E p.tps_sample.tn row)
            (row, col) (row, col + 1) .HORIZONTAL := hen
  have hcl : sth.proc.nn_trace_calls = p.nn_trace_calls +
      ∑ row ∈ Finset.range p.tps_sample.tn.rows,
        ∑ col ∈ Finset.range (p.tps_sample.tn.cols - 1),
          CalEnergyAndHoles.bondCalls p.tps_sample.config (row, col) (row, col + 1) := hcl
  obtain ⟨_, vcfg, ven, vcl⟩ := CalEnergyAndHoles.vOuter E sitps p.tps_sample.tn
    { sth with proc := sth.proc.tnRun E (.GenerateBMPSApproach .LEFT E.trun_para) }
    hr1 hr2 hc1 hc2
    (congrArg (fun t => TensorNetwork2D.run E (.GenerateBMPSApproach .LEFT E.trun_para) t)
      (hmid rfl))
    p.tps_sample.tn.cols le_rfl
  have hcfg2 : ({ sth with
      proc := sth.proc.tnRun E (.GenerateBMPSApproach .LEFT E.trun_para) } :
        EnergyState Ten Cache).proc.tps_sample.config = p.tps_sample.config := hcfg
  rw [hcfg2] at vcfg ven vcl
  refine ⟨vcfg, ?_, ?_⟩
  · rw [ven]
    show sth.energy + _ = _
    rw [hen, zero_add]
  · rw [vcl]
    show sth.proc.nn_trace_calls + _ = _
    rw [hcl]

theorem CalEnergyAndHoles.bondValue_eq (E : ContractionEngine Ten Cache)
    (sitps : SplitIndexTPS Ten) (config : Configuration) (tn : TensorNetwork2D Ten Cache)
    (psi : ℚ) (site1 site2 : SiteIdx) (dir : BondOrientation) :
    CalEnergyAndHoles.bondValue E sitps config tn (1.0 / psi) site1 site2 dir =
      if config.val site1 = config.val site2 then 0.25
      else -0.25 + 0.5 * E.ReplaceNNSiteTrace tn site1 site2 dir
        (sitps site1 (config.val site2)) (sitps site2 (config.val site1)) / psi := by
  unfold CalEnergyAndHoles.bondValue
  split_ifs
  · rfl
  · norm_num
    ring

theorem CalEnergyAndHoles_bond_sum (E : ContractionEngine Ten Cache)
    (sitps : SplitIndexTPS Ten) (calchols : Bool) (p : Proc Ten Cache)
    (hole_res : TensorNetwork2D Ten Cache)
    (hr1 : 1 ≤ p.tps_sample.tn.rows) (hr2 : p.tps_sample.tn.rows < 2 ^ 64)
    (hc1 : 1 ≤ p.tps_sample.tn.cols) (hc2 : p.tps_sample.tn.cols < 2 ^ 64) :
    (CalEnergyAndHoles E sitps calchols p hole_res).energy =
      (∑ row ∈ Finset.range p.tps_sample.tn.rows,
        ∑ col ∈ Finset.range (p.tps_sample.tn.cols - 1),
          if p.tps_sample.config.val (row, col) = p.tps_sample.config.val (row, col + 1)
          then (0.25 : ℚ)
          else -0.25 + 0.5 *
            CalEnergyAndHoles.psiExH E sitps p.tps_sample.config p.tps_sample.tn row col /
            CalEnergyAndHoles.psiRow E p.tps_sample.tn row) +
      ∑ col ∈ Finset.range p.tps_sample.tn.cols,
        ∑ row ∈ Finset.range (p.tps_sample.tn.rows - 1),
          if p.tps_sample.config.val (row, col) = p.tps_sample.config.val (row + 1, col)
          then (0.25 : ℚ)
          else -0.25 + 0.5 *
            CalEnergyAndHoles.psiExV E sitps p.tps_sample.config p.tps_sample.tn row col /
            CalEnergyAndHoles.psiCol E p.tps_sample.tn col := by
  rw [(CalEnergyAndHoles_spec E sitps calchols p hole_res hr1 hr2 hc1 hc2).2.1]
  simp only [CalEnergyAndHoles.bondValue_eq]
  rfl

theorem Demo.psiRow01 (sitps : SplitIndexTPS ℚ) (tn : TensorNetwork2D ℚ Unit)
    (hr : tn.rows = 1) (hc : tn.cols = 2) :
    CalEnergyAndHoles.psiRow Demo.engine tn 0 = tn.ten (0, 0) * tn.ten (0, 1) ∧
    ∀ config : Configuration,
      CalEnergyAndHoles.psiExH Demo.engine sitps config tn 0 0 =
        sitps (0, 0) (config.val (0, 1)) * sitps (0, 1) (config.val (0, 0)) := by
  constructor
  · simp [CalEnergyAndHoles.psiRow, CalEnergyAndHoles.tnRow, Demo.engine, Demo.contract,
      TensorNetwork2D.run, hr, hc, Finset.prod_range_succ]
  · intro config
    simp [CalEnergyAndHoles.psiExH, CalEnergyAndHoles.tnRow, Demo.engine, Demo.contract,
      TensorNetwork2D.run, hr, hc, Finset.prod_range_succ, moveSteps, Function.update]

theorem CalEnergyAndHoles.bondValue_same (E : ContractionEngine Ten Cache)
    (sitps : SplitIndexTPS Ten) (config : Configuration) (tn : TensorNetwork2D Ten Cache)
    (inv_psi : ℚ) (site1 site2 : SiteIdx) (dir : BondOrientation)
    (h : config.val site1 = config.val site2) :
    CalEnergyAndHoles.bondValue E sitps config tn inv_psi site1 site2 dir = 0.25 := by
  unfold CalEnergyAndHoles.bondValue
  rw [if_pos h]

theorem CalEnergyAndHoles.bondCalls_same (config : Configuration) (site1 site2 : SiteIdx)
    (h : config.val site1 = config.val site2) :
    CalEnergyAndHoles.bondCalls config site1 site2 = 0 := by
  unfold CalEnergyAndHoles.bondCalls
  rw [if_pos h]

/-- C8: on a lattice with `rows ≥ 1` and `cols ≥ 1` all of whose sites hold the same basis value,
`CalEnergyAndHoles` returns exactly `0.25 * (rows * (cols - 1) + cols * (rows - 1))` and makes no
`ReplaceNNSiteTrace` call; on a `1 × 2` lattice it returns exactly `0.25`. -/
theorem CalEnergyAndHoles_uniform (E : ContractionEngine Ten Cache)
    (sitps : SplitIndexTPS Ten) (calchols : Bool) (p : Proc Ten Cache)
    (hole_res : TensorNetwork2D Ten Cache)
    (hr1 : 1 ≤ p.tps_sample.tn.rows) (hr2 : p.tps_sample.tn.rows < 2 ^ 64)
    (hc1 : 1 ≤ p.tps_sample.tn.cols) (hc2 : p.tps_sample.tn.cols < 2 ^ 64)
    (hsame : ∀ site1 site2, site1 ∈ lattice p.tps_sample.tn.rows p.tps_sample.tn.cols →
      site2 ∈ lattice p.tps_sample.tn.rows p.tps_sample.tn.cols →
      p.tps_sample.config.val site1 = p.tps_sample.config.val site2) :
    (CalEnergyAndHoles E sitps calchols p hole_res).energy =
      0.25 * ((p.tps_sample.tn.rows * (p.tps_sample.tn.cols - 1) +
        p.tps_sample.tn.cols * (p.tps_sample.tn.rows - 1) : Nat) : ℚ) ∧
    (CalEnergyAndHoles E sitps calchols p hole_res).proc.nn_trace_calls = p.nn_trace_calls ∧
    (p.tps_sample.tn.rows = 1 → p.tps_sample.tn.cols = 2 →
      (CalEnergyAndHoles E sitps calchols p hole_res).energy = 0.25) := by
  obtain ⟨_, hen, hcl⟩ := CalEnergyAndHoles_spec E sitps calchols p hole_res hr1 hr2 hc1 hc2
  have hH : ∀ row ∈ Finset.range p.tps_sample.tn.rows,
      ∀ col ∈ Finset.range (p.tps_sample.tn.cols - 1),
      p.tps_sample.config.val (row, col) = p.tps_sample.config.val (row, col + 1) := by
    intro row hrow col hcol
    have h1 := Finset.mem_range.mp hrow
    have h2 := Finset.mem_range.mp hcol
    apply hsame <;> simp only [lattice, Finset.mem_product, Finset.mem_range] <;> omega
  have hV : ∀ col ∈ Finset.range p.tps_sample.tn.cols,
      ∀ row ∈ Finset.range (p.tps_sample.tn.rows - 1),
      p.tps_sample.config.val (row, col) = p.tps_sample.config.val (row + 1, col) := by
    intro col hcol row hrow
    have h1 := Finset.mem_range.mp hrow
    have h2 := Finset.mem_range.mp hcol
    apply hsame <;> simp only [lattice, Finset.mem_product, Finset.mem_range] <;> omega
  have hE : (CalEnergyAndHoles E sitps calchols p hole_res).energy =
      0.25 * ((p.tps_sample.tn.rows * (p.tps_sample.tn.cols - 1) +
        p.tps_sample.tn.cols * (p.tps_sample.tn.rows - 1) : Nat) : ℚ) := by
    rw [hen]
    rw [Finset.sum_congr rfl (fun row hrow => Finset.sum_congr rfl (fun col hcol =>
        CalEnergyAndHoles.bondValue_same E sitps _ _ _ _ _ _ (hH row hrow col hcol))),
      Finset.sum_congr rfl (fun col hcol => Finset.sum_congr rfl (fun row hrow =>
        CalEnergyAndHoles.bondValue_same E sitps _ _ _ _ _ _ (hV col hcol row hrow)))]
    simp only [Finset.sum_const, Finset.card_range, smul_eq_mul, nsmul_eq_mul]
    push_cast
    ring
  refine ⟨hE, ?_, ?_⟩
  · rw [hcl]
    rw [Finset.sum_congr rfl (fun row hrow => Finset.sum_congr rfl (fun col hcol =>
        CalEnergyAndHoles.bondCalls_same _ _ _ (hH row hrow col hcol))),
      Finset.sum_congr rfl (fun col hcol => Finset.sum_congr rfl (fun row hrow =>
        CalEnergyAndHoles.bondCalls_same _ _ _ (hV col hcol row hrow)))]
    simp
  · intro h1 h2
    rw [hE, h1, h2]
    norm_num

/-- Witness of `CalEnergyAndHoles_uniform`: the `1 × 2` product state with configuration
`1 1`. -/
theorem CalEnergyAndHoles_uniform_witness :
    (∀ site1 site2,
      site1 ∈ lattice Demo.proc11.tps_sample.tn.rows Demo.proc11.tps_sample.tn.cols →
      site2 ∈ lattice Demo.proc11.tps_sample.tn.rows Demo.proc11.tps_sample.tn.cols →
      Demo.proc11.tps_sample.config.val site1 = Demo.proc11.tps_sample.config.val site2) ∧
    (CalEnergyAndHoles Demo.engine Demo.sitps true Demo.proc11 Demo.holes).energy = 0.25 ∧
    (CalEnergyAndHoles Demo.engine Demo.sitps true Demo.proc11
      Demo.holes).proc.nn_trace_calls = Demo.proc11.nn_trace_calls :=
  ⟨fun _ _ _ _ => rfl,
    (CalEnergyAndHoles_uniform Demo.engine Demo.sitps true Demo.proc11 Demo.holes
      (by decide) (by decide) (by decide) (by decide) (fun _ _ _ _ => rfl)).2.2 rfl rfl,
    (CalEnergyAndHoles_uniform Demo.engine Demo.sitps true Demo.proc11 Demo.holes
      (by decide) (by decide) (by decide) (by decide) (fun _ _ _ _ => rfl)).2.1⟩

/-! ## Amplitude ratios beyond the sanity threshold -/

theorem Demo.procBig_values :
    Demo.procBig.tps_sample.tn.rows = 1 ∧ Demo.procBig.tps_sample.tn.cols = 2 ∧
    Demo.procBig.tps_sample.config.val (0, 0) = 0 ∧
    Demo.procBig.tps_sample.config.val (0, 1) = 1 ∧
    Demo.procBig.tps_sample.tn.ten (0, 0) = 1 ∧ Demo.procBig.tps_sample.tn.ten (0, 1) = 1 ∧
    Demo.sitpsBig (0, 0) 1 = 10 ^ 9 ∧ Demo.sitpsBig (0, 1) 0 = 1 := by
  refine ⟨rfl, rfl, rfl, rfl, ?_, ?_, ?_, ?_⟩ <;>
    simp [Demo.procBig, TPSSample.init, TensorNetwork2D.run, TensorNetwork2D.ofConfig,
      Demo.config01, Demo.sitpsBig]

/-- C9 (the code departs from the claim): on the `1 × 2` lattice with configuration `0 1`,
amplitude `1` and exchanged amplitude `10 ^ 9`, the ratio of the only bond exceeds `1.0e8`, yet
the bond contributes `-0.25 + 0.5 * 10 ^ 9` to the energy returned by `CalEnergyAndHoles`, not
zero: the test of the ratio guards the diagnostic only, the term is added after it. -/
theorem CalEnergyAndHoles_large_ratio_counterexample :
    Demo.procBig.tps_sample.config.val (0, 0) ≠ Demo.procBig.tps_sample.config.val (0, 1) ∧
    |CalEnergyAndHoles.psiExH Demo.engine Demo.sitpsBig Demo.procBig.tps_sample.config
        Demo.procBig.tps_sample.tn 0 0 *
      (1.0 / CalEnergyAndHoles.psiRow Demo.engine Demo.procBig.tps_sample.tn 0)| > 1.0e8 ∧
    (CalEnergyAndHoles Demo.engine Demo.sitpsBig true Demo.procBig Demo.holes).energy =
      499999999.75 ∧
    (CalEnergyAndHoles Demo.engine Demo.sitpsBig true Demo.procBig Demo.holes).energy ≠ 0 := by
  obtain ⟨hr, hc, h00, h01, t00, t01, s00, s01⟩ := Demo.procBig_values
  have hpsi := Demo.psiRow01 Demo.sitpsBig Demo.procBig.tps_sample.tn hr hc
  have hE : (CalEnergyAndHoles Demo.engine Demo.sitpsBig true Demo.procBig Demo.holes).energy =
      499999999.75 := by
    rw [CalEnergyAndHoles_bond_sum Demo.engine Demo.sitpsBig true Demo.procBig Demo.holes
      (by decide) (by decide) (by decide) (by decide)]
    rw [hr, hc]
    simp only [Finset.sum_range_succ, Finset.sum_range_zero, Nat.reduceSub, zero_add, add_zero]
    rw [hpsi.1, hpsi.2, h00, h01, t00, t01, s00, s01]
    norm_num
  refine ⟨by rw [h00, h01]; decide, ?_, hE, by rw [hE]; norm_num⟩
  rw [hpsi.1, hpsi.2, h00, h01, t00, t01, s00, s01]
  norm_num

/-- What `CalEnergyAndHoles` does with a large ratio: every bond between sites of different
basis value contributes `-0.25 + 0.5 * psi_ex / psi` to the returned energy, whatever the size of
its amplitude ratio; a ratio beyond `1.0e8` only adds one diagnostic. -/
theorem CalEnergyAndHoles_large_ratio (E : ContractionEngine Ten Cache)
    (sitps : SplitIndexTPS Ten) (calchols : Bool) (p : Proc Ten Cache)
    (hole_res : TensorNetwork2D Ten Cache)
    (hr1 : 1 ≤ p.tps_sample.tn.rows) (hr2 : p.tps_sample.tn.rows < 2 ^ 64)
    (hc1 : 1 ≤ p.tps_sample.tn.cols) (hc2 : p.tps_sample.tn.cols < 2 ^ 64) :
    (CalEnergyAndHoles E sitps calchols p hole_res).energy =
      (∑ row ∈ Finset.range p.tps_sample.tn.rows,
        ∑ col ∈ Finset.range (p.tps_sample.tn.cols - 1),
          if p.tps_sample.config.val (row, col) = p.tps_sample.config.val (row, col + 1)
          then (0.25 : ℚ)
          else -0.25 + 0.5 *
            CalEnergyAndHoles.psiExH E sitps p.tps_sample.config p.tps_sample.tn row col /
            CalEnergyAndHoles.psiRow E p.tps_sample.tn row) +
      (∑ col ∈ Finset.range p.tps_sample.tn.cols,
        ∑ row ∈ Finset.range (p.tps_sample.tn.rows - 1),
          if p.tps_sample.config.val (row, col) = p.tps_sample.config.val (row + 1, col)
          then (0.25 : ℚ)
          else -0.25 + 0.5 *
            CalEnergyAndHoles.psiExV E sitps p.tps_sample.config p.tps_sample.tn row col /
            CalEnergyAndHoles.psiCol E p.tps_sample.tn col) ∧
    (∀ (st : EnergyState Ten Cache) (site1 site2 : SiteIdx) (dir : BondOrientation),
      st.proc.tps_sample.config.val site1 ≠ st.proc.tps_sample.config.val site2 →
      (CalEnergyAndHoles.bond E sitps site1 site2 dir st).energy =
        st.energy + (-0.25 + E.ReplaceNNSiteTrace st.proc.tps_sample.tn site1 site2 dir
          (sitps site1 (st.proc.tps_sample.config.val site2))
          (sitps site2 (st.proc.tps_sample.config.val site1)) * st.inv_psi * 0.5) ∧
      (CalEnergyAndHoles.bond E sitps site1 site2 dir st).proc.warnings =
        st.proc.warnings +
          if |E.ReplaceNNSiteTrace st.proc.tps_sample.tn site1 site2 dir
            (sitps site1 (st.proc.tps_sample.config.val site2))
            (sitps site2 (st.proc.tps_sample.config.val site1)) * st.inv_psi| > 1.0e8
          then 1 else 0) := by
  refine ⟨CalEnergyAndHoles_bond_sum E sitps calchols p hole_res hr1 hr2 hc1 hc2, ?_⟩
  intro st site1 site2 dir hne
  unfold CalEnergyAndHoles.bond
  rw [if_neg hne]
  refine ⟨rfl, ?_⟩
  dsimp only
  split_ifs <;> rfl

/-- Witness of `CalEnergyAndHoles_large_ratio`: the `1 × 2` product state whose only bond has
the amplitude ratio `10 ^ 9`. -/
theorem CalEnergyAndHoles_large_ratio_witness :
    (1 ≤ Demo.procBig.tps_sample.tn.rows ∧ Demo.procBig.tps_sample.tn.rows < 2 ^ 64 ∧
      1 ≤ Demo.procBig.tps_sample.tn.cols ∧ Demo.procBig.tps_sample.tn.cols < 2 ^ 64) ∧
    (CalEnergyAndHoles Demo.engine Demo.sitpsBig false Demo.procBig Demo.holes).energy =
      (∑ row ∈ Finset.range Demo.procBig.tps_sample.tn.rows,
        ∑ col ∈ Finset.range (Demo.procBig.tps_sample.tn.cols - 1),
          if Demo.procBig.tps_sample.config.val (row, col) =
            Demo.procBig.tps_sample.config.val (row, col + 1)
          then (0.25 : ℚ)
          else -0.25 + 0.5 *
            CalEnergyAndHoles.psiExH Demo.engine Demo.sitpsBig Demo.procBig.tps_sample.config
              Demo.procBig.tps_sample.tn row col /
            CalEnergyAndHoles.psiRow Demo.engine Demo.procBig.tps_sample.tn row) +
      (∑ col ∈ Finset.range Demo.procBig.tps_sample.tn.cols,
        ∑ row ∈ Finset.range (Demo.procBig.tps_sample.tn.rows - 1),
          if Demo.procBig.tps_sample.config.val (row, col) =
            Demo.procBig.tps_sample.config.val (row + 1, col)
          then (0.25 : ℚ)
          else -0.25 + 0.5 *
            CalEnergyAndHoles.psiExV Demo.engine Demo.sitpsBig Demo.procBig.tps_sample.config
              Demo.procBig.tps_sample.tn row col /
            CalEnergyAndHoles.psiCol Demo.engine Demo.procBig.tps_sample.tn col) :=
  ⟨⟨by decide, by decide, by decide, by decide⟩,
    (CalEnergyAndHoles_large_ratio Demo.engine Demo.sitpsBig false Demo.procBig Demo.holes
      (by decide) (by decide) (by decide) (by decide)).1⟩

/-! ## The bond energies of `SampleMeasure` -/

/-- C10 (the code departs from the claim): on the `1 × 2` lattice with configuration `0 1` and
on the `2 × 1` lattice with configuration `0 / 1`, amplitude `1` and exchanged amplitude `10 ^ 9`,
the ratio of the only bond exceeds `1.0e5`; the branch assigns nothing to the uninitialised
`horizontal_bond_energy` (`vertical_bond_energy`), so whatever value `g` the variable holds is
pushed to `bond_energys_loc` and added to `energy_loc`, not `0.0`. -/
theorem SampleMeasure_large_ratio_uninitialised (g : ℚ) :
    ((SampleMeasure Demo.engine Demo.sitpsBig (fun _ _ => g) Demo.procBig).1.bond_energys_loc =
        [g] ∧
      (SampleMeasure Demo.engine Demo.sitpsBig (fun _ _ => g) Demo.procBig).1.energy_loc = g) ∧
    ((SampleMeasure Demo.engine Demo.sitpsBig (fun _ _ => g) Demo.procBigV).1.bond_energys_loc =
        [g] ∧
      (SampleMeasure Demo.engine Demo.sitpsBig (fun _ _ => g) Demo.procBigV).1.energy_loc =
        g) := by
  refine ⟨⟨?_, ?_⟩, ⟨?_, ?_⟩⟩ <;>
  norm_num [SampleMeasure, SampleMeasure.hRow, SampleMeasure.vCol, SampleMeasure.hStep,
    SampleMeasure.vStep, SampleMeasure.bond, SampleMeasure.corr, SampleMeasure.corrStep,
    retrace, Proc.tnRun, Proc.setTen, TensorNetwork2D.run, Demo.procBig, Demo.procBigV,
    TPSSample.init, TensorNetwork2D.ofConfig, Demo.config01, Demo.config01v, Demo.sitpsBig,
    Demo.engine, Demo.contract, subSize_2_1, subSize_1_1, subSize_2_2, List.range_succ,
    Finset.prod_range_succ, Function.update, bond_energy_extremly_large]

/-! ## The bond move of the compressed Kagome lattice -/

theorem shiftRight_and_one (c k : Nat) : (c >>> k) &&& 1 = (c.testBit k).toNat := by
  rw [Nat.and_one_is_mod, Nat.shiftRight_eq_div_pow, Nat.toNat_testBit]

theorem and_one_eq_testBit (c : Nat) : c &&& 1 = (c.testBit 0).toNat := by
  rw [Nat.and_one_is_mod, Nat.toNat_testBit, pow_zero, Nat.div_one]

theorem toNat_inj (a b : Bool) : a.toNat = b.toNat ↔ a = b := by
  cases a <;> cases b <;> simp

theorem CompressedKagomeLatticeExchangeUpdate_.skip_core (E : ContractionEngine Ten Cache)
    (GetQNBlkNum : Ten → Nat) (site1 site2 : SiteIdx) (bond_dir : BondOrientation)
    (sitps : SplitIndexTPS Ten) (u_double : Nat → ℚ) (p : Proc Ten Cache)
    (h : (if bond_dir = .HORIZONTAL then (p.tps_sample.config.val site1 >>> 2) &&& 1
          else (p.tps_sample.config.val site1 >>> 1) &&& 1) =
          p.tps_sample.config.val site2 &&& 1 ∨
      GetQNBlkNum (sitps site1 (if bond_dir = .HORIZONTAL
        then p.tps_sample.config.val site1 ^^^ (1 <<< 2)
        else p.tps_sample.config.val site1 ^^^ (1 <<< 1))) = 0 ∨
      GetQNBlkNum (sitps site2 (p.tps_sample.config.val site2 ^^^ 1)) = 0) :
    (CompressedKagomeLatticeExchangeUpdate_ E GetQNBlkNum site1 site2 bond_dir sitps u_double
      p).1 = false ∧
    (CompressedKagomeLatticeExchangeUpdate_ E GetQNBlkNum site1 site2 bond_dir sitps u_double
      p).2.tps_sample = p.tps_sample ∧
    (CompressedKagomeLatticeExchangeUpdate_ E GetQNBlkNum site1 site2 bond_dir sitps u_double
      p).2.nn_trace_calls = p.nn_trace_calls ∧
    (CompressedKagomeLatticeExchangeUpdate_ E GetQNBlkNum site1 site2 bond_dir sitps u_double
      p).2.random_engine = p.random_engine := by
  unfold CompressedKagomeLatticeExchangeUpdate_
  by_cases h1 : (if bond_dir = .HORIZONTAL then (p.tps_sample.config.val site1 >>> 2) &&& 1
      else (p.tps_sample.config.val site1 >>> 1) &&& 1) = p.tps_sample.config.val site2 &&& 1
  · simp only [h1, if_true]
    exact ⟨trivial, trivial, trivial, trivial⟩
  · by_cases h2 : GetQNBlkNum (sitps site1 (if bond_dir = .HORIZONTAL
        then p.tps_sample.config.val site1 ^^^ (1 <<< 2)
        else p.tps_sample.config.val site1 ^^^ (1 <<< 1))) = 0
    · simp only [h1, h2, if_true, if_false]
      exact ⟨trivial, trivial, trivial, trivial⟩
    · have h3 : GetQNBlkNum (sitps site2 (p.tps_sample.config.val site2 ^^^ 1)) = 0 := by
        rcases h with h | h | h
        · exact absurd h h1
        · exact absurd h h2
        · exact h
      simp only [h1, h2, h3, if_true, if_false]
      exact ⟨trivial, trivial, trivial, trivial⟩

/-- C19: `CompressedKagomeLatticeExchangeUpdate_` returns `false` and leaves the configuration,
the network and the amplitude unchanged, evaluates no amplitude and consumes no draw, whenever
the two bond-facing bits are equal (bit 2 of the value of `site1` for a horizontal bond, bit 1
for a vertical bond, against bit 0 of the value of `site2`), or the wavefunction tensor of
`site1` for its target value (its value with that bit flipped), or the one of `site2` for its
target value (its value with bit 0 flipped), has no quantum-number block. -/
theorem CompressedKagomeLatticeExchangeUpdate_skip (E : ContractionEngine Ten Cache)
    (GetQNBlkNum : Ten → Nat) (site1 site2 : SiteIdx) (bond_dir : BondOrientation)
    (sitps : SplitIndexTPS Ten) (u_double : Nat → ℚ) (p : Proc Ten Cache)
    (h : (bond_dir = .HORIZONTAL ∧
        (p.tps_sample.config.val site1).testBit 2 = (p.tps_sample.config.val site2).testBit 0) ∨
      (bond_dir = .VERTICAL ∧
        (p.tps_sample.config.val site1).testBit 1 = (p.tps_sample.config.val site2).testBit 0) ∨
      GetQNBlkNum (sitps site1 (p.tps_sample.config.val site1 ^^^
        (if bond_dir = .HORIZONTAL then 4 else 2))) = 0 ∨
      GetQNBlkNum (sitps site2 (p.tps_sample.config.val site2 ^^^ 1)) = 0) :
    (CompressedKagomeLatticeExchangeUpdate_ E GetQNBlkNum site1 site2 bond_dir sitps u_double
      p).1 = false ∧
    (CompressedKagomeLatticeExchangeUpdate_ E GetQNBlkNum site1 site2 bond_dir sitps u_double
      p).2.tps_sample.config = p.tps_sample.config ∧
    (CompressedKagomeLatticeExchangeUpdate_ E GetQNBlkNum site1 site2 bond_dir sitps u_double
      p).2.tps_sample.tn = p.tps_sample.tn ∧
    (CompressedKagomeLatticeExchangeUpdate_ E GetQNBlkNum site1 site2 bond_dir sitps u_double
      p).2.tps_sample.amplitude = p.tps_sample.amplitude ∧
    (CompressedKagomeLatticeExchangeUpdate_ E GetQNBlkNum site1 site2 bond_dir sitps u_double
      p).2.nn_trace_calls = p.nn_trace_calls ∧
    (CompressedKagomeLatticeExchangeUpdate_ E GetQNBlkNum site1 site2 bond_dir sitps u_double
      p).2.random_engine = p.random_engine := by
  have hcore := CompressedKagomeLatticeExchangeUpdate_.skip_core E GetQNBlkNum site1 site2
    bond_dir sitps u_double p (by
      rcases h with ⟨hd, hb⟩ | ⟨hd, hb⟩ | hblk | hblk
      · left
        rw [if_pos hd, shiftRight_and_one, and_one_eq_testBit, hb]
      · left
        rw [if_neg (by rw [hd]; decide), shiftRight_and_one, and_one_eq_testBit, hb]
      · right; left
        cases bond_dir
        · simpa using hblk
        · simpa using hblk
      · right; right
        exact hblk)
  obtain ⟨h1, h2, h3, h4⟩ := hcore
  exact ⟨h1, by rw [h2], by rw [h2], by rw [h2], h3, h4⟩

/-- Witness of `CompressedKagomeLatticeExchangeUpdate_skip`: the `1 × 2` lattice with
configuration `0 1` shifted to the values `4` and `1`, whose facing bits (bit 2 of `4`, bit 0 of
`1`) are both set. -/
theorem CompressedKagomeLatticeExchangeUpdate_skip_witness :
    (Demo.procK.tps_sample.config.val (0, 0)).testBit 2 =
      (Demo.procK.tps_sample.config.val (0, 1)).testBit 0 ∧
    (CompressedKagomeLatticeExchangeUpdate_ Demo.engine (fun _ => 1) (0, 0) (0, 1) .HORIZONTAL
      Demo.sitps (fun _ => 0) Demo.procK).1 = false ∧
    (CompressedKagomeLatticeExchangeUpdate_ Demo.engine (fun _ => 1) (0, 0) (0, 1) .HORIZONTAL
      Demo.sitps (fun _ => 0) Demo.procK).2.random_engine = Demo.procK.random_engine :=
  ⟨by decide,
    (CompressedKagomeLatticeExchangeUpdate_skip Demo.engine (fun _ => 1) (0, 0) (0, 1)
      .HORIZONTAL Demo.sitps (fun _ => 0) Demo.procK (Or.inl ⟨rfl, by decide⟩)).1,
    (CompressedKagomeLatticeExchangeUpdate_skip Demo.engine (fun _ => 1) (0, 0) (0, 1)
      .HORIZONTAL Demo.sitps (fun _ => 0) Demo.procK (Or.inl ⟨rfl, by decide⟩)).2.2.2.2.2⟩

/-! ## The sweep proposes every bond once -/

theorem runCalls_append (E : ContractionEngine Ten Cache) (sitps : SplitIndexTPS Ten)
    (u_double : Nat → ℚ) (a b : List SweepCall) (st : Nat × Proc Ten Cache) :
    runCalls E sitps u_double (a ++ b) st =
      runCalls E sitps u_double b (runCalls E sitps u_double a st) := by
  unfold runCalls
  rw [List.foldl_append]

theorem runCalls_flatMap {α : Type} (E : ContractionEngine Ten Cache)
    (sitps : SplitIndexTPS Ten) (u_double : Nat → ℚ) (l : List α) (f : α → List SweepCall)
    (st : Nat × Proc Ten Cache) :
    runCalls E sitps u_double (l.flatMap f) st =
      l.foldl (fun st x => runCalls E sitps u_double (f x) st) st := by
  induction l generalizing st with
  | nil => rfl
  | cons x xs ih =>
    rw [List.flatMap_cons, runCalls_append, ih, List.foldl_cons]

theorem hStep_eq_runCalls (E : ContractionEngine Ten Cache) (sitps : SplitIndexTPS Ten)
    (u_double : Nat → ℚ) (cols row col : Nat) (st : Nat × Proc Ten Cache)
    (hc1 : 2 ≤ cols) (hc2 : cols < 2 ^ 64) :
    MCSequentiallyNNFlipSweep.hStep E sitps u_double cols row st col =
      runCalls E sitps u_double
        (SweepCall.exchange (row, col) (row, col + 1) .HORIZONTAL ::
          (if col < cols - 2 then [SweepCall.cache (.BTenMoveStep .RIGHT)] else [])) st := by
  unfold MCSequentiallyNNFlipSweep.hStep
  rw [subSize_eq_sub cols 2 hc1 hc2]
  by_cases h : col < cols - 2
  · simp only [h, if_true]
    rfl
  · simp only [h, if_false]
    rfl

theorem vStep_eq_runCalls (E : ContractionEngine Ten Cache) (sitps : SplitIndexTPS Ten)
    (u_double : Nat → ℚ) (rows row col : Nat) (st : Nat × Proc Ten Cache)
    (hr1 : 2 ≤ rows) (hr2 : rows < 2 ^ 64) :
    MCSequentiallyNNFlipSweep.vStep E sitps u_double rows col st row =
      runCalls E sitps u_double
        (SweepCall.exchange (row, col) (row + 1, col) .VERTICAL ::
          (if row < rows - 2 then [SweepCall.cache (.BTenMoveStep .DOWN)] else [])) st := by
  unfold MCSequentiallyNNFlipSweep.vStep
  rw [subSize_eq_sub rows 2 hr1 hr2]
  by_cases h : row < rows - 2
  · simp only [h, if_true]
    rfl
  · simp only [h, if_false]
    rfl

theorem hRow_eq_runCalls (E : ContractionEngine Ten Cache) (sitps : SplitIndexTPS Ten)
    (u_double : Nat → ℚ) (rows cols row : Nat) (st : Nat × Proc Ten Cache)
    (hr1 : 1 ≤ rows) (hr2 : rows < 2 ^ 64) (hc1 : 1 ≤ cols) (hc2 : cols < 2 ^ 64) :
    MCSequentiallyNNFlipSweep.hRow E sitps u_double rows cols st row =
      runCalls E sitps u_double (sweepRowCalls E.trun_para rows cols row) st := by
  unfold MCSequentiallyNNFlipSweep.hRow sweepRowCalls
  rw [subSize_eq_sub rows 1 hr1 hr2, subSize_eq_sub cols 1 hc1 hc2, runCalls_append,
    runCalls_append, runCalls_flatMap]
  have hinner : ∀ s : Nat × Proc Ten Cache,
      (List.range (cols - 1)).foldl (MCSequentiallyNNFlipSweep.hStep E sitps u_double cols row)
        s =
      (List.range (cols - 1)).foldl (fun st col => runCalls E sitps u_double
        (SweepCall.exchange (row, col) (row, col + 1) .HORIZONTAL ::
          (if col < cols - 2 then [SweepCall.cache (.BTenMoveStep .RIGHT)] else [])) st) s := by
    intro s
    apply List.foldl_ext
    intro a b hb
    have := List.mem_range.mp hb
    exact hStep_eq_runCalls E sitps u_double cols row b a (by omega) hc2
  by_cases h : row < rows - 1
  · simp only [hinner, h, if_true]
    rfl
  · simp only [hinner, h, if_false]
    rfl

theorem vCol_eq_runCalls (E : ContractionEngine Ten Cache) (sitps : SplitIndexTPS Ten)
    (u_double : Nat → ℚ) (rows cols col : Nat) (st : Nat × Proc Ten Cache)
    (hr1 : 1 ≤ rows) (hr2 : rows < 2 ^ 64) (hc1 : 1 ≤ cols) (hc2 : cols < 2 ^ 64) :
    MCSequentiallyNNFlipSweep.vCol E sitps u_double rows cols st col =
      runCalls E sitps u_double (sweepColCalls E.trun_para rows cols col) st := by
  unfold MCSequentiallyNNFlipSweep.vCol sweepColCalls
  rw [subSize_eq_sub rows 1 hr1 hr2, subSize_eq_sub cols 1 hc1 hc2, runCalls_append,
    runCalls_append, runCalls_flatMap]
  have hinner : ∀ s : Nat × Proc Ten Cache,
      (List.range (rows - 1)).foldl (MCSequentiallyNNFlipSweep.vStep E sitps u_double rows col)
        s =
      (List.range (rows - 1)).foldl (fun st row => runCalls E sitps u_double
        (SweepCall.exchange (row, col) (row + 1, col) .VERTICAL ::
          (if row < rows - 2 then [SweepCall.cache (.BTenMoveStep .DOWN)] else [])) st) s := by
    intro s
    apply List.foldl_ext
    intro a b hb
    have := List.mem_range.mp hb
    exact vStep_eq_runCalls E sitps u_double rows b col a (by omega) hr2
  by_cases h : col < cols - 1
  · simp only [hinner, h, if_true]
    rfl
  · simp only [hinner, h, if_false]
    rfl

theorem MCSequentiallyNNFlipSweep_eq_runCalls (E : ContractionEngine Ten Cache)
    (sitps : SplitIndexTPS Ten) (u_double : Nat → ℚ) (p : Proc Ten Cache)
    (hr1 : 1 ≤ p.tps_sample.tn.rows) (hr2 : p.tps_sample.tn.rows < 2 ^ 64)
    (hc1 : 1 ≤ p.tps_sample.tn.cols) (hc2 : p.tps_sample.tn.cols < 2 ^ 64) :
    MCSequentiallyNNFlipSweep E sitps u_double p =
      runCalls E sitps u_double
        (sweepCalls E.trun_para p.tps_sample.tn.rows p.tps_sample.tn.cols) (0, p) := by
  have hd := dims_eq_iff p _
    (hPass_invariant E sitps u_double (0, p) ∅ (fun _ _ _ => by simp)).1
  have hH : MCSequentiallyNNFlipSweep.hPass E sitps u_double (0, p) =
      runCalls E sitps u_double
        ([SweepCall.cache (.GenerateBMPSApproach .UP E.trun_para)] ++
          (List.range p.tps_sample.tn.rows).flatMap
            (sweepRowCalls E.trun_para p.tps_sample.tn.rows p.tps_sample.tn.cols) ++
          [SweepCall.cache (.DeleteInnerBMPS .LEFT), SweepCall.cache (.DeleteInnerBMPS .RIGHT)])
        (0, p) := by
    unfold MCSequentiallyNNFlipSweep.hPass
    rw [runCalls_append, runCalls_append, runCalls_flatMap]
    have : ∀ s : Nat × Proc Ten Cache,
        (List.range p.tps_sample.tn.rows).foldl (MCSequentiallyNNFlipSweep.hRow E sitps u_double
          p.tps_sample.tn.rows p.tps_sample.tn.cols) s =
        (List.range p.tps_sample.tn.rows).foldl (fun st x => runCalls E sitps u_double
          (sweepRowCalls E.trun_para p.tps_sample.tn.rows p.tps_sample.tn.cols x) st) s := by
      intro s
      apply List.foldl_ext
      intro a b _
      exact hRow_eq_runCalls E sitps u_double _ _ b a hr1 hr2 hc1 hc2
    show (_, _) = _
    dsimp only
    rw [this]
    rfl
  have hV : ∀ st : Nat × Proc Ten Cache, st.2.tps_sample.tn.rows = p.tps_sample.tn.rows →
      st.2.tps_sample.tn.cols = p.tps_sample.tn.cols →
      MCSequentiallyNNFlipSweep.vPass E sitps u_double st =
      runCalls E sitps u_double
        ([SweepCall.cache (.GenerateBMPSApproach .LEFT E.trun_para)] ++
          (List.range p.tps_sample.tn.cols).flatMap
            (sweepColCalls E.trun_para p.tps_sample.tn.rows p.tps_sample.tn.cols) ++
          [SweepCall.cache (.DeleteInnerBMPS .UP)]) st := by
    intro st hr hc
    unfold MCSequentiallyNNFlipSweep.vPass
    rw [runCalls_append, runCalls_append, runCalls_flatMap, hr, hc]
    have : ∀ s : Nat × Proc Ten Cache,
        (List.range p.tps_sample.tn.cols).foldl (MCSequentiallyNNFlipSweep.vCol E sitps u_double
          p.tps_sample.tn.rows p.tps_sample.tn.cols) s =
        (List.range p.tps_sample.tn.cols).foldl (fun st x => runCalls E sitps u_double
          (sweepColCalls E.trun_para p.tps_sample.tn.rows p.tps_sample.tn.cols x) st) s := by
      intro s
      apply List.foldl_ext
      intro a b _
      exact vCol_eq_runCalls E sitps u_double _ _ b a hr1 hr2 hc1 hc2
    show (_, _) = _
    dsimp only
    rw [this]
    rfl
  unfold MCSequentiallyNNFlipSweep
  rw [hV _ hd.2.2.1 hd.2.2.2, hH]
  unfold sweepCalls
  simp only [runCalls_append, List.append_assoc]
  rfl

theorem exchangesOf_append (a b : List SweepCall) :
    exchangesOf (a ++ b) = exchangesOf a ++ exchangesOf b := by
  unfold exchangesOf
  rw [List.filterMap_append]

theorem exchangesOf_flatMap {α : Type} (l : List α) (f : α → List SweepCall) :
    exchangesOf (l.flatMap f) = l.flatMap (fun x => exchangesOf (f x)) := by
  induction l with
  | nil => rfl
  | cons x xs ih =>
    rw [List.flatMap_cons, List.flatMap_cons, exchangesOf_append, ih]

theorem flatMap_singleton_map {α β : Type} (l : List α) (g : α → β) :
    l.flatMap (fun x => [g x]) = l.map g := by
  induction l with
  | nil => rfl
  | cons x xs ih =>
    rw [List.flatMap_cons, List.map_cons, ih]
    rfl

theorem exchangesOf_sweepRowCalls (trunc : TruncatePara) (rows cols row : Nat) :
    exchangesOf (sweepRowCalls trunc rows cols row) =
      (List.range (cols - 1)).map (fun col => ((row, col), (row, col + 1), .HORIZONTAL)) := by
  unfold sweepRowCalls
  rw [exchangesOf_append, exchangesOf_append, exchangesOf_flatMap]
  have h1 : exchangesOf [SweepCall.cache (.InitBTen .LEFT row),
      SweepCall.cache (.GrowFullBTen .RIGHT row 2 true)] = [] := rfl
  have h2 : exchangesOf (if row < rows - 1
      then [SweepCall.cache (.BMPSMoveStep .DOWN trunc)] else []) = [] := by
    split_ifs <;> rfl
  have h3 : ∀ col, exchangesOf (SweepCall.exchange (row, col) (row, col + 1) .HORIZONTAL ::
      (if col < cols - 2 then [SweepCall.cache (.BTenMoveStep .RIGHT)] else [])) =
      [((row, col), (row, col + 1), .HORIZONTAL)] := by
    intro col
    split_ifs <;> rfl
  rw [h1, h2, List.nil_append, List.append_nil]
  simp only [h3]
  exact flatMap_singleton_map _ _

theorem exchangesOf_sweepColCalls (trunc : TruncatePara) (rows cols col : Nat) :
    exchangesOf (sweepColCalls trunc rows cols col) =
      (List.range (rows - 1)).map (fun row => ((row, col), (row + 1, col), .VERTICAL)) := by
  unfold sweepColCalls
  rw [exchangesOf_append, exchangesOf_append, exchangesOf_flatMap]
  have h1 : exchangesOf [SweepCall.cache (.InitBTen .UP col),
      SweepCall.cache (.GrowFullBTen .DOWN col 2 true)] = [] := rfl
  have h2 : exchangesOf (if col < cols - 1
      then [SweepCall.cache (.BMPSMoveStep .RIGHT trunc)] else []) = [] := by
    split_ifs <;> rfl
  have h3 : ∀ row, exchangesOf (SweepCall.exchange (row, col) (row + 1, col) .VERTICAL ::
      (if row < rows - 2 then [SweepCall.cache (.BTenMoveStep .DOWN)] else [])) =
      [((row, col), (row + 1, col), .VERTICAL)] := by
    intro row
    split_ifs <;> rfl
  rw [h1, h2, List.nil_append, List.append_nil]
  simp only [h3]
  exact flatMap_singleton_map _ _

theorem exchangesOf_sweepCalls (trunc : TruncatePara) (rows cols : Nat) :
    exchangesOf (sweepCalls trunc rows cols) = hBonds rows cols ++ vBonds rows cols := by
  unfold sweepCalls hBonds vBonds
  simp only [exchangesOf_append, exchangesOf_flatMap, exchangesOf_sweepRowCalls,
    exchangesOf_sweepColCalls]
  have h1 : exchangesOf [SweepCall.cache (.GenerateBMPSApproach .UP trunc)] = [] := rfl
  have h2 : exchangesOf [SweepCall.cache (.DeleteInnerBMPS .LEFT),
      SweepCall.cache (.DeleteInnerBMPS .RIGHT),
      SweepCall.cache (.GenerateBMPSApproach .LEFT trunc)] = [] := rfl
  have h3 : exchangesOf [SweepCall.cache (.DeleteInnerBMPS .UP)] = [] := rfl
  rw [h1, h2, h3]
  simp

theorem length_flatMap_range_map {β : Type} (n m : Nat) (g : Nat → Nat → β) :
    ((List.range n).flatMap (fun a => (List.range m).map (g a))).length = n * m := by
  induction n with
  | zero => simp
  | succ n ih =>
    rw [List.range_succ, List.flatMap_append, List.length_append, ih]
    simp [Nat.succ_mul]

theorem length_bonds (rows cols : Nat) :
    (hBonds rows cols ++ vBonds rows cols).length =
      rows * (cols - 1) + cols * (rows - 1) := by
  unfold hBonds vBonds
  rw [List.length_append, length_flatMap_range_map, length_flatMap_range_map]

theorem mem_hBonds (rows cols : Nat) (b : SiteIdx × SiteIdx × BondOrientation) :
    b ∈ hBonds rows cols ↔
      ∃ row col, row < rows ∧ col < cols - 1 ∧
        b = ((row, col), (row, col + 1), .HORIZONTAL) := by
  unfold hBonds
  simp only [List.mem_flatMap, List.mem_range, List.mem_map]
  constructor
  · rintro ⟨row, hrow, col, hcol, rfl⟩
    exact ⟨row, col, hrow, hcol, rfl⟩
  · rintro ⟨row, col, hrow, hcol, rfl⟩
    exact ⟨row, hrow, col, hcol, rfl⟩

theorem mem_vBonds (rows cols : Nat) (b : SiteIdx × SiteIdx × BondOrientation) :
    b ∈ vBonds rows cols ↔
      ∃ row col, row < rows - 1 ∧ col < cols ∧
        b = ((row, col), (row + 1, col), .VERTICAL) := by
  unfold vBonds
  simp only [List.mem_flatMap, List.mem_range, List.mem_map]
  constructor
  · rintro ⟨col, hcol, row, hrow, rfl⟩
    exact ⟨row, col, hrow, hcol, rfl⟩
  · rintro ⟨row, col, hrow, hcol, rfl⟩
    exact ⟨col, hcol, row, hrow, rfl⟩

theorem nodup_bonds (rows cols : Nat) : (hBonds rows cols ++ vBonds rows cols).Nodup := by
  rw [List.nodup_append]
  refine ⟨?_, ?_, ?_⟩
  · unfold hBonds
    rw [List.nodup_flatMap]
    constructor
    · intro row _
      apply List.Nodup.map _ (List.nodup_range _)
      intro a b hab
      simp only [Prod.mk.injEq] at hab
      exact hab.1.2
    · apply List.Pairwise.imp _ (List.nodup_range rows)
      intro a b hab
      simp only [Function.onFun, List.disjoint_left, List.mem_map, List.mem_range]
      rintro x ⟨c, _, rfl⟩ ⟨c', _, h⟩
      simp only [Prod.mk.injEq] at h
      exact hab h.1.1.symm
  · unfold vBonds
    rw [List.nodup_flatMap]
    constructor
    · intro col _
      apply List.Nodup.map _ (List.nodup_range _)
      intro a b hab
      simp only [Prod.mk.injEq] at hab
      exact hab.1.1
    · apply List.Pairwise.imp _ (List.nodup_range cols)
      intro a b hab
      simp only [Function.onFun, List.disjoint_left, List.mem_map, List.mem_range]
      rintro x ⟨c, _, rfl⟩ ⟨c', _, h⟩
      simp only [Prod.mk.injEq] at h
      exact hab h.1.2.symm
  · rw [List.disjoint_left]
    intro b hb hv
    obtain ⟨_, _, _, _, rfl⟩ := (mem_hBonds rows cols b).mp hb
    obtain ⟨_, _, _, _, h⟩ := (mem_vBonds rows cols _).mp hv
    simp only [Prod.mk.injEq] at h
    exact absurd h.2.2 (by decide)

theorem runCalls_accept_le (E : ContractionEngine Ten Cache) (sitps : SplitIndexTPS Ten)
    (u_double : Nat → ℚ) (calls : List SweepCall) (st : Nat × Proc Ten Cache) :
    (runCalls E sitps u_double calls st).1 ≤ st.1 + (exchangesOf calls).length := by
  induction calls generalizing st with
  | nil => simp [runCalls, exchangesOf]
  | cons c cs ih =>
    have hstep := ih (SweepCall.run E sitps u_double st c)
    have hrun : runCalls E sitps u_double (c :: cs) st =
        runCalls E sitps u_double cs (SweepCall.run E sitps u_double st c) := rfl
    rw [hrun]
    cases c with
    | cache op =>
      have h1 : exchangesOf (SweepCall.cache op :: cs) = exchangesOf cs := rfl
      have h2 : (SweepCall.run E sitps u_double st (SweepCall.cache op)).1 = st.1 := rfl
      rw [h1]
      rw [h2] at hstep
      exact hstep
    | exchange site1 site2 bond_dir =>
      have h1 : exchangesOf (SweepCall.exchange site1 site2 bond_dir :: cs) =
          (site1, site2, bond_dir) :: exchangesOf cs := rfl
      have h2 : (SweepCall.run E sitps u_double st
          (SweepCall.exchange site1 site2 bond_dir)).1 ≤ st.1 + 1 := by
        show st.1 + _ ≤ st.1 + 1
        have := Bool.toNat_le (ExchangeUpdate E site1 site2 bond_dir sitps u_double st.2).1
        omega
      rw [h1, List.length_cons]
      omega

theorem runCalls_uniform (E : ContractionEngine Ten Cache) (sitps : SplitIndexTPS Ten)
    (u_double : Nat → ℚ) (calls : List SweepCall) (st : Nat × Proc Ten Cache)
    (h : ∀ b ∈ exchangesOf calls,
      st.2.tps_sample.config.val b.1 = st.2.tps_sample.config.val b.2.1) :
    (runCalls E sitps u_double calls st).1 = st.1 + (exchangesOf calls).length ∧
    (runCalls E sitps u_double calls st).2.tps_sample.config = st.2.tps_sample.config := by
  induction calls generalizing st with
  | nil => exact ⟨rfl, rfl⟩
  | cons c cs ih =>
    have hrun : runCalls E sitps u_double (c :: cs) st =
        runCalls E sitps u_double cs (SweepCall.run E sitps u_double st c) := rfl
    rw [hrun]
    cases c with
    | cache op =>
      have h1 : exchangesOf (SweepCall.cache op :: cs) = exchangesOf cs := rfl
      rw [h1] at h ⊢
      exact ih (SweepCall.run E sitps u_double st (SweepCall.cache op)) h
    | exchange site1 site2 bond_dir =>
      have h1 : exchangesOf (SweepCall.exchange site1 site2 bond_dir :: cs) =
          (site1, site2, bond_dir) :: exchangesOf cs := rfl
      rw [h1] at h ⊢
      have heq : st.2.tps_sample.config.val site1 = st.2.tps_sample.config.val site2 :=
        h (site1, site2, bond_dir) (List.mem_cons_self _ _)
      have hex := ExchangeUpdate_of_eq E site1 site2 bond_dir sitps u_double st.2 heq
      have hst : SweepCall.run E sitps u_double st (SweepCall.exchange site1 site2 bond_dir) =
          (st.1 + 1, st.2) := by
        show (st.1 + _, _) = _
        rw [hex]
        rfl
      rw [hst]
      have := ih (st.1 + 1, st.2) (fun b hb => h b (List.mem_cons_of_mem _ hb))
      rw [List.length_cons]
      refine ⟨?_, this.2⟩
      rw [this.1]
      show st.1 + 1 + _ = _
      omega

/-- C20: on a lattice with `rows ≥ 1` and `cols ≥ 1` (both `size_t` values) one
`MCSequentiallyNNFlipSweep` is the run of the calls `sweepCalls`; the `ExchangeUpdate` calls
among them are the horizontal bonds row by row followed by the vertical bonds column by column,
every nearest-neighbour bond exactly once, `rows * (cols - 1) + cols * (rows - 1)` proposals in
total; the returned `accept_num` counts the calls that returned `true`, so it is at most the
number of bonds, and it equals the number of bonds when all sites hold the same value. -/
theorem MCSequentiallyNNFlipSweep_proposals (E : ContractionEngine Ten Cache)
    (sitps : SplitIndexTPS Ten) (u_double : Nat → ℚ) (p : Proc Ten Cache)
    (hr1 : 1 ≤ p.tps_sample.tn.rows) (hr2 : p.tps_sample.tn.rows < 2 ^ 64)
    (hc1 : 1 ≤ p.tps_sample.tn.cols) (hc2 : p.tps_sample.tn.cols < 2 ^ 64) :
    MCSequentiallyNNFlipSweep E sitps u_double p =
      runCalls E sitps u_double
        (sweepCalls E.trun_para p.tps_sample.tn.rows p.tps_sample.tn.cols) (0, p) ∧
    exchangesOf (sweepCalls E.trun_para p.tps_sample.tn.rows p.tps_sample.tn.cols) =
      hBonds p.tps_sample.tn.rows p.tps_sample.tn.cols ++
        vBonds p.tps_sample.tn.rows p.tps_sample.tn.cols ∧
    (hBonds p.tps_sample.tn.rows p.tps_sample.tn.cols ++
      vBonds p.tps_sample.tn.rows p.tps_sample.tn.cols).Nodup ∧
    (∀ row col, row < p.tps_sample.tn.rows → col + 1 < p.tps_sample.tn.cols →
      ((row, col), (row, col + 1), BondOrientation.HORIZONTAL) ∈
        hBonds p.tps_sample.tn.rows p.tps_sample.tn.cols) ∧
    (∀ row col, row + 1 < p.tps_sample.tn.rows → col < p.tps_sample.tn.cols →
      ((row, col), (row + 1, col), BondOrientation.VERTICAL) ∈
        vBonds p.tps_sample.tn.rows p.tps_sample.tn.cols) ∧
    (hBonds p.tps_sample.tn.rows p.tps_sample.tn.cols ++
      vBonds p.tps_sample.tn.rows p.tps_sample.tn.cols).length =
      p.tps_sample.tn.rows * (p.tps_sample.tn.cols - 1) +
        p.tps_sample.tn.cols * (p.tps_sample.tn.rows - 1) ∧
    (MCSequentiallyNNFlipSweep E sitps u_double p).1 ≤
      p.tps_sample.tn.rows * (p.tps_sample.tn.cols - 1) +
        p.tps_sample.tn.cols * (p.tps_sample.tn.rows - 1) ∧
    ((∀ site1 site2, site1 ∈ lattice p.tps_sample.tn.rows p.tps_sample.tn.cols →
        site2 ∈ lattice p.tps_sample.tn.rows p.tps_sample.tn.cols →
        p.tps_sample.config.val site1 = p.tps_sample.config.val site2) →
      (MCSequentiallyNNFlipSweep E sitps u_double p).1 =
        p.tps_sample.tn.rows * (p.tps_sample.tn.cols - 1) +
          p.tps_sample.tn.cols * (p.tps_sample.tn.rows - 1)) := by
  have hrun := MCSequentiallyNNFlipSweep_eq_runCalls E sitps u_double p hr1 hr2 hc1 hc2
  have hex := exchangesOf_sweepCalls E.trun_para p.tps_sample.tn.rows p.tps_sample.tn.cols
  have hlen := length_bonds p.tps_sample.tn.rows p.tps_sample.tn.cols
  refine ⟨hrun, hex, nodup_bonds _ _, ?_, ?_, hlen, ?_, ?_⟩
  · intro row col hrow hcol
    exact (mem_hBonds _ _ _).mpr ⟨row, col, hrow, by omega, rfl⟩
  · intro row col hrow hcol
    exact (mem_vBonds _ _ _).mpr ⟨row, col, by omega, hcol, rfl⟩
  · have := runCalls_accept_le E sitps u_double
      (sweepCalls E.trun_para p.tps_sample.tn.rows p.tps_sample.tn.cols) (0, p)
    rw [hex, hlen] at this
    rw [hrun]
    simpa using this
  · intro hsame
    have := (runCalls_uniform E sitps u_double
      (sweepCalls E.trun_para p.tps_sample.tn.rows p.tps_sample.tn.cols) (0, p) (by
        intro b hb
        rw [hex, List.mem_append] at hb
        rcases hb with hb | hb
        · obtain ⟨row, col, hrow, hcol, rfl⟩ := (mem_hBonds _ _ _).mp hb
          apply hsame <;> simp only [lattice, Finset.mem_product, Finset.mem_range] <;> omega
        · obtain ⟨row, col, hrow, hcol, rfl⟩ := (mem_vBonds _ _ _).mp hb
          apply hsame <;> simp only [lattice, Finset.mem_product, Finset.mem_range] <;>
            omega)).1
    rw [hex, hlen] at this
    rw [hrun, this]
    simp

/-- Witness of `MCSequentiallyNNFlipSweep_proposals`: the `1 × 2` product state with
configuration `1 1` has one bond, and the sweep returns `1`. -/
theorem MCSequentiallyNNFlipSweep_proposals_witness :
    (1 ≤ Demo.proc11.tps_sample.tn.rows ∧ Demo.proc11.tps_sample.tn.rows < 2 ^ 64 ∧
      1 ≤ Demo.proc11.tps_sample.tn.cols ∧ Demo.proc11.tps_sample.tn.cols < 2 ^ 64) ∧
    (MCSequentiallyNNFlipSweep Demo.engine Demo.sitps (fun _ => 0) Demo.proc11).1 =
      Demo.proc11.tps_sample.tn.rows * (Demo.proc11.tps_sample.tn.cols - 1) +
        Demo.proc11.tps_sample.tn.cols * (Demo.proc11.tps_sample.tn.rows - 1) :=
  ⟨⟨by decide, by decide, by decide, by decide⟩,
    (MCSequentiallyNNFlipSweep_proposals Demo.engine Demo.sitps (fun _ => 0) Demo.proc11
      (by decide) (by decide) (by decide) (by decide)).2.2.2.2.2.2.2 (fun _ _ _ _ => rfl)⟩

/-! ## `SampleMeasure` restores the network -/

theorem SampleMeasure.bond_sites (E : ContractionEngine Ten Cache) (sitps : SplitIndexTPS Ten)
    (uninit : SiteIdx → BondOrientation → ℚ) (site1 site2 : SiteIdx) (dir : BondOrientation)
    (st : MeasureState Ten Cache) :
    (SampleMeasure.bond E sitps uninit site1 site2 dir st).proc.sites = st.proc.sites := by
  unfold SampleMeasure.bond Proc.sites
  dsimp only
  split_ifs <;> rfl

theorem SampleMeasure.hStep_sites (E : ContractionEngine Ten Cache) (sitps : SplitIndexTPS Ten)
    (uninit : SiteIdx → BondOrientation → ℚ) (cols row col : Nat)
    (st : MeasureState Ten Cache) :
    (SampleMeasure.hStep E sitps uninit cols row st col).proc.sites = st.proc.sites := by
  unfold SampleMeasure.hStep
  split_ifs
  · exact SampleMeasure.bond_sites E sitps uninit _ _ _ st
  · rfl

theorem SampleMeasure.vStep_sites (E : ContractionEngine Ten Cache) (sitps : SplitIndexTPS Ten)
    (uninit : SiteIdx → BondOrientation → ℚ) (rows row col : Nat)
    (st : MeasureState Ten Cache) :
    (SampleMeasure.vStep E sitps uninit rows col st row).proc.sites = st.proc.sites := by
  unfold SampleMeasure.vStep
  split_ifs
  · exact SampleMeasure.bond_sites E sitps uninit _ _ _ st
  · exact SampleMeasure.bond_sites E sitps uninit _ _ _ st

theorem SampleMeasure.vCol_sites (E : ContractionEngine Ten Cache) (sitps : SplitIndexTPS Ten)
    (uninit : SiteIdx → BondOrientation → ℚ) (rows cols col : Nat)
    (st : MeasureState Ten Cache) :
    (SampleMeasure.vCol E sitps uninit rows cols st col).proc.sites = st.proc.sites := by
  unfold SampleMeasure.vCol
  have key := foldl_invariant
    (fun q : MeasureState Ten Cache => q.proc.sites = st.proc.sites)
    (SampleMeasure.vStep E sitps uninit rows col) (List.range (subSize rows 1))
    { st with
      proc := retrace E (.InitBTen .UP col) (.GrowFullBTen .DOWN col 2 true) (0, col)
        .VERTICAL st.proc
      inv_psi := 1.0 / (retrace E (.InitBTen .UP col) (.GrowFullBTen .DOWN col 2 true)
        (0, col) .VERTICAL st.proc).tps_sample.amplitude }
    rfl
    (fun a b _ hP => (SampleMeasure.vStep_sites E sitps uninit rows b col a).trans hP)
  dsimp only
  split_ifs
  · exact key
  · exact key

theorem SampleMeasure.corrStep_proc (E : ContractionEngine Ten Cache)
    (sitps : SplitIndexTPS Ten) (lx row : Nat) (inv_psi : ℚ)
    (st : List ℚ × Proc Ten Cache) (i : Nat) :
    (SampleMeasure.corrStep E sitps lx row inv_psi st i).2 = st.2 := by
  unfold SampleMeasure.corrStep
  dsimp only
  split_ifs <;> rfl

theorem SampleMeasure.corr_sites (E : ContractionEngine Ten Cache) (sitps : SplitIndexTPS Ten)
    (lx row : Nat) (st : MeasureState Ten Cache) :
    (SampleMeasure.corr E sitps lx row st).proc.sites =
      (st.proc.tps_sample.config,
        Function.update st.proc.tps_sample.tn.ten (row, lx / 4)
          (sitps (row, lx / 4) (st.proc.tps_sample.config.val (row, lx / 4)))) := by
  unfold SampleMeasure.corr
  have key := foldl_invariant
    (fun q : List ℚ × Proc Ten Cache => q.2 =
      ((((st.proc.setTen (row, lx / 4) (sitps (row, lx / 4)
        (subSize 1 (st.proc.tps_sample.config.val (row, lx / 4))))).tnRun E
          (.TruncateBTen .LEFT (lx / 4))).tnRun E (.GrowBTenStep .LEFT)).tnRun E
            (.GrowFullBTen .RIGHT row (lx / 4 + 1) false)).tnRun E
              (.GrowFullBTen .LEFT row (lx / 4 + 1) false))
    (SampleMeasure.corrStep E sitps lx row st.inv_psi)
    ((List.range (lx / 2)).map (fun k => k + 1))
    (List.replicate (lx / 4) 0,
      ((((st.proc.setTen (row, lx / 4) (sitps (row, lx / 4)
        (subSize 1 (st.proc.tps_sample.config.val (row, lx / 4))))).tnRun E
          (.TruncateBTen .LEFT (lx / 4))).tnRun E (.GrowBTenStep .LEFT)).tnRun E
            (.GrowFullBTen .RIGHT row (lx / 4 + 1) false)).tnRun E
              (.GrowFullBTen .LEFT row (lx / 4 + 1) false))
    rfl
    (fun a b _ hP => (SampleMeasure.corrStep_proc E sitps lx row st.inv_psi a b).trans hP)
  dsimp only at key
  unfold Proc.sites
  dsimp only
  rw [key]
  simp [Proc.setTen, Proc.tnRun, TensorNetwork2D.run]

theorem SampleMeasure.hRow_sites (E : ContractionEngine Ten Cache) (sitps : SplitIndexTPS Ten)
    (uninit : SiteIdx → BondOrientation → ℚ) (lx ly row : Nat)
    (st : MeasureState Ten Cache) :
    (SampleMeasure.hRow E sitps uninit lx ly st row).proc.sites =
      if row = ly / 2 then
        (st.proc.tps_sample.config,
          Function.update st.proc.tps_sample.tn.ten (row, lx / 4)
            (sitps (row, lx / 4) (st.proc.tps_sample.config.val (row, lx / 4))))
      else st.proc.sites := by
  unfold SampleMeasure.hRow
  have key := foldl_invariant
    (fun q : MeasureState Ten Cache => q.proc.sites = st.proc.sites)
    (SampleMeasure.hStep E sitps uninit lx row) (List.range lx)
    { st with
      proc := retrace E (.InitBTen .LEFT row) (.GrowFullBTen .RIGHT row 1 true) (row, 0)
        .HORIZONTAL st.proc
      inv_psi := 1.0 / (retrace E (.InitBTen .LEFT row) (.GrowFullBTen .RIGHT row 1 true)
        (row, 0) .HORIZONTAL st.proc).tps_sample.amplitude }
    rfl
    (fun a b _ hP => (SampleMeasure.hStep_sites E sitps uninit lx row b a).trans hP)
  dsimp only at key ⊢
  have hcfg := congrArg Prod.fst key
  have hten := congrArg Prod.snd key
  by_cases hrow : row = ly / 2
  · simp only [hrow, if_true]
    have hc := SampleMeasure.corr_sites E sitps lx (ly / 2)
      ((List.range lx).foldl (SampleMeasure.hStep E sitps uninit lx (ly / 2))
        { st with
          proc := retrace E (.InitBTen .LEFT (ly / 2)) (.GrowFullBTen .RIGHT (ly / 2) 1 true)
            (ly / 2, 0) .HORIZONTAL st.proc
          inv_psi := 1.0 / (retrace E (.InitBTen .LEFT (ly / 2))
            (.GrowFullBTen .RIGHT (ly / 2) 1 true) (ly / 2, 0) .HORIZONTAL
              st.proc).tps_sample.amplitude })
    rw [hrow] at hcfg hten
    simp only [Proc.sites] at hcfg hten
    rw [hcfg, hten] at hc
    split_ifs
    · exact hc
    · exact hc
  · simp only [hrow, if_false]
    split_ifs
    · exact key
    · exact key

theorem SampleMeasure.rows_sites (E : ContractionEngine Ten Cache) (sitps : SplitIndexTPS Ten)
    (uninit : SiteIdx → BondOrientation → ℚ) (lx ly : Nat) (st : MeasureState Ten Cache)
    (n : Nat) :
    ((List.range n).foldl (SampleMeasure.hRow E sitps uninit lx ly) st).proc.sites =
      if ly / 2 < n then
        (st.proc.tps_sample.config,
          Function.update st.proc.tps_sample.tn.ten (ly / 2, lx / 4)
            (sitps (ly / 2, lx / 4) (st.proc.tps_sample.config.val (ly / 2, lx / 4))))
      else st.proc.sites := by
  induction n with
  | zero => simp
  | succ n ih =>
    rw [List.range_succ, List.foldl_append, List.foldl_cons, List.foldl_nil,
      SampleMeasure.hRow_sites]
    by_cases hn : n = ly / 2
    · have h1 : ¬ ly / 2 < n := by omega
      have h2 : ly / 2 < n + 1 := by omega
      rw [if_neg h1] at ih
      rw [if_pos hn, if_pos h2]
      have hcfg := congrArg Prod.fst ih
      have hten := congrArg Prod.snd ih
      simp only [Proc.sites] at hcfg hten
      rw [hcfg, hten, hn]
    · rw [if_neg hn, ih]
      by_cases h1 : ly / 2 < n
      · rw [if_pos h1, if_pos (by omega)]
      · rw [if_neg h1, if_neg (by omega)]

theorem SampleMeasure_sites (E : ContractionEngine Ten Cache) (sitps : SplitIndexTPS Ten)
    (uninit : SiteIdx → BondOrientation → ℚ) (p : Proc Ten Cache)
    (hr1 : 1 ≤ p.tps_sample.tn.rows) :
    (SampleMeasure E sitps uninit p).2.sites =
      (p.tps_sample.config,
        Function.update p.tps_sample.tn.ten (p.tps_sample.tn.rows / 2, p.tps_sample.tn.cols / 4)
          (sitps (p.tps_sample.tn.rows / 2, p.tps_sample.tn.cols / 4)
            (p.tps_sample.config.val
              (p.tps_sample.tn.rows / 2, p.tps_sample.tn.cols / 4)))) := by
  have hrows := SampleMeasure.rows_sites E sitps uninit p.tps_sample.tn.cols
    p.tps_sample.tn.rows
    { res := { energy_loc := 0, bond_energys_loc := [], two_point_functions_loc := [],
               one_point_functions_loc := [] },
      energy := 0, inv_psi := 1.0 / p.tps_sample.amplitude,
      proc := p.tnRun E (.GenerateBMPSApproach .UP E.trun_para) }
    p.tps_sample.tn.rows
  rw [if_pos (by omega)] at hrows
  have hcols := foldl_invariant
    (fun q : MeasureState Ten Cache => q.proc.sites =
      (p.tps_sample.config,
        Function.update p.tps_sample.tn.ten (p.tps_sample.tn.rows / 2, p.tps_sample.tn.cols / 4)
          (sitps (p.tps_sample.tn.rows / 2, p.tps_sample.tn.cols / 4)
            (p.tps_sample.config.val
              (p.tps_sample.tn.rows / 2, p.tps_sample.tn.cols / 4)))))
    (SampleMeasure.vCol E sitps uninit p.tps_sample.tn.rows p.tps_sample.tn.cols)
    (List.range p.tps_sample.tn.cols)
    { ((List.range p.tps_sample.tn.rows).foldl
        (SampleMeasure.hRow E sitps uninit p.tps_sample.tn.cols p.tps_sample.tn.rows)
        { res := { energy_loc := 0, bond_energys_loc := [], two_point_functions_loc := [],
                   one_point_functions_loc := [] },
          energy := 0, inv_psi := 1.0 / p.tps_sample.amplitude,
          proc := p.tnRun E (.GenerateBMPSApproach .UP E.trun_para) }) with
      proc := ((List.range p.tps_sample.tn.rows).foldl
        (SampleMeasure.hRow E sitps uninit p.tps_sample.tn.cols p.tps_sample.tn.rows)
        { res := { energy_loc := 0, bond_energys_loc := [], two_point_functions_loc := [],
                   one_point_functions_loc := [] },
          energy := 0, inv_psi := 1.0 / p.tps_sample.amplitude,
          proc := p.tnRun E (.GenerateBMPSApproach .UP E.trun_para) }).proc.tnRun E
            (.GenerateBMPSApproach .LEFT E.trun_para) }
    hrows
    (fun a b _ hP => (SampleMeasure.vCol_sites E sitps uninit _ _ b a).trans hP)
  exact hcols

/-- C18: on a lattice with at least one row, `SampleMeasure` does not change the configuration;
when it returns, the network tensor at the correlation reference site (row `rows / 2`, column
`lx / 4`) is the wavefunction tensor of that site for its configuration value, and every other
site tensor of the network is the one it was at entry. -/
theorem SampleMeasure_restores (E : ContractionEngine Ten Cache) (sitps : SplitIndexTPS Ten)
    (uninit : SiteIdx → BondOrientation → ℚ) (p : Proc Ten Cache)
    (hr1 : 1 ≤ p.tps_sample.tn.rows) :
    (SampleMeasure E sitps uninit p).2.tps_sample.config = p.tps_sample.config ∧
    (SampleMeasure E sitps uninit p).2.tps_sample.tn.ten
        (p.tps_sample.tn.rows / 2, p.tps_sample.tn.cols / 4) =
      sitps (p.tps_sample.tn.rows / 2, p.tps_sample.tn.cols / 4)
        (p.tps_sample.config.val (p.tps_sample.tn.rows / 2, p.tps_sample.tn.cols / 4)) ∧
    (∀ site, site ≠ (p.tps_sample.tn.rows / 2, p.tps_sample.tn.cols / 4) →
      (SampleMeasure E sitps uninit p).2.tps_sample.tn.ten site = p.tps_sample.tn.ten site) := by
  have h := SampleMeasure_sites E sitps uninit p hr1
  have hcfg := congrArg Prod.fst h
  have hten := congrArg Prod.snd h
  simp only [Proc.sites] at hcfg hten
  refine ⟨hcfg, ?_, ?_⟩
  · rw [hten, Function.update_same]
  · intro site hsite
    rw [hten, Function.update_noteq hsite]

/-- Witness of `SampleMeasure_restores`: the `1 × 2` product state with configuration `0 1`. -/
theorem SampleMeasure_restores_witness :
    1 ≤ Demo.proc01.tps_sample.tn.rows ∧
    (SampleMeasure Demo.engine Demo.sitps (fun _ _ => 0) Demo.proc01).2.tps_sample.config =
      Demo.proc01.tps_sample.config ∧
    (SampleMeasure Demo.engine Demo.sitps (fun _ _ => 0) Demo.proc01).2.tps_sample.tn.ten
        (Demo.proc01.tps_sample.tn.rows / 2, Demo.proc01.tps_sample.tn.cols / 4) =
      Demo.sitps (Demo.proc01.tps_sample.tn.rows / 2, Demo.proc01.tps_sample.tn.cols / 4)
        (Demo.proc01.tps_sample.config.val
          (Demo.proc01.tps_sample.tn.rows / 2, Demo.proc01.tps_sample.tn.cols / 4)) :=
  ⟨by decide,
    (SampleMeasure_restores Demo.engine Demo.sitps (fun _ _ => 0) Demo.proc01 (by decide)).1,
    (SampleMeasure_restores Demo.engine Demo.sitps (fun _ _ => 0) Demo.proc01 (by decide)).2.1⟩

/-! ## Statistics across workers -/

theorem zipWith_replicate_one_smul [AddCommGroup Ten] [Module ℚ Ten] (l : List Ten) :
    (List.zipWith (fun (c : ℚ) (t : Ten) => c • t) (List.replicate l.length (1.0 : ℚ)) l).sum =
      l.sum := by
  induction l with
  | nil => simp
  | cons x xs ih =>
    rw [List.length_cons, List.replicate_succ, List.zipWith_cons_cons, List.sum_cons,
      List.sum_cons, ih]
    norm_num

theorem MeanTensors_eq [AddCommGroup Ten] [Module ℚ Ten] (L : TensorLib Ten)
    (tensor_list : List Ten) (length : Nat) :
    MeanTensors L tensor_list length = (1 / (length : ℚ)) • tensor_list.sum := by
  unfold MeanTensors LinearCombine
  dsimp only
  rw [zipWith_replicate_one_smul]
  norm_num

/-- C13: for `K ≥ 1` processes holding the tensors `T_0 .. T_{K-1}`, `MPIMeanTensor` returns on
the coordinator (rank `0`) the equal-weight mean `(T_0 + ... + T_{K-1}) / K` and on every other
rank the default-constructed tensor `Tensor()`. -/
theorem MPIMeanTensor_result [AddCommGroup Ten] [Module ℚ Ten] (L : TensorLib Ten)
    (tensors : List Ten) (hK : 1 ≤ tensors.length) :
    (MPIMeanTensor L tensors).length = tensors.length ∧
    (MPIMeanTensor L tensors)[0]? = some ((1 / (tensors.length : ℚ)) • tensors.sum) ∧
    (∀ rank, 0 < rank → rank < tensors.length →
      (MPIMeanTensor L tensors)[rank]? = some L.Tensor) := by
  unfold MPIMeanTensor
  refine ⟨by simp, ?_, ?_⟩
  · rw [List.getElem?_map, List.getElem?_range (by omega)]
    simp [kMasterProc, MeanTensors_eq]
  · intro rank h0 hlt
    rw [List.getElem?_map, List.getElem?_range hlt]
    have : rank ≠ kMasterProc := by unfold kMasterProc; omega
    simp [this]


/-- Claim C13 at a concrete input: two processes holding the one-element tensors `1` and `3`; the
coordinator gets the mean `2`, the other process the default tensor. -/
theorem MPIMeanTensor_result_witness :
    1 ≤ ([1, 3] : List ℚ).length ∧
    (MPIMeanTensor Demo.lib [1, 3]).length = 2 ∧
    (MPIMeanTensor Demo.lib [1, 3])[0]? = some 2 ∧
    (MPIMeanTensor Demo.lib [1, 3])[1]? = some Demo.lib.Tensor := by
  have h := MPIMeanTensor_result Demo.lib [1, 3] (by decide)
  refine ⟨by decide, h.1, ?_, h.2.2 1 (by decide) (by decide)⟩
  rw [h.2.1]
  norm_num

/-! ## Statistics of `GatherStatisticEnergyAndGrad_` -/

/-- The function `Mean` is the sum over the count, also for the empty list. -/
theorem Mean_eq (data : List ℚ) : Mean data = data.sum / (data.length : ℚ) := by
  unfold Mean
  cases data <;> simp

/-- A projection that the rank-wise step does not change reads the same through `mapRank`. -/
theorem map_mapRank {β : Type} (proj : VMCPEPSExecutor Ten Cache → β)
    (f : Nat → VMCPEPSExecutor Ten Cache → VMCPEPSExecutor Ten Cache)
    (h : ∀ rank e, proj (f rank e) = proj e) (rank : Nat) (world : World Ten Cache) :
    (World.mapRank f rank world).map proj = world.map proj := by
  induction world generalizing rank with
  | nil => rfl
  | cons e rest ih => simp [World.mapRank, h, ih]

/-- The rank-wise step keeps the number of processes. -/
theorem length_mapRank
    (f : Nat → VMCPEPSExecutor Ten Cache → VMCPEPSExecutor Ten Cache) (rank : Nat)
    (world : World Ten Cache) : (World.mapRank f rank world).length = world.length := by
  induction world generalizing rank with
  | nil => rfl
  | cons e rest ih => simp [World.mapRank, ih]

/-- The energy trajectories after `GatherStatisticEnergyAndGrad_`. -/
theorem GatherStatisticEnergyAndGrad_trajectory [AddCommGroup Ten] [Module ℚ Ten]
    (V : Environment Ten Cache) (world : World Ten Cache) :
    (GatherStatisticEnergyAndGrad_ V world).map (fun e => e.energy_trajectory_) =
      world.map (fun e => e.energy_trajectory_ ++
        [Mean (world.map (fun e => Mean e.energy_samples_))]) := by
  unfold GatherStatisticEnergyAndGrad_
  simp only []
  rw [map_mapRank (fun e => e.energy_trajectory_) (GatherStatisticEnergyAndGrad_.reduce V _)
    (fun _ _ => rfl), List.map_map]
  rfl

/-- The error trajectories after `GatherStatisticEnergyAndGrad_`. -/
theorem GatherStatisticEnergyAndGrad_error_traj [AddCommGroup Ten] [Module ℚ Ten]
    (V : Environment Ten Cache) (world : World Ten Cache) :
    (GatherStatisticEnergyAndGrad_ V world).map (fun e => e.energy_error_traj_) =
      world.map (fun e => e.energy_error_traj_ ++
        [StandardError V.sqrt (world.map (fun e => Mean e.energy_samples_))
          (Mean (world.map (fun e => Mean e.energy_samples_)))]) := by
  unfold GatherStatisticEnergyAndGrad_
  simp only []
  rw [map_mapRank (fun e => e.energy_error_traj_) (GatherStatisticEnergyAndGrad_.reduce V _)
    (fun _ _ => rfl), List.map_map]
  rfl

/-- Claim C11: for `K ≥ 1` workers, `GatherStatisticEnergyAndGrad_` keeps the number of workers,
appends to the energy trajectory of every worker the same value `(e_1 + ... + e_K) / K`, where
`e_i` is the mean of the energy samples of worker `i`, and appends to the error trajectory of
every worker the same value, the one `StandardError` yields for the gathered list and that mean
on the coordinator. -/
theorem GatherStatisticEnergyAndGrad_broadcast [AddCommGroup Ten] [Module ℚ Ten]
    (V : Environment Ten Cache) (world : World Ten Cache) (hK : 1 ≤ world.length) :
    (GatherStatisticEnergyAndGrad_ V world).length = world.length ∧
    (∀ e ∈ world, Mean e.energy_samples_ =
      e.energy_samples_.sum / (e.energy_samples_.length : ℚ)) ∧
    (GatherStatisticEnergyAndGrad_ V world).map (fun e => e.energy_trajectory_) =
      world.map (fun e => e.energy_trajectory_ ++
        [(world.map (fun e => Mean e.energy_samples_)).sum / (world.length : ℚ)]) ∧
    (GatherStatisticEnergyAndGrad_ V world).map (fun e => e.energy_error_traj_) =
      world.map (fun e => e.energy_error_traj_ ++
        [StandardError V.sqrt (world.map (fun e => Mean e.energy_samples_))
          ((world.map (fun e => Mean e.energy_samples_)).sum / (world.length : ℚ))]) := by
  have hmean : Mean (world.map (fun e => Mean e.energy_samples_)) =
      (world.map (fun e => Mean e.energy_samples_)).sum / (world.length : ℚ) := by
    rw [Mean_eq, List.length_map]
  have _h := hK
  refine ⟨?_, fun e _ => Mean_eq _, ?_, ?_⟩
  · unfold GatherStatisticEnergyAndGrad_
    simp only []
    rw [length_mapRank, List.length_map]
  · rw [GatherStatisticEnergyAndGrad_trajectory, hmean]
  · rw [GatherStatisticEnergyAndGrad_error_traj, hmean]

/-- Claim C11 at a concrete input: two workers with the energy samples `0, 2` and `3`, that is
the means `1` and `3`; both trajectories get the value `2`, and both error trajectories the same
value. -/
theorem GatherStatisticEnergyAndGrad_broadcast_witness :
    1 ≤ Demo.world2.length ∧
    (GatherStatisticEnergyAndGrad_ Demo.env Demo.world2).map (fun e => e.energy_trajectory_) =
      [[2], [2]] ∧
    (GatherStatisticEnergyAndGrad_ Demo.env Demo.world2).map (fun e => e.energy_error_traj_) =
      [[Demo.sqrt 1], [Demo.sqrt 1]] := by
  have h := GatherStatisticEnergyAndGrad_broadcast Demo.env Demo.world2 (by decide)
  refine ⟨by decide, ?_, ?_⟩
  · rw [h.2.2.1]
    norm_num [Demo.world2, Demo.exec, Mean_eq]
  · rw [h.2.2.2]
    norm_num [Demo.world2, Demo.exec, Mean_eq, StandardError, Variance, Demo.env]

/-- Claim C12: four workers with the energies `0, 0, 2, 2`.  The grand mean is `1` and the error
that `GatherStatisticEnergyAndGrad_` reports to every worker is the square root of
`((0-1)² + (0-1)² + (2-1)² + (2-1)²) / 4 = 1`, the standard deviation of the four energies: it
is not divided by the square root of the number of workers, which would give `sqrt 1 / sqrt 4`. -/
theorem GatherStatisticEnergyAndGrad_error_is_deviation (V : Environment ℚ Unit) :
    (GatherStatisticEnergyAndGrad_ V Demo.world4).map (fun e => e.energy_trajectory_) =
      [[1], [1], [1], [1]] ∧
    Variance (Demo.world4.map (fun e => Mean e.energy_samples_)) 1 = 1 ∧
    (GatherStatisticEnergyAndGrad_ V Demo.world4).map (fun e => e.energy_error_traj_) =
      [[V.sqrt 1], [V.sqrt 1], [V.sqrt 1], [V.sqrt 1]] := by
  refine ⟨?_, ?_, ?_⟩
  · rw [GatherStatisticEnergyAndGrad_trajectory]
    norm_num [Demo.world4, Demo.exec, Mean_eq]
  · norm_num [Demo.world4, Demo.exec, Mean_eq, Variance]
  · rw [GatherStatisticEnergyAndGrad_error_traj]
    norm_num [Demo.world4, Demo.exec, Mean_eq, StandardError, Variance]


/-! ## The updates `StochGradUpdateTPS_` and `BoundGradElementUpdateTPS_` -/

/-- The index range of an executor, spelled out. -/
theorem inRange_iff (e : VMCPEPSExecutor Ten Cache) (site : SiteIdx) (compt : Nat) :
    e.inRange site compt = true ↔ site ∈ lattice e.ly_ e.lx_ ∧ compt < e.phy_dim site := by
  simp [VMCPEPSExecutor.inRange]

/-- The spec-modelled bound leaves no element above the magnitude of the bound. -/
theorem abs_ElementWiseBoundTo_le {Idx : Type} (t : Idx → ℚ) (bound : ℚ) (i : Idx) :
    |ElementWiseBoundTo t bound i| ≤ |bound| := by
  unfold ElementWiseBoundTo
  split_ifs with h1 h2
  · exact le_refl _
  · rw [abs_neg]
  · exact le_trans (not_lt.1 h1) (le_abs_self bound)

/-- Inside the range, the local `norm` of `BoundGradElementUpdateTPS_` is that of
`StochGradUpdateTPS_` for the bounded gradient. -/
theorem BoundGradElementUpdateTPS_norm_eq [AddCommGroup Ten] [Module ℚ Ten] (L : TensorLib Ten)
    (e : VMCPEPSExecutor Ten Cache) (grad : SplitIndexTPS Ten) (step_len : ℚ) (site : SiteIdx)
    (hsite : site ∈ lattice e.ly_ e.lx_) :
    BoundGradElementUpdateTPS_.norm L e grad step_len site =
      StochGradUpdateTPS_.norm L e (BoundGradElementUpdateTPS_.grad L e grad step_len) step_len
        site := by
  unfold BoundGradElementUpdateTPS_.norm StochGradUpdateTPS_.norm
  refine List.foldl_ext _ _ _ (fun norm compt hc => ?_)
  have hr : e.inRange site compt = true :=
    (inRange_iff e site compt).2 ⟨hsite, List.mem_range.1 hc⟩
  rw [BoundGradElementUpdateTPS_.step, StochGradUpdateTPS_.step,
    BoundGradElementUpdateTPS_.grad, if_pos hr]

/-- The wavefunction of the coordinator after `BoundGradElementUpdateTPS_` is that after
`StochGradUpdateTPS_` for the bounded gradient. -/
theorem BoundGradElementUpdateTPS_master_eq [AddCommGroup Ten] [Module ℚ Ten]
    (L : TensorLib Ten) (e : VMCPEPSExecutor Ten Cache) (grad : SplitIndexTPS Ten)
    (step_len : ℚ) :
    BoundGradElementUpdateTPS_.master L e grad step_len =
      StochGradUpdateTPS_.master L e (BoundGradElementUpdateTPS_.grad L e grad step_len)
        step_len := by
  funext site compt
  unfold BoundGradElementUpdateTPS_.master StochGradUpdateTPS_.master
  by_cases hr : e.inRange site compt = true
  · rw [if_pos hr, if_pos hr]
    simp only []
    rw [BoundGradElementUpdateTPS_norm_eq L e grad step_len site ((inRange_iff e site compt).1 hr).1,
      BoundGradElementUpdateTPS_.step, StochGradUpdateTPS_.step,
      BoundGradElementUpdateTPS_.grad, if_pos hr]
  · rw [if_neg hr, if_neg hr]

/-- Claim C15: `BoundGradElementUpdateTPS_` bounds every tensor of the gradient argument of the
coordinator in place (with the spec-modelled bound: no element exceeds `step_len` in magnitude
afterwards) and its effect on the wavefunction of every process is that of `StochGradUpdateTPS_`
with the bounded gradient; so the gradient step, before the normalisation, changes no element of
a wavefunction tensor by more than `step_len * step_len`. -/
theorem BoundGradElementUpdateTPS_clamped {Idx : Type} (L : TensorLib (Idx → ℚ))
    (hL : ∀ t bound, L.ElementWiseBoundTo t bound = ElementWiseBoundTo t bound)
    (grad : SplitIndexTPS (Idx → ℚ)) (step_len : ℚ)
    (world : World (Idx → ℚ) Cache) :
    (BoundGradElementUpdateTPS_ L grad step_len world).2 =
      StochGradUpdateTPS_ L (BoundGradElementUpdateTPS_ L grad step_len world).1 step_len
        world ∧
    ∀ m ∈ world.head?, ∀ site compt, m.inRange site compt = true →
      (BoundGradElementUpdateTPS_ L grad step_len world).1 site compt =
        ElementWiseBoundTo (grad site compt) step_len ∧
      ∀ i, |(BoundGradElementUpdateTPS_ L grad step_len world).1 site compt i| ≤ |step_len| ∧
        |StochGradUpdateTPS_.step m.split_index_tps_
            (BoundGradElementUpdateTPS_ L grad step_len world).1 step_len site compt i
          - m.split_index_tps_ site compt i| ≤ step_len * step_len := by
  cases world with
  | nil => exact ⟨rfl, fun m hm => by simp at hm⟩
  | cons m others =>
    refine ⟨?_, ?_⟩
    · show _ :: _ = _ :: _
      simp only [BoundGradElementUpdateTPS_master_eq]
      rfl
    · intro m' hm' site compt hr
      have hmm : m' = m := by simpa using hm'.symm
      subst hmm
      have hg : (BoundGradElementUpdateTPS_ L grad step_len (m' :: others)).1 site compt =
          ElementWiseBoundTo (grad site compt) step_len := by
        show BoundGradElementUpdateTPS_.grad L m' grad step_len site compt = _
        rw [BoundGradElementUpdateTPS_.grad, if_pos hr, hL]
      refine ⟨hg, fun i => ?_⟩
      have hb := abs_ElementWiseBoundTo_le (grad site compt) step_len i
      refine ⟨by rw [hg]; exact hb, ?_⟩
      rw [StochGradUpdateTPS_.step, hg]
      simp only [Pi.add_apply, Pi.smul_apply, smul_eq_mul, add_sub_cancel_left, abs_mul, abs_neg]
      calc |step_len| * |ElementWiseBoundTo (grad site compt) step_len i|
          ≤ |step_len| * |step_len| := mul_le_mul_of_nonneg_left hb (abs_nonneg _)
        _ = step_len * step_len := abs_mul_abs_self step_len

/-- Claim C15 at a concrete input: one executor with one-element tensors, the gradient element
`5` at every site and the step length `1/2`: the bounded gradient element is `1/2` and the
wavefunction element of site `(0, 0)` and basis value `0` moves by at most `1/4`. -/
theorem BoundGradElementUpdateTPS_clamped_witness :
    (∀ t bound, Demo.libFun.ElementWiseBoundTo t bound = ElementWiseBoundTo t bound) ∧
    (BoundGradElementUpdateTPS_ Demo.libFun (fun _ _ _ => 5) (1 / 2) [Demo.execFun]).2 =
      StochGradUpdateTPS_ Demo.libFun
        (BoundGradElementUpdateTPS_ Demo.libFun (fun _ _ _ => 5) (1 / 2) [Demo.execFun]).1
        (1 / 2) [Demo.execFun] ∧
    (BoundGradElementUpdateTPS_ Demo.libFun (fun _ _ _ => 5) (1 / 2) [Demo.execFun]).1 (0, 0) 0 =
      ElementWiseBoundTo (fun _ => 5) (1 / 2) ∧
    ElementWiseBoundTo (fun _ : Unit => (5 : ℚ)) (1 / 2) () = 1 / 2 ∧
    |StochGradUpdateTPS_.step Demo.execFun.split_index_tps_
        (BoundGradElementUpdateTPS_ Demo.libFun (fun _ _ _ => 5) (1 / 2) [Demo.execFun]).1
        (1 / 2) (0, 0) 0 ()
      - Demo.execFun.split_index_tps_ (0, 0) 0 ()| ≤ 1 / 2 * (1 / 2) :=
  ⟨fun _ _ => rfl,
    (BoundGradElementUpdateTPS_clamped Demo.libFun (fun _ _ => rfl) (fun _ _ _ => 5) (1 / 2)
      [Demo.execFun]).1,
    ((BoundGradElementUpdateTPS_clamped Demo.libFun (fun _ _ => rfl) (fun _ _ _ => 5) (1 / 2)
      [Demo.execFun]).2 Demo.execFun rfl (0, 0) 0 (by decide)).1,
    by norm_num [ElementWiseBoundTo],
    (((BoundGradElementUpdateTPS_clamped Demo.libFun (fun _ _ => rfl) (fun _ _ _ => 5) (1 / 2)
      [Demo.execFun]).2 Demo.execFun rfl (0, 0) 0 (by decide)).2 ()).2⟩


/-! ## Control flow of the executor: exits and the ghost log -/

/-- Nothing logged, nothing changed. -/
theorem Logged_refl (e : VMCPEPSExecutor Ten Cache) : e.Logged e [] :=
  ⟨(List.append_nil _).symm, rfl, rfl, rfl⟩

/-- Two stretches of a run log the concatenation of their steps. -/
theorem Logged_trans {e0 e1 e2 : VMCPEPSExecutor Ten Cache} {evs1 evs2 : List Event}
    (h1 : e0.Logged e1 evs1) (h2 : e1.Logged e2 evs2) : e0.Logged e2 (evs1 ++ evs2) :=
  ⟨by rw [h2.1, h1.1, List.append_assoc], h2.2.1.trans h1.2.1, h2.2.2.1.trans h1.2.2.1,
    h2.2.2.2.trans h1.2.2.2⟩

/-- The loop of `MCSweep_` over nearest-neighbour sweeps logs one sweep per pass. -/
theorem MCSweep_nnStep_foldl (V : Environment Ten Cache) (u_double : Nat → ℚ) (n : Nat)
    (st : Nat × VMCPEPSExecutor Ten Cache) :
    st.2.Logged ((List.range n).foldl (MCSweep_.nnStep V u_double) st).2
      (List.replicate n Event.sweep) := by
  induction n with
  | zero => exact Logged_refl _
  | succ n ih =>
    rw [List.range_succ, List.foldl_append, List.replicate_succ']
    exact Logged_trans ih ⟨rfl, rfl, rfl, rfl⟩

/-- The loop of `MCSweep_` over sweeps of the compressed Kagome lattice logs one sweep per
pass. -/
theorem MCSweep_kagomeStep_foldl (V : Environment Ten Cache) (u_double : Nat → ℚ) (n : Nat)
    (st : (Nat × Nat) × VMCPEPSExecutor Ten Cache) :
    st.2.Logged ((List.range n).foldl (MCSweep_.kagomeStep V u_double) st).2
      (List.replicate n Event.sweep) := by
  induction n with
  | zero => exact Logged_refl _
  | succ n ih =>
    rw [List.range_succ, List.foldl_append, List.replicate_succ']
    exact Logged_trans ih ⟨rfl, rfl, rfl, rfl⟩

/-- An unsupported sweep scheme: `MCSweep_` exits with code 1 at once. -/
theorem MCSweep_exit (V : Environment Ten Cache) (u_double : Nat → ℚ)
    (e : VMCPEPSExecutor Ten Cache) (value : Nat)
    (h : e.optimize_para.mc_sweep_scheme = .unsupported value) :
    MCSweep_ V u_double e = .exit 1 (e.record .MCSweep_) := by
  unfold MCSweep_
  simp only [VMCPEPSExecutor.record, h]

/-- A supported sweep scheme: `MCSweep_` returns, having logged its sweeps. -/
theorem MCSweep_ret (V : Environment Ten Cache) (u_double : Nat → ℚ)
    (e : VMCPEPSExecutor Ten Cache) (h : e.optimize_para.mc_sweep_scheme.supported = true) :
    ∃ r, MCSweep_ V u_double e = .ret r ∧ e.Logged r.2 (MCSweep_.events e.optimize_para) := by
  have hrec : e.Logged (e.record .MCSweep_) [Event.MCSweep_] := ⟨rfl, rfl, rfl, rfl⟩
  cases hs : e.optimize_para.mc_sweep_scheme with
  | SequentiallyNNSiteFlip =>
    refine ⟨_, by unfold MCSweep_; simp only [VMCPEPSExecutor.record, hs]; rfl, ?_⟩
    exact Logged_trans hrec
      (MCSweep_nnStep_foldl V u_double e.optimize_para.mc_sweeps_between_sample _)
  | CompressedLatticeKagomeLocalUpdate =>
    refine ⟨_, by unfold MCSweep_; simp only [VMCPEPSExecutor.record, hs]; rfl, ?_⟩
    exact Logged_trans hrec
      (MCSweep_kagomeStep_foldl V u_double e.optimize_para.mc_sweeps_between_sample _)
  | unsupported value => rw [hs] at h; simp [MCSweepScheme.supported] at h

/-- The sampling loop of `OptimizeTPS_` returns for a supported sweep scheme, having logged its
sweeps and samples. -/
theorem OptimizeTPS_sampling_ret [AddCommGroup Ten] [Module ℚ Ten] (V : Environment Ten Cache)
    (u_double : Nat → ℚ) (n : Nat) (e : VMCPEPSExecutor Ten Cache)
    (h : e.optimize_para.mc_sweep_scheme.supported = true) :
    ∃ e', OptimizeTPS_.sampling V u_double n e = .ret e' ∧
      e.Logged e' (OptimizeTPS_.samplingEvents e.optimize_para n) := by
  induction n generalizing e with
  | zero => exact ⟨e, rfl, Logged_refl e⟩
  | succ n ih =>
    obtain ⟨r, hr, hlog⟩ := MCSweep_ret V u_double e h
    have hsample : r.2.Logged (SampleEnergyAndHols_ V r.2) [Event.sample] := ⟨rfl, rfl, rfl, rfl⟩
    have h1 := Logged_trans hlog hsample
    have hpara : (SampleEnergyAndHols_ V r.2).optimize_para = e.optimize_para := h1.2.2.1
    obtain ⟨e', he', hlog'⟩ := ih (SampleEnergyAndHols_ V r.2) (by rw [hpara]; exact h)
    refine ⟨e', by rw [OptimizeTPS_.sampling, hr]; exact he', ?_⟩
    have h2 := Logged_trans h1 hlog'
    rw [hpara, List.append_assoc] at h2
    exact h2

/-- The loop of `WarmUp_` returns for a supported sweep scheme, having logged its sweeps. -/
theorem WarmUp_loop_ret (V : Environment Ten Cache) (u_double : Nat → ℚ) (n : Nat)
    (e : VMCPEPSExecutor Ten Cache) (h : e.optimize_para.mc_sweep_scheme.supported = true) :
    ∃ e', WarmUp_.loop V u_double n e = .ret e' ∧
      e.Logged e' (WarmUp_.events e.optimize_para n) := by
  induction n generalizing e with
  | zero => exact ⟨e, rfl, Logged_refl e⟩
  | succ n ih =>
    obtain ⟨r, hr, hlog⟩ := MCSweep_ret V u_double e h
    have hpara : r.2.optimize_para = e.optimize_para := hlog.2.2.1
    obtain ⟨e', he', hlog'⟩ := ih r.2 (by rw [hpara]; exact h)
    refine ⟨e', by rw [WarmUp_.loop, hr]; exact he', ?_⟩
    have h2 := Logged_trans hlog hlog'
    rw [hpara] at h2
    exact h2

/-- A step that returns on every process returns on the world. -/
theorem World_each_ret
    (f : Nat → VMCPEPSExecutor Ten Cache →
      Outcome (VMCPEPSExecutor Ten Cache) (VMCPEPSExecutor Ten Cache))
    (R : VMCPEPSExecutor Ten Cache → VMCPEPSExecutor Ten Cache → Prop)
    (world : World Ten Cache) (rank : Nat)
    (h : ∀ rank, ∀ e ∈ world, ∃ e', f rank e = .ret e' ∧ R e e') :
    ∃ w, World.each f rank world = .ret w ∧ List.Forall₂ R world w := by
  induction world generalizing rank with
  | nil => exact ⟨[], rfl, List.Forall₂.nil⟩
  | cons e rest ih =>
    obtain ⟨e', he', hR⟩ := h rank e (List.mem_cons_self e rest)
    obtain ⟨w, hw, hRw⟩ := ih (rank + 1) (fun k x hx => h k x (List.mem_cons_of_mem e hx))
    exact ⟨e' :: w, by rw [World.each, he']; simp only [hw], List.Forall₂.cons hR hRw⟩

/-- A relation to the initial world survives a step made by every process. -/
theorem forall₂_map_right {α : Type} (R R' : α → VMCPEPSExecutor Ten Cache → Prop)
    (g : VMCPEPSExecutor Ten Cache → VMCPEPSExecutor Ten Cache) (w0 : List α)
    (w : World Ten Cache) (h : List.Forall₂ R w0 w) (hg : ∀ a b, R a b → R' a (g b)) :
    List.Forall₂ R' w0 (w.map g) := by
  induction h with
  | nil => exact List.Forall₂.nil
  | cons hab _ ih => exact List.Forall₂.cons (hg _ _ hab) ih

/-- A relation to the initial world survives a rank-wise step. -/
theorem forall₂_mapRank {α : Type} (R R' : α → VMCPEPSExecutor Ten Cache → Prop)
    (f : Nat → VMCPEPSExecutor Ten Cache → VMCPEPSExecutor Ten Cache) (w0 : List α)
    (w : World Ten Cache) (rank : Nat) (h : List.Forall₂ R w0 w)
    (hf : ∀ rank a b, R a b → R' a (f rank b)) :
    List.Forall₂ R' w0 (World.mapRank f rank w) := by
  induction h generalizing rank with
  | nil => exact List.Forall₂.nil
  | cons hab _ ih => exact List.Forall₂.cons (hf _ _ _ hab) (ih (rank + 1))

/-- The method `GatherStatisticEnergyAndGrad_` logs one aggregation on every process. -/
theorem GatherStatisticEnergyAndGrad_logged [AddCommGroup Ten] [Module ℚ Ten]
    (V : Environment Ten Cache) (evs : VMCPEPSExecutor Ten Cache → List Event)
    (w0 w : World Ten Cache) (h : List.Forall₂ (fun e0 e => e0.Logged e (evs e0)) w0 w) :
    List.Forall₂ (fun e0 e => e0.Logged e (evs e0 ++ [Event.gather])) w0
      (GatherStatisticEnergyAndGrad_ V w) := by
  unfold GatherStatisticEnergyAndGrad_
  simp only []
  refine forall₂_mapRank (fun e0 e => e0.Logged e (evs e0)) _ _ w0 _ 0 ?_ ?_
  · exact forall₂_map_right _ _ _ w0 w h (fun a b hab => ⟨hab.1, hab.2.1, hab.2.2.1, hab.2.2.2⟩)
  · intro rank a b hab
    exact Logged_trans hab ⟨rfl, rfl, rfl, rfl⟩

/-- An unsupported update rule on the coordinator: the selection of `OptimizeTPS_` exits with
code 2. -/
theorem OptimizeTPS_update_exit [AddCommGroup Ten] [Module ℚ Ten] (V : Environment Ten Cache)
    (u_double : Nat → Nat → ℚ) (step_len : ℚ) (m : VMCPEPSExecutor Ten Cache)
    (others : World Ten Cache) (value : Nat)
    (h : m.optimize_para.update_scheme = .unsupported value) :
    OptimizeTPS_.update V u_double step_len (m :: others) = .exit 2 (m :: others) := by
  unfold OptimizeTPS_.update
  simp only [h]

/-- An unsupported update rule with at least one step length and supported sweep schemes:
`OptimizeTPS_` exits with code 2 after the sampling and the aggregation of the first pass. -/
theorem OptimizeTPS_exit [AddCommGroup Ten] [Module ℚ Ten] (V : Environment Ten Cache)
    (u_double : Nat → Nat → ℚ) (m : VMCPEPSExecutor Ten Cache) (others : World Ten Cache)
    (value : Nat) (step_len : ℚ) (rest : List ℚ)
    (hupdate : m.optimize_para.update_scheme = .unsupported value)
    (hsteps : m.optimize_para.step_lens = step_len :: rest)
    (hsweep : ∀ e ∈ m :: others, e.optimize_para.mc_sweep_scheme.supported = true) :
    ∃ w, OptimizeTPS_ V u_double (m :: others) = .exit 2 w ∧
      List.Forall₂ (fun e0 e => e0.Logged e
        (OptimizeTPS_.samplingEvents e0.optimize_para e0.optimize_para.mc_samples
          ++ [Event.gather])) (m :: others) w := by
  obtain ⟨sampled, hsampled, hlog⟩ := World_each_ret
    (fun rank e => OptimizeTPS_.sampling V (u_double rank) e.optimize_para.mc_samples
      (ClearEnergyAndHoleSamples_ e))
    (fun e0 e => e0.Logged e
      (OptimizeTPS_.samplingEvents e0.optimize_para e0.optimize_para.mc_samples))
    (m :: others) 0
    (fun rank e he => by
      obtain ⟨e', he', hl⟩ := OptimizeTPS_sampling_ret V (u_double rank)
        e.optimize_para.mc_samples (ClearEnergyAndHoleSamples_ e) (hsweep e he)
      exact ⟨e', he', hl⟩)
  have hg := GatherStatisticEnergyAndGrad_logged V
    (fun e0 => OptimizeTPS_.samplingEvents e0.optimize_para e0.optimize_para.mc_samples)
    (m :: others) sampled hlog
  refine ⟨GatherStatisticEnergyAndGrad_ V sampled, ?_, hg⟩
  have hiter : OptimizeTPS_.iter V u_double step_len (m :: others) =
      .exit 2 (GatherStatisticEnergyAndGrad_ V sampled) := by
    unfold OptimizeTPS_.iter
    rw [hsampled]
    simp only []
    cases hG : GatherStatisticEnergyAndGrad_ V sampled with
    | nil => rw [hG] at hg; cases hg
    | cons m' others' =>
      rw [hG] at hg
      cases hg with
      | cons hm _ =>
        exact OptimizeTPS_update_exit V u_double step_len m' others' value
          (by rw [hm.2.2.1]; exact hupdate)
  show OptimizeTPS_.loop V u_double m.optimize_para.step_lens (m :: others) = _
  rw [hsteps, OptimizeTPS_.loop, hiter]


/-- Claim C16, counterexample: one process with an unsupported update rule, a supported sweep
scheme, one step length and one sample per step.  `OptimizeTPS_` exits with code 2 only after a
call of `MCSweep_` with its lattice sweep, a sampling and an aggregation have been made. -/
theorem OptimizeTPS_exit_not_immediate_counterexample :
    ∃ w, OptimizeTPS_ Demo.env (fun _ _ => 0)
        [Demo.exec (Demo.para (.unsupported 7) .SequentiallyNNSiteFlip) [] true] = .exit 2 w ∧
      w.map (fun e => e.log) =
        [[Event.MCSweep_, Event.sweep, Event.sample, Event.gather]] := by
  obtain ⟨w, hw, hlog⟩ := OptimizeTPS_exit Demo.env (fun _ _ => 0)
    (Demo.exec (Demo.para (.unsupported 7) .SequentiallyNNSiteFlip) [] true) [] 7 1 [] rfl rfl
    (fun e he => by rw [List.mem_singleton.1 he]; rfl)
  refine ⟨w, hw, ?_⟩
  cases hlog with
  | cons hm hrest =>
    cases hrest
    rw [List.map_cons, List.map_nil, hm.1]
    rfl

/-- Claim C16, amended: an unsupported sweep scheme makes `MCSweep_` exit with code 1 at once:
nothing but the call is logged.  An unsupported update rule makes `OptimizeTPS_` exit with code
2 when there is at least one step length and every process has a supported sweep scheme, and it
does so at the selection of the update of the first pass: every process has then made the
`mc_samples` calls of `MCSweep_` and of `SampleEnergyAndHols_` of that pass and the aggregation,
and nothing else; the wavefunction of every process is the one before the call.  The two codes
are nonzero and differ. -/
theorem unsupported_selection_exit [AddCommGroup Ten] [Module ℚ Ten]
    (V : Environment Ten Cache) (u_double : Nat → Nat → ℚ)
    (e : VMCPEPSExecutor Ten Cache) (sweep_value : Nat)
    (hsweep_value : e.optimize_para.mc_sweep_scheme = .unsupported sweep_value)
    (m : VMCPEPSExecutor Ten Cache) (others : World Ten Cache)
    (update_value : Nat) (step_len : ℚ) (rest : List ℚ)
    (hupdate : m.optimize_para.update_scheme = .unsupported update_value)
    (hsteps : m.optimize_para.step_lens = step_len :: rest)
    (hsweep : ∀ e ∈ m :: others, e.optimize_para.mc_sweep_scheme.supported = true) :
    (∃ s, MCSweep_ V (u_double 0) e = .exit 1 s ∧ s.log = e.log ++ [Event.MCSweep_] ∧
      s.split_index_tps_ = e.split_index_tps_ ∧ s.tps_sample_ = e.tps_sample_) ∧
    (∃ w, OptimizeTPS_ V u_double (m :: others) = .exit 2 w ∧
      List.Forall₂ (fun e0 e =>
        e.log = e0.log ++
          (OptimizeTPS_.samplingEvents e0.optimize_para e0.optimize_para.mc_samples
            ++ [Event.gather]) ∧
        e.split_index_tps_ = e0.split_index_tps_) (m :: others) w) ∧
    (1 : Int) ≠ 0 ∧ (2 : Int) ≠ 0 ∧ (1 : Int) ≠ 2 := by
  refine ⟨⟨_, MCSweep_exit V (u_double 0) e sweep_value hsweep_value, rfl, rfl, rfl⟩, ?_,
    by decide, by decide, by decide⟩
  obtain ⟨w, hw, hlog⟩ := OptimizeTPS_exit V u_double m others update_value step_len rest
    hupdate hsteps hsweep
  exact ⟨w, hw, List.Forall₂.imp (fun _ _ h => ⟨h.1, h.2.1⟩) hlog⟩

/-- Claim C16 at a concrete input: an executor with an unsupported sweep scheme, and a world of
one process with an unsupported update rule. -/
theorem unsupported_selection_exit_witness :
    (Demo.exec (Demo.para .StochasticGradient (.unsupported 9)) [] true).optimize_para.mc_sweep_scheme
      = .unsupported 9 ∧
    (∃ s, MCSweep_ Demo.env (fun _ => 0)
        (Demo.exec (Demo.para .StochasticGradient (.unsupported 9)) [] true) = .exit 1 s ∧
      s.log = [] ++ [Event.MCSweep_] ∧
      s.split_index_tps_ = Demo.sitps ∧ s.tps_sample_ = Demo.proc11) ∧
    (∃ w, OptimizeTPS_ Demo.env (fun _ _ => 0)
        [Demo.exec (Demo.para (.unsupported 7) .SequentiallyNNSiteFlip) [] true] = .exit 2 w ∧
      List.Forall₂ (fun e0 e =>
        e.log = e0.log ++
          (OptimizeTPS_.samplingEvents e0.optimize_para e0.optimize_para.mc_samples
            ++ [Event.gather]) ∧
        e.split_index_tps_ = e0.split_index_tps_)
        [Demo.exec (Demo.para (.unsupported 7) .SequentiallyNNSiteFlip) [] true] w) :=
  ⟨rfl,
    (unsupported_selection_exit Demo.env (fun _ _ => 0)
      (Demo.exec (Demo.para .StochasticGradient (.unsupported 9)) [] true) 9 rfl
      (Demo.exec (Demo.para (.unsupported 7) .SequentiallyNNSiteFlip) [] true) [] 7 1 [] rfl rfl
      (fun e he => by rw [List.mem_singleton.1 he]; rfl)).1,
    (unsupported_selection_exit Demo.env (fun _ _ => 0)
      (Demo.exec (Demo.para .StochasticGradient (.unsupported 9)) [] true) 9 rfl
      (Demo.exec (Demo.para (.unsupported 7) .SequentiallyNNSiteFlip) [] true) [] 7 1 [] rfl rfl
      (fun e he => by rw [List.mem_singleton.1 he]; rfl)).2.1⟩

/-- One call of `MCSweep_` is logged once. -/
theorem count_MCSweep_events (para : VMCOptimizePara) :
    (MCSweep_.events para).count Event.MCSweep_ = 1 := by
  simp [MCSweep_.events, List.count_replicate]

/-- The loop of `WarmUp_` with `n` passes logs `n` calls of `MCSweep_`. -/
theorem count_WarmUp_events (para : VMCOptimizePara) (n : Nat) :
    (WarmUp_.events para n).count Event.MCSweep_ = n := by
  induction n with
  | zero => rfl
  | succ n ih => rw [WarmUp_.events, List.count_append, count_MCSweep_events, ih, Nat.add_comm]

/-- The rotation of a site value `1..6` is the cyclic rotation of its three bits. -/
theorem rotate_facts (c : Nat) (h1 : 1 ≤ c) (h6 : c ≤ 6) :
    (1 ≤ CompressedKagomeLatticeSingleSiteUpdate_.rotate c ∧
      CompressedKagomeLatticeSingleSiteUpdate_.rotate c ≤ 6) ∧
    ((CompressedKagomeLatticeSingleSiteUpdate_.rotate c).testBit 0 = c.testBit 2 ∧
      (CompressedKagomeLatticeSingleSiteUpdate_.rotate c).testBit 1 = c.testBit 0 ∧
      (CompressedKagomeLatticeSingleSiteUpdate_.rotate c).testBit 2 = c.testBit 1) ∧
    CompressedKagomeLatticeSingleSiteUpdate_.rotate c ≠ c ∧
    CompressedKagomeLatticeSingleSiteUpdate_.rotate
      (CompressedKagomeLatticeSingleSiteUpdate_.rotate c) ≠ c ∧
    CompressedKagomeLatticeSingleSiteUpdate_.rotate
      (CompressedKagomeLatticeSingleSiteUpdate_.rotate c) ≠
        CompressedKagomeLatticeSingleSiteUpdate_.rotate c ∧
    CompressedKagomeLatticeSingleSiteUpdate_.rotate
      (CompressedKagomeLatticeSingleSiteUpdate_.rotate
        (CompressedKagomeLatticeSingleSiteUpdate_.rotate c)) = c := by
  interval_cases c <;> decide

/-- Claim C26: for a site value `c` in `1..6` the rotation `r(c) = c / 4 + 2 * (c % 4)` is the
cyclic rotation of the three bits of `c`; `r(c)` and `r(r(c))` lie in `1..6`; `c`, `r(c)` and
`r(r(c))` are pairwise distinct and have the same number of set bits; `r(r(r(c))) = c`.  For a
site value in `0..7`, `CompressedKagomeLatticeSingleSiteUpdate_` returns `true` exactly when the
value of the site has changed, and for the values `0` and `7` it returns `false` and changes
nothing. -/
theorem CompressedKagomeLatticeSingleSiteUpdate_rotation (E : ContractionEngine Ten Cache)
    (site : SiteIdx) (sitps : SplitIndexTPS Ten) (u_double : Nat → ℚ)
    (mps_orient : BondOrientation) (p : Proc Ten Cache)
    (hc : p.tps_sample.config.val site ≤ 7) :
    (∀ c, 1 ≤ c → c ≤ 6 →
      (1 ≤ CompressedKagomeLatticeSingleSiteUpdate_.rotate c ∧
        CompressedKagomeLatticeSingleSiteUpdate_.rotate c ≤ 6) ∧
      (1 ≤ CompressedKagomeLatticeSingleSiteUpdate_.rotate
          (CompressedKagomeLatticeSingleSiteUpdate_.rotate c) ∧
        CompressedKagomeLatticeSingleSiteUpdate_.rotate
          (CompressedKagomeLatticeSingleSiteUpdate_.rotate c) ≤ 6) ∧
      ((CompressedKagomeLatticeSingleSiteUpdate_.rotate c).testBit 0 = c.testBit 2 ∧
        (CompressedKagomeLatticeSingleSiteUpdate_.rotate c).testBit 1 = c.testBit 0 ∧
        (CompressedKagomeLatticeSingleSiteUpdate_.rotate c).testBit 2 = c.testBit 1) ∧
      (CompressedKagomeLatticeSingleSiteUpdate_.rotate c ≠ c ∧
        CompressedKagomeLatticeSingleSiteUpdate_.rotate
          (CompressedKagomeLatticeSingleSiteUpdate_.rotate c) ≠ c ∧
        CompressedKagomeLatticeSingleSiteUpdate_.rotate
          (CompressedKagomeLatticeSingleSiteUpdate_.rotate c) ≠
            CompressedKagomeLatticeSingleSiteUpdate_.rotate c) ∧
      ((c.testBit 0).toNat + (c.testBit 1).toNat + (c.testBit 2).toNat =
        ((CompressedKagomeLatticeSingleSiteUpdate_.rotate c).testBit 0).toNat +
          ((CompressedKagomeLatticeSingleSiteUpdate_.rotate c).testBit 1).toNat +
          ((CompressedKagomeLatticeSingleSiteUpdate_.rotate c).testBit 2).toNat) ∧
      CompressedKagomeLatticeSingleSiteUpdate_.rotate
        (CompressedKagomeLatticeSingleSiteUpdate_.rotate
          (CompressedKagomeLatticeSingleSiteUpdate_.rotate c)) = c) ∧
    ((CompressedKagomeLatticeSingleSiteUpdate_ E site sitps u_double mps_orient p).1 = true ↔
      (CompressedKagomeLatticeSingleSiteUpdate_ E site sitps u_double mps_orient
        p).2.tps_sample.config.val site ≠ p.tps_sample.config.val site) ∧
    (p.tps_sample.config.val site = 0 ∨ p.tps_sample.config.val site = 7 →
      CompressedKagomeLatticeSingleSiteUpdate_ E site sitps u_double mps_orient p =
        (false, p)) := by
  refine ⟨?_, ?_, ?_⟩
  · intro c h1 h6
    interval_cases c <;> decide
  · unfold CompressedKagomeLatticeSingleSiteUpdate_
    simp only []
    by_cases h07 : p.tps_sample.config.val site = 0 ∨ p.tps_sample.config.val site = 7
    · rw [if_pos h07]
      simp
    · rw [if_neg h07]
      have h1 : 1 ≤ p.tps_sample.config.val site := by omega
      have h6 : p.tps_sample.config.val site ≤ 6 := by omega
      obtain ⟨_, _, hr1, hr2, _, _⟩ := rotate_facts _ h1 h6
      generalize @CompressedKagomeLatticeSingleSiteUpdate_.select ℚ _ _ _ _ _ = r
      obtain ⟨j, b⟩ := r
      unfold CompressedKagomeLatticeSingleSiteUpdate_.order
      cases j <;> cases b <;> split_ifs <;>
        simp [CompressedKagomeLatticeSingleSiteUpdate_.commit, hr1, hr2]
  · intro h07
    unfold CompressedKagomeLatticeSingleSiteUpdate_
    simp only []
    rw [if_pos h07]


/-- After the ordering step the first rotated amplitude is not the larger in magnitude. -/
theorem order_abs_le {α K : Type} [LinearOrderedField K] (c1 c2 : α) (psi1 psi2 : K) :
    |(CompressedKagomeLatticeSingleSiteUpdate_.order c1 c2 psi1 psi2).1.2| ≤
      |(CompressedKagomeLatticeSingleSiteUpdate_.order c1 c2 psi1 psi2).2.2| := by
  unfold CompressedKagomeLatticeSingleSiteUpdate_.order
  split_ifs with h
  · exact le_of_lt h
  · exact not_lt.1 h

/-- The branch of `select` that jumps without a draw (lines 263-269). -/
theorem select_skip {K : Type} [LinearOrderedField K] (psi0 psi1 psi2 u : K)
    (hA : psi0 * psi0 + psi1 * psi1 + psi2 * psi2 ≤ 2 * max (psi0 * psi0) (psi2 * psi2))
    (h : |psi2| ≥ |psi0|) :
    CompressedKagomeLatticeSingleSiteUpdate_.select psi0 psi1 psi2 u = (.rotate2, false) := by
  unfold CompressedKagomeLatticeSingleSiteUpdate_.select
  simp only []
  rw [if_pos hA, if_pos h]

/-- The branch of `select` with the largest current weight that exceeds the sum of the others
(lines 270-289). -/
theorem select_dominant {K : Type} [LinearOrderedField K] (psi0 psi1 psi2 u : K)
    (hA : psi0 * psi0 + psi1 * psi1 + psi2 * psi2 ≤ 2 * max (psi0 * psi0) (psi2 * psi2))
    (h : ¬ |psi2| ≥ |psi0|) :
    CompressedKagomeLatticeSingleSiteUpdate_.select psi0 psi1 psi2 u =
      if u < psi2 * psi2 / (psi0 * psi0) then (.rotate2, true)
      else if u < (psi1 * psi1 + psi2 * psi2) / (psi0 * psi0) then (.rotate1, true)
      else (.none, true) := by
  unfold CompressedKagomeLatticeSingleSiteUpdate_.select
  simp only []
  rw [if_pos hA, if_neg h]

/-- The branch of `select` with the largest current weight below the sum of the others (lines
292-305). -/
theorem select_large {K : Type} [LinearOrderedField K] (psi0 psi1 psi2 u : K)
    (hA : ¬ psi0 * psi0 + psi1 * psi1 + psi2 * psi2 ≤ 2 * max (psi0 * psi0) (psi2 * psi2))
    (h : psi0 * psi0 ≥ psi2 * psi2) :
    CompressedKagomeLatticeSingleSiteUpdate_.select psi0 psi1 psi2 u =
      if u < psi2 * psi2 / (psi2 * psi2 + psi1 * psi1) then (.rotate2, true)
      else (.rotate1, true) := by
  unfold CompressedKagomeLatticeSingleSiteUpdate_.select
  simp only []
  rw [if_neg hA, if_pos h]

/-- The branch of `select` with the smallest current weight (lines 306-319). -/
theorem select_small {K : Type} [LinearOrderedField K] (psi0 psi1 psi2 u : K)
    (hA : ¬ psi0 * psi0 + psi1 * psi1 + psi2 * psi2 ≤ 2 * max (psi0 * psi0) (psi2 * psi2))
    (h : ¬ psi0 * psi0 ≥ psi2 * psi2) (h1 : psi0 * psi0 ≤ psi1 * psi1) :
    CompressedKagomeLatticeSingleSiteUpdate_.select psi0 psi1 psi2 u =
      if u < psi2 * psi2 / (psi0 * psi0 + psi1 * psi1) then (.rotate2, true)
      else (.rotate1, true) := by
  unfold CompressedKagomeLatticeSingleSiteUpdate_.select
  simp only []
  rw [if_neg hA, if_neg h, if_pos h1]

/-- The branch of `select` with the current weight in the middle (lines 320-338). -/
theorem select_middle {K : Type} [LinearOrderedField K] (psi0 psi1 psi2 u : K)
    (hA : ¬ psi0 * psi0 + psi1 * psi1 + psi2 * psi2 ≤ 2 * max (psi0 * psi0) (psi2 * psi2))
    (h : ¬ psi0 * psi0 ≥ psi2 * psi2) (h1 : ¬ psi0 * psi0 ≤ psi1 * psi1) :
    CompressedKagomeLatticeSingleSiteUpdate_.select psi0 psi1 psi2 u =
      if u ≤ psi2 * psi2 / (psi0 * psi0 + psi1 * psi1) then (.rotate2, true)
      else if u ≤ psi2 * psi2 / (psi0 * psi0 + psi1 * psi1) +
          psi1 * psi1 / (psi0 * psi0) * (1 - psi2 * psi2 / (psi0 * psi0 + psi1 * psi1)) then
        (.rotate1, true)
      else (.none, true) := by
  unfold CompressedKagomeLatticeSingleSiteUpdate_.select
  simp only []
  rw [if_neg hA, if_neg h, if_neg h1]

/-- The thresholds of the branch `select_dominant`. -/
theorem thresholds_dominant {K : Type} [LinearOrderedField K] (p0 p1 p2 : K)
    (h1 : 0 ≤ p1) (h2 : 0 ≤ p2) (hA : p0 + p1 + p2 ≤ 2 * max p0 p2) (h : p2 < p0) :
    p0 ≠ 0 ∧ 0 ≤ p2 / p0 ∧ p2 / p0 ≤ (p1 + p2) / p0 ∧ (p1 + p2) / p0 ≤ 1 := by
  have hpos : 0 < p0 := lt_of_le_of_lt h2 h
  rw [max_eq_left (le_of_lt h)] at hA
  refine ⟨ne_of_gt hpos, div_nonneg h2 (le_of_lt hpos), ?_, ?_⟩
  · exact div_le_div_of_nonneg_right (by linarith) (le_of_lt hpos)
  · rw [div_le_one hpos]
    linarith

/-- The threshold of the branch `select_large`. -/
theorem thresholds_large {K : Type} [LinearOrderedField K] (p0 p1 p2 : K)
    (h0 : 0 ≤ p0) (_h1 : 0 ≤ p1) (h2 : 0 ≤ p2) (hA : ¬ p0 + p1 + p2 ≤ 2 * max p0 p2)
    (h : p0 ≥ p2) :
    p2 + p1 ≠ 0 ∧ 0 ≤ p2 / (p2 + p1) ∧ p2 / (p2 + p1) ≤ 1 := by
  rw [max_eq_left h, not_le] at hA
  have hpos : 0 < p2 + p1 := by linarith
  refine ⟨ne_of_gt hpos, div_nonneg h2 (le_of_lt hpos), ?_⟩
  rw [div_le_one hpos]
  linarith

/-- The threshold of the branches `select_small` and `select_middle`. -/
theorem thresholds_small {K : Type} [LinearOrderedField K] (p0 p1 p2 : K)
    (h0 : 0 ≤ p0) (_h1 : 0 ≤ p1) (h2 : 0 ≤ p2) (hA : ¬ p0 + p1 + p2 ≤ 2 * max p0 p2)
    (h : ¬ p0 ≥ p2) :
    p0 + p1 ≠ 0 ∧ 0 ≤ p2 / (p0 + p1) ∧ p2 / (p0 + p1) < 1 := by
  rw [max_eq_right (le_of_lt (not_le.1 h)), not_le] at hA
  have hpos : 0 < p0 + p1 := by linarith
  refine ⟨ne_of_gt hpos, div_nonneg h2 (le_of_lt hpos), ?_⟩
  rw [div_lt_one hpos]
  linarith

/-- The second threshold of the branch `select_middle`. -/
theorem thresholds_middle {K : Type} [LinearOrderedField K] (p0 p1 t : K)
    (h1 : 0 ≤ p1) (h01 : ¬ p0 ≤ p1) (_ht0 : 0 ≤ t) (ht1 : t < 1) :
    p0 ≠ 0 ∧ t ≤ t + p1 / p0 * (1 - t) ∧ t + p1 / p0 * (1 - t) ≤ 1 := by
  have hlt : p1 < p0 := not_le.1 h01
  have hpos : 0 < p0 := lt_of_le_of_lt h1 hlt
  have hq0 : 0 ≤ p1 / p0 := div_nonneg h1 (le_of_lt hpos)
  have hq1 : p1 / p0 ≤ 1 := (div_le_one hpos).2 (le_of_lt hlt)
  refine ⟨ne_of_gt hpos, ?_, ?_⟩
  · have := mul_nonneg hq0 (by linarith : (0 : K) ≤ 1 - t)
    linarith
  · have := mul_le_mul_of_nonneg_right hq1 (by linarith : (0 : K) ≤ 1 - t)
    linarith

/-- The thresholds of `select` in exact arithmetic: for all amplitudes `psi0`, `psi_a`,
`psi_b` of an ordered field, with `psi_rotate1`, `psi_rotate2`
the two rotated amplitudes after the ordering step and `p0, p1, p2` the squares: `p1 ≤ p2`; the
branch that jumps at once consults no draw; in each of the four branches that draw a number the
denominators of the thresholds are non-zero, every threshold lies in `[0, 1]`, and where there
are two thresholds the second is not smaller than the first.  Each branch is given with its
condition and with the comparisons that `select` makes in it. -/
theorem CompressedKagomeLatticeSingleSiteUpdate_thresholds {K : Type} [LinearOrderedField K]
    (psi0 psi_a psi_b : K) :
    let psi_rotate1 := (CompressedKagomeLatticeSingleSiteUpdate_.order () () psi_a psi_b).1.2
    let psi_rotate2 := (CompressedKagomeLatticeSingleSiteUpdate_.order () () psi_a psi_b).2.2
    let p0 := psi0 * psi0
    let p1 := psi_rotate1 * psi_rotate1
    let p2 := psi_rotate2 * psi_rotate2
    p1 ≤ p2 ∧
    (p0 + p1 + p2 ≤ 2 * max p0 p2 → |psi_rotate2| ≥ |psi0| →
      ∀ u, CompressedKagomeLatticeSingleSiteUpdate_.select psi0 psi_rotate1 psi_rotate2 u =
        (.rotate2, false)) ∧
    (p0 + p1 + p2 ≤ 2 * max p0 p2 → ¬ |psi_rotate2| ≥ |psi0| →
      (p0 ≠ 0 ∧ 0 ≤ p2 / p0 ∧ p2 / p0 ≤ (p1 + p2) / p0 ∧ (p1 + p2) / p0 ≤ 1) ∧
      ∀ u, CompressedKagomeLatticeSingleSiteUpdate_.select psi0 psi_rotate1 psi_rotate2 u =
        if u < p2 / p0 then (.rotate2, true)
        else if u < (p1 + p2) / p0 then (.rotate1, true)
        else (.none, true)) ∧
    (¬ p0 + p1 + p2 ≤ 2 * max p0 p2 → p0 ≥ p2 →
      (p2 + p1 ≠ 0 ∧ 0 ≤ p2 / (p2 + p1) ∧ p2 / (p2 + p1) ≤ 1) ∧
      ∀ u, CompressedKagomeLatticeSingleSiteUpdate_.select psi0 psi_rotate1 psi_rotate2 u =
        if u < p2 / (p2 + p1) then (.rotate2, true) else (.rotate1, true)) ∧
    (¬ p0 + p1 + p2 ≤ 2 * max p0 p2 → ¬ p0 ≥ p2 → p0 ≤ p1 →
      (p0 + p1 ≠ 0 ∧ 0 ≤ p2 / (p0 + p1) ∧ p2 / (p0 + p1) ≤ 1) ∧
      ∀ u, CompressedKagomeLatticeSingleSiteUpdate_.select psi0 psi_rotate1 psi_rotate2 u =
        if u < p2 / (p0 + p1) then (.rotate2, true) else (.rotate1, true)) ∧
    (¬ p0 + p1 + p2 ≤ 2 * max p0 p2 → ¬ p0 ≥ p2 → ¬ p0 ≤ p1 →
      (p0 + p1 ≠ 0 ∧ p0 ≠ 0 ∧ 0 ≤ p2 / (p0 + p1) ∧
        p2 / (p0 + p1) ≤ p2 / (p0 + p1) + p1 / p0 * (1 - p2 / (p0 + p1)) ∧
        p2 / (p0 + p1) + p1 / p0 * (1 - p2 / (p0 + p1)) ≤ 1) ∧
      ∀ u, CompressedKagomeLatticeSingleSiteUpdate_.select psi0 psi_rotate1 psi_rotate2 u =
        if u ≤ p2 / (p0 + p1) then (.rotate2, true)
        else if u ≤ p2 / (p0 + p1) + p1 / p0 * (1 - p2 / (p0 + p1)) then (.rotate1, true)
        else (.none, true)) := by
  intro psi_rotate1 psi_rotate2 p0 p1 p2
  have hord : |psi_rotate1| ≤ |psi_rotate2| := order_abs_le () () psi_a psi_b
  have h0 : 0 ≤ p0 := mul_self_nonneg psi0
  have h1 : 0 ≤ p1 := mul_self_nonneg psi_rotate1
  have h2 : 0 ≤ p2 := mul_self_nonneg psi_rotate2
  refine ⟨abs_le_iff_mul_self_le.1 hord, ?_, ?_, ?_, ?_, ?_⟩
  · exact fun hA h u => select_skip psi0 psi_rotate1 psi_rotate2 u hA h
  · intro hA h
    refine ⟨thresholds_dominant p0 p1 p2 h1 h2 hA ?_,
      fun u => select_dominant psi0 psi_rotate1 psi_rotate2 u hA h⟩
    exact abs_lt_iff_mul_self_lt.1 (not_le.1 h)
  · exact fun hA h => ⟨thresholds_large p0 p1 p2 h0 h1 h2 hA h,
      fun u => select_large psi0 psi_rotate1 psi_rotate2 u hA h⟩
  · intro hA h h01
    obtain ⟨hd, ht0, ht1⟩ := thresholds_small p0 p1 p2 h0 h1 h2 hA h
    exact ⟨⟨hd, ht0, le_of_lt ht1⟩,
      fun u => select_small psi0 psi_rotate1 psi_rotate2 u hA h h01⟩
  · intro hA h h01
    obtain ⟨hd, ht0, ht1⟩ := thresholds_small p0 p1 p2 h0 h1 h2 hA h
    obtain ⟨hp0, hle, hle1⟩ := thresholds_middle p0 p1 (p2 / (p0 + p1)) h1 h01 ht0 ht1
    exact ⟨⟨hd, hp0, ht0, hle, hle1⟩,
      fun u => select_middle psi0 psi_rotate1 psi_rotate2 u hA h h01⟩


/-! ## Detailed balance of the single-site move -/

/-- A set of reals between an open and a closed interval has the length of the interval. -/
theorem volume_sandwich (S : Set ℝ) (lo hi : ℝ) (hle : lo ≤ hi)
    (h1 : Set.Ioo lo hi ⊆ S) (h2 : S ⊆ Set.Icc lo hi) :
    (MeasureTheory.volume S).toReal = hi - lo := by
  have e1 : MeasureTheory.volume S = ENNReal.ofReal (hi - lo) := le_antisymm
    (by rw [← Real.volume_Icc]; exact MeasureTheory.measure_mono h2)
    (by rw [← Real.volume_Ioo]; exact MeasureTheory.measure_mono h1)
  rw [e1, ENNReal.toReal_ofReal (by linarith)]

/-- The measure of the draws of `[0, 1)` that lead to each jump, for a choice by two
thresholds. -/
theorem volume_thresholds (j : ℝ → Jump) (t1 t2 : ℝ) (h0 : 0 ≤ t1) (h12 : t1 ≤ t2)
    (h21 : t2 ≤ 1)
    (hj : ∀ u, 0 ≤ u → u < 1 → (u < t1 → j u = .rotate2) ∧ (t1 < u → j u ≠ .rotate2) ∧
      (t1 < u → u < t2 → j u = .rotate1) ∧ (t2 < u → j u ≠ .rotate1)) :
    (MeasureTheory.volume {u : ℝ | 0 ≤ u ∧ u < 1 ∧ j u = .rotate2}).toReal = t1 ∧
    (MeasureTheory.volume {u : ℝ | 0 ≤ u ∧ u < 1 ∧ j u = .rotate1}).toReal = t2 - t1 := by
  constructor
  · rw [volume_sandwich _ 0 t1 h0, sub_zero]
    · intro u hu
      exact ⟨le_of_lt hu.1, by linarith [hu.2], (hj u (le_of_lt hu.1) (by linarith [hu.2])).1 hu.2⟩
    · intro u hu
      refine ⟨hu.1, ?_⟩
      by_contra hlt
      exact (hj u hu.1 hu.2.1).2.1 (not_le.1 hlt) hu.2.2
  · rw [volume_sandwich _ t1 t2 h12]
    · intro u hu
      have hu0 : 0 ≤ u := by linarith [hu.1]
      have hu1 : u < 1 := by linarith [hu.2]
      exact ⟨hu0, hu1, (hj u hu0 hu1).2.2.1 hu.1 hu.2⟩
    · intro u hu
      constructor
      · by_contra hlt
        have h2 := (hj u hu.1 hu.2.1).1 (not_le.1 hlt)
        rw [hu.2.2] at h2
        exact absurd h2 (by decide)
      · by_contra hlt
        exact (hj u hu.1 hu.2.1).2.2.2 (not_le.1 hlt) hu.2.2

/-- The measures of the draws for the branch of `select` that jumps at once. -/
theorem volume_select_skip (psi0 psi1 psi2 : ℝ)
    (hA : psi0 * psi0 + psi1 * psi1 + psi2 * psi2 ≤ 2 * max (psi0 * psi0) (psi2 * psi2))
    (h : |psi2| ≥ |psi0|) :
    (MeasureTheory.volume {u : ℝ | 0 ≤ u ∧ u < 1 ∧
      (CompressedKagomeLatticeSingleSiteUpdate_.select psi0 psi1 psi2 u).1 = .rotate2}).toReal
        = 1 ∧
    (MeasureTheory.volume {u : ℝ | 0 ≤ u ∧ u < 1 ∧
      (CompressedKagomeLatticeSingleSiteUpdate_.select psi0 psi1 psi2 u).1 = .rotate1}).toReal
        = 1 - 1 := by
  refine volume_thresholds _ 1 1 zero_le_one le_rfl le_rfl (fun u _ hu1 => ?_)
  rw [select_skip psi0 psi1 psi2 u hA h]
  exact ⟨fun _ => rfl, fun hlt => absurd hlt (not_lt.2 (le_of_lt hu1)),
    fun hlt => absurd hlt (not_lt.2 (le_of_lt hu1)), fun _ => by decide⟩

/-- The measures of the draws for the branch `select_dominant`. -/
theorem volume_select_dominant (psi0 psi1 psi2 : ℝ)
    (hA : psi0 * psi0 + psi1 * psi1 + psi2 * psi2 ≤ 2 * max (psi0 * psi0) (psi2 * psi2))
    (h : ¬ |psi2| ≥ |psi0|) :
    (MeasureTheory.volume {u : ℝ | 0 ≤ u ∧ u < 1 ∧
      (CompressedKagomeLatticeSingleSiteUpdate_.select psi0 psi1 psi2 u).1 = .rotate2}).toReal
        = psi2 * psi2 / (psi0 * psi0) ∧
    (MeasureTheory.volume {u : ℝ | 0 ≤ u ∧ u < 1 ∧
      (CompressedKagomeLatticeSingleSiteUpdate_.select psi0 psi1 psi2 u).1 = .rotate1}).toReal
        = (psi1 * psi1 + psi2 * psi2) / (psi0 * psi0) - psi2 * psi2 / (psi0 * psi0) := by
  obtain ⟨_, ht0, ht12, ht1⟩ := thresholds_dominant (psi0 * psi0) (psi1 * psi1) (psi2 * psi2)
    (mul_self_nonneg _) (mul_self_nonneg _) hA (abs_lt_iff_mul_self_lt.1 (not_le.1 h))
  refine volume_thresholds _ _ _ ht0 ht12 ht1 (fun u _ _ => ?_)
  rw [select_dominant psi0 psi1 psi2 u hA h]
  refine ⟨fun hlt => by rw [if_pos hlt], fun hlt => ?_, fun hlt hlt2 => ?_, fun hlt => ?_⟩
  · rw [if_neg (not_lt.2 (le_of_lt hlt))]
    split_ifs <;> decide
  · rw [if_neg (not_lt.2 (le_of_lt hlt)), if_pos hlt2]
  · rw [if_neg (not_lt.2 (le_trans ht12 (le_of_lt hlt))), if_neg (not_lt.2 (le_of_lt hlt))]
    decide

/-- The measures of the draws for a branch of `select` with one threshold. -/
theorem volume_one_threshold (j : ℝ → Jump) (t : ℝ) (h0 : 0 ≤ t) (h1 : t ≤ 1)
    (hj : ∀ u, j u = if u < t then .rotate2 else .rotate1) :
    (MeasureTheory.volume {u : ℝ | 0 ≤ u ∧ u < 1 ∧ j u = .rotate2}).toReal = t ∧
    (MeasureTheory.volume {u : ℝ | 0 ≤ u ∧ u < 1 ∧ j u = .rotate1}).toReal = 1 - t := by
  refine volume_thresholds j t 1 h0 h1 le_rfl (fun u _ hu1 => ?_)
  rw [hj u]
  refine ⟨fun hlt => by rw [if_pos hlt], fun hlt => ?_, fun hlt _ => ?_,
    fun hlt => absurd hlt (not_lt.2 (le_of_lt hu1))⟩
  · rw [if_neg (not_lt.2 (le_of_lt hlt))]
    decide
  · rw [if_neg (not_lt.2 (le_of_lt hlt))]

/-- The measures of the draws for the branch `select_large`. -/
theorem volume_select_large (psi0 psi1 psi2 : ℝ)
    (hA : ¬ psi0 * psi0 + psi1 * psi1 + psi2 * psi2 ≤ 2 * max (psi0 * psi0) (psi2 * psi2))
    (h : psi0 * psi0 ≥ psi2 * psi2) :
    (MeasureTheory.volume {u : ℝ | 0 ≤ u ∧ u < 1 ∧
      (CompressedKagomeLatticeSingleSiteUpdate_.select psi0 psi1 psi2 u).1 = .rotate2}).toReal
        = psi2 * psi2 / (psi2 * psi2 + psi1 * psi1) ∧
    (MeasureTheory.volume {u : ℝ | 0 ≤ u ∧ u < 1 ∧
      (CompressedKagomeLatticeSingleSiteUpdate_.select psi0 psi1 psi2 u).1 = .rotate1}).toReal
        = 1 - psi2 * psi2 / (psi2 * psi2 + psi1 * psi1) := by
  obtain ⟨_, ht0, ht1⟩ := thresholds_large (psi0 * psi0) (psi1 * psi1) (psi2 * psi2)
    (mul_self_nonneg _) (mul_self_nonneg _) (mul_self_nonneg _) hA h
  refine volume_one_threshold _ _ ht0 ht1 (fun u => ?_)
  rw [select_large psi0 psi1 psi2 u hA h]
  split_ifs <;> rfl

/-- The measures of the draws for the branch `select_small`. -/
theorem volume_select_small (psi0 psi1 psi2 : ℝ)
    (hA : ¬ psi0 * psi0 + psi1 * psi1 + psi2 * psi2 ≤ 2 * max (psi0 * psi0) (psi2 * psi2))
    (h : ¬ psi0 * psi0 ≥ psi2 * psi2) (h1 : psi0 * psi0 ≤ psi1 * psi1) :
    (MeasureTheory.volume {u : ℝ | 0 ≤ u ∧ u < 1 ∧
      (CompressedKagomeLatticeSingleSiteUpdate_.select psi0 psi1 psi2 u).1 = .rotate2}).toReal
        = psi2 * psi2 / (psi0 * psi0 + psi1 * psi1) ∧
    (MeasureTheory.volume {u : ℝ | 0 ≤ u ∧ u < 1 ∧
      (CompressedKagomeLatticeSingleSiteUpdate_.select psi0 psi1 psi2 u).1 = .rotate1}).toReal
        = 1 - psi2 * psi2 / (psi0 * psi0 + psi1 * psi1) := by
  obtain ⟨_, ht0, ht1⟩ := thresholds_small (psi0 * psi0) (psi1 * psi1) (psi2 * psi2)
    (mul_self_nonneg _) (mul_self_nonneg _) (mul_self_nonneg _) hA h
  refine volume_one_threshold _ _ ht0 (le_of_lt ht1) (fun u => ?_)
  rw [select_small psi0 psi1 psi2 u hA h h1]
  split_ifs <;> rfl

/-- The measures of the draws for the branch `select_middle`. -/
theorem volume_select_middle (psi0 psi1 psi2 : ℝ)
    (hA : ¬ psi0 * psi0 + psi1 * psi1 + psi2 * psi2 ≤ 2 * max (psi0 * psi0) (psi2 * psi2))
    (h : ¬ psi0 * psi0 ≥ psi2 * psi2) (h1 : ¬ psi0 * psi0 ≤ psi1 * psi1) :
    (MeasureTheory.volume {u : ℝ | 0 ≤ u ∧ u < 1 ∧
      (CompressedKagomeLatticeSingleSiteUpdate_.select psi0 psi1 psi2 u).1 = .rotate2}).toReal
        = psi2 * psi2 / (psi0 * psi0 + psi1 * psi1) ∧
    (MeasureTheory.volume {u : ℝ | 0 ≤ u ∧ u < 1 ∧
      (CompressedKagomeLatticeSingleSiteUpdate_.select psi0 psi1 psi2 u).1 = .rotate1}).toReal
        = psi2 * psi2 / (psi0 * psi0 + psi1 * psi1) +
            psi1 * psi1 / (psi0 * psi0) * (1 - psi2 * psi2 / (psi0 * psi0 + psi1 * psi1))
          - psi2 * psi2 / (psi0 * psi0 + psi1 * psi1) := by
  obtain ⟨_, ht0, ht1⟩ := thresholds_small (psi0 * psi0) (psi1 * psi1) (psi2 * psi2)
    (mul_self_nonneg _) (mul_self_nonneg _) (mul_self_nonneg _) hA h
  obtain ⟨_, hle, hle1⟩ := thresholds_middle (psi0 * psi0) (psi1 * psi1)
    (psi2 * psi2 / (psi0 * psi0 + psi1 * psi1)) (mul_self_nonneg _) h1 ht0 ht1
  refine volume_thresholds _ _ _ ht0 hle hle1 (fun u _ _ => ?_)
  rw [select_middle psi0 psi1 psi2 u hA h h1]
  refine ⟨fun hlt => by rw [if_pos (le_of_lt hlt)], fun hlt => ?_, fun hlt hlt2 => ?_,
    fun hlt => ?_⟩
  · rw [if_neg (not_le.2 hlt)]
    split_ifs <;> decide
  · rw [if_neg (not_le.2 hlt), if_pos (le_of_lt hlt2)]
  · rw [if_neg (not_le.2 (lt_of_le_of_lt hle hlt)), if_neg (not_le.2 hlt)]
    decide


/-- The two other rotation states of a state are its first and second rotation. -/
theorem fin3_others (x y z : Fin 3) (hxy : x ≠ y) (hxz : x ≠ z) (hyz : y ≠ z) :
    (y = x + 1 ∧ z = x + 2) ∨ (y = x + 2 ∧ z = x + 1) := by
  revert x y z
  decide

/-- The rotations of a state differ from it and from each other. -/
theorem fin3_rotations (x : Fin 3) : x ≠ x + 1 ∧ x ≠ x + 2 ∧ x + 1 ≠ x + 2 := by
  revert x
  decide

/-- The move from `x` ends in `y`, the rotated state of the larger amplitude, exactly when the
branches take the end `rotate2`. -/
theorem next_eq_iff_rotate2 {K : Type} [LinearOrderedField K] (psi : Fin 3 → K)
    (x y z : Fin 3) (hxy : x ≠ y) (hxz : x ≠ z) (hyz : y ≠ z) (h : |psi z| < |psi y|) (u : K) :
    CompressedKagomeLatticeSingleSiteUpdate_.next psi x u = y ↔
      (CompressedKagomeLatticeSingleSiteUpdate_.select (psi x) (psi z) (psi y) u).1
        = .rotate2 := by
  obtain ⟨h0, h1, h2⟩ := fin3_rotations x
  unfold CompressedKagomeLatticeSingleSiteUpdate_.next
    CompressedKagomeLatticeSingleSiteUpdate_.order
  simp only []
  rcases fin3_others x y z hxy hxz hyz with ⟨rfl, rfl⟩ | ⟨rfl, rfl⟩
  · rw [if_pos h]
    generalize (CompressedKagomeLatticeSingleSiteUpdate_.select (psi x) (psi (x + 2))
      (psi (x + 1)) u).1 = j
    cases j <;> simp [h0, h2.symm]
  · rw [if_neg (not_lt.2 (le_of_lt h))]
    generalize (CompressedKagomeLatticeSingleSiteUpdate_.select (psi x) (psi (x + 1))
      (psi (x + 2)) u).1 = j
    cases j <;> simp [h1, h2]

/-- The move from `x` ends in `y`, the rotated state of the smaller amplitude, exactly when the
branches take the end `rotate1`. -/
theorem next_eq_iff_rotate1 {K : Type} [LinearOrderedField K] (psi : Fin 3 → K)
    (x y z : Fin 3) (hxy : x ≠ y) (hxz : x ≠ z) (hyz : y ≠ z) (h : |psi y| < |psi z|) (u : K) :
    CompressedKagomeLatticeSingleSiteUpdate_.next psi x u = y ↔
      (CompressedKagomeLatticeSingleSiteUpdate_.select (psi x) (psi y) (psi z) u).1
        = .rotate1 := by
  obtain ⟨h0, h1, h2⟩ := fin3_rotations x
  unfold CompressedKagomeLatticeSingleSiteUpdate_.next
    CompressedKagomeLatticeSingleSiteUpdate_.order
  simp only []
  rcases fin3_others x y z hxy hxz hyz with ⟨rfl, rfl⟩ | ⟨rfl, rfl⟩
  · rw [if_neg (not_lt.2 (le_of_lt h))]
    generalize (CompressedKagomeLatticeSingleSiteUpdate_.select (psi x) (psi (x + 1))
      (psi (x + 2)) u).1 = j
    cases j <;> simp [h0, h2.symm]
  · rw [if_pos h]
    generalize (CompressedKagomeLatticeSingleSiteUpdate_.select (psi x) (psi (x + 2))
      (psi (x + 1)) u).1 = j
    cases j <;> simp [h1, h2]

/-- The set of the draws that move `x` to `y`, the rotated state of the larger amplitude. -/
theorem next_set_rotate2 (psi : Fin 3 → ℝ) (x y z : Fin 3) (hxy : x ≠ y) (hxz : x ≠ z)
    (hyz : y ≠ z) (h : psi z * psi z < psi y * psi y) :
    {u : ℝ | 0 ≤ u ∧ u < 1 ∧ CompressedKagomeLatticeSingleSiteUpdate_.next psi x u = y} =
    {u : ℝ | 0 ≤ u ∧ u < 1 ∧
      (CompressedKagomeLatticeSingleSiteUpdate_.select (psi x) (psi z) (psi y) u).1
        = .rotate2} := by
  ext u
  simp only [Set.mem_setOf_eq,
    next_eq_iff_rotate2 psi x y z hxy hxz hyz (abs_lt_iff_mul_self_lt.2 h) u]

/-- The set of the draws that move `x` to `y`, the rotated state of the smaller amplitude. -/
theorem next_set_rotate1 (psi : Fin 3 → ℝ) (x y z : Fin 3) (hxy : x ≠ y) (hxz : x ≠ z)
    (hyz : y ≠ z) (h : psi y * psi y < psi z * psi z) :
    {u : ℝ | 0 ≤ u ∧ u < 1 ∧ CompressedKagomeLatticeSingleSiteUpdate_.next psi x u = y} =
    {u : ℝ | 0 ≤ u ∧ u < 1 ∧
      (CompressedKagomeLatticeSingleSiteUpdate_.select (psi x) (psi y) (psi z) u).1
        = .rotate1} := by
  ext u
  simp only [Set.mem_setOf_eq,
    next_eq_iff_rotate1 psi x y z hxy hxz hyz (abs_lt_iff_mul_self_lt.2 h) u]

/-- Detailed balance between two states `x`, `y` with the weight of `x` below that of `y`. -/
theorem detailed_balance_lt (psi : Fin 3 → ℝ) (x y z : Fin 3) (hxy : x ≠ y) (hxz : x ≠ z)
    (hyz : y ≠ z) (hab : psi x * psi x < psi y * psi y)
    (hac : psi x * psi x ≠ psi z * psi z) (hbc : psi y * psi y ≠ psi z * psi z) :
    psi x * psi x * (MeasureTheory.volume {u : ℝ | 0 ≤ u ∧ u < 1 ∧
        CompressedKagomeLatticeSingleSiteUpdate_.next psi x u = y}).toReal =
    psi y * psi y * (MeasureTheory.volume {u : ℝ | 0 ≤ u ∧ u < 1 ∧
        CompressedKagomeLatticeSingleSiteUpdate_.next psi y u = x}).toReal := by
  have ha : 0 ≤ psi x * psi x := mul_self_nonneg _
  have hb : 0 ≤ psi y * psi y := mul_self_nonneg _
  have hc : 0 ≤ psi z * psi z := mul_self_nonneg _
  have hb0 : psi y * psi y ≠ 0 := by linarith
  rcases lt_or_gt_of_ne hac with hac | hca
  · rcases lt_or_gt_of_ne hbc with hbc | hcb
    · -- a < b < c
      rw [next_set_rotate1 psi x y z hxy hxz hyz hbc,
        next_set_rotate1 psi y x z hxy.symm hyz hxz hac]
      by_cases hA : psi x * psi x + psi y * psi y ≤ psi z * psi z
      · have hAx : psi x * psi x + psi y * psi y + psi z * psi z ≤
            2 * max (psi x * psi x) (psi z * psi z) := by
          rw [max_eq_right (le_of_lt hac)]; linarith
        have hAy : psi y * psi y + psi x * psi x + psi z * psi z ≤
            2 * max (psi y * psi y) (psi z * psi z) := by
          rw [max_eq_right (le_of_lt hbc)]; linarith
        rw [(volume_select_skip (psi x) (psi y) (psi z) hAx
            (abs_le_iff_mul_self_le.2 (le_of_lt hac))).2,
          (volume_select_skip (psi y) (psi x) (psi z) hAy
            (abs_le_iff_mul_self_le.2 (le_of_lt hbc))).2]
        ring
      · have hAx : ¬ psi x * psi x + psi y * psi y + psi z * psi z ≤
            2 * max (psi x * psi x) (psi z * psi z) := by
          rw [max_eq_right (le_of_lt hac)]; intro h; exact hA (by linarith)
        have hAy : ¬ psi y * psi y + psi x * psi x + psi z * psi z ≤
            2 * max (psi y * psi y) (psi z * psi z) := by
          rw [max_eq_right (le_of_lt hbc)]; intro h; exact hA (by linarith)
        rw [(volume_select_small (psi x) (psi y) (psi z) hAx (not_le.2 hac) (le_of_lt hab)).2,
          (volume_select_middle (psi y) (psi x) (psi z) hAy (not_le.2 hbc) (not_le.2 hab)).2]
        have hs : psi x * psi x + psi y * psi y ≠ 0 := by linarith
        have hs' : psi y * psi y + psi x * psi x ≠ 0 := by linarith
        field_simp
        ring
    · -- a < c < b
      rw [next_set_rotate2 psi x y z hxy hxz hyz hcb,
        next_set_rotate1 psi y x z hxy.symm hyz hxz hac]
      by_cases hA : psi x * psi x + psi z * psi z ≤ psi y * psi y
      · have hAx : psi x * psi x + psi z * psi z + psi y * psi y ≤
            2 * max (psi x * psi x) (psi y * psi y) := by
          rw [max_eq_right (le_of_lt hab)]; linarith
        have hAy : psi y * psi y + psi x * psi x + psi z * psi z ≤
            2 * max (psi y * psi y) (psi z * psi z) := by
          rw [max_eq_left (le_of_lt hcb)]; linarith
        rw [(volume_select_skip (psi x) (psi z) (psi y) hAx
            (abs_le_iff_mul_self_le.2 (le_of_lt hab))).1,
          (volume_select_dominant (psi y) (psi x) (psi z) hAy
            (not_le.2 (abs_lt_iff_mul_self_lt.2 hcb))).2]
        field_simp
      · have hAx : ¬ psi x * psi x + psi z * psi z + psi y * psi y ≤
            2 * max (psi x * psi x) (psi y * psi y) := by
          rw [max_eq_right (le_of_lt hab)]; intro h; exact hA (by linarith)
        have hAy : ¬ psi y * psi y + psi x * psi x + psi z * psi z ≤
            2 * max (psi y * psi y) (psi z * psi z) := by
          rw [max_eq_left (le_of_lt hcb)]; intro h; exact hA (by linarith)
        rw [(volume_select_small (psi x) (psi z) (psi y) hAx (not_le.2 hab) (le_of_lt hac)).1,
          (volume_select_large (psi y) (psi x) (psi z) hAy (le_of_lt hcb)).2]
        have hs : psi x * psi x + psi z * psi z ≠ 0 := by linarith
        have hs' : psi z * psi z + psi x * psi x ≠ 0 := by linarith
        field_simp
        ring
  · -- c < a < b
    have hcb : psi z * psi z < psi y * psi y := lt_trans hca hab
    rw [next_set_rotate2 psi x y z hxy hxz hyz hcb,
      next_set_rotate2 psi y x z hxy.symm hyz hxz hca]
    by_cases hA : psi x * psi x + psi z * psi z ≤ psi y * psi y
    · have hAx : psi x * psi x + psi z * psi z + psi y * psi y ≤
          2 * max (psi x * psi x) (psi y * psi y) := by
        rw [max_eq_right (le_of_lt hab)]; linarith
      have hAy : psi y * psi y + psi z * psi z + psi x * psi x ≤
          2 * max (psi y * psi y) (psi x * psi x) := by
        rw [max_eq_left (le_of_lt hab)]; linarith
      rw [(volume_select_skip (psi x) (psi z) (psi y) hAx
          (abs_le_iff_mul_self_le.2 (le_of_lt hab))).1,
        (volume_select_dominant (psi y) (psi z) (psi x) hAy
          (not_le.2 (abs_lt_iff_mul_self_lt.2 hab))).1]
      field_simp
    · have hAx : ¬ psi x * psi x + psi z * psi z + psi y * psi y ≤
          2 * max (psi x * psi x) (psi y * psi y) := by
        rw [max_eq_right (le_of_lt hab)]; intro h; exact hA (by linarith)
      have hAy : ¬ psi y * psi y + psi z * psi z + psi x * psi x ≤
          2 * max (psi y * psi y) (psi x * psi x) := by
        rw [max_eq_left (le_of_lt hab)]; intro h; exact hA (by linarith)
      rw [(volume_select_middle (psi x) (psi z) (psi y) hAx (not_le.2 hab) (not_le.2 hca)).1,
        (volume_select_large (psi y) (psi z) (psi x) hAy (le_of_lt hab)).1]
      have hs : psi x * psi x + psi z * psi z ≠ 0 := by linarith
      field_simp
      ring

/-- Detailed balance of `next` in exact arithmetic: let the three rotation states of a site
have the real amplitudes `psi 0, psi 1,
psi 2` with pairwise distinct squares (the weights), and let `T x y` be the measure of the
draws `u` of `[0, 1)` for which `CompressedKagomeLatticeSingleSiteUpdate_` (its ordering step and
its branches) moves the state `x` to the state `y`.  Then `w x * T x y = w y * T y x` for all
`x ≠ y`. -/
theorem CompressedKagomeLatticeSingleSiteUpdate_detailed_balance (psi : Fin 3 → ℝ)
    (hdistinct : ∀ x y, x ≠ y → psi x * psi x ≠ psi y * psi y) (x y : Fin 3) (hxy : x ≠ y) :
    psi x * psi x * (MeasureTheory.volume {u : ℝ | 0 ≤ u ∧ u < 1 ∧
        CompressedKagomeLatticeSingleSiteUpdate_.next psi x u = y}).toReal =
    psi y * psi y * (MeasureTheory.volume {u : ℝ | 0 ≤ u ∧ u < 1 ∧
        CompressedKagomeLatticeSingleSiteUpdate_.next psi y u = x}).toReal := by
  have hz : ∃ z : Fin 3, x ≠ z ∧ y ≠ z := by
    revert x y
    decide
  obtain ⟨z, hxz, hyz⟩ := hz
  rcases lt_or_gt_of_ne (hdistinct x y hxy) with h | h
  · exact detailed_balance_lt psi x y z hxy hxz hyz h (hdistinct x z hxz) (hdistinct y z hyz)
  · exact (detailed_balance_lt psi y x z hxy.symm hyz hxz h (hdistinct y z hyz)
      (hdistinct x z hxz)).symm


/-- Witness of `CompressedKagomeLatticeSingleSiteUpdate_detailed_balance`: the amplitudes
`1, 2, 3` (weights `1, 4, 9`) and the states `0` and `1`. -/
theorem CompressedKagomeLatticeSingleSiteUpdate_detailed_balance_witness :
    (∀ x y : Fin 3, x ≠ y →
      (fun i : Fin 3 => ((i : ℕ) : ℝ) + 1) x * (fun i : Fin 3 => ((i : ℕ) : ℝ) + 1) x ≠
        (fun i : Fin 3 => ((i : ℕ) : ℝ) + 1) y * (fun i : Fin 3 => ((i : ℕ) : ℝ) + 1) y) ∧
    (fun i : Fin 3 => ((i : ℕ) : ℝ) + 1) 0 * (fun i : Fin 3 => ((i : ℕ) : ℝ) + 1) 0 *
      (MeasureTheory.volume {u : ℝ | 0 ≤ u ∧ u < 1 ∧
        CompressedKagomeLatticeSingleSiteUpdate_.next
          (fun i : Fin 3 => ((i : ℕ) : ℝ) + 1) 0 u = 1}).toReal =
    (fun i : Fin 3 => ((i : ℕ) : ℝ) + 1) 1 * (fun i : Fin 3 => ((i : ℕ) : ℝ) + 1) 1 *
      (MeasureTheory.volume {u : ℝ | 0 ≤ u ∧ u < 1 ∧
        CompressedKagomeLatticeSingleSiteUpdate_.next
          (fun i : Fin 3 => ((i : ℕ) : ℝ) + 1) 1 u = 0}).toReal := by
  have hd : ∀ x y : Fin 3, x ≠ y →
      (fun i : Fin 3 => ((i : ℕ) : ℝ) + 1) x * (fun i : Fin 3 => ((i : ℕ) : ℝ) + 1) x ≠
        (fun i : Fin 3 => ((i : ℕ) : ℝ) + 1) y * (fun i : Fin 3 => ((i : ℕ) : ℝ) + 1) y := by
    intro x y hxy
    fin_cases x <;> fin_cases y <;> first | exact absurd rfl hxy | norm_num
  exact ⟨hd, CompressedKagomeLatticeSingleSiteUpdate_detailed_balance _ hd 0 1 (by decide)⟩

/-- Witness of `CompressedKagomeLatticeSingleSiteUpdate_thresholds`: the current amplitude `3`
and the rotated amplitudes `2` and
`1`; the ordering step swaps them, the weights are `9, 1, 4`, and the branch of the dominant
current weight compares the draw with `4/9` and `5/9`. -/
theorem CompressedKagomeLatticeSingleSiteUpdate_thresholds_witness :
    (CompressedKagomeLatticeSingleSiteUpdate_.order () () (2 : ℚ) 1).1.2 = 1 ∧
    (CompressedKagomeLatticeSingleSiteUpdate_.order () () (2 : ℚ) 1).2.2 = 2 ∧
    ((3 : ℚ) * 3 ≠ 0 ∧ (0 : ℚ) ≤ 2 * 2 / (3 * 3) ∧
      (2 : ℚ) * 2 / (3 * 3) ≤ (1 * 1 + 2 * 2) / (3 * 3) ∧
      ((1 : ℚ) * 1 + 2 * 2) / (3 * 3) ≤ 1) ∧
    CompressedKagomeLatticeSingleSiteUpdate_.select (3 : ℚ) 1 2 (1 / 2) = (.rotate1, true) := by
  have ho1 : (CompressedKagomeLatticeSingleSiteUpdate_.order () () (2 : ℚ) 1).1.2 = 1 := by
    norm_num [CompressedKagomeLatticeSingleSiteUpdate_.order]
  have ho2 : (CompressedKagomeLatticeSingleSiteUpdate_.order () () (2 : ℚ) 1).2.2 = 2 := by
    norm_num [CompressedKagomeLatticeSingleSiteUpdate_.order]
  have h := (CompressedKagomeLatticeSingleSiteUpdate_thresholds (3 : ℚ) 2 1).2.2.1
  simp only [ho1, ho2] at h
  have h' := h (by norm_num) (by norm_num [abs_of_pos])
  refine ⟨ho1, ho2, h'.1, ?_⟩
  rw [h'.2]
  norm_num

/-- Claim C26 at a concrete input: the site `(0, 0)` of the `1 × 2` lattice with the values `4`
and `1`; the rotations of `4` are `1` and `2`. -/
theorem CompressedKagomeLatticeSingleSiteUpdate_rotation_witness :
    Demo.procK.tps_sample.config.val (0, 0) ≤ 7 ∧
    CompressedKagomeLatticeSingleSiteUpdate_.rotate 4 = 1 ∧
    CompressedKagomeLatticeSingleSiteUpdate_.rotate 1 = 2 ∧
    CompressedKagomeLatticeSingleSiteUpdate_.rotate
      (CompressedKagomeLatticeSingleSiteUpdate_.rotate
        (CompressedKagomeLatticeSingleSiteUpdate_.rotate 4)) = 4 ∧
    ((CompressedKagomeLatticeSingleSiteUpdate_ Demo.engine (0, 0) Demo.sitps (fun _ => 0)
        .HORIZONTAL Demo.procK).1 = true ↔
      (CompressedKagomeLatticeSingleSiteUpdate_ Demo.engine (0, 0) Demo.sitps (fun _ => 0)
        .HORIZONTAL Demo.procK).2.tps_sample.config.val (0, 0) ≠
          Demo.procK.tps_sample.config.val (0, 0)) :=
  ⟨by decide, by decide, by decide,
    ((CompressedKagomeLatticeSingleSiteUpdate_rotation Demo.engine (0, 0) Demo.sitps
      (fun _ => 0) .HORIZONTAL Demo.procK (by decide)).1 4 (by decide) (by decide)).2.2.2.2.2,
    (CompressedKagomeLatticeSingleSiteUpdate_rotation Demo.engine (0, 0) Demo.sitps
      (fun _ => 0) .HORIZONTAL Demo.procK (by decide)).2.1⟩

/-! ## The accepted bond move of the compressed Kagome lattice -/

/-- A bit flip by `xor` with a power of two changes that bit and no other. -/
theorem testBit_xor_two_pow (c k i : Nat) :
    (c ^^^ 2 ^ k).testBit i = if i = k then !c.testBit i else c.testBit i := by
  rw [Nat.testBit_xor, Nat.testBit_two_pow]
  by_cases h : i = k
  · subst h
    simp
  · have h' : ¬ k = i := fun e => h e.symm
    simp [h, h']

/-- The number of set bits of two site values is kept when two unequal bits are both
flipped. -/
theorem popcount_exchange :
    ∀ c1 < 8, ∀ c2 < 8, ∀ k < 3, c1.testBit k ≠ c2.testBit 0 →
      ((c1 ^^^ 2 ^ k).testBit 0).toNat + ((c1 ^^^ 2 ^ k).testBit 1).toNat +
          ((c1 ^^^ 2 ^ k).testBit 2).toNat +
        (((c2 ^^^ 1).testBit 0).toNat + ((c2 ^^^ 1).testBit 1).toNat +
          ((c2 ^^^ 1).testBit 2).toNat) =
      (c1.testBit 0).toNat + (c1.testBit 1).toNat + (c1.testBit 2).toNat +
        ((c2.testBit 0).toNat + (c2.testBit 1).toNat + (c2.testBit 2).toNat) := by
  decide

/-- An accepted `CompressedKagomeLatticeExchangeUpdate_`: the facing bits differ and the sample
is the committed one. -/
theorem CompressedKagomeLatticeExchangeUpdate_.accept_core (E : ContractionEngine Ten Cache)
    (GetQNBlkNum : Ten → Nat) (site1 site2 : SiteIdx) (bond_dir : BondOrientation)
    (sitps : SplitIndexTPS Ten) (u_double : Nat → ℚ) (p : Proc Ten Cache)
    (hacc : (CompressedKagomeLatticeExchangeUpdate_ E GetQNBlkNum site1 site2 bond_dir sitps
      u_double p).1 = true) :
    (if bond_dir = .HORIZONTAL then (p.tps_sample.config.val site1 >>> 2) &&& 1
      else (p.tps_sample.config.val site1 >>> 1) &&& 1) ≠
        p.tps_sample.config.val site2 &&& 1 ∧
    (CompressedKagomeLatticeExchangeUpdate_ E GetQNBlkNum site1 site2 bond_dir sitps u_double
      p).2.tps_sample =
      CompressedKagomeLatticeExchangeUpdate_.commit site1 site2
        (if bond_dir = .HORIZONTAL then p.tps_sample.config.val site1 ^^^ (1 <<< 2)
          else p.tps_sample.config.val site1 ^^^ (1 <<< 1))
        (p.tps_sample.config.val site2 ^^^ 1) sitps
        (E.ReplaceNNSiteTrace p.tps_sample.tn site1 site2 bond_dir
          (sitps site1 (if bond_dir = .HORIZONTAL then p.tps_sample.config.val site1 ^^^ (1 <<< 2)
            else p.tps_sample.config.val site1 ^^^ (1 <<< 1)))
          (sitps site2 (p.tps_sample.config.val site2 ^^^ 1)))
        p.tps_sample := by
  unfold CompressedKagomeLatticeExchangeUpdate_ at hacc ⊢
  by_cases h1 : (if bond_dir = .HORIZONTAL then (p.tps_sample.config.val site1 >>> 2) &&& 1
      else (p.tps_sample.config.val site1 >>> 1) &&& 1) = p.tps_sample.config.val site2 &&& 1
  · simp only [h1, if_true] at hacc
    exact absurd hacc (by simp)
  · refine ⟨h1, ?_⟩
    by_cases h2 : GetQNBlkNum (sitps site1 (if bond_dir = .HORIZONTAL
        then p.tps_sample.config.val site1 ^^^ (1 <<< 2)
        else p.tps_sample.config.val site1 ^^^ (1 <<< 1))) = 0
    · simp only [h1, h2, if_true, if_false] at hacc
      exact absurd hacc (by simp)
    · by_cases h3 : GetQNBlkNum (sitps site2 (p.tps_sample.config.val site2 ^^^ 1)) = 0
      · simp only [h1, h2, h3, if_true, if_false] at hacc
        exact absurd hacc (by simp)
      · simp only [h1, h2, h3, if_false] at hacc ⊢
        split_ifs at hacc ⊢ <;> rfl


/-- Claim C27: for site values in `0..7` of two different sites, an accepted
`CompressedKagomeLatticeExchangeUpdate_` (one that returns `true`) exchanges the bit `k` of the
value of `site1` (`k = 2` for a horizontal bond, `k = 1` for a vertical one) with the bit `0` of
the value of `site2`, keeps every other bit of the two values and the value of every other site,
leaves both values in `0..7`, keeps the number of set bits of the two values together, puts the
wavefunction tensors of the two new values into the network, and stores the amplitude that
`ReplaceNNSiteTrace` gave for the tensors of these two new values. -/
theorem CompressedKagomeLatticeExchangeUpdate_accepted (E : ContractionEngine Ten Cache)
    (GetQNBlkNum : Ten → Nat) (site1 site2 : SiteIdx) (bond_dir : BondOrientation)
    (sitps : SplitIndexTPS Ten) (u_double : Nat → ℚ) (p : Proc Ten Cache)
    (hne : site1 ≠ site2)
    (h1 : p.tps_sample.config.val site1 ≤ 7) (h2 : p.tps_sample.config.val site2 ≤ 7)
    (hacc : (CompressedKagomeLatticeExchangeUpdate_ E GetQNBlkNum site1 site2 bond_dir sitps
      u_double p).1 = true) :
    let k := if bond_dir = .HORIZONTAL then 2 else 1
    let old1 := p.tps_sample.config.val site1
    let old2 := p.tps_sample.config.val site2
    let s := (CompressedKagomeLatticeExchangeUpdate_ E GetQNBlkNum site1 site2 bond_dir sitps
      u_double p).2.tps_sample
    let new1 := s.config.val site1
    let new2 := s.config.val site2
    (new1.testBit k = old2.testBit 0 ∧ new2.testBit 0 = old1.testBit k) ∧
    (∀ i, i ≠ k → new1.testBit i = old1.testBit i) ∧
    (∀ i, i ≠ 0 → new2.testBit i = old2.testBit i) ∧
    (∀ site, site ≠ site1 → site ≠ site2 → s.config.val site = p.tps_sample.config.val site) ∧
    (new1 ≤ 7 ∧ new2 ≤ 7) ∧
    ((new1.testBit 0).toNat + (new1.testBit 1).toNat + (new1.testBit 2).toNat +
        ((new2.testBit 0).toNat + (new2.testBit 1).toNat + (new2.testBit 2).toNat) =
      (old1.testBit 0).toNat + (old1.testBit 1).toNat + (old1.testBit 2).toNat +
        ((old2.testBit 0).toNat + (old2.testBit 1).toNat + (old2.testBit 2).toNat)) ∧
    (s.tn.ten site1 = sitps site1 new1 ∧ s.tn.ten site2 = sitps site2 new2) ∧
    s.amplitude = E.ReplaceNNSiteTrace p.tps_sample.tn site1 site2 bond_dir
      (sitps site1 new1) (sitps site2 new2) := by
  intro k old1 old2 s new1 new2
  obtain ⟨hbits, hs⟩ := CompressedKagomeLatticeExchangeUpdate_.accept_core E GetQNBlkNum site1
    site2 bond_dir sitps u_double p hacc
  have ek : k = if bond_dir = .HORIZONTAL then 2 else 1 := rfl
  have eo1 : old1 = p.tps_sample.config.val site1 := rfl
  have eo2 : old2 = p.tps_sample.config.val site2 := rfl
  have es : s = (CompressedKagomeLatticeExchangeUpdate_ E GetQNBlkNum site1 site2 bond_dir sitps
    u_double p).2.tps_sample := rfl
  have en1 : new1 = s.config.val site1 := rfl
  have en2 : new2 = s.config.val site2 := rfl
  clear_value new1 new2 s old1 old2 k
  rw [← es, ← eo1, ← eo2] at hs
  rw [← eo1, ← eo2] at hbits
  rw [← eo1] at h1
  rw [← eo2] at h2
  have hk : k < 3 := by
    rw [ek]
    split_ifs <;> decide
  have hex1 : (if bond_dir = .HORIZONTAL then old1 ^^^ (1 <<< 2) else old1 ^^^ (1 <<< 1)) =
      old1 ^^^ 2 ^ k := by
    rw [ek]
    split_ifs <;> rfl
  have heff1 : (if bond_dir = .HORIZONTAL then (old1 >>> 2) &&& 1 else (old1 >>> 1) &&& 1) =
      (old1.testBit k).toNat := by
    rw [ek]
    split_ifs <;> exact shiftRight_and_one _ _
  have heff : old1.testBit k ≠ old2.testBit 0 := by
    intro h
    apply hbits
    rw [heff1, and_one_eq_testBit, h]
  rw [hex1] at hs
  have hn1 : new1 = old1 ^^^ 2 ^ k := by
    rw [en1, hs]
    simp [CompressedKagomeLatticeExchangeUpdate_.commit, Function.update_noteq hne]
  have hn2 : new2 = old2 ^^^ 1 := by
    rw [en2, hs]
    simp [CompressedKagomeLatticeExchangeUpdate_.commit]
  have hx1 := testBit_xor_two_pow old1 k
  have hx2 := testBit_xor_two_pow old2 0
  rw [pow_zero] at hx2
  have hflip : old2.testBit 0 = !old1.testBit k := by
    revert heff
    cases old1.testBit k <;> cases old2.testBit 0 <;> simp
  refine ⟨⟨?_, ?_⟩, ?_, ?_, ?_, ⟨?_, ?_⟩, ?_, ⟨?_, ?_⟩, ?_⟩
  · rw [hn1, hx1 k, if_pos rfl, hflip]
  · rw [hn2, hx2 0, if_pos rfl, hflip, Bool.not_not]
  · intro i hi
    rw [hn1, hx1 i, if_neg hi]
  · intro i hi
    rw [hn2, hx2 i, if_neg hi]
  · intro site hs1 hs2
    rw [hs]
    simp [CompressedKagomeLatticeExchangeUpdate_.commit, Function.update_noteq hs1,
      Function.update_noteq hs2]
  · rw [hn1]
    have : old1 ^^^ 2 ^ k < 2 ^ 3 := Nat.xor_lt_two_pow (by omega)
      (Nat.pow_lt_pow_right (by decide) hk)
    omega
  · rw [hn2]
    have : old2 ^^^ 1 < 2 ^ 3 := Nat.xor_lt_two_pow (by omega) (by decide)
    omega
  · rw [hn1, hn2]
    exact popcount_exchange old1 (by omega) old2 (by omega) k hk heff
  · rw [hn1, hs]
    simp [CompressedKagomeLatticeExchangeUpdate_.commit, TensorNetwork2D.UpdateSiteConfig,
      Function.update_noteq hne]
  · rw [hn2, hs]
    simp [CompressedKagomeLatticeExchangeUpdate_.commit, TensorNetwork2D.UpdateSiteConfig]
  · rw [hn1, hn2, hs]
    rfl


/-- The bond move on the `1 × 2` lattice with the values `0` and `1`, amplitude `3`, proposed
amplitude `2` and the draw `0` is accepted. -/
theorem Demo.kagome_exchange_accepted :
    (CompressedKagomeLatticeExchangeUpdate_ Demo.engine (fun _ => 1) (0, 0) (0, 1) .HORIZONTAL
      Demo.sitps (fun _ => 0) Demo.proc01).1 = true := by
  norm_num [CompressedKagomeLatticeExchangeUpdate_, Demo.proc01, TPSSample.init, Demo.engine,
    Demo.contract, TensorNetwork2D.run, TensorNetwork2D.ofConfig, Demo.config01, Demo.sitps,
    Finset.prod_range_succ, Function.update, ExchangeUpdate.P, Nat.shiftLeft_eq]

/-- Claim C27 at a concrete input: the `1 × 2` lattice with the values `0` and `1` and a
horizontal bond; the accepted move leaves the values `4` and `0`. -/
theorem CompressedKagomeLatticeExchangeUpdate_accepted_witness :
    ((0, 0) : SiteIdx) ≠ (0, 1) ∧
    Demo.proc01.tps_sample.config.val (0, 0) ≤ 7 ∧
    Demo.proc01.tps_sample.config.val (0, 1) ≤ 7 ∧
    (CompressedKagomeLatticeExchangeUpdate_ Demo.engine (fun _ => 1) (0, 0) (0, 1) .HORIZONTAL
      Demo.sitps (fun _ => 0) Demo.proc01).1 = true ∧
    (((CompressedKagomeLatticeExchangeUpdate_ Demo.engine (fun _ => 1) (0, 0) (0, 1) .HORIZONTAL
        Demo.sitps (fun _ => 0) Demo.proc01).2.tps_sample.config.val (0, 0)).testBit 2 =
      (Demo.proc01.tps_sample.config.val (0, 1)).testBit 0 ∧
    ((CompressedKagomeLatticeExchangeUpdate_ Demo.engine (fun _ => 1) (0, 0) (0, 1) .HORIZONTAL
        Demo.sitps (fun _ => 0) Demo.proc01).2.tps_sample.config.val (0, 1)).testBit 0 =
      (Demo.proc01.tps_sample.config.val (0, 0)).testBit 2) ∧
    ((CompressedKagomeLatticeExchangeUpdate_ Demo.engine (fun _ => 1) (0, 0) (0, 1) .HORIZONTAL
        Demo.sitps (fun _ => 0) Demo.proc01).2.tps_sample.config.val (0, 0) ≤ 7 ∧
      (CompressedKagomeLatticeExchangeUpdate_ Demo.engine (fun _ => 1) (0, 0) (0, 1) .HORIZONTAL
        Demo.sitps (fun _ => 0) Demo.proc01).2.tps_sample.config.val (0, 1) ≤ 7) :=
  ⟨by decide, by decide, by decide, Demo.kagome_exchange_accepted,
    (CompressedKagomeLatticeExchangeUpdate_accepted Demo.engine (fun _ => 1) (0, 0) (0, 1)
      .HORIZONTAL Demo.sitps (fun _ => 0) Demo.proc01 (by decide) (by decide) (by decide)
      Demo.kagome_exchange_accepted).1,
    (CompressedKagomeLatticeExchangeUpdate_accepted Demo.engine (fun _ => 1) (0, 0) (0, 1)
      .HORIZONTAL Demo.sitps (fun _ => 0) Demo.proc01 (by decide) (by decide) (by decide)
      Demo.kagome_exchange_accepted).2.2.2.2.1⟩


/-! ## The file written by `DumpVecData` -/

/-- The characters written by the loop of `DumpVecData`. -/
theorem DumpVecData_foldl {DataType : Type} (text : DataType → String)
    (data : List DataType) (acc : String) :
    (data.foldl (fun ofs datum => ofs ++ text datum ++ "\n") acc).toList =
      acc.toList ++ data.flatMap (fun datum => (text datum).toList ++ [Char.ofNat 10]) := by
  induction data generalizing acc with
  | nil => simp
  | cons d ds ih =>
    rw [List.foldl_cons, ih]
    simp [String.toList, String.data_append]

/-- The newline characters of the lines of values whose text holds none. -/
theorem count_newline_lines {DataType : Type} (text : DataType → String)
    (data : List DataType) (htext : ∀ datum ∈ data, Char.ofNat 10 ∉ (text datum).toList) :
    (data.flatMap (fun datum => (text datum).toList ++ [Char.ofNat 10])).count (Char.ofNat 10) =
      data.length := by
  induction data with
  | nil => rfl
  | cons d ds ih =>
    rw [List.flatMap_cons, List.count_append, List.count_append,
      ih (fun x hx => htext x (List.mem_cons_of_mem d hx)),
      List.count_eq_zero_of_not_mem (htext d (List.mem_cons_self d ds))]
    simp
    omega

/-- Claim C22, counterexample: for the two values `1.5` and `2.5` the file written by
`DumpVecData` is the two lines followed by one more newline: three newline characters, and an
empty last line. -/
theorem DumpVecData_newlines_counterexample :
    DumpVecData (fun s : String => s) ["1.5", "2.5"] = "1.5\n2.5\n\n" ∧
    (DumpVecData (fun s : String => s) ["1.5", "2.5"]).toList.count (Char.ofNat 10) = 3 ∧
    DumpVecData (fun s : String => s) [] = "\n" := by
  decide

/-- Claim C22, amended: for every list of `n` values whose texts hold no newline, the file
written by `DumpVecData` is the concatenation, in list order, of the text of each value followed
by one newline, followed by one more newline (an empty last line): it holds `n + 1` newline
characters. -/
theorem DumpVecData_content {DataType : Type} (text : DataType → String)
    (data : List DataType) (htext : ∀ datum ∈ data, Char.ofNat 10 ∉ (text datum).toList) :
    (DumpVecData text data).toList =
      data.flatMap (fun datum => (text datum).toList ++ [Char.ofNat 10]) ++ [Char.ofNat 10] ∧
    (DumpVecData text data).toList.count (Char.ofNat 10) = data.length + 1 := by
  have h : (DumpVecData text data).toList =
      data.flatMap (fun datum => (text datum).toList ++ [Char.ofNat 10]) ++ [Char.ofNat 10] := by
    unfold DumpVecData
    simp only []
    have := DumpVecData_foldl text data ""
    simp only [String.toList, String.data_append] at this ⊢
    rw [this]
    rfl
  refine ⟨h, ?_⟩
  rw [h, List.count_append, count_newline_lines text data htext]
  rfl

/-- Claim C22 at a concrete input: the two values `1.5` and `2.5`. -/
theorem DumpVecData_content_witness :
    (∀ datum ∈ ["1.5", "2.5"], Char.ofNat 10 ∉ ((fun s : String => s) datum).toList) ∧
    (DumpVecData (fun s : String => s) ["1.5", "2.5"]).toList.count (Char.ofNat 10) = 2 + 1 :=
  ⟨by decide, (DumpVecData_content (fun s : String => s) ["1.5", "2.5"] (by decide)).2⟩


/-! ## The correlation list of `SampleMeasure` -/

/-- The bond block of `SampleMeasure` does not write `two_point_functions_loc`. -/
theorem SampleMeasure.bond_two (E : ContractionEngine Ten Cache) (sitps : SplitIndexTPS Ten)
    (uninit : SiteIdx → BondOrientation → ℚ) (site1 site2 : SiteIdx) (dir : BondOrientation)
    (st : MeasureState Ten Cache) :
    (SampleMeasure.bond E sitps uninit site1 site2 dir st).res.two_point_functions_loc =
      st.res.two_point_functions_loc := rfl

/-- A step of a row of `SampleMeasure` does not write `two_point_functions_loc`. -/
theorem SampleMeasure.hStep_two (E : ContractionEngine Ten Cache) (sitps : SplitIndexTPS Ten)
    (uninit : SiteIdx → BondOrientation → ℚ) (cols row col : Nat)
    (st : MeasureState Ten Cache) :
    (SampleMeasure.hStep E sitps uninit cols row st col).res.two_point_functions_loc =
      st.res.two_point_functions_loc := by
  unfold SampleMeasure.hStep
  split_ifs <;> rfl

/-- A step of a column of `SampleMeasure` does not write `two_point_functions_loc`. -/
theorem SampleMeasure.vStep_two (E : ContractionEngine Ten Cache) (sitps : SplitIndexTPS Ten)
    (uninit : SiteIdx → BondOrientation → ℚ) (rows row col : Nat)
    (st : MeasureState Ten Cache) :
    (SampleMeasure.vStep E sitps uninit rows col st row).res.two_point_functions_loc =
      st.res.two_point_functions_loc := by
  unfold SampleMeasure.vStep
  split_ifs <;> rfl

/-- A column of `SampleMeasure` does not write `two_point_functions_loc`. -/
theorem SampleMeasure.vCol_two (E : ContractionEngine Ten Cache) (sitps : SplitIndexTPS Ten)
    (uninit : SiteIdx → BondOrientation → ℚ) (rows cols col : Nat)
    (st : MeasureState Ten Cache) :
    (SampleMeasure.vCol E sitps uninit rows cols st col).res.two_point_functions_loc =
      st.res.two_point_functions_loc := by
  unfold SampleMeasure.vCol
  have key := foldl_invariant
    (fun q : MeasureState Ten Cache => q.res.two_point_functions_loc =
      st.res.two_point_functions_loc)
    (SampleMeasure.vStep E sitps uninit rows col) (List.range (subSize rows 1))
    { st with
      proc := retrace E (.InitBTen .UP col) (.GrowFullBTen .DOWN col 2 true) (0, col)
        .VERTICAL st.proc
      inv_psi := 1.0 / (retrace E (.InitBTen .UP col) (.GrowFullBTen .DOWN col 2 true)
        (0, col) .VERTICAL st.proc).tps_sample.amplitude }
    rfl
    (fun a b _ hP => (SampleMeasure.vStep_two E sitps uninit rows b col a).trans hP)
  dsimp only
  split_ifs
  · exact key
  · exact key

/-- Every pass of the loop of lines 192-201 appends one entry to `diag_corr`. -/
theorem SampleMeasure.corrStep_length (E : ContractionEngine Ten Cache)
    (sitps : SplitIndexTPS Ten) (lx row : Nat) (inv_psi : ℚ) (l : List Nat)
    (st : List ℚ × Proc Ten Cache) :
    (l.foldl (SampleMeasure.corrStep E sitps lx row inv_psi) st).1.length =
      st.1.length + l.length := by
  induction l generalizing st with
  | nil => rfl
  | cons i is ih =>
    rw [List.foldl_cons, ih]
    have h : (SampleMeasure.corrStep E sitps lx row inv_psi st i).1.length = st.1.length + 1 := by
      unfold SampleMeasure.corrStep
      dsimp only
      split_ifs <;> simp
    rw [h, List.length_cons]
    omega

/-- The correlation block of `SampleMeasure` appends `lx / 2` values of Sz-Sz, `lx / 2` zeros
and the vector `diag_corr`, which holds `lx / 4` initial entries and `lx / 2` appended ones. -/
theorem SampleMeasure.corr_two (E : ContractionEngine Ten Cache) (sitps : SplitIndexTPS Ten)
    (lx row : Nat) (st : MeasureState Ten Cache) :
    (SampleMeasure.corr E sitps lx row st).res.two_point_functions_loc.length =
      st.res.two_point_functions_loc.length + (3 * (lx / 2) + lx / 4) := by
  unfold SampleMeasure.corr
  dsimp only
  split_ifs <;>
    simp only [List.length_append, List.length_map, List.length_range, List.length_replicate,
      SampleMeasure.corrStep_length] <;> omega

/-- A row of `SampleMeasure` extends `two_point_functions_loc` in the middle row only. -/
theorem SampleMeasure.hRow_two (E : ContractionEngine Ten Cache) (sitps : SplitIndexTPS Ten)
    (uninit : SiteIdx → BondOrientation → ℚ) (lx ly row : Nat)
    (st : MeasureState Ten Cache) :
    (SampleMeasure.hRow E sitps uninit lx ly st row).res.two_point_functions_loc.length =
      st.res.two_point_functions_loc.length +
        (if row = ly / 2 then 3 * (lx / 2) + lx / 4 else 0) := by
  unfold SampleMeasure.hRow
  have key := foldl_invariant
    (fun q : MeasureState Ten Cache => q.res.two_point_functions_loc =
      st.res.two_point_functions_loc)
    (SampleMeasure.hStep E sitps uninit lx row) (List.range lx)
    { st with
      proc := retrace E (.InitBTen .LEFT row) (.GrowFullBTen .RIGHT row 1 true) (row, 0)
        .HORIZONTAL st.proc
      inv_psi := 1.0 / (retrace E (.InitBTen .LEFT row) (.GrowFullBTen .RIGHT row 1 true)
        (row, 0) .HORIZONTAL st.proc).tps_sample.amplitude }
    rfl
    (fun a b _ hP => (SampleMeasure.hStep_two E sitps uninit lx row b a).trans hP)
  dsimp only at key ⊢
  by_cases hrow : row = ly / 2
  · simp only [hrow, if_true]
    rw [hrow] at key
    split_ifs <;> simp only [SampleMeasure.corr_two, key]
  · simp only [hrow, if_false]
    split_ifs <;> simp only [key, Nat.add_zero]

/-- The rows of `SampleMeasure` extend `two_point_functions_loc` once, in the middle row. -/
theorem SampleMeasure.rows_two (E : ContractionEngine Ten Cache) (sitps : SplitIndexTPS Ten)
    (uninit : SiteIdx → BondOrientation → ℚ) (lx ly : Nat) (st : MeasureState Ten Cache)
    (n : Nat) :
    ((List.range n).foldl (SampleMeasure.hRow E sitps uninit lx ly)
        st).res.two_point_functions_loc.length =
      st.res.two_point_functions_loc.length +
        (if ly / 2 < n then 3 * (lx / 2) + lx / 4 else 0) := by
  induction n with
  | zero => simp
  | succ n ih =>
    rw [List.range_succ, List.foldl_append, List.foldl_cons, List.foldl_nil,
      SampleMeasure.hRow_two, ih]
    by_cases hn : n = ly / 2
    · rw [if_neg (by omega), if_pos hn, if_pos (by omega)]
      omega
    · by_cases h1 : ly / 2 < n
      · rw [if_pos h1, if_neg hn, if_pos (by omega)]
        omega
      · rw [if_neg h1, if_neg hn, if_neg (by omega)]

/-- On a lattice with at least one row, `two_point_functions_loc` of `SampleMeasure` has
`3 * (lx / 2) + lx / 4` entries: the `lx / 4` initial entries of `diag_corr` are copied with the
appended ones. -/
theorem SampleMeasure_two_point_length (E : ContractionEngine Ten Cache)
    (sitps : SplitIndexTPS Ten) (uninit : SiteIdx → BondOrientation → ℚ) (p : Proc Ten Cache)
    (hr1 : 1 ≤ p.tps_sample.tn.rows) :
    (SampleMeasure E sitps uninit p).1.two_point_functions_loc.length =
      3 * (p.tps_sample.tn.cols / 2) + p.tps_sample.tn.cols / 4 := by
  have hrows := SampleMeasure.rows_two E sitps uninit p.tps_sample.tn.cols
    p.tps_sample.tn.rows
    { res := { energy_loc := 0, bond_energys_loc := [], two_point_functions_loc := [],
               one_point_functions_loc := [] },
      energy := 0, inv_psi := 1.0 / p.tps_sample.amplitude,
      proc := p.tnRun E (.GenerateBMPSApproach .UP E.trun_para) }
    p.tps_sample.tn.rows
  rw [if_pos (by omega)] at hrows
  have hcols := foldl_invariant
    (fun q : MeasureState Ten Cache => q.res.two_point_functions_loc.length =
      3 * (p.tps_sample.tn.cols / 2) + p.tps_sample.tn.cols / 4)
    (SampleMeasure.vCol E sitps uninit p.tps_sample.tn.rows p.tps_sample.tn.cols)
    (List.range p.tps_sample.tn.cols)
    { ((List.range p.tps_sample.tn.rows).foldl
        (SampleMeasure.hRow E sitps uninit p.tps_sample.tn.cols p.tps_sample.tn.rows)
        { res := { energy_loc := 0, bond_energys_loc := [], two_point_functions_loc := [],
                   one_point_functions_loc := [] },
          energy := 0, inv_psi := 1.0 / p.tps_sample.amplitude,
          proc := p.tnRun E (.GenerateBMPSApproach .UP E.trun_para) }) with
      proc := ((List.range p.tps_sample.tn.rows).foldl
        (SampleMeasure.hRow E sitps uninit p.tps_sample.tn.cols p.tps_sample.tn.rows)
        { res := { energy_loc := 0, bond_energys_loc := [], two_point_functions_loc := [],
                   one_point_functions_loc := [] },
          energy := 0, inv_psi := 1.0 / p.tps_sample.amplitude,
          proc := p.tnRun E (.GenerateBMPSApproach .UP E.trun_para) }).proc.tnRun E
            (.GenerateBMPSApproach .LEFT E.trun_para) }
    (hrows.trans (by simp))
    (fun a b _ hP =>
      (congrArg List.length (SampleMeasure.vCol_two E sitps uninit _ _ b a)).trans hP)
  exact hcols

/-- Claim C30: on the `1 × 4` lattice (`lx = 4`) `two_point_functions_loc` of `SampleMeasure`
has `7` entries, not `3 * (lx / 2) = 6`: `diag_corr` is created with `lx / 4 = 1` entry before
the `lx / 2 = 2` values are appended to it.  The partner columns `lx / 4 + 1` and `lx / 4 + 2`
lie inside the lattice. -/
theorem SampleMeasure_two_point_length_presized :
    Demo.proc0101.tps_sample.tn.cols = 4 ∧
    (SampleMeasure Demo.engine Demo.sitps (fun _ _ => 0)
      Demo.proc0101).1.two_point_functions_loc.length = 7 ∧
    3 * (Demo.proc0101.tps_sample.tn.cols / 2) = 6 ∧
    Demo.proc0101.tps_sample.tn.cols / 4 + Demo.proc0101.tps_sample.tn.cols / 2 <
      Demo.proc0101.tps_sample.tn.cols := by
  refine ⟨rfl, ?_, rfl, by decide⟩
  rw [SampleMeasure_two_point_length Demo.engine Demo.sitps (fun _ _ => 0) Demo.proc0101
    (by decide)]
  rfl


/-! ## `SampleMeasure` and `CalEnergyAndHoles` with an exact engine -/

/-- The loop of `MCSweep_` over nearest-neighbour sweeps writes the sample and the log only. -/
theorem MCSweep_nnStep_frame (V : Environment Ten Cache) (u_double : Nat → ℚ) (n : Nat)
    (st : Nat × VMCPEPSExecutor Ten Cache) :
    ∃ t lg, ((List.range n).foldl (MCSweep_.nnStep V u_double) st).2 =
      { st.2 with tps_sample_ := t, log := lg } := by
  induction n with
  | zero => exact ⟨_, _, rfl⟩
  | succ n ih =>
    obtain ⟨t, lg, h⟩ := ih
    rw [List.range_succ, List.foldl_append]
    simp only [List.foldl_cons, List.foldl_nil, MCSweep_.nnStep]
    rw [h]
    exact ⟨_, _, rfl⟩

/-- The loop of `MCSweep_` over sweeps of the compressed Kagome lattice writes the sample and the
log only. -/
theorem MCSweep_kagomeStep_frame (V : Environment Ten Cache) (u_double : Nat → ℚ) (n : Nat)
    (st : (Nat × Nat) × VMCPEPSExecutor Ten Cache) :
    ∃ t lg, ((List.range n).foldl (MCSweep_.kagomeStep V u_double) st).2 =
      { st.2 with tps_sample_ := t, log := lg } := by
  induction n with
  | zero => exact ⟨_, _, rfl⟩
  | succ n ih =>
    obtain ⟨t, lg, h⟩ := ih
    rw [List.range_succ, List.foldl_append]
    simp only [List.foldl_cons, List.foldl_nil, MCSweep_.kagomeStep]
    rw [h]
    exact ⟨_, _, rfl⟩

/-- A call of `MCSweep_` that returns has written the sample and the log only. -/
theorem MCSweep_frame (V : Environment Ten Cache) (u_double : Nat → ℚ)
    (e : VMCPEPSExecutor Ten Cache) (r : List Nat × VMCPEPSExecutor Ten Cache)
    (h : MCSweep_ V u_double e = .ret r) :
    ∃ t lg, r.2 = { e with tps_sample_ := t, log := lg } := by
  unfold MCSweep_ at h
  simp only [VMCPEPSExecutor.record] at h
  cases hs : e.optimize_para.mc_sweep_scheme with
  | SequentiallyNNSiteFlip =>
    rw [hs] at h
    simp only [Outcome.ret.injEq] at h
    obtain ⟨t, lg, h'⟩ := MCSweep_nnStep_frame V u_double
      e.optimize_para.mc_sweeps_between_sample
      (V.uninit_size_t, { e with log := e.log ++ [Event.MCSweep_] })
    rw [← h]
    exact ⟨t, lg, h'⟩
  | CompressedLatticeKagomeLocalUpdate =>
    rw [hs] at h
    simp only [Outcome.ret.injEq] at h
    obtain ⟨t, lg, h'⟩ := MCSweep_kagomeStep_frame V u_double
      e.optimize_para.mc_sweeps_between_sample
      ((V.uninit_size_t, V.uninit_size_t), { e with log := e.log ++ [Event.MCSweep_] })
    rw [← h]
    exact ⟨t, lg, h'⟩
  | unsupported value =>
    rw [hs] at h
    simp at h

/-- A call of `WarmUp_` that returns leaves the flag `warm_up_` set. -/
theorem WarmUp_ret_flag (V : Environment Ten Cache) (u_double : Nat → ℚ)
    (e e' : VMCPEPSExecutor Ten Cache) (h : WarmUp_ V u_double e = .ret e') :
    e'.warm_up_ = true := by
  unfold WarmUp_ at h
  cases hw : e.warm_up_ with
  | true =>
    simp only [hw, Bool.not_true, Bool.false_eq_true, if_false, Outcome.ret.injEq] at h
    rw [← h]
    exact hw
  | false =>
    simp only [hw, Bool.not_false, if_true] at h
    cases hl : WarmUp_.loop V u_double e.optimize_para.mc_warm_up_sweeps e with
    | ret r =>
      rw [hl] at h
      simp only [Outcome.ret.injEq] at h
      rw [← h]
    | exit code s =>
      rw [hl] at h
      simp at h

/-- A call of `WarmUp_` on a process whose flag is set returns at once. -/
theorem WarmUp_noop (V : Environment Ten Cache) (u_double : Nat → ℚ)
    (e : VMCPEPSExecutor Ten Cache) (h : e.warm_up_ = true) : WarmUp_ V u_double e = .ret e := by
  unfold WarmUp_
  simp [h]

/-- A call of `LoadTenData` that returns leaves the flag `warm_up_` set. -/
theorem LoadTenData_ret_flag (V : Environment Ten Cache) (u_double : Nat → ℚ)
    (wavefunction_file : Option (SplitIndexTPS Ten)) (config_file : Option Configuration)
    (e e' : VMCPEPSExecutor Ten Cache)
    (h : LoadTenData V u_double wavefunction_file config_file e = .ret e') :
    e'.warm_up_ = true := by
  unfold LoadTenData at h
  cases wavefunction_file with
  | none => simp at h
  | some tps =>
    cases config_file with
    | some config =>
      simp only [Outcome.ret.injEq] at h
      rw [← h]
    | none =>
      simp only at h
      cases hw : WarmUp_ V u_double
          (VMCPEPSExecutor.build V e.optimize_para.init_config
            { e with split_index_tps_ := tps }) with
      | ret r =>
        rw [hw] at h
        simp only [Outcome.ret.injEq] at h
        rw [← h]
      | exit code s =>
        rw [hw] at h
        simp at h

/-- What every returning step of the processes establishes holds in the world afterwards. -/
theorem World_each_ret_inv
    (f : Nat → VMCPEPSExecutor Ten Cache →
      Outcome (VMCPEPSExecutor Ten Cache) (VMCPEPSExecutor Ten Cache))
    (R : VMCPEPSExecutor Ten Cache → VMCPEPSExecutor Ten Cache → Prop)
    (hf : ∀ rank e e', f rank e = .ret e' → R e e')
    (world w : World Ten Cache) (rank : Nat) (h : World.each f rank world = .ret w) :
    List.Forall₂ R world w := by
  induction world generalizing rank w with
  | nil =>
    rw [World.each] at h
    simp only [Outcome.ret.injEq] at h
    rw [← h]
    exact List.Forall₂.nil
  | cons e rest ih =>
    rw [World.each] at h
    cases he : f rank e with
    | exit code s =>
      rw [he] at h
      simp at h
    | ret e' =>
      rw [he] at h
      simp only at h
      cases hr : World.each f (rank + 1) rest with
      | exit code s =>
        rw [hr] at h
        simp at h
      | ret w' =>
        rw [hr] at h
        simp only [Outcome.ret.injEq] at h
        rw [← h]
        exact List.Forall₂.cons (hf rank e e' he) (ih w' (rank + 1) hr)

/-- The sampling loop of `OptimizeTPS_` does not write the flag `warm_up_`. -/
theorem OptimizeTPS_sampling_flag [AddCommGroup Ten] [Module ℚ Ten]
    (V : Environment Ten Cache) (u_double : Nat → ℚ) (n : Nat)
    (e e' : VMCPEPSExecutor Ten Cache)
    (h : OptimizeTPS_.sampling V u_double n e = .ret e') : e'.warm_up_ = e.warm_up_ := by
  induction n generalizing e with
  | zero =>
    rw [OptimizeTPS_.sampling] at h
    simp only [Outcome.ret.injEq] at h
    rw [← h]
  | succ n ih =>
    rw [OptimizeTPS_.sampling] at h
    cases hm : MCSweep_ V u_double e with
    | exit code s =>
      rw [hm] at h
      simp at h
    | ret r =>
      rw [hm] at h
      obtain ⟨t, lg, hr⟩ := MCSweep_frame V u_double e r hm
      have h1 := ih (SampleEnergyAndHols_ V r.2) h
      rw [h1]
      show r.2.warm_up_ = e.warm_up_
      rw [hr]

/-- The flags of two worlds related process by process by the equality of the flags. -/
theorem flags_of_forall₂ (w w' : World Ten Cache)
    (h : List.Forall₂ (fun e e' => e'.warm_up_ = e.warm_up_) w w') :
    w'.map (fun e => e.warm_up_) = w.map (fun e => e.warm_up_) := by
  induction h with
  | nil => rfl
  | cons hab _ ih => rw [List.map_cons, List.map_cons, hab, ih]

/-- The method `StochGradUpdateTPS_` does not write the flag `warm_up_`. -/
theorem StochGradUpdateTPS_flags [AddCommGroup Ten] [Module ℚ Ten] (L : TensorLib Ten)
    (grad : SplitIndexTPS Ten) (step_len : ℚ) (w : World Ten Cache) :
    (StochGradUpdateTPS_ L grad step_len w).map (fun e => e.warm_up_) =
      w.map (fun e => e.warm_up_) := by
  cases w with
  | nil => rfl
  | cons m others =>
    simp only [StochGradUpdateTPS_, List.map_cons, List.map_map]
    rfl

/-- The selection of the update of `OptimizeTPS_` does not write the flag `warm_up_`. -/
theorem OptimizeTPS_update_flags [AddCommGroup Ten] [Module ℚ Ten] (V : Environment Ten Cache)
    (u_double : Nat → Nat → ℚ) (step_len : ℚ) (w w' : World Ten Cache)
    (h : OptimizeTPS_.update V u_double step_len w = .ret w') :
    w'.map (fun e => e.warm_up_) = w.map (fun e => e.warm_up_) := by
  cases w with
  | nil =>
    simp only [OptimizeTPS_.update, Outcome.ret.injEq] at h
    rw [← h]
  | cons m others =>
    simp only [OptimizeTPS_.update] at h
    cases hs : m.optimize_para.update_scheme with
    | StochasticGradient =>
      rw [hs] at h
      simp only [Outcome.ret.injEq] at h
      rw [← h]
      exact StochGradUpdateTPS_flags V.lib _ _ _
    | RandomStepStochasticGradient =>
      rw [hs] at h
      simp only [Outcome.ret.injEq] at h
      rw [← h, StochGradUpdateTPS_flags V.lib, List.map_map]
      rfl
    | StochasticReconfiguration =>
      rw [hs] at h
      simp only [Outcome.ret.injEq] at h
      rw [← h]
      unfold StochReconfigUpdateTPS_
      exact StochGradUpdateTPS_flags V.lib _ _ _
    | BoundGradientElement =>
      rw [hs] at h
      simp only [Outcome.ret.injEq] at h
      rw [← h]
      simp only [BoundGradElementUpdateTPS_, OptimizeTPS_.setGrad, List.map_cons, List.map_map]
      rfl
    | unsupported value =>
      rw [hs] at h
      simp at h

/-- The method `GatherStatisticEnergyAndGrad_` does not write the flag `warm_up_`. -/
theorem GatherStatisticEnergyAndGrad_flags [AddCommGroup Ten] [Module ℚ Ten]
    (V : Environment Ten Cache) (w : World Ten Cache) :
    (GatherStatisticEnergyAndGrad_ V w).map (fun e => e.warm_up_) =
      w.map (fun e => e.warm_up_) := by
  unfold GatherStatisticEnergyAndGrad_
  simp only []
  rw [map_mapRank (fun e => e.warm_up_) (GatherStatisticEnergyAndGrad_.reduce V _)
    (fun _ _ => rfl), List.map_map]
  rfl

/-- One pass of the loop of `OptimizeTPS_` does not write the flag `warm_up_`. -/
theorem OptimizeTPS_iter_flags [AddCommGroup Ten] [Module ℚ Ten] (V : Environment Ten Cache)
    (u_double : Nat → Nat → ℚ) (step_len : ℚ) (w w' : World Ten Cache)
    (h : OptimizeTPS_.iter V u_double step_len w = .ret w') :
    w'.map (fun e => e.warm_up_) = w.map (fun e => e.warm_up_) := by
  unfold OptimizeTPS_.iter at h
  cases hs : World.each (fun rank e => OptimizeTPS_.sampling V (u_double rank)
      e.optimize_para.mc_samples (ClearEnergyAndHoleSamples_ e)) 0 w with
  | exit code s =>
    rw [hs] at h
    simp at h
  | ret sampled =>
    rw [hs] at h
    simp only at h
    rw [OptimizeTPS_update_flags V u_double step_len _ w' h,
      GatherStatisticEnergyAndGrad_flags]
    exact flags_of_forall₂ w sampled (World_each_ret_inv
      (fun rank e => OptimizeTPS_.sampling V (u_double rank)
        e.optimize_para.mc_samples (ClearEnergyAndHoleSamples_ e))
      (fun e e' => e'.warm_up_ = e.warm_up_)
      (fun rank e e' he => OptimizeTPS_sampling_flag V (u_double rank) _
        (ClearEnergyAndHoleSamples_ e) e' he) w sampled 0 hs)

/-- The method `OptimizeTPS_` does not write the flag `warm_up_`. -/
theorem OptimizeTPS_flags [AddCommGroup Ten] [Module ℚ Ten] (V : Environment Ten Cache)
    (u_double : Nat → Nat → ℚ) (w w' : World Ten Cache)
    (h : OptimizeTPS_ V u_double w = .ret w') :
    w'.map (fun e => e.warm_up_) = w.map (fun e => e.warm_up_) := by
  have hloop : ∀ (steps : List ℚ) (w w' : World Ten Cache),
      OptimizeTPS_.loop V u_double steps w = .ret w' →
      w'.map (fun e => e.warm_up_) = w.map (fun e => e.warm_up_) := by
    intro steps
    induction steps with
    | nil =>
      intro w w' h
      rw [OptimizeTPS_.loop] at h
      simp only [Outcome.ret.injEq] at h
      rw [← h]
    | cons step_len rest ih =>
      intro w w' h
      rw [OptimizeTPS_.loop] at h
      cases hi : OptimizeTPS_.iter V u_double step_len w with
      | exit code s =>
        rw [hi] at h
        simp at h
      | ret w1 =>
        rw [hi] at h
        rw [ih w1 w' h, OptimizeTPS_iter_flags V u_double step_len w w1 hi]
  cases w with
  | nil =>
    simp only [OptimizeTPS_, Outcome.ret.injEq] at h
    rw [← h]
  | cons m others => exact hloop _ _ _ h

/-- All flags of a world are set when the list of its flags is that of a world whose flags are
all set. -/
theorem flags_all_set (w w' : World Ten Cache)
    (h : w'.map (fun e => e.warm_up_) = w.map (fun e => e.warm_up_))
    (hw : ∀ x ∈ w, x.warm_up_ = true) : ∀ x ∈ w', x.warm_up_ = true := by
  intro x hx
  have hmem : x.warm_up_ ∈ w'.map (fun e => e.warm_up_) := List.mem_map.2 ⟨x, hx, rfl⟩
  rw [h] at hmem
  obtain ⟨y, hy, hxy⟩ := List.mem_map.1 hmem
  rw [← hxy]
  exact hw y hy

/-- The second components of related pairs have what the relation gives. -/
theorem forall₂_right {α β : Type} (R : α → β → Prop) (P : β → Prop) (l1 : List α)
    (l2 : List β) (h : List.Forall₂ R l1 l2) (hR : ∀ a b, R a b → P b) : ∀ b ∈ l2, P b := by
  induction h with
  | nil => intro b hb; simp at hb
  | cons hab _ ih =>
    intro b hb
    rcases List.mem_cons.1 hb with rfl | hb
    · exact hR _ _ hab
    · exact ih b hb

/-- Every call that returns leaves the flag `warm_up_` of every process set. -/
theorem World_call_ret_flags [AddCommGroup Ten] [Module ℚ Ten] (V : Environment Ten Cache)
    (u_double : Nat → Nat → ℚ) (c : Call Ten) (w w' : World Ten Cache)
    (h : World.call V u_double c w = .ret w') : ∀ x ∈ w', x.warm_up_ = true := by
  cases c with
  | WarmUp_ =>
    exact forall₂_right _ _ w w' (World_each_ret_inv _ (fun _ e' => e'.warm_up_ = true)
      (fun rank e e' he => WarmUp_ret_flag V (u_double rank) e e' he) w w' 0 h)
      (fun _ _ hab => hab)
  | LoadTenData wavefunction_file config_file =>
    exact forall₂_right _ _ w w' (World_each_ret_inv _ (fun _ e' => e'.warm_up_ = true)
      (fun rank e e' he => LoadTenData_ret_flag V (u_double rank) wavefunction_file
        (config_file rank) e e' he) w w' 0 h)
      (fun _ _ hab => hab)
  | Execute =>
    simp only [World.call, Execute] at h
    cases hw : World.each (fun rank e => WarmUp_ V (u_double rank) e) 0 w with
    | exit code s =>
      rw [hw] at h
      simp at h
    | ret warmed =>
      rw [hw] at h
      simp only at h
      cases ho : OptimizeTPS_ V u_double warmed with
      | exit code s =>
        rw [ho] at h
        simp at h
      | ret optimized =>
        rw [ho] at h
        simp only [Outcome.ret.injEq] at h
        have h1 : ∀ x ∈ warmed, x.warm_up_ = true :=
          forall₂_right _ _ w warmed (World_each_ret_inv _ (fun _ e' => e'.warm_up_ = true)
            (fun rank e e' he => WarmUp_ret_flag V (u_double rank) e e' he) w warmed 0 hw)
            (fun _ _ hab => hab)
        have h2 := flags_all_set warmed optimized (OptimizeTPS_flags V u_double _ _ ho) h1
        intro x hx
        rw [← h] at hx
        obtain ⟨y, hy, rfl⟩ := List.mem_map.1 hx
        exact h2 y hy

/-- A call of `WarmUp_` by every process of a world whose flags are all set changes nothing. -/
theorem World_each_WarmUp_noop (V : Environment Ten Cache) (u_double : Nat → Nat → ℚ)
    (w : World Ten Cache) (rank : Nat) (hw : ∀ x ∈ w, x.warm_up_ = true) :
    World.each (fun rank e => WarmUp_ V (u_double rank) e) rank w = .ret w := by
  induction w generalizing rank with
  | nil => rfl
  | cons e rest ih =>
    rw [World.each, WarmUp_noop V (u_double rank) e (hw e (List.mem_cons_self _ _))]
    simp only [ih (rank + 1) (fun x hx => hw x (List.mem_cons_of_mem _ hx))]

/-- A call makes at most one pass through the body of `WarmUp_` on a process. -/
theorem Call_passes_le (c : Call Ten) (rank : Nat) (e : VMCPEPSExecutor Ten Cache) :
    c.passes rank e ≤ 1 := by
  have h : WarmUp_.passes e ≤ 1 := by
    unfold WarmUp_.passes
    split_ifs <;> decide
  cases c with
  | WarmUp_ => exact h
  | LoadTenData wavefunction_file config_file =>
    show (match wavefunction_file, config_file rank with
      | some _, none => WarmUp_.passes e
      | _, _ => 0) ≤ 1
    split
    · exact h
    · exact Nat.zero_le _
  | Execute => exact h

/-- A call makes no pass through the body of `WarmUp_` on a process whose flag is set. -/
theorem Call_passes_zero (c : Call Ten) (rank : Nat) (e : VMCPEPSExecutor Ten Cache)
    (he : e.warm_up_ = true) : c.passes rank e = 0 := by
  have h : WarmUp_.passes e = 0 := by
    unfold WarmUp_.passes
    simp [he]
  cases c with
  | WarmUp_ => exact h
  | LoadTenData wavefunction_file config_file =>
    show (match wavefunction_file, config_file rank with
      | some _, none => WarmUp_.passes e
      | _, _ => 0) = 0
    split
    · exact h
    · rfl
  | Execute => exact h

/-- A run from a world whose flags are all set makes no pass through the body of `WarmUp_`. -/
theorem World_passes_zero [AddCommGroup Ten] [Module ℚ Ten] (V : Environment Ten Cache)
    (u_double : Nat → Nat → ℚ) (calls : List (Call Ten)) (w : World Ten Cache) (rank : Nat)
    (hw : ∀ x ∈ w, x.warm_up_ = true) : World.passes V u_double calls w rank = 0 := by
  induction calls generalizing w with
  | nil => rfl
  | cons c cs ih =>
    rw [World.passes]
    have h1 : (match w[rank]? with
        | some e => c.passes rank e
        | none => 0) = 0 := by
      cases hr : w[rank]? with
      | none => rfl
      | some e => exact Call_passes_zero c rank e (hw e (List.getElem?_mem hr))
    have h2 : (match World.call V u_double c w with
        | .ret world => World.passes V u_double cs world rank
        | .exit _ _ => 0) = 0 := by
      cases hc : World.call V u_double c w with
      | ret w' => exact ih w' (World_call_ret_flags V u_double c w w' hc)
      | exit code s => rfl
    rw [h1, h2]

/-- Claim C21, counterexample: an executor whose flag `warm_up_` is not set, with
`mc_warm_up_sweeps = 2` and a sweep scheme that `MCSweep_` does not support.  The first call of
`MCSweep_` made by `WarmUp_` terminates the process with code 1: one call of `MCSweep_` has been
made, not two, and `warm_up_` is not set. -/
theorem WarmUp_exit_counterexample :
    (Demo.exec (Demo.para .StochasticGradient (.unsupported 9)) []
      false).optimize_para.mc_warm_up_sweeps = 2 ∧
    ∃ s, WarmUp_ Demo.env (fun _ => 0)
        (Demo.exec (Demo.para .StochasticGradient (.unsupported 9)) [] false) = .exit 1 s ∧
      s.log.count Event.MCSweep_ = 1 ∧ s.warm_up_ = false :=
  ⟨rfl, _, rfl, rfl, rfl⟩

/-- Claim C21, amended: on a process whose flag `warm_up_` is not set, `WarmUp_` makes, for a
sweep scheme that `MCSweep_` supports, exactly `mc_warm_up_sweeps` calls of `MCSweep_` (one pass
through its body) and returns with the flag set; for an unsupported scheme and
`mc_warm_up_sweeps ≥ 1` its first call of `MCSweep_` terminates the process with code 1.  On a
process whose flag is set it returns the process unchanged.  Every call of a run (`WarmUp_`,
`LoadTenData`, `Execute`, made by every process) that returns leaves the flag of every process
set; when all flags are set, `WarmUp_` changes nothing, `Execute` is `OptimizeTPS_` followed by
`DumpData`, and `LoadTenData` exits with code -1 or returns having logged the construction of the
sample only.  Hence in every run, from any world, every process makes at most one pass through
the body of `WarmUp_`. -/
theorem WarmUp_once [AddCommGroup Ten] [Module ℚ Ten] (V : Environment Ten Cache)
    (u : Nat → ℚ) (u_double : Nat → Nat → ℚ) (e : VMCPEPSExecutor Ten Cache) :
    (e.warm_up_ = false → e.optimize_para.mc_sweep_scheme.supported = true →
      ∃ e', WarmUp_ V u e = .ret e' ∧
        e'.log = e.log ++ WarmUp_.events e.optimize_para e.optimize_para.mc_warm_up_sweeps ∧
        (WarmUp_.events e.optimize_para e.optimize_para.mc_warm_up_sweeps).count
          Event.MCSweep_ = e.optimize_para.mc_warm_up_sweeps ∧
        e'.warm_up_ = true ∧ WarmUp_.passes e = 1) ∧
    (e.warm_up_ = false → 1 ≤ e.optimize_para.mc_warm_up_sweeps →
      ∀ value, e.optimize_para.mc_sweep_scheme = .unsupported value →
        WarmUp_ V u e = .exit 1 (e.record .MCSweep_)) ∧
    (e.warm_up_ = true → WarmUp_ V u e = .ret e ∧ WarmUp_.passes e = 0) ∧
    (∀ (c : Call Ten) (w w' : World Ten Cache), World.call V u_double c w = .ret w' →
      ∀ x ∈ w', x.warm_up_ = true) ∧
    (∀ w : World Ten Cache, (∀ x ∈ w, x.warm_up_ = true) →
      World.call V u_double .WarmUp_ w = .ret w ∧
      Execute V u_double w =
        (match OptimizeTPS_ V u_double w with
          | .exit code s => .exit code s
          | .ret w' => .ret (w'.map DumpData)) ∧
      ∀ x ∈ w, ∀ (wavefunction_file : Option (SplitIndexTPS Ten))
          (config_file : Option Configuration),
        LoadTenData V u wavefunction_file config_file x = .exit (-1) x ∨
        ∃ x', LoadTenData V u wavefunction_file config_file x = .ret x' ∧
          x'.log = x.log ++ [Event.build]) ∧
    (∀ (calls : List (Call Ten)) (w : World Ten Cache) (rank : Nat),
      World.passes V u_double calls w rank ≤ 1) := by
  refine ⟨fun hflag hsweep => ?_, fun hflag hn value hvalue => ?_, fun hflag => ?_,
    fun c w w' h => World_call_ret_flags V u_double c w w' h, fun w hw => ⟨?_, ?_, ?_⟩,
    fun calls w rank => ?_⟩
  · obtain ⟨e1, he1, hlog⟩ := WarmUp_loop_ret V u e.optimize_para.mc_warm_up_sweeps e hsweep
    refine ⟨{ e1 with warm_up_ := true }, ?_, hlog.1, count_WarmUp_events _ _, rfl, ?_⟩
    · unfold WarmUp_
      simp only [hflag, Bool.not_false, if_true, he1]
    · unfold WarmUp_.passes
      simp [hflag]
  · obtain ⟨n, hn'⟩ : ∃ n, e.optimize_para.mc_warm_up_sweeps = n + 1 := ⟨_, (Nat.sub_add_cancel hn).symm⟩
    unfold WarmUp_
    simp only [hflag, Bool.not_false, if_true, hn', WarmUp_.loop,
      MCSweep_exit V u e value hvalue]
  · refine ⟨WarmUp_noop V u e hflag, ?_⟩
    unfold WarmUp_.passes
    simp [hflag]
  · exact World_each_WarmUp_noop V u_double w 0 hw
  · unfold Execute
    rw [World_each_WarmUp_noop V u_double w 0 hw]
  · intro x hx wavefunction_file config_file
    have hflag := hw x hx
    cases wavefunction_file with
    | none => exact Or.inl rfl
    | some tps =>
      right
      cases config_file with
      | some config => exact ⟨_, rfl, rfl⟩
      | none =>
        refine ⟨{ VMCPEPSExecutor.build V x.optimize_para.init_config
          { x with split_index_tps_ := tps } with warm_up_ := true }, ?_, rfl⟩
        unfold LoadTenData
        simp only []
        rw [WarmUp_noop V u _ (by exact hflag)]
  · cases calls with
    | nil => exact Nat.zero_le _
    | cons c cs =>
      rw [World.passes]
      have h1 : (match w[rank]? with
          | some e => c.passes rank e
          | none => 0) ≤ 1 := by
        cases hr : w[rank]? with
        | none => exact Nat.zero_le _
        | some e => exact Call_passes_le c rank e
      have h2 : (match World.call V u_double c w with
          | .ret world => World.passes V u_double cs world rank
          | .exit _ _ => 0) = 0 := by
        cases hc : World.call V u_double c w with
        | ret w' =>
          exact World_passes_zero V u_double cs w' rank
            (World_call_ret_flags V u_double c w w' hc)
        | exit code s => rfl
      rw [h2]
      exact h1

/-- Witness of `WarmUp_once`: an executor of the `1 × 2` lattice whose flag is not set, with a
supported sweep scheme and two warm-up sweeps; `WarmUp_` returns with the flag set after two
calls of `MCSweep_`, and in the run `Execute`, `WarmUp_`, `LoadTenData` (the configuration does
not load) the process makes at most one pass through the body of `WarmUp_`. -/
theorem WarmUp_once_witness :
    (Demo.exec (Demo.para .StochasticGradient .SequentiallyNNSiteFlip) [] false).warm_up_ =
      false ∧
    (Demo.exec (Demo.para .StochasticGradient .SequentiallyNNSiteFlip) []
      false).optimize_para.mc_sweep_scheme.supported = true ∧
    (∃ e', WarmUp_ Demo.env (fun _ => 0)
        (Demo.exec (Demo.para .StochasticGradient .SequentiallyNNSiteFlip) [] false) = .ret e' ∧
      e'.warm_up_ = true) ∧
    (WarmUp_.events (Demo.para .StochasticGradient .SequentiallyNNSiteFlip) 2).count
      Event.MCSweep_ = 2 ∧
    World.passes Demo.env (fun _ _ => 0)
      [Call.Execute, Call.WarmUp_, Call.LoadTenData (some Demo.sitps) (fun _ => none)]
      [Demo.exec (Demo.para .StochasticGradient .SequentiallyNNSiteFlip) [] false] 0 ≤ 1 := by
  have h := WarmUp_once Demo.env (fun _ => 0) (fun _ _ => 0)
    (Demo.exec (Demo.para .StochasticGradient .SequentiallyNNSiteFlip) [] false)
  obtain ⟨e', he', _, hcount, hflag, _⟩ := h.1 rfl rfl
  exact ⟨rfl, rfl, ⟨e', he', hflag⟩, hcount, h.2.2.2.2.2 _ _ _⟩

end gqpeps
